import Mathlib

/-! OSKAR: the interferometer simulation driver

A shallow embedding of `oskar_sim_interferometer`
(`apps/lib/src/oskar_sim_interferometer.cpp`) and of the state it drives:
the shared `error` status, the per-lane buffers `vis_temp` and `vis_acc`, and
the amplitude slabs of the global visibility structure `vis_global`.

* Amplitudes are elements of an additive commutative monoid `α` (exact
  arithmetic); a buffer of `n = num_baselines * num_time_steps` amplitudes is a
  function `Fin n → α`.
* The OpenMP loop over sky chunks is a step function on a loop state: every
  step is one action of one thread, and a schedule is the list of the threads
  that act, in order. Iterations are handed out in index order to whichever
  thread asks next (`schedule(dynamic, 1)`). The variable `error` is declared
  outside the parallel region, so it is shared: the test of line 170 reads it,
  the assignment of line 179 and the callees that receive `&error` write it,
  and the actions of different threads interleave. A call is one action.
* The functions that the driver calls and whose sources are not at hand are
  the fields of `Env` (what they report) together with small definitions that
  say how a call acts on the driver's state.
* Every call the driver makes is appended to `State.trace`; calls to the
  logging functions are left out, they touch neither the data nor the status.
-/

set_option linter.unusedSectionVars false
set_option linter.unusedVariables false

namespace OSKAR

/-- Status codes of `oskar_global.h` that the driver names. The header is not
among the sources, so the values are parameters of the model. -/
structure Codes where
  OSKAR_SUCCESS : Int
  OSKAR_ERR_SETTINGS : Int
  OSKAR_ERR_CUDA_DEVICES : Int
  OSKAR_ERR_SETUP_FAIL_TELESCOPE : Int

/-- The fields of `oskar_Settings` that the driver reads. A file name is a
`char*` that is either null (`none`) or set. -/
structure Settings where
  num_cuda_devices : Int
  cuda_device_ids : Nat → Int
  oskar_vis_filename : Option String
  ms_filename : Option String
  image_interferometer_output : Bool
  oskar_image : Option String
  fits_image : Option String
  num_channels : Int
  start_frequency_hz : ℚ
  frequency_inc_hz : ℚ
  noise_enable : Bool
  noise_seed : Int

/-- Calls made by the driver, in the order of the source. A call that receives
the shared status by pointer records the value of the status on entry. -/
inductive Event where
  | settings_load
  | cudaGetDeviceCount
  | set_up_telescope
  | set_up_sky
  | set_up_visibilities (status : Int)
  | mem_init_acc (i : Nat) (status : Int)
  | mem_init_temp (i : Nat) (status : Int)
  | cudaSetDevice (device_id : Int)
  | cudaDeviceSynchronize
  | interferometer (thread_id : Nat) (chunk : Nat) (frequency : ℚ) (status : Int)
  | mem_add_acc (thread_id : Nat) (status : Int)
  | get_channel_amps (c : Nat) (status : Int)
  | mem_add_global (c : Nat) (i : Nat) (status : Int)
  | mem_clear_contents (i : Nat) (status : Int)
  | add_system_noise (seed : Int)
  | evaluate_uvw_baseline (status : Int)
  | visibilities_write (status : Int)
  | visibilities_write_ms
  | make_image
  | image_write (status : Int)
  | fits_image_write
  | cudaDeviceReset
  | sky_model_free (i : Nat)
deriving DecidableEq

/-- What the called functions report. `interferometer c i f` is the outcome of
the correlation step for chunk `i` at frequency `f` while channel `c` is being
processed: the status it reports and the amplitudes it leaves in the output
buffer. The other fields are the status (and output) of the call named. -/
structure Env (α : Type) (n : Nat) where
  settings_load : Int × Settings
  cudaGetDeviceCount : Int × Int
  set_up_telescope : Int
  set_up_sky : Int × Int
  set_up_visibilities : Int × (Nat → Fin n → α)
  mem_init_acc : Nat → Int × (Fin n → α)
  mem_init_temp : Nat → Int × (Fin n → α)
  cudaSetDevice_init : Nat → Int → Int
  cudaSetDevice_chunk : Nat → Nat → Int → Int
  interferometer : Nat → Nat → ℚ → Int × (Fin n → α)
  add_system_noise : Int → (Nat → Fin n → α) → Int × (Nat → Fin n → α)
  evaluate_uvw_baseline : Int
  visibilities_write : Int
  visibilities_write_ms : Int
  make_image : Int
  image_write : Int
  fits_image_write : Int

/-- The driver's variables: the shared `error`, the amplitude slab of every
channel of `vis_global`, the two buffers of every lane, and the calls made. -/
structure State (α : Type) (n : Nat) where
  error : Int
  vis_global : Nat → Fin n → α
  vis_acc : Nat → Fin n → α
  vis_temp : Nat → Fin n → α
  trace : List Event

/-- How a run of the driver ends: it returns a code; or it leaves the defined
behaviour of the source (a vector built with a negative size, an index outside
the vector of lane buffers); or the schedule given for a channel stops before
every thread has reached the barrier. -/
inductive Exit where
  | returned (code : Int)
  | fault
  | blocked
deriving DecidableEq

variable {α : Type} [AddCommMonoid α] {n : Nat}

/-- Append a call to the trace. -/
def State.log (s : State α n) (e : Event) : State α n :=
  { s with trace := s.trace ++ [e] }

/-- Modelled from the spec: `oskar_mem_add(a, b, c, status)` of
`utility/oskar_mem_add.h`, whose source is missing. `accumulate` / `fold`:
"element-wise complex addition", `a[k] = b[k] + c[k]`; nothing is done when the
status is already set ("once set, no further numeric work starts", the
`if (*status) return;` that opens the status-pointer functions of the
repository). All buffers of the driver have one type, location and length, so
the call itself reports nothing. -/
def oskar_mem_add (a b c : Fin n → α) (status : Int) : Fin n → α :=
  if status ≠ 0 then a else fun k => b k + c k

/-- Modelled from the spec: `oskar_mem_clear_contents(a, status)` of
`utility/oskar_mem_clear_contents.h`, whose source is missing: "clears every
lane accumulator to zero"; nothing is done when the status is already set. -/
def oskar_mem_clear_contents (a : Fin n → α) (status : Int) : Fin n → α :=
  if status ≠ 0 then a else fun _ => 0

/-- Modelled from the spec: `oskar_mem_init(mem, ..., status)` of
`utility/oskar_mem_init.h`, whose source is missing: when the status is clear
the buffer gets the contents and the call the status that the environment
reports (`AllocationFailure`); nothing is done when the status is already set. -/
def oskar_mem_init (report : Int × (Fin n → α)) (mem : Fin n → α) (status : Int) :
    (Fin n → α) × Int :=
  if status ≠ 0 then (mem, status) else (report.2, report.1)

/-- Modelled from the spec: `oskar_interferometer(vis_amp, ..., status)` of
`interferometry/oskar_interferometer.h`, the correlation primitive, whose source
is missing: when the status is clear the output buffer gets the amplitudes and
the status the value (`CorrelationFailure`) that the environment reports for
this chunk and frequency; nothing is done when the status is already set. -/
def oskar_interferometer (report : Int × (Fin n → α)) (vis_amp : Fin n → α) (status : Int) :
    (Fin n → α) × Int :=
  if status ≠ 0 then (vis_amp, status) else (report.2, report.1)

/-- Modelled from the spec: `oskar_set_up_visibilities(vis, ..., status)` of
`apps/lib/oskar_set_up_visibilities.h`, whose source is missing: when the status
is clear the global structure is created with the slabs and the status that the
environment reports; nothing is done when the status is already set. -/
def oskar_set_up_visibilities (report : Int × (Nat → Fin n → α)) (vis : Nat → Fin n → α)
    (status : Int) : (Nat → Fin n → α) × Int :=
  if status ≠ 0 then (vis, status) else (report.2, report.1)

/-- Lines 99-102: the test that a data file has been specified. -/
def output_file_specified (settings : Settings) : Bool :=
  settings.oskar_vis_filename.isSome || settings.ms_filename.isSome ||
    (settings.image_interferometer_output &&
      (settings.oskar_image.isSome || settings.fits_image.isSome))

/-- Lines 137-147: initialise the two buffers of every lane and bind its
device. `.error` carries the return taken inside the loop. -/
def set_up_lanes (env : Env α n) (settings : Settings) :
    List Nat → State α n → Except (Exit × State α n) (State α n)
  | [], s => .ok s
  | i :: rest, s =>
    let a := oskar_mem_init (env.mem_init_acc i) (s.vis_acc i) s.error
    let s1 : State α n :=
      { (s.log (.mem_init_acc i s.error)) with
        vis_acc := Function.update s.vis_acc i a.1, error := a.2 }
    let t := oskar_mem_init (env.mem_init_temp i) (s1.vis_temp i) s1.error
    let s2 : State α n :=
      { (s1.log (.mem_init_temp i s1.error)) with
        vis_temp := Function.update s1.vis_temp i t.1, error := t.2 }
    if s2.error ≠ 0 then .error (.returned s2.error, s2) else
    let s3 : State α n :=
      { (s2.log (.cudaSetDevice (settings.cuda_device_ids i))) with
        error := env.cudaSetDevice_init i (settings.cuda_device_ids i) }
    if s3.error ≠ 0 then .error (.returned s3.error, s3) else
    set_up_lanes env settings rest (s3.log .cudaDeviceSynchronize)

/-- The place of a thread inside the body of the chunk loop (lines 170-187):
before the test of `error`, before `cudaSetDevice`, before
`oskar_interferometer`, before `oskar_mem_add`. -/
inductive Pc where
  | check
  | bind
  | corr
  | add
deriving DecidableEq

/-- The state of the parallel loop over chunks: the driver's state, the next
iteration that has not been handed out, the iteration each thread is in (if
any) with its place in the body, and whether an index has left the vectors. -/
structure LoopState (α : Type) (n : Nat) where
  st : State α n
  next : Nat
  task : Nat → Option (Nat × Pc)
  fault : Bool

/-- One action of thread `t` in the chunk loop of channel `c` (lines 167-188).
An idle thread takes the next iteration if one is left; a thread inside the
body does the next of: `if (error) continue;` (line 170),
`error = cudaSetDevice(device_id);` (lines 173-179), `oskar_interferometer`
(lines 182-184), `oskar_mem_add` (lines 186-187). The index `thread_id` into
`cuda_device_ids`, `vis_temp` and `vis_acc` must be below `num_devices`, the
length of the two vectors. -/
def chunk_step (env : Env α n) (settings : Settings) (num_devices num_sky_chunks : Nat)
    (c : Nat) (frequency : ℚ) (L : LoopState α n) (t : Nat) : LoopState α n :=
  if L.fault then L else
  match L.task t with
  | none =>
    if L.next < num_sky_chunks then
      { L with next := L.next + 1, task := Function.update L.task t (some (L.next, Pc.check)) }
    else L
  | some (i, Pc.check) =>
    if L.st.error ≠ 0 then { L with task := Function.update L.task t none }
    else { L with task := Function.update L.task t (some (i, Pc.bind)) }
  | some (i, Pc.bind) =>
    if t < num_devices then
      { L with
        st := { (L.st.log (.cudaSetDevice (settings.cuda_device_ids t))) with
                error := env.cudaSetDevice_chunk c i (settings.cuda_device_ids t) }
        task := Function.update L.task t (some (i, Pc.corr)) }
    else { L with fault := true }
  | some (i, Pc.corr) =>
    if t < num_devices then
      let r := oskar_interferometer (env.interferometer c i frequency) (L.st.vis_temp t)
        L.st.error
      { L with
        st := { (L.st.log (.interferometer t i frequency L.st.error)) with
                vis_temp := Function.update L.st.vis_temp t r.1, error := r.2 }
        task := Function.update L.task t (some (i, Pc.add)) }
    else { L with fault := true }
  | some (_, Pc.add) =>
    if t < num_devices then
      { L with
        st := { (L.st.log (.mem_add_acc t L.st.error)) with
                vis_acc := Function.update L.st.vis_acc t
                  (oskar_mem_add (L.st.vis_acc t) (L.st.vis_acc t) (L.st.vis_temp t)
                    L.st.error) }
        task := Function.update L.task t none }
    else { L with fault := true }

/-- The loop state on entry to the parallel loop. -/
def loop_entry (s : State α n) : LoopState α n :=
  { st := s, next := 0, task := fun _ => none, fault := false }

/-- All iterations have been handed out and every thread of the schedule is
idle: the threads are at the barrier of line 189. -/
def at_barrier (num_sky_chunks : Nat) (picks : List Nat) (L : LoopState α n) : Bool :=
  decide (L.next = num_sky_chunks) && picks.all (fun t => (L.task t).isNone)

/-- Lines 167-189: the parallel loop over the chunks of one channel, run under
the schedule `picks`, up to the barrier. -/
def parallel_chunks (env : Env α n) (settings : Settings) (num_devices num_sky_chunks : Nat)
    (c : Nat) (frequency : ℚ) (picks : List Nat) (s : State α n) :
    Except (Exit × State α n) (State α n) :=
  let L := picks.foldl (chunk_step env settings num_devices num_sky_chunks c frequency)
    (loop_entry s)
  if L.fault then .error (.fault, L.st)
  else if at_barrier num_sky_chunks picks L then .ok L.st
  else .error (.blocked, L.st)

/-- Line 196 and 199 for lane `i`: add the lane's accumulator into the slab of
channel `c` (`vis_amp` is the slab itself), then clear the accumulator. -/
def fold_lane (c : Nat) (s : State α n) (i : Nat) : State α n :=
  let s1 : State α n :=
    { (s.log (.mem_add_global c i s.error)) with
      vis_global := Function.update s.vis_global c
        (oskar_mem_add (s.vis_global c) (s.vis_global c) (s.vis_acc i) s.error) }
  { (s1.log (.mem_clear_contents i s1.error)) with
    vis_acc := Function.update s1.vis_acc i (oskar_mem_clear_contents (s1.vis_acc i) s1.error) }

/-- Lines 192-200, the fold of channel `c`: get the slab of the channel, then
for every lane add its accumulator into the slab and clear it.
Modelled from the spec: `oskar_visibilities_get_channel_amps` (source missing)
makes `vis_amp` the "channel's slice of the global visibility dataset"; the
index `c` is below the channel count the structure was set up with. -/
def fold_into_global (num_devices : Nat) (c : Nat) (s : State α n) : State α n :=
  (List.range num_devices).foldl (fold_lane c) (s.log (.get_channel_amps c s.error))

/-- The frequency of channel `c` (lines 161-162). -/
def channel_frequency (settings : Settings) (c : Nat) : ℚ :=
  settings.start_frequency_hz + (c : ℚ) * settings.frequency_inc_hz

/-- Lines 158-200: the body of the loop over channels for channel `c`. -/
def channel_body (env : Env α n) (settings : Settings) (num_devices num_sky_chunks : Nat)
    (c : Nat) (picks : List Nat) (s : State α n) : Except (Exit × State α n) (State α n) :=
  let frequency : ℚ := channel_frequency settings c
  match parallel_chunks env settings num_devices num_sky_chunks c frequency picks s with
  | .error x => .error x
  | .ok s1 =>
    if s1.error ≠ 0 then .error (.returned s1.error, s1)
    else .ok (fold_into_global num_devices c s1)

/-- Lines 156-201: the loop over channels; `sched c` is the schedule of the
chunk loop of channel `c`. -/
def channel_loop (env : Env α n) (settings : Settings) (num_devices num_sky_chunks : Nat)
    (sched : Nat → List Nat) : List Nat → State α n → Except (Exit × State α n) (State α n)
  | [], s => .ok s
  | c :: rest, s =>
    match channel_body env settings num_devices num_sky_chunks c (sched c) s with
    | .error x => .error x
    | .ok s1 => channel_loop env settings num_devices num_sky_chunks sched rest s1

/-- Lines 204-210: add system noise when enabled. -/
def noise_stage (env : Env α n) (settings : Settings) (s : State α n) :
    Except (Exit × State α n) (State α n) :=
  if settings.noise_enable then
    let r := env.add_system_noise settings.noise_seed s.vis_global
    let s1 : State α n :=
      { (s.log (.add_system_noise settings.noise_seed)) with vis_global := r.2, error := r.1 }
    if s1.error ≠ 0 then .error (.returned s1.error, s1) else .ok s1
  else .ok s

/-- Lines 215-223: baseline coordinates. The status is passed by pointer. -/
def uvw_stage (env : Env α n) (s : State α n) : Except (Exit × State α n) (State α n) :=
  let s1 : State α n :=
    { (s.log (.evaluate_uvw_baseline s.error)) with
      error := if s.error ≠ 0 then s.error else env.evaluate_uvw_baseline }
  if s1.error ≠ 0 then .error (.returned s1.error, s1) else .ok s1

/-- Lines 225-241: write the visibility file and the Measurement Set (the
build with both writers, neither `OSKAR_NO_MS` nor `OSKAR_NO_FITS` defined). -/
def write_stage (env : Env α n) (settings : Settings) (s : State α n) :
    Except (Exit × State α n) (State α n) :=
  let r1 : Except (Exit × State α n) (State α n) :=
    if settings.oskar_vis_filename.isSome then
      let s1 : State α n :=
        { (s.log (.visibilities_write s.error)) with
          error := if s.error ≠ 0 then s.error else env.visibilities_write }
      if s1.error ≠ 0 then .error (.returned s1.error, s1) else .ok s1
    else .ok s
  match r1 with
  | .error x => .error x
  | .ok s1 =>
    if settings.ms_filename.isSome then
      let s2 : State α n :=
        { (s1.log .visibilities_write_ms) with error := env.visibilities_write_ms }
      if s2.error ≠ 0 then .error (.returned s2.error, s2) else .ok s2
    else .ok s1

/-- Lines 243-273: make and write the images when required. -/
def image_stage (env : Env α n) (settings : Settings) (s : State α n) :
    Except (Exit × State α n) (State α n) :=
  if settings.image_interferometer_output &&
      (settings.oskar_image.isSome || settings.fits_image.isSome) then
    let s1 : State α n := { (s.log .make_image) with error := env.make_image }
    if s1.error ≠ 0 then .error (.returned s1.error, s1) else
    let r2 : Except (Exit × State α n) (State α n) :=
      if settings.oskar_image.isSome then
        let s2 : State α n :=
          { (s1.log (.image_write s1.error)) with
            error := if s1.error ≠ 0 then s1.error else env.image_write }
        if s2.error ≠ 0 then .error (.returned s2.error, s2) else .ok s2
      else .ok s1
    match r2 with
    | .error x => .error x
    | .ok s2 =>
      if settings.fits_image.isSome then
        let s3 : State α n := { (s2.log .fits_image_write) with error := env.fits_image_write }
        if s3.error ≠ 0 then .error (.returned s3.error, s3) else .ok s3
      else .ok s2
  else .ok s

/-- Lines 275-290: reset the devices, free the sky chunks, return success. -/
def finish (codes : Codes) (settings : Settings) (num_devices num_sky_chunks : Nat)
    (s : State α n) : Exit × State α n :=
  let s1 := (List.range num_devices).foldl
    (fun (x : State α n) i =>
      (x.log (.cudaSetDevice (settings.cuda_device_ids i))).log .cudaDeviceReset) s
  let s2 := (List.range num_sky_chunks).foldl
    (fun (x : State α n) i => x.log (.sky_model_free i)) s1
  (.returned codes.OSKAR_SUCCESS, s2)

/-- Lines 202-290: what follows the loop over channels. -/
def post_processing (codes : Codes) (env : Env α n) (settings : Settings)
    (num_devices num_sky_chunks : Nat) (s : State α n) : Exit × State α n :=
  if s.error ≠ 0 then (.returned s.error, s) else
  match noise_stage env settings s with
  | .error x => x
  | .ok s1 =>
    match uvw_stage env s1 with
    | .error x => x
    | .ok s2 =>
      match write_stage env settings s2 with
      | .error x => x
      | .ok s3 =>
        match image_stage env settings s3 with
        | .error x => x
        | .ok s4 => finish codes settings num_devices num_sky_chunks s4

/-- The state after `oskar_settings_load` (line 84). Nothing has been
allocated yet; the buffers are given the value zero until they are set up. -/
def after_settings_load (env : Env α n) : State α n :=
  { error := env.settings_load.1
    vis_global := fun _ _ => 0
    vis_acc := fun _ _ => 0
    vis_temp := fun _ _ => 0
    trace := [.settings_load] }

/-- Lines 131-291: the lane buffers, the loop over channels and what follows
it, from the state `s` reached once the global structure has been set up.
A negative `num_devices` makes the constructor of the two vectors throw. -/
def run_simulation (codes : Codes) (env : Env α n) (settings : Settings)
    (num_devices num_sky_chunks : Int) (sched : Nat → List Nat) (s : State α n) :
    Exit × State α n :=
  if num_devices < 0 then (.fault, s) else
  match set_up_lanes env settings (List.range num_devices.toNat) s with
  | .error x => x
  | .ok s5 =>
    match channel_loop env settings num_devices.toNat num_sky_chunks.toNat sched
        (List.range settings.num_channels.toNat) s5 with
    | .error x => x
    | .ok s6 => post_processing codes env settings num_devices.toNat num_sky_chunks.toNat s6

/-- The function `oskar_sim_interferometer` (lines 77-291). `sched c` is the
schedule of the threads in the chunk loop of channel `c`. -/
def oskar_sim_interferometer (codes : Codes) (env : Env α n) (sched : Nat → List Nat) :
    Exit × State α n :=
  let s0 := after_settings_load env
  if s0.error ≠ 0 then (.returned s0.error, s0) else
  let settings := env.settings_load.2
  if ¬ output_file_specified settings then (.returned codes.OSKAR_ERR_SETTINGS, s0) else
  let num_devices := settings.num_cuda_devices
  let s1 : State α n := { (s0.log .cudaGetDeviceCount) with error := env.cudaGetDeviceCount.1 }
  if s1.error ≠ 0 then (.returned s1.error, s1) else
  if env.cudaGetDeviceCount.2 < num_devices then (.returned codes.OSKAR_ERR_CUDA_DEVICES, s1) else
  let s2 : State α n := { (s1.log .set_up_telescope) with error := env.set_up_telescope }
  if s2.error ≠ 0 then (.returned codes.OSKAR_ERR_SETUP_FAIL_TELESCOPE, s2) else
  let num_sky_chunks := env.set_up_sky.2
  let s3 : State α n := { (s2.log .set_up_sky) with error := env.set_up_sky.1 }
  let v := oskar_set_up_visibilities env.set_up_visibilities s3.vis_global s3.error
  let s4 : State α n :=
    { (s3.log (.set_up_visibilities s3.error)) with vis_global := v.1, error := v.2 }
  run_simulation codes env settings num_devices num_sky_chunks sched s4

/-- Every called function reports success (status zero, the value that the
tests `if (error)` of the driver let pass). -/
structure Env.AllSucceed (env : Env α n) : Prop where
  settings_load : env.settings_load.1 = 0
  cudaGetDeviceCount : env.cudaGetDeviceCount.1 = 0
  set_up_telescope : env.set_up_telescope = 0
  set_up_sky : env.set_up_sky.1 = 0
  set_up_visibilities : env.set_up_visibilities.1 = 0
  mem_init_acc : ∀ i, (env.mem_init_acc i).1 = 0
  mem_init_temp : ∀ i, (env.mem_init_temp i).1 = 0
  cudaSetDevice_init : ∀ i id, env.cudaSetDevice_init i id = 0
  cudaSetDevice_chunk : ∀ c i id, env.cudaSetDevice_chunk c i id = 0
  interferometer : ∀ c i f, (env.interferometer c i f).1 = 0
  add_system_noise : ∀ seed v, (env.add_system_noise seed v).1 = 0
  evaluate_uvw_baseline : env.evaluate_uvw_baseline = 0
  visibilities_write : env.visibilities_write = 0
  visibilities_write_ms : env.visibilities_write_ms = 0
  make_image : env.make_image = 0
  image_write : env.image_write = 0
  fits_image_write : env.fits_image_write = 0

/-- The global structure is created with all-zero slabs and every lane
accumulator is created all-zero. -/
structure Env.ZeroInitialised (env : Env α n) : Prop where
  vis_global : ∀ c, env.set_up_visibilities.2 c = 0
  vis_acc : ∀ i, (env.mem_init_acc i).2 = 0

/-- The schedule in which thread 0 alone runs the `N` iterations of the chunk
loop one after the other: five actions for each (take the iteration, test
`error`, bind the device, correlate, accumulate). -/
def single_lane_schedule (N : Nat) : List Nat :=
  List.replicate (5 * N) 0

/-- A call of the correlation primitive. -/
def Event.is_correlation : Event → Bool
  | .interferometer _ _ _ _ => true
  | _ => false

/-- The amplitudes that the iteration a thread is in will still add to the
thread's accumulator, when `P i` is the output of the primitive for chunk `i`. -/
def pending (P : Nat → Fin n → α) : Option (Nat × Pc) → Fin n → α
  | none => 0
  | some (i, _) => P i

/-- The invariant of the chunk loop of channel `c` when every call succeeds:
started from `s` and run by threads of `all`, the status stays clear, no index
leaves the lane vectors, the slabs are untouched, and the accumulators together
with the amplitudes still owed hold what `s` had plus the outputs for the
iterations handed out so far. -/
structure LoopInv (env : Env α n) (D N c : Nat) (f : ℚ) (all : List Nat) (s : State α n)
    (L : LoopState α n) : Prop where
  fault : L.fault = false
  error : L.st.error = 0
  vis_global : L.st.vis_global = s.vis_global
  next_le : L.next ≤ N
  temp : ∀ t i, L.task t = some (i, Pc.add) → L.st.vis_temp t = (env.interferometer c i f).2
  busy : ∀ t, L.task t ≠ none → t ∈ all
  sum : ∑ t ∈ Finset.range D,
      (L.st.vis_acc t + pending (fun i => (env.interferometer c i f).2) (L.task t)) =
    ∑ t ∈ Finset.range D, s.vis_acc t + ∑ i ∈ Finset.range L.next, (env.interferometer c i f).2

/-- The state in which a stage of the driver ends, whether the stage runs to
its end or returns from the function. -/
def final_state : Except (Exit × State α n) (State α n) → State α n
  | .ok s => s
  | .error x => x.2

/-- The trace of `s'` is the trace of `s` followed by calls that satisfy `Q`. -/
def TraceExt (Q : Event → Prop) (s s' : State α n) : Prop :=
  ∃ l, s'.trace = s.trace ++ l ∧ ∀ e ∈ l, Q e

/-- The state at line 130 when every call so far has succeeded: the global
structure holds the slabs it was set up with, and five calls have been made. -/
def state_after_set_up (env : Env α n) : State α n :=
  { error := 0
    vis_global := env.set_up_visibilities.2
    vis_acc := fun _ _ => 0
    vis_temp := fun _ _ => 0
    trace := [.settings_load, .cudaGetDeviceCount, .set_up_telescope, .set_up_sky,
      .set_up_visibilities 0] }

/-! ## Concrete runs -/

/-- Values for the status codes in the concrete runs below. -/
def example_codes : Codes :=
  { OSKAR_SUCCESS := 0
    OSKAR_ERR_SETTINGS := -15
    OSKAR_ERR_CUDA_DEVICES := -20
    OSKAR_ERR_SETUP_FAIL_TELESCOPE := -30 }

/-- Settings of a run on `devices` devices (lane `t` uses device `t`) over
`channels` channels from 100 MHz in steps of 1 MHz, with a visibility file as
the only output and no noise. -/
def example_settings (devices channels : Int) : Settings :=
  { num_cuda_devices := devices
    cuda_device_ids := fun t => t
    oskar_vis_filename := some "example.vis"
    ms_filename := none
    image_interferometer_output := false
    oskar_image := none
    fits_image := none
    num_channels := channels
    start_frequency_hz := 100000000
    frequency_inc_hz := 1000000
    noise_enable := false
    noise_seed := 0 }

/-- An environment over buffers of `m` integer amplitudes: `available` devices
are present, the sky has `chunks` chunks, every buffer is created all-zero, the
correlation step for chunk `i` in channel `c` reports `status c i` and leaves
`amp c i` in every element of its output, and every other call succeeds. -/
def example_env (m : Nat) (settings : Settings) (available chunks : Int)
    (status : Nat → Nat → Int) (amp : Nat → Nat → ℤ) : Env ℤ m :=
  { settings_load := (0, settings)
    cudaGetDeviceCount := (0, available)
    set_up_telescope := 0
    set_up_sky := (0, chunks)
    set_up_visibilities := (0, fun _ _ => 0)
    mem_init_acc := fun _ => (0, fun _ => 0)
    mem_init_temp := fun _ => (0, fun _ => 0)
    cudaSetDevice_init := fun _ _ => 0
    cudaSetDevice_chunk := fun _ _ _ => 0
    interferometer := fun c i _ => (status c i, fun _ => amp c i)
    add_system_noise := fun _ v => (0, v)
    evaluate_uvw_baseline := 0
    visibilities_write := 0
    visibilities_write_ms := 0
    make_image := 0
    image_write := 0
    fits_image_write := 0 }

/-- Two lanes, two channels, three chunks, one amplitude per buffer; chunk `i`
of channel `c` contributes `10 * c + i + 1`. -/
def example_run : Env ℤ 1 :=
  example_env 1 (example_settings 2 2) 2 3 (fun _ _ => 0) (fun c i => 10 * c + i + 1)

/-- A schedule for three chunks on two lanes: threads 0 and 1 take chunks 0 and
1 and run them in turn, action by action; thread 0 then runs chunk 2. -/
def example_schedule : List Nat :=
  [0, 1, 0, 1, 0, 1, 0, 1, 0, 1, 0, 0, 0, 0, 0]

/-- A state at the barrier of channel 0 with three lane accumulators holding
1, 2 and 3 and the slab of the channel holding 10. -/
def example_barrier_state : State ℤ 1 :=
  { error := 0
    vis_global := fun _ _ => 10
    vis_acc := fun t _ => t + 1
    vis_temp := fun _ _ => 0
    trace := [] }

/-- A run that asks for three devices where two are present. -/
def example_few_devices : Env ℤ 1 :=
  example_env 1 (example_settings 3 2) 2 3 (fun _ _ => 0) (fun c i => 10 * c + i + 1)

/-- A run whose settings name no output at all. -/
def example_no_output : Env ℤ 1 :=
  example_env 1
    { example_settings 2 2 with oskar_vis_filename := none } 2 3 (fun _ _ => 0)
    (fun c i => 10 * c + i + 1)

/-- A run over an empty sky: two lanes, two channels, no chunk. -/
def example_empty_sky : Env ℤ 1 :=
  example_env 1 (example_settings 2 2) 2 0 (fun _ _ => 0) (fun _ _ => 0)

/-- Modelled from the spec: the Chunk Buffer that `oskar_set_up_sky` (source
missing) builds, "a sequence of SkyChunk" that partitions the catalogue
"deterministically and contiguously". `env.with_chunks P chunks` is the
environment of a run over the chunks `chunks`: the sky set-up yields
`chunks.length` chunks and the correlation step for chunk `i` succeeds with
`P` applied to the sources of that chunk, `P` being the correlation primitive
as a function of the list of sources and of the frequency. -/
def Env.with_chunks {σ : Type} (env : Env α n) (P : List σ → ℚ → Fin n → α)
    (chunks : List (List σ)) : Env α n :=
  { env with
    set_up_sky := (0, (chunks.length : Int))
    interferometer := fun _ i f => (0, P (chunks.getD i []) f) }

/-- A primitive for the concrete runs: a source is its flux, and the amplitude
of element `k` is the total flux of the sources times `k + 1`. -/
def example_primitive (m : Nat) (A : List ℤ) (_ : ℚ) : Fin m → ℤ :=
  fun k => A.sum * ((k : ℕ) + 1)

/-- The base environment of the scenario of the spec: two lanes, one channel,
buffers of 6 baselines times 3 time samples. -/
def example_scenario : Env ℤ 18 :=
  example_env 18 (example_settings 2 1) 2 0 (fun _ _ => 0) (fun _ _ => 0)

/-- A run with two lanes and two chunks in which the correlation step of chunk
1 reports the status -9 and leaves 7 in its output, and that of chunk 0
succeeds with output 5. -/
def example_failing_chunk : Env ℤ 1 :=
  example_env 1 (example_settings 2 1) 2 2 (fun _ i => if i = 1 then -9 else 0)
    (fun _ i => if i = 0 then 5 else 7)

/-- An interleaving of two threads over two chunks: thread 0 takes chunk 0 and
passes the test of `error` (line 170); thread 1 takes chunk 1, passes the test,
binds its device and runs the correlation step; thread 0 then binds its device
(line 179), runs its correlation step and accumulates; thread 1 accumulates. -/
def example_race_schedule : List Nat :=
  [0, 0, 1, 1, 1, 1, 0, 0, 0, 1]

/-- The chunks whose correlation step thread `t` has run, in order, as recorded
by the calls `l`: the chunks that lane `t` has processed. -/
def lane_chunks (t : Nat) : List Event → List Nat
  | [] => []
  | .interferometer u i _ _ :: l => if u = t then i :: lane_chunks t l else lane_chunks t l
  | _ :: l => lane_chunks t l

/-- The amplitudes that thread `t` has produced and not yet added to its
accumulator: the output for the chunk it is in, between `oskar_interferometer`
and `oskar_mem_add`. -/
def produced (P : Nat → Fin n → α) : Option (Nat × Pc) → Fin n → α
  | some (i, Pc.add) => P i
  | _ => 0

/-- The part of the driver a call belongs to: 0 the set-up calls of lines
84-129, 1 the lane buffers (lines 139-146), 2 `cudaSetDevice` (lines 144, 179
and 278), 3 the chunk loop, 4 the fold, 5 the noise, 6 the baseline
coordinates, 7 the writers, 8 the imager, 9 the release of devices and chunks. -/
def Event.phase : Event → Nat
  | .settings_load => 0
  | .cudaGetDeviceCount => 0
  | .set_up_telescope => 0
  | .set_up_sky => 0
  | .set_up_visibilities _ => 0
  | .mem_init_acc _ _ => 1
  | .mem_init_temp _ _ => 1
  | .cudaDeviceSynchronize => 1
  | .cudaSetDevice _ => 2
  | .interferometer _ _ _ _ => 3
  | .mem_add_acc _ _ => 3
  | .get_channel_amps _ _ => 4
  | .mem_add_global _ _ _ => 4
  | .mem_clear_contents _ _ => 4
  | .add_system_noise _ => 5
  | .evaluate_uvw_baseline _ => 6
  | .visibilities_write _ => 7
  | .visibilities_write_ms => 7
  | .make_image => 8
  | .image_write _ => 8
  | .fits_image_write => 8
  | .cudaDeviceReset => 9
  | .sky_model_free _ => 9

/-- Whether a call starts its work: a call that receives the status by pointer
and finds it set returns at once; every other call does its work. -/
def Event.starts_work : Event → Bool
  | .set_up_visibilities st => decide (st = 0)
  | .mem_init_acc _ st => decide (st = 0)
  | .mem_init_temp _ st => decide (st = 0)
  | .interferometer _ _ _ st => decide (st = 0)
  | .mem_add_acc _ st => decide (st = 0)
  | .get_channel_amps _ st => decide (st = 0)
  | .mem_add_global _ _ st => decide (st = 0)
  | .mem_clear_contents _ st => decide (st = 0)
  | .evaluate_uvw_baseline st => decide (st = 0)
  | .visibilities_write st => decide (st = 0)
  | .image_write st => decide (st = 0)
  | _ => true

/-- The state at line 130 when the settings load, the device-count query and
the telescope set-up have succeeded: `error` holds what the sky set-up
reported or, if that was success, what the visibility set-up reported. -/
def state_at_line_130 (env : Env α n) : State α n :=
  { error := (oskar_set_up_visibilities env.set_up_visibilities (fun _ _ => 0)
      env.set_up_sky.1).2
    vis_global := (oskar_set_up_visibilities env.set_up_visibilities (fun _ _ => 0)
      env.set_up_sky.1).1
    vis_acc := fun _ _ => 0
    vis_temp := fun _ _ => 0
    trace := [.settings_load, .cudaGetDeviceCount, .set_up_telescope, .set_up_sky,
      .set_up_visibilities env.set_up_sky.1] }

/-- A run ends by returning `code`, the call `ev` is in its trace, and every
call made after `ev` found the status set and did nothing. -/
def Halted (code : Int) (ev : Event) (x : Exit × State α n) : Prop :=
  x.1 = .returned code ∧
    ∃ W K, x.2.trace = W ++ ev :: K ∧ ∀ k ∈ K, k.starts_work = false

/-- Lines 84-201: the driver up to the end of the loop over channels. `.ok` is
the state in which line 202 is reached, `.error` a return taken before. -/
def run_to_line_202 (codes : Codes) (env : Env α n) (sched : Nat → List Nat) :
    Except (Exit × State α n) (State α n) :=
  let s0 := after_settings_load env
  if s0.error ≠ 0 then .error (.returned s0.error, s0) else
  let settings := env.settings_load.2
  if ¬ output_file_specified settings then .error (.returned codes.OSKAR_ERR_SETTINGS, s0) else
  let num_devices := settings.num_cuda_devices
  let s1 : State α n := { (s0.log .cudaGetDeviceCount) with error := env.cudaGetDeviceCount.1 }
  if s1.error ≠ 0 then .error (.returned s1.error, s1) else
  if env.cudaGetDeviceCount.2 < num_devices then
    .error (.returned codes.OSKAR_ERR_CUDA_DEVICES, s1) else
  let s2 : State α n := { (s1.log .set_up_telescope) with error := env.set_up_telescope }
  if s2.error ≠ 0 then .error (.returned codes.OSKAR_ERR_SETUP_FAIL_TELESCOPE, s2) else
  let num_sky_chunks := env.set_up_sky.2
  let s3 : State α n := { (s2.log .set_up_sky) with error := env.set_up_sky.1 }
  let v := oskar_set_up_visibilities env.set_up_visibilities s3.vis_global s3.error
  let s4 : State α n :=
    { (s3.log (.set_up_visibilities s3.error)) with vis_global := v.1, error := v.2 }
  if num_devices < 0 then .error (.fault, s4) else
  match set_up_lanes env settings (List.range num_devices.toNat) s4 with
  | .error x => .error x
  | .ok s5 =>
    channel_loop env settings num_devices.toNat num_sky_chunks.toNat sched
      (List.range settings.num_channels.toNat) s5

/-- Line 202 is reached with the status clear: every channel has been
processed and folded without error. -/
def folded_without_error (codes : Codes) (env : Env α n) (sched : Nat → List Nat) : Bool :=
  match run_to_line_202 codes env sched with
  | .ok s6 => decide (s6.error = 0)
  | .error _ => false

/-- The calls of the driver that report a status, as they occur in a run whose
chunk loops are executed by thread 0 alone: `bind_lane i` is the
`cudaSetDevice` of line 144 for lane `i`, `bind_chunk c i` that of line 179 for
chunk `i` of channel `c`, `interferometer c i` the correlation step of that
chunk. -/
inductive Stage where
  | settings_load
  | cudaGetDeviceCount
  | set_up_telescope
  | set_up_sky
  | set_up_visibilities
  | mem_init_acc (i : Nat)
  | mem_init_temp (i : Nat)
  | bind_lane (i : Nat)
  | bind_chunk (c i : Nat)
  | interferometer (c i : Nat)
  | add_system_noise
  | evaluate_uvw_baseline
  | visibilities_write
  | visibilities_write_ms
  | make_image
  | image_write
  | fits_image_write
deriving DecidableEq

/-- The place of a stage in the text of the driver: the statement, then the
iteration of the outer loop, then the place inside that iteration. -/
def Stage.position : Stage → Nat × Nat × Nat
  | .settings_load => (0, 0, 0)
  | .cudaGetDeviceCount => (1, 0, 0)
  | .set_up_telescope => (2, 0, 0)
  | .set_up_sky => (3, 0, 0)
  | .set_up_visibilities => (4, 0, 0)
  | .mem_init_acc i => (5, i, 0)
  | .mem_init_temp i => (5, i, 1)
  | .bind_lane i => (5, i, 2)
  | .bind_chunk c i => (6, c, 2 * i)
  | .interferometer c i => (6, c, 2 * i + 1)
  | .add_system_noise => (7, 0, 0)
  | .evaluate_uvw_baseline => (8, 0, 0)
  | .visibilities_write => (9, 0, 0)
  | .visibilities_write_ms => (10, 0, 0)
  | .make_image => (11, 0, 0)
  | .image_write => (12, 0, 0)
  | .fits_image_write => (13, 0, 0)

/-- Stage `a` comes before stage `b` in a run (positions compared component by
component, the first difference deciding). -/
def Stage.precedes (a b : Stage) : Prop :=
  a.position.1 < b.position.1 ∨
    (a.position.1 = b.position.1 ∧
      (a.position.2.1 < b.position.2.1 ∨
        (a.position.2.1 = b.position.2.1 ∧ a.position.2.2 < b.position.2.2)))

/-- The settings make the driver come to the stage, provided the stages before
it succeed: a data file is specified and enough devices are present (the two
tests of lines 99-113), the lane, channel or chunk exists, the noise, the
file or the image is asked for. -/
def Stage.reached (env : Env α n) : Stage → Prop
  | .settings_load => True
  | .cudaGetDeviceCount => output_file_specified env.settings_load.2 = true
  | .set_up_telescope | .set_up_sky | .set_up_visibilities | .evaluate_uvw_baseline =>
    output_file_specified env.settings_load.2 = true ∧
      env.settings_load.2.num_cuda_devices ≤ env.cudaGetDeviceCount.2
  | .mem_init_acc i | .mem_init_temp i | .bind_lane i =>
    output_file_specified env.settings_load.2 = true ∧
      env.settings_load.2.num_cuda_devices ≤ env.cudaGetDeviceCount.2 ∧
      i < env.settings_load.2.num_cuda_devices.toNat
  | .bind_chunk c i | .interferometer c i =>
    output_file_specified env.settings_load.2 = true ∧
      env.settings_load.2.num_cuda_devices ≤ env.cudaGetDeviceCount.2 ∧
      c < env.settings_load.2.num_channels.toNat ∧ i < env.set_up_sky.2.toNat
  | .add_system_noise =>
    output_file_specified env.settings_load.2 = true ∧
      env.settings_load.2.num_cuda_devices ≤ env.cudaGetDeviceCount.2 ∧
      env.settings_load.2.noise_enable = true
  | .visibilities_write =>
    output_file_specified env.settings_load.2 = true ∧
      env.settings_load.2.num_cuda_devices ≤ env.cudaGetDeviceCount.2 ∧
      env.settings_load.2.oskar_vis_filename.isSome = true
  | .visibilities_write_ms =>
    output_file_specified env.settings_load.2 = true ∧
      env.settings_load.2.num_cuda_devices ≤ env.cudaGetDeviceCount.2 ∧
      env.settings_load.2.ms_filename.isSome = true
  | .make_image =>
    output_file_specified env.settings_load.2 = true ∧
      env.settings_load.2.num_cuda_devices ≤ env.cudaGetDeviceCount.2 ∧
      (env.settings_load.2.image_interferometer_output &&
        (env.settings_load.2.oskar_image.isSome || env.settings_load.2.fits_image.isSome)) = true
  | .image_write =>
    output_file_specified env.settings_load.2 = true ∧
      env.settings_load.2.num_cuda_devices ≤ env.cudaGetDeviceCount.2 ∧
      env.settings_load.2.image_interferometer_output = true ∧
      env.settings_load.2.oskar_image.isSome = true
  | .fits_image_write =>
    output_file_specified env.settings_load.2 = true ∧
      env.settings_load.2.num_cuda_devices ≤ env.cudaGetDeviceCount.2 ∧
      env.settings_load.2.image_interferometer_output = true ∧
      env.settings_load.2.fits_image.isSome = true

/-- The stage reports the status `e` when it is entered with the status clear.
The noise stage is given the amplitudes computed so far; its status is taken
not to depend on them. -/
def Stage.reports (env : Env α n) : Stage → Int → Prop
  | .settings_load, e => env.settings_load.1 = e
  | .cudaGetDeviceCount, e => env.cudaGetDeviceCount.1 = e
  | .set_up_telescope, e => env.set_up_telescope = e
  | .set_up_sky, e => env.set_up_sky.1 = e
  | .set_up_visibilities, e => env.set_up_visibilities.1 = e
  | .mem_init_acc i, e => (env.mem_init_acc i).1 = e
  | .mem_init_temp i, e => (env.mem_init_temp i).1 = e
  | .bind_lane i, e => env.cudaSetDevice_init i (env.settings_load.2.cuda_device_ids i) = e
  | .bind_chunk c i, e =>
    env.cudaSetDevice_chunk c i (env.settings_load.2.cuda_device_ids 0) = e
  | .interferometer c i, e =>
    (env.interferometer c i (channel_frequency env.settings_load.2 c)).1 = e
  | .add_system_noise, e =>
    ∀ v, (env.add_system_noise env.settings_load.2.noise_seed v).1 = e
  | .evaluate_uvw_baseline, e => env.evaluate_uvw_baseline = e
  | .visibilities_write, e => env.visibilities_write = e
  | .visibilities_write_ms, e => env.visibilities_write_ms = e
  | .make_image, e => env.make_image = e
  | .image_write, e => env.image_write = e
  | .fits_image_write, e => env.fits_image_write = e

/-- The call that a stage makes when it is entered with the status clear. -/
def Stage.event (settings : Settings) : Stage → Event
  | .settings_load => .settings_load
  | .cudaGetDeviceCount => .cudaGetDeviceCount
  | .set_up_telescope => .set_up_telescope
  | .set_up_sky => .set_up_sky
  | .set_up_visibilities => .set_up_visibilities 0
  | .mem_init_acc i => .mem_init_acc i 0
  | .mem_init_temp i => .mem_init_temp i 0
  | .bind_lane i => .cudaSetDevice (settings.cuda_device_ids i)
  | .bind_chunk _ _ => .cudaSetDevice (settings.cuda_device_ids 0)
  | .interferometer c i => .interferometer 0 i (channel_frequency settings c) 0
  | .add_system_noise => .add_system_noise settings.noise_seed
  | .evaluate_uvw_baseline => .evaluate_uvw_baseline 0
  | .visibilities_write => .visibilities_write 0
  | .visibilities_write_ms => .visibilities_write_ms
  | .make_image => .make_image
  | .image_write => .image_write 0
  | .fits_image_write => .fits_image_write

/-- Stage `st` is the first stage of the run that fails, and it reports `e`:
the driver comes to it, it reports the non-success status `e`, and every stage
before it that the driver comes to reports success. -/
def FirstFailure (env : Env α n) (st : Stage) (e : Int) : Prop :=
  st.reached env ∧ st.reports env e ∧ e ≠ 0 ∧
    ∀ st' : Stage, st'.reached env → st'.precedes st → st'.reports env 0

/-- The code the driver returns when stage `st` has failed with `e`: lines
117-118 replace what the telescope set-up reported by
`OSKAR_ERR_SETUP_FAIL_TELESCOPE`; every other stage has its code returned. -/
def returned_code (codes : Codes) (st : Stage) (e : Int) : Int :=
  if st = .set_up_telescope then codes.OSKAR_ERR_SETUP_FAIL_TELESCOPE else e

/-- The run of the driver in which thread 0 alone executes the chunk loop of
every channel, one chunk after the other. -/
def sequential_run (codes : Codes) (env : Env α n) : Exit × State α n :=
  oskar_sim_interferometer codes env (fun _ => single_lane_schedule env.set_up_sky.2.toNat)

/-- The run `example_run` with a telescope set-up that reports the status -7. -/
def example_telescope_fails : Env ℤ 1 :=
  { example_run with set_up_telescope := -7 }

/-- The run `example_run` with a sky set-up that reports the status -5 and
leaves no chunks. -/
def example_sky_fails : Env ℤ 1 :=
  { example_run with set_up_sky := (-5, 0) }

/-- The run `example_run` in which the amplitude buffer of lane 1 cannot be
initialised: `oskar_mem_init` reports the status -3 for it. -/
def example_alloc_fails : Env ℤ 1 :=
  { example_run with mem_init_temp := fun i => (if i = 1 then -3 else 0, fun _ => 0) }

/-- The state in which line 202 is reached (or, if the driver returns before,
the state in which it returns). -/
def state_at_line_202 (codes : Codes) (env : Env α n) (sched : Nat → List Nat) : State α n :=
  final_state (run_to_line_202 codes env sched)

/-- Lines 212-290: what follows the noise stage. -/
def after_noise (codes : Codes) (env : Env α n) (settings : Settings)
    (num_devices num_sky_chunks : Nat) (s1 : State α n) : Exit × State α n :=
  match uvw_stage env s1 with
  | .error x => x
  | .ok s2 =>
    match write_stage env settings s2 with
    | .error x => x
    | .ok s3 =>
      match image_stage env settings s3 with
      | .error x => x
      | .ok s4 => finish codes settings num_devices num_sky_chunks s4

/-- The run `example_run` with the system noise enabled and the seed 42. -/
def example_noisy : Env ℤ 1 :=
  example_env 1 { example_settings 2 2 with noise_enable := true, noise_seed := 42 } 2 3
    (fun _ _ => 0) (fun c i => 10 * c + i + 1)

/-- Every chunk that a thread is working on, and every chunk for which the
correlation step has been called since the state `s0`, has been handed out:
its index is below `L.next`. -/
def ChunksBelow (s0 : State α n) (L : LoopState α n) : Prop :=
  (∀ u i pc, L.task u = some (i, pc) → i < L.next) ∧
    ∃ l, L.st.trace = s0.trace ++ l ∧
      ∀ t i f st, Event.interferometer t i f st ∈ l → i < L.next

/-- A sky of three chunks on one device and one channel in which the
correlation step of chunk 0 reports the status -9. -/
def example_cancel : Env ℤ 1 :=
  example_env 1 (example_settings 1 1) 1 3 (fun _ i => if i = 0 then -9 else 0)
    (fun _ i => i + 1)

/-! ## The element pattern loader (station/src/oskar_element_model_load.c) -/

/-- The status codes and the location constant of `oskar_global.h` named in
lines 81-122 of `oskar_element_model_load.c`; the header is not among the
sources, so the values are parameters. -/
structure LoadCodes where
  OSKAR_ERR_INVALID_ARGUMENT : Int
  OSKAR_ERR_TYPE_MISMATCH : Int
  OSKAR_ERR_BAD_LOCATION : Int
  OSKAR_ERR_FILE_IO : Int
  OSKAR_LOCATION_CPU : Int

/-- Modelled from the spec: what `oskar_spline_data_type` and
`oskar_spline_data_location` (sources missing) return for an
`oskar_SplineData`: its "buffer precision" and its "memory-space". -/
structure SplineData where
  type : Int
  location : Int

/-- The four surfaces of an `oskar_ElementModel` that the loader selects from. -/
structure ElementModel where
  port1_phi : SplineData
  port1_theta : SplineData
  port2_phi : SplineData
  port2_theta : SplineData

/-- The calls of lines 104-122 and the rest of the function. `mem_init k` is
the `k`-th of the seven calls of `oskar_mem_init` (`m_theta`, `m_phi`,
`m_theta_re`, `m_theta_im`, `m_phi_re`, `m_phi_im`, `weight`), with the type it
is given. -/
inductive LoadEvent where
  | mem_init (k : Nat) (type : Int)
  | fopen
  | read_and_fit
deriving DecidableEq

/-- What the calls report: the status of each `oskar_mem_init`, whether
`fopen` returns a file, and the value returned by lines 124-451 (reading the
file and fitting the surfaces). -/
structure LoadEnv where
  mem_init : Nat → Int
  fopen : Bool
  read_and_fit : Int

/-- Lines 81-91: the pair of surfaces of port `i`, if `i` is 1 or 2. -/
def select_port (data : ElementModel) (i : Int) : Option (SplineData × SplineData) :=
  if i = 1 then some (data.port1_phi, data.port1_theta)
  else if i = 2 then some (data.port2_phi, data.port2_theta)
  else none

/-- Lines 104-117: the calls of `oskar_mem_init` for the buffers `ks`, each
followed by `if (err) return err;`. `.error` carries the status returned. -/
def init_temporaries (env : LoadEnv) (type : Int) :
    List Nat → List LoadEvent → Except (Int × List LoadEvent) (List LoadEvent)
  | [], trace => .ok trace
  | k :: rest, trace =>
    if env.mem_init k ≠ 0 then .error (env.mem_init k, trace ++ [.mem_init k type])
    else init_temporaries env type rest (trace ++ [.mem_init k type])

/-- The function `oskar_element_model_load` (lines 56-451): the value returned
and the calls made. Lines 124-451 are represented by the value they return. -/
def oskar_element_model_load (codes : LoadCodes) (env : LoadEnv) (data : ElementModel)
    (i : Int) : Int × List LoadEvent :=
  match select_port data i with
  | none => (codes.OSKAR_ERR_INVALID_ARGUMENT, [])
  | some (data_phi, data_theta) =>
    let type := data_phi.type
    if type ≠ data_theta.type then (codes.OSKAR_ERR_TYPE_MISMATCH, []) else
    if data_phi.location ≠ codes.OSKAR_LOCATION_CPU ∨
        data_theta.location ≠ codes.OSKAR_LOCATION_CPU then
      (codes.OSKAR_ERR_BAD_LOCATION, []) else
    match init_temporaries env type [0, 1, 2, 3, 4, 5, 6] [] with
    | .error x => x
    | .ok trace =>
      if ¬ env.fopen then (codes.OSKAR_ERR_FILE_IO, trace ++ [.fopen])
      else (env.read_and_fit, trace ++ [.fopen, .read_and_fit])

/-- Codes for the examples of the loader. -/
def example_load_codes : LoadCodes :=
  { OSKAR_ERR_INVALID_ARGUMENT := -11
    OSKAR_ERR_TYPE_MISMATCH := -12
    OSKAR_ERR_BAD_LOCATION := -13
    OSKAR_ERR_FILE_IO := -14
    OSKAR_LOCATION_CPU := 0 }

/-- An environment for the loader in which every call succeeds. -/
def example_load_env : LoadEnv :=
  { mem_init := fun _ => 0, fopen := true, read_and_fit := 0 }

/-- An element model whose port 1 has surfaces of different types and whose
port 2 has surfaces of one type, the theta surface not in CPU memory. -/
def example_element : ElementModel :=
  { port1_phi := ⟨4, 0⟩, port1_theta := ⟨8, 0⟩, port2_phi := ⟨8, 0⟩, port2_theta := ⟨8, 1⟩ }

/-! ## The spline evaluation entry point (extern/dierckx/src/bispev.c) -/

/-- The value of a C `int` expression whose mathematical value is `v`, on a
machine with 32-bit two's complement integers. -/
def wrap32 (v : Int) : Int :=
  (v + 2147483648) % 4294967296 - 2147483648

/-- The value `v` is that of a C `int`. -/
def fits_int (v : Int) : Prop :=
  -2147483648 ≤ v ∧ v < 2147483648

/-- The arguments of the call of `fpbisp` that `bispev` decides: the degrees
and the numbers of points, and the places in `wrk` and `iwrk` where the four
workspace arguments `wrk`, `&wrk[iw]`, `iwrk`, `&iwrk[mx]` start. The knots,
the coefficients and the points are passed on as received. -/
structure FpbispCall where
  kx : Int
  ky : Int
  mx : Int
  my : Int
  wrk_x : Int
  wrk_y : Int
  iwrk_x : Int
  iwrk_y : Int
deriving DecidableEq

/-- What `bispev` leaves: `*ier`, the array `z`, and the calls of `fpbisp`. -/
structure BispevResult (Z : Type) where
  ier : Int
  z : Z
  calls : List FpbispCall

/-- The loops of lines 24-31: walking the indices `l`, whether some
`x[i] < x[i - 1]` is met (the function then returns). -/
def descends {F : Type} [LinearOrder F] (x : Nat → F) : List Nat → Bool
  | [] => false
  | i :: rest => if x i < x (i - 1) then true else descends x rest

/-- The function `bispev` (lines 8-35). The coordinates are values of a
linear order (floating-point numbers other than NaN); `fpbisp` (source
missing) is given by what it does to `z`. -/
def bispev {F Z : Type} [LinearOrder F] (fpbisp : FpbispCall → Z → Z) (kx ky : Int)
    (x : Nat → F) (mx : Int) (y : Nat → F) (my : Int) (z : Z) (lwrk kwrk : Int) :
    BispevResult Z :=
  let lwest := wrap32 (wrap32 (wrap32 (kx + 1) * mx) + wrap32 (wrap32 (ky + 1) * my))
  if lwrk < lwest then ⟨10, z, []⟩ else
  if kwrk < wrap32 (mx + my) then ⟨10, z, []⟩ else
  if mx < 1 then ⟨10, z, []⟩ else
  if my < 1 then ⟨10, z, []⟩ else
  if descends x (List.range' 1 (mx.toNat - 1)) then ⟨10, z, []⟩ else
  if descends y (List.range' 1 (my.toNat - 1)) then ⟨10, z, []⟩ else
  let iw := wrap32 (mx * wrap32 (kx + 1))
  let call : FpbispCall :=
    { kx := kx, ky := ky, mx := mx, my := my, wrk_x := 0, wrk_y := iw, iwrk_x := 0, iwrk_y := mx }
  ⟨0, fpbisp call z, [call]⟩

/-- The first `m` elements of `x` are in non-decreasing order. -/
def NonDecreasing {F : Type} [LinearOrder F] (x : Nat → F) (m : Int) : Prop :=
  ∀ i j : Nat, i ≤ j → (j : Int) < m → x i ≤ x j

/-- The calls made when the loop of lines 104-117 ends, by return or not. -/
def final_load : Except (Int × List LoadEvent) (List LoadEvent) → List LoadEvent
  | .ok trace => trace
  | .error x => x.2

/-- A run that asks for no device at all (`num_cuda_devices = 0`, which the
test of line 113 lets pass), with one channel and one chunk. -/
def example_no_devices : Env ℤ 1 :=
  example_env 1 (example_settings 0 1) 0 1 (fun _ _ => 0) (fun _ _ => 1)

/-! ## Copying spline data (math/src/oskar_spline_data_copy.c) -/

/-- The fields of `oskar_SplineData` that `oskar_spline_data_copy` assigns: the
six knot counts and the nine arrays; `A` is what an `oskar_Mem` holds. -/
structure oskar_SplineData (A : Type) where
  num_knots_x : Int
  num_knots_y : Int
  knots_x : A
  knots_y : A
  coeff : A
  num_knots_x_re : Int
  num_knots_y_re : Int
  num_knots_x_im : Int
  num_knots_y_im : Int
  knots_x_re : A
  knots_y_re : A
  coeff_re : A
  knots_x_im : A
  knots_y_im : A
  coeff_im : A

/-- Modelled from the spec: `oskar_mem_copy(dst, src)` of
`utility/oskar_mem_copy.h`, whose source is missing: it returns a status, and
when the status is success `dst` holds the contents of `src`. `report` is the
status of this call and what a failed call leaves in `dst`. -/
def oskar_mem_copy {A : Type} (report : Int × A) (src : A) : Int × A :=
  if report.1 ≠ 0 then (report.1, report.2) else (0, src)

/-- The function `oskar_spline_data_copy` (lines 35-67): the value returned,
`dst` on return, and the copies called, numbered 0 to 8 in the order of the
source. `copy j` is the report of the `j`-th call of `oskar_mem_copy`. -/
def oskar_spline_data_copy {A : Type} (copy : Nat → Int × A)
    (dst src : oskar_SplineData A) : Int × oskar_SplineData A × List Nat :=
  let d0 : oskar_SplineData A :=
    { dst with num_knots_x := src.num_knots_x, num_knots_y := src.num_knots_y }
  let r0 := oskar_mem_copy (copy 0) src.knots_x
  let d1 : oskar_SplineData A := { d0 with knots_x := r0.2 }
  if r0.1 ≠ 0 then (r0.1, d1, [0]) else
  let r1 := oskar_mem_copy (copy 1) src.knots_y
  let d2 : oskar_SplineData A := { d1 with knots_y := r1.2 }
  if r1.1 ≠ 0 then (r1.1, d2, [0, 1]) else
  let r2 := oskar_mem_copy (copy 2) src.coeff
  let d3 : oskar_SplineData A := { d2 with coeff := r2.2 }
  if r2.1 ≠ 0 then (r2.1, d3, [0, 1, 2]) else
  let d3' : oskar_SplineData A :=
    { d3 with
      num_knots_x_re := src.num_knots_x_re, num_knots_y_re := src.num_knots_y_re,
      num_knots_x_im := src.num_knots_x_im, num_knots_y_im := src.num_knots_y_im }
  let r3 := oskar_mem_copy (copy 3) src.knots_x_re
  let d4 : oskar_SplineData A := { d3' with knots_x_re := r3.2 }
  if r3.1 ≠ 0 then (r3.1, d4, [0, 1, 2, 3]) else
  let r4 := oskar_mem_copy (copy 4) src.knots_y_re
  let d5 : oskar_SplineData A := { d4 with knots_y_re := r4.2 }
  if r4.1 ≠ 0 then (r4.1, d5, [0, 1, 2, 3, 4]) else
  let r5 := oskar_mem_copy (copy 5) src.coeff_re
  let d6 : oskar_SplineData A := { d5 with coeff_re := r5.2 }
  if r5.1 ≠ 0 then (r5.1, d6, [0, 1, 2, 3, 4, 5]) else
  let r6 := oskar_mem_copy (copy 6) src.knots_x_im
  let d7 : oskar_SplineData A := { d6 with knots_x_im := r6.2 }
  if r6.1 ≠ 0 then (r6.1, d7, [0, 1, 2, 3, 4, 5, 6]) else
  let r7 := oskar_mem_copy (copy 7) src.knots_y_im
  let d8 : oskar_SplineData A := { d7 with knots_y_im := r7.2 }
  if r7.1 ≠ 0 then (r7.1, d8, [0, 1, 2, 3, 4, 5, 6, 7]) else
  let r8 := oskar_mem_copy (copy 8) src.coeff_im
  let d9 : oskar_SplineData A := { d8 with coeff_im := r8.2 }
  if r8.1 ≠ 0 then (r8.1, d9, [0, 1, 2, 3, 4, 5, 6, 7, 8]) else
  (0, d9, [0, 1, 2, 3, 4, 5, 6, 7, 8])

/-- The nine arrays of an `oskar_SplineData` in the order in which
`oskar_spline_data_copy` copies them. -/
def oskar_SplineData.array {A : Type} (d : oskar_SplineData A) : Nat → A
  | 0 => d.knots_x
  | 1 => d.knots_y
  | 2 => d.coeff
  | 3 => d.knots_x_re
  | 4 => d.knots_y_re
  | 5 => d.coeff_re
  | 6 => d.knots_x_im
  | 7 => d.knots_y_im
  | _ => d.coeff_im

/-- A spline surface whose counts are all `k` and whose arrays all hold `v`. -/
def example_spline (k : Int) (v : List ℤ) : oskar_SplineData (List ℤ) :=
  { num_knots_x := k, num_knots_y := k, knots_x := v, knots_y := v, coeff := v,
    num_knots_x_re := k, num_knots_y_re := k, num_knots_x_im := k, num_knots_y_im := k,
    knots_x_re := v, knots_y_re := v, coeff_re := v, knots_x_im := v, knots_y_im := v,
    coeff_im := v }

/-! ## Creating a station model (oskar/telescope/station/src/oskar_station_create.c) -/

/-- The constants of `oskar_global.h` and `oskar_station.h` that
`oskar_station_create` names; the headers are not among the sources, so the
values are parameters. -/
structure StationCodes where
  OSKAR_SINGLE : Int
  OSKAR_DOUBLE : Int
  OSKAR_COMPLEX : Int
  OSKAR_INT : Int
  OSKAR_CHAR : Int
  OSKAR_CPU : Int
  OSKAR_ERR_BAD_DATA_TYPE : Int
  OSKAR_ERR_MEMORY_ALLOC_FAILURE : Int
  OSKAR_STATION_TYPE_AA : Int
  OSKAR_SPHERICAL_TYPE_EQUATORIAL : Int
  OSKAR_TRUE : Int

/-- What one element of an array holds: nothing that has been set, a number,
or a character. -/
inductive Cell (R : Type) where
  | unset
  | value (x : R)
  | char (c : Char)

/-- Modelled from the spec: an `oskar_Mem` as `oskar_mem_create` (source
missing) returns it: whether it has storage, its type, its location, its
number of elements and its elements. -/
structure oskar_Mem (R : Type) where
  allocated : Bool
  type : Int
  location : Int
  num_elements : Int
  data : Nat → Cell R

/-- The handle that holds no array (a zeroed pointer). -/
def oskar_Mem.null {R : Type} : oskar_Mem R :=
  { allocated := false, type := 0, location := 0, num_elements := 0, data := fun _ => .unset }

/-- The fields of `oskar_Station` that `oskar_station_create` assigns. -/
structure oskar_Station (R : Type) where
  precision : Int
  mem_location : Int
  element_true_enu_metres : Nat → Nat → oskar_Mem R
  element_measured_enu_metres : Nat → Nat → oskar_Mem R
  element_weight : Nat → oskar_Mem R
  element_cable_length_error : Nat → oskar_Mem R
  element_gain : Nat → oskar_Mem R
  element_gain_error : Nat → oskar_Mem R
  element_phase_offset_rad : Nat → oskar_Mem R
  element_phase_error_rad : Nat → oskar_Mem R
  element_euler_cpu : Nat → Nat → oskar_Mem R
  element_types : oskar_Mem R
  element_types_cpu : oskar_Mem R
  element_mount_types_cpu : oskar_Mem R
  permitted_beam_az_rad : oskar_Mem R
  permitted_beam_el_rad : oskar_Mem R
  station_type : Int
  normalise_final_beam : Int
  beam_coord_type : Int
  noise_freq_hz : oskar_Mem R
  noise_rms_jy : oskar_Mem R
  num_elements : Int
  enable_array_pattern : Int
  common_element_orientation : Int
  common_pol_beams : Int
  seed_time_variable_errors : Int

/-- The structure that `calloc(1, sizeof(oskar_Station))` returns: all zero. -/
def oskar_Station.zeroed {R : Type} : oskar_Station R :=
  { precision := 0, mem_location := 0
    element_true_enu_metres := fun _ _ => .null
    element_measured_enu_metres := fun _ _ => .null
    element_weight := fun _ => .null
    element_cable_length_error := fun _ => .null
    element_gain := fun _ => .null
    element_gain_error := fun _ => .null
    element_phase_offset_rad := fun _ => .null
    element_phase_error_rad := fun _ => .null
    element_euler_cpu := fun _ _ => .null
    element_types := .null, element_types_cpu := .null, element_mount_types_cpu := .null
    permitted_beam_az_rad := .null, permitted_beam_el_rad := .null
    station_type := 0, normalise_final_beam := 0, beam_coord_type := 0
    noise_freq_hz := .null, noise_rms_jy := .null
    num_elements := 0, enable_array_pattern := 0, common_element_orientation := 0
    common_pol_beams := 0, seed_time_variable_errors := 0 }

/-- What the allocations report: whether `calloc` returns a structure, and the
status of the `k`-th call of `oskar_mem_create`. -/
structure StationEnv where
  calloc : Bool
  mem_create : Nat → Int

/-- The status and the calls of `oskar_mem_create` made so far, each with its
type, location and number of elements. -/
structure CreateState where
  status : Int
  calls : List (Int × Int × Int)

/-- Modelled from the spec: `oskar_mem_create(type, location, num_elements,
status)` of `mem/oskar_mem_create.h`, whose source is missing: when the status
is clear and the allocation succeeds it returns an array of that type,
location and length; when the allocation fails it sets the status
(`AllocationFailure`) and returns a handle without storage; nothing is done
when the status is already set. -/
def oskar_mem_create {R : Type} (env : StationEnv) (type location num_elements : Int)
    (st : CreateState) : oskar_Mem R × CreateState :=
  let calls := st.calls ++ [(type, location, num_elements)]
  if st.status ≠ 0 then (.null, { st with calls := calls })
  else if env.mem_create st.calls.length ≠ 0 then
    (.null, { status := env.mem_create st.calls.length, calls := calls })
  else
    ({ allocated := true, type := type, location := location, num_elements := num_elements,
       data := fun _ => .unset }, { status := 0, calls := calls })

/-- Modelled from the spec: `oskar_mem_set_value_real(mem, val, offset, length,
status)` (source missing) sets the elements `offset .. offset + length - 1` to
the real value `val`; nothing is done when the status is already set. -/
def oskar_mem_set_value_real {R : Type} (mem : oskar_Mem R) (val : R) (offset length : Int)
    (status : Int) : oskar_Mem R :=
  if status ≠ 0 then mem
  else { mem with data := fun i =>
    if offset ≤ (i : Int) ∧ (i : Int) < offset + length then .value val else mem.data i }

/-- The call `memset(oskar_mem_void(mem), c, num)`: the first `num` elements
of a character array become `c`. -/
def memset {R : Type} (mem : oskar_Mem R) (c : Char) (num : Int) : oskar_Mem R :=
  { mem with data := fun i => if (i : Int) < num then .char c else mem.data i }

/-- What `oskar_station_create` leaves: the pointer returned (`none` for a
null pointer), `*status`, whether `calloc` was called, the calls of
`oskar_mem_create`, and whether `memset` was given a handle without storage. -/
structure StationResult (R : Type) where
  model : Option (oskar_Station R)
  status : Int
  calloc_called : Bool
  calls : List (Int × Int × Int)
  fault : Bool

/-- Lines 66-72 for one `feed`: the two coordinate arrays of the dimension
`dim`. -/
def create_enu {R : Type} (env : StationEnv) (type location num_elements : Int) (feed : Nat)
    (x : oskar_Station R × CreateState) (dim : Nat) : oskar_Station R × CreateState :=
  let r1 : oskar_Mem R × CreateState := oskar_mem_create env type location num_elements x.2
  let m1 : oskar_Station R :=
    { x.1 with element_true_enu_metres := fun f d =>
        if f = feed ∧ d = dim then r1.1 else x.1.element_true_enu_metres f d }
  let r2 : oskar_Mem R × CreateState := oskar_mem_create env type location num_elements r1.2
  ({ m1 with element_measured_enu_metres := fun f d =>
        if f = feed ∧ d = dim then r2.1 else m1.element_measured_enu_metres f d }, r2.2)

/-- Lines 64-86 for one `feed`. -/
def create_feed {R : Type} (codes : StationCodes) (env : StationEnv)
    (type location num_elements : Int) (x : oskar_Station R × CreateState) (feed : Nat) :
    oskar_Station R × CreateState :=
  let x1 := [0, 1, 2].foldl (create_enu env type location num_elements feed) x
  let r1 : oskar_Mem R × CreateState :=
    oskar_mem_create env (Int.lor type codes.OSKAR_COMPLEX) location num_elements x1.2
  let m1 : oskar_Station R :=
    { x1.1 with element_weight := fun f => if f = feed then r1.1 else x1.1.element_weight f }
  let r2 : oskar_Mem R × CreateState := oskar_mem_create env type location num_elements r1.2
  let m2 : oskar_Station R :=
    { m1 with element_cable_length_error := fun f =>
        if f = feed then r2.1 else m1.element_cable_length_error f }
  let r3 : oskar_Mem R × CreateState := oskar_mem_create env type location num_elements r2.2
  let m3 : oskar_Station R :=
    { m2 with element_gain := fun f => if f = feed then r3.1 else m2.element_gain f }
  let r4 : oskar_Mem R × CreateState := oskar_mem_create env type location num_elements r3.2
  let m4 : oskar_Station R :=
    { m3 with element_gain_error := fun f => if f = feed then r4.1 else m3.element_gain_error f }
  let r5 : oskar_Mem R × CreateState := oskar_mem_create env type location num_elements r4.2
  let m5 : oskar_Station R :=
    { m4 with element_phase_offset_rad := fun f =>
        if f = feed then r5.1 else m4.element_phase_offset_rad f }
  let r6 : oskar_Mem R × CreateState := oskar_mem_create env type location num_elements r5.2
  ({ m5 with element_phase_error_rad := fun f =>
        if f = feed then r6.1 else m5.element_phase_error_rad f }, r6.2)

/-- Lines 89-93 for one `feed` and one `dim`. -/
def create_euler {R : Type} (codes : StationCodes) (env : StationEnv) (num_elements : Int)
    (feed : Nat) (x : oskar_Station R × CreateState) (dim : Nat) :
    oskar_Station R × CreateState :=
  let r : oskar_Mem R × CreateState :=
    oskar_mem_create env codes.OSKAR_DOUBLE codes.OSKAR_CPU num_elements x.2
  ({ x.1 with element_euler_cpu := fun f d =>
        if f = feed ∧ d = dim then r.1 else x.1.element_euler_cpu f d }, r.2)

/-- The function `oskar_station_create` (lines 38-131). `status` is `*status`
on entry; `R` is the type of the numbers held in the arrays. -/
def oskar_station_create {R : Type} [One R] (codes : StationCodes) (env : StationEnv)
    (type location num_elements : Int) (status : Int) : StationResult R :=
  if type ≠ codes.OSKAR_SINGLE ∧ type ≠ codes.OSKAR_DOUBLE then
    { model := none, status := codes.OSKAR_ERR_BAD_DATA_TYPE, calloc_called := false,
      calls := [], fault := false }
  else if ¬ env.calloc then
    { model := none, status := codes.OSKAR_ERR_MEMORY_ALLOC_FAILURE, calloc_called := true,
      calls := [], fault := false }
  else
    let m0 : oskar_Station R :=
      { (oskar_Station.zeroed : oskar_Station R) with
        precision := type, mem_location := location }
    let x1 := [0].foldl (create_feed codes env type location num_elements)
      (m0, ({ status := status, calls := [] } : CreateState))
    let x2 := [0, 1].foldl
      (fun x feed => [0, 1, 2].foldl (create_euler codes env num_elements feed) x) x1
    let r3 : oskar_Mem R × CreateState :=
      oskar_mem_create env codes.OSKAR_INT location num_elements x2.2
    let r4 : oskar_Mem R × CreateState :=
      oskar_mem_create env codes.OSKAR_INT codes.OSKAR_CPU num_elements r3.2
    let r5 : oskar_Mem R × CreateState :=
      oskar_mem_create env codes.OSKAR_CHAR codes.OSKAR_CPU num_elements r4.2
    let r6 : oskar_Mem R × CreateState :=
      oskar_mem_create env codes.OSKAR_DOUBLE codes.OSKAR_CPU 0 r5.2
    let r7 : oskar_Mem R × CreateState :=
      oskar_mem_create env codes.OSKAR_DOUBLE codes.OSKAR_CPU 0 r6.2
    let r8 : oskar_Mem R × CreateState := oskar_mem_create env type codes.OSKAR_CPU 0 r7.2
    let r9 : oskar_Mem R × CreateState := oskar_mem_create env type codes.OSKAR_CPU 0 r8.2
    let m1 : oskar_Station R :=
      { x2.1 with
        element_types := r3.1, element_types_cpu := r4.1, element_mount_types_cpu := r5.1
        permitted_beam_az_rad := r6.1, permitted_beam_el_rad := r7.1
        station_type := codes.OSKAR_STATION_TYPE_AA
        normalise_final_beam := codes.OSKAR_TRUE
        beam_coord_type := codes.OSKAR_SPHERICAL_TYPE_EQUATORIAL
        noise_freq_hz := r8.1, noise_rms_jy := r9.1
        num_elements := num_elements
        enable_array_pattern := codes.OSKAR_TRUE
        common_element_orientation := codes.OSKAR_TRUE
        common_pol_beams := codes.OSKAR_TRUE
        seed_time_variable_errors := 1 }
    if 0 < num_elements then
      let g := oskar_mem_set_value_real (m1.element_gain 0) 1 0 num_elements r9.2.status
      let w := oskar_mem_set_value_real (m1.element_weight 0) 1 0 num_elements r9.2.status
      let m2 : oskar_Station R :=
        { m1 with
          element_gain := fun f => if f = 0 then g else m1.element_gain f
          element_weight := fun f => if f = 0 then w else m1.element_weight f
          element_mount_types_cpu := memset m1.element_mount_types_cpu 'F' num_elements }
      { model := some m2, status := r9.2.status, calloc_called := true, calls := r9.2.calls,
        fault := !m1.element_mount_types_cpu.allocated }
    else
      { model := some m1, status := r9.2.status, calloc_called := true, calls := r9.2.calls,
        fault := false }

/-- Values for the constants in the examples of `oskar_station_create`. -/
def example_station_codes : StationCodes :=
  { OSKAR_SINGLE := 4, OSKAR_DOUBLE := 8, OSKAR_COMPLEX := 32, OSKAR_INT := 2, OSKAR_CHAR := 1
    OSKAR_CPU := 0, OSKAR_ERR_BAD_DATA_TYPE := -8, OSKAR_ERR_MEMORY_ALLOC_FAILURE := -4
    OSKAR_STATION_TYPE_AA := 0, OSKAR_SPHERICAL_TYPE_EQUATORIAL := 0, OSKAR_TRUE := 1 }

/-- An environment in which every allocation succeeds. -/
def example_station_env : StationEnv :=
  { calloc := true, mem_create := fun _ => 0 }

/-! ## Loading a sky model (sky/src/oskar_sky_model_load.c) -/

/-- The constants of `oskar_global.h` that `oskar_sky_model_load` names; the
header is not among the sources, so the values are parameters. -/
structure SkyCodes where
  OSKAR_SINGLE : Int
  OSKAR_DOUBLE : Int
  OSKAR_ERR_BAD_DATA_TYPE : Int
  OSKAR_ERR_FILE_IO : Int

/-- The eleven values that `oskar_sky_model_set_source` is given for a source
(lines 114-118), in the order of its arguments. -/
structure Source (F : Type) where
  ra : F
  dec : F
  I : F
  Q : F
  U : F
  V : F
  ref_freq : F
  spix : F
  fwhm_maj : F
  fwhm_min : F
  pa : F
deriving DecidableEq

/-- A line of the file as the loader sees it: whether its first character is
`#`, and the numeric values that can be parsed from it, in order. -/
structure SkyLine (F : Type) where
  comment : Bool
  values : List F

/-- Modelled from the spec: `oskar_string_to_array_d(line, n, par)` of
`utility/oskar_string_to_array.h`, whose source is missing (the spec leaves
the loaders to external collaborators; this is the use the caller makes of
it): it stores the first `n` values parsed from the line in `par[0..]`, leaves
the other elements of `par` as they are, and returns how many it stored. -/
def oskar_string_to_array {F : Type} (values : List F) (n : Nat) (par : Nat → F) :
    Nat × (Nat → F) :=
  (min values.length n, fun k => if k < min values.length n then values.getD k (par k) else par k)

/-- The calls made by `oskar_sky_model_load`. `resize` records the size asked
for and the status after the call; `set_source` the index, the capacity of the
temporary model at the time, the values and the status on entry; `init`,
`append` and `free` the status on entry, `append` also the number of sources. -/
inductive SkyEvent (F : Type) where
  | fopen
  | init (status : Int)
  | resize (size : Nat) (status : Int)
  | set_source (index capacity : Nat) (src : Source F) (status : Int)
  | append (num_sources : Nat) (status : Int)
  | free (status : Int)
  | fclose
deriving DecidableEq

/-- What the calls report: whether `fopen` returns a file, and the status that
`oskar_sky_model_init`, `oskar_sky_model_resize` (for a size),
`oskar_sky_model_set_source` (for an index) and `oskar_sky_model_append`
report when they are entered with the status clear. -/
structure SkyEnv where
  fopen : Bool
  init : Int
  resize : Nat → Int
  set_source : Nat → Int
  append : Int

/-- The temporary sky model: the number of sources its arrays have room for
and the sources set so far. -/
structure TempSky (F : Type) where
  capacity : Nat
  sources : Nat → Option (Source F)

/-- The variables of the loop over lines: `n`, the temporary model, `*status`
and the calls made. -/
structure SkyLoad (F : Type) where
  n : Nat
  temp : TempSky F
  status : Int
  trace : List (SkyEvent F)

/-- Modelled from the spec: `oskar_sky_model_resize(sky, size, status)` (source
missing; the use the caller makes of it): when the status is clear the model
gets room for `size` sources, or the status is set if that fails; nothing is
done when the status is already set. -/
def oskar_sky_model_resize {F : Type} (env : SkyEnv) (temp : TempSky F) (size : Nat)
    (status : Int) : TempSky F × Int :=
  if status ≠ 0 then (temp, status)
  else if env.resize size ≠ 0 then (temp, env.resize size)
  else ({ temp with capacity := size }, 0)

/-- Modelled from the spec: `oskar_sky_model_set_source(sky, index, ...,
status)` (source missing; the use the caller makes of it): when the status is
clear the source `index` of the model gets the values given, or the status is
set if the call fails; nothing is done when the status is already set. -/
def oskar_sky_model_set_source {F : Type} (env : SkyEnv) (temp : TempSky F) (index : Nat)
    (src : Source F) (status : Int) : TempSky F × Int :=
  if status ≠ 0 then (temp, status)
  else if env.set_source index ≠ 0 then (temp, env.set_source index)
  else ({ temp with sources := Function.update temp.sources index (some src) }, 0)

/-- Modelled from the spec: `oskar_sky_model_append(dst, src, status)` (source
missing; the use the caller makes of it): when the status is clear the first
`num_sources` sources of `src` are added after those of `dst`, or the status
is set if the call fails; nothing is done when the status is already set. -/
def oskar_sky_model_append {F : Type} (env : SkyEnv) (sky : List (Source F))
    (temp : TempSky F) (num_sources : Nat) (status : Int) : List (Source F) × Int :=
  if status ≠ 0 then (sky, status)
  else if env.append ≠ 0 then (sky, env.append)
  else (sky ++ (List.range num_sources).filterMap temp.sources, 0)

/-- Lines 94 and 100 with 114-117: the array `par` of eleven zeros after
`oskar_string_to_array` has stored the values of the line, and the values
passed to `oskar_sky_model_set_source`. -/
def line_source {F : Type} [Zero F] [Mul F] (deg2rad arcsec2rad : F) (line : SkyLine F) :
    Source F :=
  let par := (oskar_string_to_array line.values 11 (fun _ => 0)).2
  { ra := par 0 * deg2rad, dec := par 1 * deg2rad, I := par 2, Q := par 3, U := par 4,
    V := par 5, ref_freq := par 6, spix := par 7, fwhm_maj := par 8 * arcsec2rad,
    fwhm_min := par 9 * arcsec2rad, pa := par 10 * deg2rad }

/-- The body of the loop over lines (lines 90-119 and, word for word, lines
126-155), for one line. `.error` carries the state in which the function
returns from inside the loop (lines 109-111). -/
def load_line {F : Type} [Zero F] [Mul F] (env : SkyEnv) (deg2rad arcsec2rad : F)
    (st : SkyLoad F) (line : SkyLine F) : Except (SkyLoad F) (SkyLoad F) :=
  if line.comment then .ok st else
  if (oskar_string_to_array line.values 11 (fun _ => (0 : F))).1 < 3 then .ok st else
  let r : Except (SkyLoad F) (SkyLoad F) :=
    if st.n % 100 = 0 then
      let z := oskar_sky_model_resize env st.temp (st.n + 100) st.status
      let st1 : SkyLoad F :=
        { st with temp := z.1, status := z.2, trace := st.trace ++ [.resize (st.n + 100) z.2] }
      if st1.status ≠ 0 then
        .error { st1 with trace := st1.trace ++ [.free st1.status, .fclose] }
      else .ok st1
    else .ok st
  match r with
  | .error x => .error x
  | .ok st1 =>
    let src := line_source deg2rad arcsec2rad line
    let z := oskar_sky_model_set_source env st1.temp st1.n src st1.status
    .ok { n := st1.n + 1, temp := z.1, status := z.2,
          trace := st1.trace ++ [.set_source st1.n st1.temp.capacity src st1.status] }

/-- The loop over the lines that `oskar_getline` yields until the end of the
file (lines 88-120, 124-156). -/
def load_lines {F : Type} [Zero F] [Mul F] (env : SkyEnv) (deg2rad arcsec2rad : F) :
    List (SkyLine F) → SkyLoad F → Except (SkyLoad F) (SkyLoad F)
  | [], st => .ok st
  | line :: rest, st =>
    match load_line env deg2rad arcsec2rad st line with
    | .error x => .error x
    | .ok st1 => load_lines env deg2rad arcsec2rad rest st1

/-- What `oskar_sky_model_load` leaves: the sources of `sky`, `*status` and
the calls made. -/
structure SkyResult (F : Type) where
  sky : List (Source F)
  status : Int
  trace : List (SkyEvent F)

/-- Lines 159-168: record the number of sources, append the temporary model to
`sky`, free it and close the file. -/
def finish_load {F : Type} (env : SkyEnv) (sky : List (Source F)) (st : SkyLoad F) :
    SkyResult F :=
  let a := oskar_sky_model_append env sky st.temp st.n st.status
  { sky := a.1, status := a.2,
    trace := st.trace ++ [.append st.n st.status, .free a.2, .fclose] }

/-- The function `oskar_sky_model_load` (lines 48-169), called with non-null
pointers: `sky` holds the sources of the model, `type` is what
`oskar_sky_model_type(sky)` returns, `lines` are the lines of the file,
`status` is `*status` on entry, and `deg2rad`, `arcsec2rad` are the two
constants of lines 45-46. The temporary model is initialised with no room
(line 84). -/
def oskar_sky_model_load {F : Type} [Zero F] [Mul F] (codes : SkyCodes) (env : SkyEnv)
    (deg2rad arcsec2rad : F) (sky : List (Source F)) (type : Int) (lines : List (SkyLine F))
    (status : Int) : SkyResult F :=
  if status ≠ 0 then { sky := sky, status := status, trace := [] } else
  if type ≠ codes.OSKAR_SINGLE ∧ type ≠ codes.OSKAR_DOUBLE then
    { sky := sky, status := codes.OSKAR_ERR_BAD_DATA_TYPE, trace := [] } else
  if ¬ env.fopen then { sky := sky, status := codes.OSKAR_ERR_FILE_IO, trace := [.fopen] } else
  let st0 : SkyLoad F :=
    { n := 0, temp := { capacity := 0, sources := fun _ => none }, status := env.init,
      trace := [.fopen, .init status] }
  if type = codes.OSKAR_DOUBLE then
    match load_lines env deg2rad arcsec2rad lines st0 with
    | .error x => { sky := sky, status := x.status, trace := x.trace }
    | .ok st => finish_load env sky st
  else if type = codes.OSKAR_SINGLE then
    match load_lines env deg2rad arcsec2rad lines st0 with
    | .error x => { sky := sky, status := x.status, trace := x.trace }
    | .ok st => finish_load env sky st
  else finish_load env sky st0

/-- A line is accepted: it does not begin with `#` and at least three values
are parsed from it. -/
def SkyLine.accepted {F : Type} (line : SkyLine F) : Bool :=
  !line.comment && decide (3 ≤ line.values.length)

/-- The indices given to `oskar_sky_model_set_source`, in the order of the
calls. -/
def set_source_indices {F : Type} : List (SkyEvent F) → List Nat
  | [] => []
  | .set_source index _ _ _ :: l => index :: set_source_indices l
  | _ :: l => set_source_indices l

/-- Values for the constants in the examples of the sky loader. -/
def example_sky_codes : SkyCodes :=
  { OSKAR_SINGLE := 4, OSKAR_DOUBLE := 8, OSKAR_ERR_BAD_DATA_TYPE := -8, OSKAR_ERR_FILE_IO := -3 }

/-- An environment for the sky loader in which every call succeeds. -/
def example_sky_env : SkyEnv :=
  { fopen := true, init := 0, resize := fun _ => 0, set_source := fun _ => 0, append := 0 }

/-- A file of four lines: a comment, a source with three values, a line with
two values, and a source with all eleven values. -/
def example_sky_file : List (SkyLine ℚ) :=
  [⟨true, []⟩, ⟨false, [10, 20, 3]⟩, ⟨false, [1, 2]⟩,
   ⟨false, [30, 40, 5, 1, 2, 3, 100, 7, 60, 30, 90]⟩]

/-- The source that a line stands for: its values `p0 .. p10`, a value that
the line does not have being 0, with the angles converted to radians. -/
def converted_source {F : Type} [Zero F] [Mul F] (deg2rad arcsec2rad : F) (line : SkyLine F) :
    Source F :=
  { ra := line.values.getD 0 0 * deg2rad, dec := line.values.getD 1 0 * deg2rad,
    I := line.values.getD 2 0, Q := line.values.getD 3 0, U := line.values.getD 4 0,
    V := line.values.getD 5 0, ref_freq := line.values.getD 6 0,
    spix := line.values.getD 7 0, fwhm_maj := line.values.getD 8 0 * arcsec2rad,
    fwhm_min := line.values.getD 9 0 * arcsec2rad, pa := line.values.getD 10 0 * deg2rad }

/-- Every call of `oskar_sky_model_set_source` found the temporary model with
room for `100 * (index / 100 + 1)` sources. -/
def CapacityOk {F : Type} (trace : List (SkyEvent F)) : Prop :=
  ∀ index capacity src status, SkyEvent.set_source index capacity src status ∈ trace →
    capacity = 100 * (index / 100 + 1)

/-- No call of `oskar_sky_model_resize` has left the status set. -/
def ResizesOk {F : Type} (trace : List (SkyEvent F)) : Prop :=
  ∀ size status, SkyEvent.resize size status ∈ trace → status = 0

/-- What holds of the loop over lines however the calls turn out. While the
loop runs, the temporary model has room for `n` sources rounded up to a
multiple of 100, every source has been set within the room made for it, and no
resize has left the status set; when the function returns from inside the
loop, the status is set and the last three calls are the resize that left it
set, `oskar_sky_model_free` and `fclose`. -/
def CapacityInv {F : Type} : Except (SkyLoad F) (SkyLoad F) → Prop
  | .ok st => st.temp.capacity = 100 * ((st.n + 99) / 100) ∧ CapacityOk st.trace ∧
      ResizesOk st.trace
  | .error x => x.status ≠ 0 ∧ ∃ W size, x.trace =
      W ++ [.resize size x.status, .free x.status, .fclose] ∧ CapacityOk W ∧ ResizesOk W

/-- An environment for the sky loader in which every resize fails with the
status -5 and every other call succeeds. -/
def example_sky_no_room : SkyEnv :=
  { example_sky_env with resize := fun _ => -5 }

/-! ## The rows of the element pattern (station/src/oskar_element_model_load.c, lines 131-366) -/

/-- The constant `M_PI` of line 51, as the exact value of its decimal literal. -/
def M_PI : ℚ := 314159265358979323846 / 100000000000000000000

/-- The constant `DEG2RAD` of line 54. -/
def DEG2RAD : ℚ := M_PI / 180

/-- The type constants of `oskar_global.h` named in lines 191-210 and 222-366;
the header is not among the sources, so the values are parameters. -/
structure RowCodes where
  OSKAR_SINGLE : Int
  OSKAR_DOUBLE : Int

/-- One line of the pattern file as the `sscanf` of line 139 leaves it: `a` is
the number of values converted, the others are the six values (the angles in
degrees). -/
structure PatternLine where
  a : Int
  theta : ℚ
  phi : ℚ
  abs_theta : ℚ
  phase_theta : ℚ
  abs_phi : ℚ
  phase_phi : ℚ

/-- The count `n` of line 59 and the seven temporary arrays of lines 76-77.
An array is written only at index `n`, just before `n` is incremented; each
list holds the elements written so far, those of the indices `0 .. n-1`. -/
structure Surface where
  n : Nat
  m_theta : List ℚ
  m_phi : List ℚ
  m_theta_re : List ℚ
  m_theta_im : List ℚ
  m_phi_re : List ℚ
  m_phi_im : List ℚ
  weight : List ℚ

/-- What the library calls of lines 131-366 report: the status of the `k`-th of
the seven `oskar_mem_realloc` calls for a given size, the functions `cos`, `sin`
and `pow` of `math.h`, and the rounding of a `double` to a `float`. -/
structure RowsEnv where
  realloc : Nat → Nat → Int
  cos : ℚ → ℚ
  sin : ℚ → ℚ
  pow : ℚ → ℚ → ℚ
  to_float : ℚ → ℚ

/-- Where lines 131-366 stand: `done` is line 367 reached (or the `goto cleanup`
of line 223), `failed` is a `return err;`, `out_of_bounds` is a read of `m_phi`
at an index outside `0 .. n-1` (the last of `reads`), `running` is a loop that
has not ended within the number of passes looked at. `reads` lists the reads of
`m_phi` made by the loop conditions of lines 229 and 263 (298 and 332): the
index and the value of `n` when the read is made. -/
inductive Scan where
  | done (s : Surface) (reads : List (Int × Nat))
  | failed (err : Int) (reads : List (Int × Nat))
  | out_of_bounds (reads : List (Int × Nat))
  | running (s : Surface) (reads : List (Int × Nat))

/-- The calls of `oskar_mem_realloc` for the arrays `ks` with the new size, each
followed by `if (err) return err;` (lines 167-180): the first status that is
not 0, or 0. -/
def realloc_all (env : RowsEnv) (size : Nat) : List Nat → Int
  | [] => 0
  | k :: rest => if env.realloc k size ≠ 0 then env.realloc k size
    else realloc_all env size rest

/-- Lines 163-181 (also 232-251, 266-285): `if (n % 100 == 0)` the seven arrays
are resized to `n + 100`. -/
def ensure_space (env : RowsEnv) (n : Nat) : Int :=
  if n % 100 = 0 then realloc_all env (n + 100) [0, 1, 2, 3, 4, 5, 6] else 0

/-- The value an element of the arrays takes when `x` is assigned to it: a
`float` in the `OSKAR_SINGLE` branch, the `double` itself otherwise. -/
def stored (env : RowsEnv) (single : Bool) (x : ℚ) : ℚ :=
  if single then env.to_float x else x

/-- The loop body of lines 133-215 for one line of the file: the surface after
it, or the status returned. -/
def read_line (codes : RowCodes) (env : RowsEnv) (type : Int) (dbi : Bool)
    (ignore_below_horizon ignore_at_poles : Bool) (l : PatternLine) (s : Surface) :
    Except Int Surface :=
  if l.a ≠ 6 then .ok s else
  if ignore_below_horizon ∧ l.theta > 90 then .ok s else
  if ignore_at_poles ∧ (l.theta < 1 / 1000000 ∨ l.theta > 180 - 1 / 1000000) then .ok s else
  let theta := l.theta * DEG2RAD
  let phi := l.phi * DEG2RAD
  let phase_theta := l.phase_theta * DEG2RAD
  let phase_phi := l.phase_phi * DEG2RAD
  if ensure_space env s.n ≠ 0 then .error (ensure_space env s.n) else
  let abs_theta := if dbi then env.pow 10 (l.abs_theta / 10) else l.abs_theta
  let abs_phi := if dbi then env.pow 10 (l.abs_phi / 10) else l.abs_phi
  let theta_re := abs_theta * env.cos phase_theta
  let theta_im := abs_theta * env.sin phase_theta
  let phi_re := abs_phi * env.cos phase_phi
  let phi_im := abs_phi * env.sin phase_phi
  if type = codes.OSKAR_SINGLE ∨ type = codes.OSKAR_DOUBLE then
    let single : Bool := type = codes.OSKAR_SINGLE
    .ok { n := s.n + 1
          m_theta := s.m_theta ++ [stored env single theta]
          m_phi := s.m_phi ++ [stored env single phi]
          m_theta_re := s.m_theta_re ++ [stored env single theta_re]
          m_theta_im := s.m_theta_im ++ [stored env single theta_im]
          m_phi_re := s.m_phi_re ++ [stored env single phi_re]
          m_phi_im := s.m_phi_im ++ [stored env single phi_im]
          weight := s.weight ++ [stored env single 1] }
  else .ok { s with n := s.n + 1 }

/-- The loop of lines 131-216 over the lines of the file after the first. -/
def read_lines (codes : RowCodes) (env : RowsEnv) (type : Int) (dbi : Bool)
    (ignore_below_horizon ignore_at_poles : Bool) :
    List PatternLine → Surface → Except Int Surface
  | [], s => .ok s
  | l :: rest, s =>
    match read_line codes env type dbi ignore_below_horizon ignore_at_poles l s with
    | .error err => .error err
    | .ok s' => read_lines codes env type dbi ignore_below_horizon ignore_at_poles rest s'

/-- The read `m_phi[i]` of a loop condition: the element, if `i` is one of the
indices `0 .. n-1`. -/
def read_phi (s : Surface) (i : Int) : Option ℚ :=
  if 0 ≤ i ∧ i < s.n then s.m_phi[i.toNat]? else none

/-- Lines 253-259 (also 287-293): element `i` of each array is copied to
element `n`, `shift` being added to the one of `m_phi`, and `n` is incremented. -/
def copy_row (env : RowsEnv) (single : Bool) (shift : ℚ) (s : Surface) (i : Nat) : Surface :=
  { n := s.n + 1
    m_theta := s.m_theta ++ [s.m_theta.getD i 0]
    m_phi := s.m_phi ++ [stored env single (s.m_phi.getD i 0 + shift)]
    m_theta_re := s.m_theta_re ++ [s.m_theta_re.getD i 0]
    m_theta_im := s.m_theta_im ++ [s.m_theta_im.getD i 0]
    m_phi_re := s.m_phi_re ++ [s.m_phi_re.getD i 0]
    m_phi_im := s.m_phi_im ++ [s.m_phi_im.getD i 0]
    weight := s.weight ++ [s.weight.getD i 0] }

/-- One of the two `while` loops of lines 229-294 (298-363), at most `passes`
evaluations of its condition: `m_phi[i]` is read and tested with `test`; when
the test holds the arrays are grown if needed, row `i` is copied to row `n`
with `shift` added to phi, and `i` moves by `step` (`--i` or `++i`). -/
def scan (env : RowsEnv) (single : Bool) (test : ℚ → Bool) (shift : ℚ) (step : Int) :
    Nat → Int → Surface → List (Int × Nat) → Scan
  | 0, _, s, reads => .running s reads
  | passes + 1, i, s, reads =>
    match read_phi s i with
    | none => .out_of_bounds (reads ++ [(i, s.n)])
    | some phi =>
      if test phi then
        if ensure_space env s.n ≠ 0 then .failed (ensure_space env s.n) (reads ++ [(i, s.n)])
        else scan env single test shift step passes (i + step)
          (copy_row env single shift s i.toNat) (reads ++ [(i, s.n)])
      else .done s (reads ++ [(i, s.n)])

/-- The two loops of one branch of lines 225-366: the downward scan from
`i = n - 1` while `m_phi[i] > 2 * M_PI - overlap`, then the upward scan from
`i = 0` while `m_phi[i] < overlap`. -/
def copy_boundaries (env : RowsEnv) (single : Bool) (overlap : ℚ) (passes : Nat)
    (s : Surface) : Scan :=
  match scan env single (fun phi => phi > 2 * M_PI - overlap) (-(2 * M_PI)) (-1) passes
      ((s.n : Int) - 1) s [] with
  | .done s' reads =>
    scan env single (fun phi => phi < overlap) (2 * M_PI) 1 passes 0 s' reads
  | r => r

/-- Lines 131-366 of `oskar_element_model_load`: the rows of the file are read
and filtered, and, if any was accepted, the rows near the phi boundaries are
copied. `overlap`, `ignore_below_horizon` and `ignore_at_poles` are the locals
of lines 65-69. -/
def load_rows (codes : RowCodes) (env : RowsEnv) (type : Int) (dbi : Bool)
    (lines : List PatternLine) (passes : Nat) : Scan :=
  let overlap : ℚ := 6 * M_PI / 180
  let ignore_below_horizon : Bool := true
  let ignore_at_poles : Bool := true
  match read_lines codes env type dbi ignore_below_horizon ignore_at_poles lines
      ⟨0, [], [], [], [], [], [], []⟩ with
  | .error err => .failed err []
  | .ok s =>
    if s.n = 0 then .done s []
    else if type = codes.OSKAR_SINGLE then copy_boundaries env true overlap passes s
    else if type = codes.OSKAR_DOUBLE then copy_boundaries env false overlap passes s
    else .done s []

/-- Type constants for the examples of the rows. -/
def example_row_codes : RowCodes := { OSKAR_SINGLE := 4, OSKAR_DOUBLE := 8 }

/-- An environment in which every `oskar_mem_realloc` succeeds; the values of
`cos`, `sin` and `pow` play no part in the examples and are set to 1, floats
are taken to hold every value. -/
def example_rows_env : RowsEnv :=
  { realloc := fun _ _ => 0
    cos := fun _ => 1
    sin := fun _ => 1
    pow := fun _ _ => 1
    to_float := fun x => x }

/-- A pattern file with one data row: theta 45 degrees, phi 355 degrees. -/
def example_pattern_file : List PatternLine :=
  [{ a := 6, theta := 45, phi := 355, abs_theta := 1, phase_theta := 0,
     abs_phi := 1, phase_phi := 0 }]

/-- A pattern file with rows at phi 0, 180 and 355 degrees (theta 45). -/
def example_pattern_cut : List PatternLine :=
  [{ a := 6, theta := 45, phi := 0, abs_theta := 1, phase_theta := 0,
     abs_phi := 1, phase_phi := 0 },
   { a := 6, theta := 45, phi := 180, abs_theta := 1, phase_theta := 0,
     abs_phi := 1, phase_phi := 0 },
   { a := 6, theta := 45, phi := 355, abs_theta := 1, phase_theta := 0,
     abs_phi := 1, phase_phi := 0 }]
/-- Whether lines 131-366 end in a read of `m_phi` outside `0 .. n-1`. -/
def Scan.is_out_of_bounds : Scan → Bool
  | .out_of_bounds _ => true
  | _ => false

/-! ## Back-substitution (extern/dierckx/src/fpback.c) -/

/-- The values `lo, lo + 1, ..., hi` that the control variable of
`for (x = lo; x <= hi; ++x)` takes when the body assigns neither `x` nor `hi`. -/
def int_range (lo hi : Int) : List Int :=
  (List.range (hi + 1 - lo).toNat).map (fun (t : Nat) => lo + (t : Int))

/-- The loop of lines 29-33 of `fpback.c` over the values of `l`, on the
variables `m` and `store`:
`for (l = 1; l <= i1; ++l) { ++m; store -= c[m] * a[i + (l + 1) * nest]; }`.
`a` and `c` are the adjusted pointers of lines 14-16. -/
def fpback_inner {F : Type} [Field F] (a c : Int → F) (i nest : Int) :
    List Int → Int × F → Int × F
  | [], ms => ms
  | l :: ls, (m, store) =>
    fpback_inner a c i nest ls (m + 1, store - c (m + 1) * a (i + (l + 1) * nest))

/-- The loop of lines 23-36 of `fpback.c` over the values of `j`, on the array
`c` and the variable `i`; `a`, `z` and `c` are the adjusted pointers. -/
def fpback_outer {F : Type} [Field F] (a z : Int → F) (k1 nest : Int) :
    List Int → (Int → F) × Int → (Int → F) × Int
  | [], ci => ci
  | j :: js, (c, i) =>
    let store := z i
    let i1 := if j ≤ k1 then j - 1 else k1
    let m := i
    let ms := fpback_inner a c i nest (int_range 1 i1) (m, store)
    fpback_outer a z k1 nest js (Function.update c i (ms.2 / a (i + nest)), i - 1)

/-- The function body of `fpback` (lines 19-36 of `fpback.c`) on the adjusted
pointers: the array `c` when the function returns. -/
def fpback_body {F : Type} [Field F] (a z : Int → F) (n k : Int) (c : Int → F) (nest : Int) :
    Int → F :=
  let k1 := k - 1
  let c2 := Function.update c n (z n / a (n + nest))
  let i := n - 1
  if i = 0 then c2 else (fpback_outer a z k1 nest (int_range 2 n) (c2, i)).1

/-- The function `fpback` (lines 7-37 of `fpback.c`) in exact arithmetic over a
field: the array `c` when it returns. An array is the function from the offset
to the element, the offset being relative to the pointer passed by the caller;
lines 14-16 (`--c; --z; a -= (1 + nest);`) move the three pointers. `a` and `z`
are `const` and read only, and `c` is taken not to overlap them. -/
def fpback {F : Type} [Field F] (a z : Int → F) (n k : Int) (c : Int → F) (nest : Int) :
    Int → F :=
  fun x => fpback_body (fun y => a (y - (1 + nest))) (fun y => z (y - 1)) n k
    (fun y => c (y - 1)) nest (x + 1)

/-- The entry `a(i, j)` of the banded matrix, stored at
`a[(i - 1) + (j - 1) * nest]`. -/
def band {F : Type} (a : Int → F) (nest : Int) (i j : Int) : F :=
  a ((i - 1) + (j - 1) * nest)

/-- Row `r` of the triangular system on the adjusted arrays:
the sum over `l = 0 .. min(k1, n - r)` of `a[r + (l + 1) * nest] * c[r + l]`
is `z[r]`. -/
def RowSolved {F : Type} [Field F] (a z c : Int → F) (k1 n nest : Int) (r : Int) : Prop :=
  ∑ l in Finset.range ((min k1 (n - r)).toNat + 1),
    a (r + ((l : Int) + 1) * nest) * c (r + (l : Int)) = z r

/-- A 2 x 2 system of bandwidth 2 with `nest = 2`: the matrix `[[2, 1], [0, 4]]`
stored by diagonals. -/
def example_band : Int → ℚ := fun x =>
  if x = 0 then 2 else if x = 1 then 4 else if x = 2 then 1 else 0

/-- The right-hand side `(5, 8)` of the example system. -/
def example_rhs : Int → ℚ := fun x => if x = 0 then 5 else if x = 1 then 8 else 0

/-! ## The calls of one thread in the chunk loop -/

/-- The calls that one action of thread `u` adds to the sequence of calls made
by thread `t`, each with the chunk index of the iteration the thread is in:
the calls the action appends to the trace when `u` is `t`, none otherwise. -/
def step_calls (env : Env α n) (settings : Settings) (num_devices num_sky_chunks : Nat)
    (c : Nat) (frequency : ℚ) (t : Nat) (L : LoopState α n) (u : Nat) : List (Nat × Event) :=
  if u = t then
    match L.task t with
    | some (i, _) =>
      ((chunk_step env settings num_devices num_sky_chunks c frequency L u).st.trace.drop
        L.st.trace.length).map (fun e => (i, e))
    | none => []
  else []

/-- The calls made by thread `t`, in the order it makes them, while the chunk
loop of channel `c` runs from `L` under the schedule `picks`. -/
def calls_of_thread (env : Env α n) (settings : Settings) (num_devices num_sky_chunks : Nat)
    (c : Nat) (frequency : ℚ) (t : Nat) : List Nat → LoopState α n → List (Nat × Event)
  | [], _ => []
  | u :: rest, L =>
    step_calls env settings num_devices num_sky_chunks c frequency t L u ++
      calls_of_thread env settings num_devices num_sky_chunks c frequency t rest
        (chunk_step env settings num_devices num_sky_chunks c frequency L u)

/-! ## The calls of the loop over channels -/

/-- Whether a call is the correlation step of chunk `i`. -/
def Event.correlates (i : Nat) : Event → Bool
  | .interferometer _ j _ _ => decide (j = i)
  | _ => false

/-- The calls of lines 196-199 for the lanes `0 .. D-1` of channel `c`, each
entered with the status clear. -/
def lane_fold_calls (c : Nat) : Nat → List Event
  | 0 => []
  | D + 1 => lane_fold_calls c D ++ [.mem_add_global c D 0, .mem_clear_contents D 0]

/-- The calls of the fold of channel `c` (lines 192-200) on `D` lanes, each
entered with the status clear. -/
def fold_calls (D c : Nat) : List Event :=
  .get_channel_amps c 0 :: lane_fold_calls c D

/-- The calls of the loop over the channels `0 .. C-1` when the chunk loop of
channel `c` makes the calls `segs c`: channel by channel, the calls of the
chunk loop followed by the calls of the fold. -/
def channel_calls (D : Nat) (segs : Nat → List Event) : Nat → List Event
  | 0 => []
  | C + 1 => channel_calls D segs C ++ (segs C ++ fold_calls D C)

/-- Whether a stage of the driver runs to its end. -/
def runs_to_end : Except (Exit × State α n) (State α n) → Bool
  | .ok _ => true
  | .error _ => false

/-- The bookkeeping of the chunk loop when no iteration is skipped, `k` being
the number of calls made before the loop: an iteration that a thread is in has
been handed out, no two threads are in the same iteration, and the correlation
step has been called once for each iteration handed out that no thread has
still to correlate, and not at all for the others. -/
structure Once (k : Nat) (L : LoopState α n) : Prop where
  le : k ≤ L.st.trace.length
  held : ∀ t i pc, L.task t = some (i, pc) → i < L.next
  unique : ∀ t u i pc pc', L.task t = some (i, pc) → L.task u = some (i, pc') → t = u
  zero : ∀ i, L.next ≤ i → (L.st.trace.drop k).countP (Event.correlates i) = 0
  owed : ∀ t i pc, L.task t = some (i, pc) → pc ≠ Pc.add →
    (L.st.trace.drop k).countP (Event.correlates i) = 0
  done : ∀ i, i < L.next → (∀ t pc, L.task t = some (i, pc) → pc = Pc.add) →
    (L.st.trace.drop k).countP (Event.correlates i) = 1

/-! ## Basic facts -/

@[simp]
theorem State.log_error (s : State α n) (e : Event) : (s.log e).error = s.error := rfl

@[simp]
theorem State.log_vis_global (s : State α n) (e : Event) : (s.log e).vis_global = s.vis_global :=
  rfl

@[simp]
theorem State.log_vis_acc (s : State α n) (e : Event) : (s.log e).vis_acc = s.vis_acc := rfl

@[simp]
theorem State.log_vis_temp (s : State α n) (e : Event) : (s.log e).vis_temp = s.vis_temp := rfl

@[simp]
theorem State.log_trace (s : State α n) (e : Event) : (s.log e).trace = s.trace ++ [e] := rfl

theorem oskar_mem_add_ok (a b c : Fin n → α) : oskar_mem_add a b c 0 = b + c := by
  funext k
  simp [oskar_mem_add]

theorem oskar_mem_clear_contents_ok (a : Fin n → α) : oskar_mem_clear_contents a 0 = 0 := by
  funext k
  simp [oskar_mem_clear_contents]

/-! ## The fold of one channel -/

theorem fold_lane_ok (c : Nat) (s : State α n) (i : Nat) (h : s.error = 0) :
    (fold_lane c s i).error = 0 ∧
    (fold_lane c s i).vis_global = Function.update s.vis_global c (s.vis_global c + s.vis_acc i) ∧
    (fold_lane c s i).vis_acc = Function.update s.vis_acc i 0 ∧
    (fold_lane c s i).vis_temp = s.vis_temp := by
  simp [fold_lane, h, oskar_mem_add_ok, oskar_mem_clear_contents_ok]

theorem fold_range_ok (c : Nat) (s : State α n) (h : s.error = 0) (D : Nat) :
    ((List.range D).foldl (fold_lane c) s).error = 0 ∧
    ((List.range D).foldl (fold_lane c) s).vis_global c =
      s.vis_global c + ∑ i ∈ Finset.range D, s.vis_acc i ∧
    (∀ c', c' ≠ c → ((List.range D).foldl (fold_lane c) s).vis_global c' = s.vis_global c') ∧
    (∀ j, j < D → ((List.range D).foldl (fold_lane c) s).vis_acc j = 0) ∧
    (∀ j, D ≤ j → ((List.range D).foldl (fold_lane c) s).vis_acc j = s.vis_acc j) ∧
    ((List.range D).foldl (fold_lane c) s).vis_temp = s.vis_temp := by
  induction D with
  | zero => simp [h]
  | succ D ih =>
    obtain ⟨h1, h2, h3, h4, h5, h6⟩ := ih
    rw [List.range_succ, List.foldl_append, List.foldl_cons, List.foldl_nil]
    obtain ⟨g1, g2, g3, g4⟩ := fold_lane_ok c _ D h1
    refine ⟨g1, ?_, ?_, ?_, ?_, ?_⟩
    · rw [g2, Function.update_same, h2, h5 D le_rfl, Finset.sum_range_succ, add_assoc]
    · intro c' hc
      rw [g2, Function.update_noteq hc, h3 c' hc]
    · intro j hj
      rw [g3]
      by_cases hjD : j = D
      · subst hjD
        simp
      · rw [Function.update_noteq hjD]
        exact h4 j (by omega)
    · intro j hj
      rw [g3, Function.update_noteq (by omega), h5 j (by omega)]
    · rw [g4, h6]

theorem fold_into_global_ok (D c : Nat) (s : State α n) (h : s.error = 0) :
    (fold_into_global D c s).error = 0 ∧
    (fold_into_global D c s).vis_global c =
      s.vis_global c + ∑ i ∈ Finset.range D, s.vis_acc i ∧
    (∀ c', c' ≠ c → (fold_into_global D c s).vis_global c' = s.vis_global c') ∧
    (∀ j, j < D → (fold_into_global D c s).vis_acc j = 0) ∧
    (∀ j, D ≤ j → (fold_into_global D c s).vis_acc j = s.vis_acc j) ∧
    (fold_into_global D c s).vis_temp = s.vis_temp := by
  have := fold_range_ok c (s.log (.get_channel_amps c s.error)) (by simpa using h) D
  simpa [fold_into_global] using this

/-! ## One action of one thread -/

theorem chunk_step_idle (env : Env α n) (settings : Settings) (D N c : Nat) (f : ℚ)
    (L : LoopState α n) (t : Nat) (hf : L.fault = false) (ht : L.task t = none) :
    chunk_step env settings D N c f L t =
      if L.next < N then
        { L with next := L.next + 1, task := Function.update L.task t (some (L.next, Pc.check)) }
      else L := by
  simp [chunk_step, hf, ht]

theorem chunk_step_check (env : Env α n) (settings : Settings) (D N c : Nat) (f : ℚ)
    (L : LoopState α n) (t i : Nat) (hf : L.fault = false)
    (ht : L.task t = some (i, Pc.check)) :
    chunk_step env settings D N c f L t =
      if L.st.error ≠ 0 then { L with task := Function.update L.task t none }
      else { L with task := Function.update L.task t (some (i, Pc.bind)) } := by
  simp [chunk_step, hf, ht]

theorem chunk_step_bind (env : Env α n) (settings : Settings) (D N c : Nat) (f : ℚ)
    (L : LoopState α n) (t i : Nat) (hf : L.fault = false)
    (ht : L.task t = some (i, Pc.bind)) (htD : t < D) :
    chunk_step env settings D N c f L t =
      { L with
        st := { (L.st.log (.cudaSetDevice (settings.cuda_device_ids t))) with
                error := env.cudaSetDevice_chunk c i (settings.cuda_device_ids t) }
        task := Function.update L.task t (some (i, Pc.corr)) } := by
  simp [chunk_step, hf, ht, htD]

theorem chunk_step_corr (env : Env α n) (settings : Settings) (D N c : Nat) (f : ℚ)
    (L : LoopState α n) (t i : Nat) (hf : L.fault = false)
    (ht : L.task t = some (i, Pc.corr)) (htD : t < D) :
    chunk_step env settings D N c f L t =
      { L with
        st := { (L.st.log (.interferometer t i f L.st.error)) with
                vis_temp := Function.update L.st.vis_temp t
                  (oskar_interferometer (env.interferometer c i f) (L.st.vis_temp t)
                    L.st.error).1
                error := (oskar_interferometer (env.interferometer c i f) (L.st.vis_temp t)
                    L.st.error).2 }
        task := Function.update L.task t (some (i, Pc.add)) } := by
  simp [chunk_step, hf, ht, htD]

theorem chunk_step_add (env : Env α n) (settings : Settings) (D N c : Nat) (f : ℚ)
    (L : LoopState α n) (t i : Nat) (hf : L.fault = false)
    (ht : L.task t = some (i, Pc.add)) (htD : t < D) :
    chunk_step env settings D N c f L t =
      { L with
        st := { (L.st.log (.mem_add_acc t L.st.error)) with
                vis_acc := Function.update L.st.vis_acc t
                  (oskar_mem_add (L.st.vis_acc t) (L.st.vis_acc t) (L.st.vis_temp t)
                    L.st.error) }
        task := Function.update L.task t none } := by
  simp [chunk_step, hf, ht, htD]

theorem sum_range_update_add {β : Type} [AddCommMonoid β] (D t : Nat) (htD : t < D)
    (w w' : Nat → β) (v : β) (hne : ∀ u, u ≠ t → w' u = w u) (ht : w' t = w t + v) :
    ∑ u ∈ Finset.range D, w' u = ∑ u ∈ Finset.range D, w u + v := by
  have hmem : t ∈ Finset.range D := Finset.mem_range.mpr htD
  have hw : w' = Function.update w t (w t + v) := by
    funext u
    by_cases hu : u = t
    · subst hu
      simp [ht]
    · simp [Function.update_noteq hu, hne u hu]
  rw [hw, Finset.sum_update_of_mem hmem, Finset.sum_eq_add_sum_diff_singleton hmem w]
  abel

theorem sum_range_update_same {β : Type} [AddCommMonoid β] (D t : Nat) (htD : t < D)
    (w w' : Nat → β) (hne : ∀ u, u ≠ t → w' u = w u) (ht : w' t = w t) :
    ∑ u ∈ Finset.range D, w' u = ∑ u ∈ Finset.range D, w u := by
  have := sum_range_update_add D t htD w w' 0 hne (by simpa using ht)
  simpa using this

/-! ## The chunk loop when every call succeeds -/

theorem loop_inv_entry (env : Env α n) (D N c : Nat) (f : ℚ) (all : List Nat)
    (s : State α n) (h : s.error = 0) : LoopInv env D N c f all s (loop_entry s) where
  fault := rfl
  error := h
  vis_global := rfl
  next_le := Nat.zero_le _
  temp := by intro t i ht; simp [loop_entry] at ht
  busy := by intro t ht; simp [loop_entry] at ht
  sum := by simp [loop_entry, pending]

theorem loop_inv_step (env : Env α n) (settings : Settings) (D N c : Nat) (f : ℚ)
    (all : List Nat) (s : State α n)
    (hbind : ∀ i id, env.cudaSetDevice_chunk c i id = 0)
    (hcorr : ∀ i, (env.interferometer c i f).1 = 0)
    (L : LoopState α n) (t : Nat) (htD : t < D) (ht : t ∈ all)
    (inv : LoopInv env D N c f all s L) :
    LoopInv env D N c f all s (chunk_step env settings D N c f L t) := by
  rcases htask : L.task t with _ | ⟨i, pc⟩
  · rw [chunk_step_idle env settings D N c f L t inv.fault htask]
    by_cases hn : L.next < N
    · rw [if_pos hn]
      refine ⟨inv.fault, inv.error, inv.vis_global, hn, ?_, ?_, ?_⟩
      · intro u j hu
        by_cases hut : u = t
        · subst hut
          simp at hu
        · simp only [Function.update_noteq hut] at hu
          exact inv.temp u j hu
      · intro u hu
        by_cases hut : u = t
        · subst hut
          exact ht
        · simp only [Function.update_noteq hut] at hu
          exact inv.busy u hu
      · show ∑ u ∈ Finset.range D, (L.st.vis_acc u +
            pending (fun i => (env.interferometer c i f).2)
              (Function.update L.task t (some (L.next, Pc.check)) u)) = _
        rw [sum_range_update_add D t htD
          (fun u => L.st.vis_acc u + pending (fun i => (env.interferometer c i f).2) (L.task u))
          _ ((env.interferometer c L.next f).2), inv.sum, Finset.sum_range_succ, add_assoc]
        · intro u hu
          simp [Function.update_noteq hu]
        · simp [htask, pending]
    · rw [if_neg hn]
      exact inv
  · cases pc with
    | check =>
      rw [chunk_step_check env settings D N c f L t i inv.fault htask]
      simp only [inv.error, ne_eq, not_true_eq_false, if_false]
      refine ⟨inv.fault, inv.error, inv.vis_global, inv.next_le, ?_, ?_, ?_⟩
      · intro u j hu
        by_cases hut : u = t
        · subst hut
          simp at hu
        · simp only [Function.update_noteq hut] at hu
          exact inv.temp u j hu
      · intro u hu
        by_cases hut : u = t
        · subst hut
          exact ht
        · simp only [Function.update_noteq hut] at hu
          exact inv.busy u hu
      · show ∑ u ∈ Finset.range D, (L.st.vis_acc u +
            pending (fun i => (env.interferometer c i f).2)
              (Function.update L.task t (some (i, Pc.bind)) u)) = _
        rw [sum_range_update_same D t htD
          (fun u => L.st.vis_acc u + pending (fun i => (env.interferometer c i f).2) (L.task u))
          _, inv.sum]
        · intro u hu
          simp [Function.update_noteq hu]
        · simp [htask, pending]
    | bind =>
      rw [chunk_step_bind env settings D N c f L t i inv.fault htask htD]
      refine ⟨inv.fault, hbind _ _, inv.vis_global, inv.next_le, ?_, ?_, ?_⟩
      · intro u j hu
        by_cases hut : u = t
        · subst hut
          simp at hu
        · simp only [Function.update_noteq hut] at hu
          exact inv.temp u j hu
      · intro u hu
        by_cases hut : u = t
        · subst hut
          exact ht
        · simp only [Function.update_noteq hut] at hu
          exact inv.busy u hu
      · show ∑ u ∈ Finset.range D, (L.st.vis_acc u +
            pending (fun i => (env.interferometer c i f).2)
              (Function.update L.task t (some (i, Pc.corr)) u)) = _
        rw [sum_range_update_same D t htD
          (fun u => L.st.vis_acc u + pending (fun i => (env.interferometer c i f).2) (L.task u))
          _, inv.sum]
        · intro u hu
          simp [Function.update_noteq hu]
        · simp [htask, pending]
    | corr =>
      rw [chunk_step_corr env settings D N c f L t i inv.fault htask htD]
      have hr : oskar_interferometer (env.interferometer c i f) (L.st.vis_temp t) L.st.error =
          ((env.interferometer c i f).2, 0) := by
        simp [oskar_interferometer, inv.error, hcorr i]
      rw [hr]
      refine ⟨inv.fault, rfl, inv.vis_global, inv.next_le, ?_, ?_, ?_⟩
      · intro u j hu
        by_cases hut : u = t
        · subst hut
          simp at hu
          subst hu
          simp
        · simp only [Function.update_noteq hut] at hu
          simp only [Function.update_noteq hut]
          exact inv.temp u j hu
      · intro u hu
        by_cases hut : u = t
        · subst hut
          exact ht
        · simp only [Function.update_noteq hut] at hu
          exact inv.busy u hu
      · show ∑ u ∈ Finset.range D, (L.st.vis_acc u +
            pending (fun i => (env.interferometer c i f).2)
              (Function.update L.task t (some (i, Pc.add)) u)) = _
        rw [sum_range_update_same D t htD
          (fun u => L.st.vis_acc u + pending (fun i => (env.interferometer c i f).2) (L.task u))
          _, inv.sum]
        · intro u hu
          simp [Function.update_noteq hu]
        · simp [htask, pending]
    | add =>
      rw [chunk_step_add env settings D N c f L t i inv.fault htask htD]
      rw [inv.error, oskar_mem_add_ok, inv.temp t i htask]
      refine ⟨inv.fault, inv.error, inv.vis_global, inv.next_le, ?_, ?_, ?_⟩
      · intro u j hu
        by_cases hut : u = t
        · subst hut
          simp at hu
        · simp only [Function.update_noteq hut] at hu
          exact inv.temp u j hu
      · intro u hu
        by_cases hut : u = t
        · subst hut
          simp at hu
        · simp only [Function.update_noteq hut] at hu
          exact inv.busy u hu
      · show ∑ u ∈ Finset.range D,
            (Function.update L.st.vis_acc t (L.st.vis_acc t + (env.interferometer c i f).2) u +
            pending (fun i => (env.interferometer c i f).2)
              (Function.update L.task t none u)) = _
        rw [sum_range_update_same D t htD
          (fun u => L.st.vis_acc u + pending (fun i => (env.interferometer c i f).2) (L.task u))
          _, inv.sum]
        · intro u hu
          simp [Function.update_noteq hu]
        · simp [htask, pending]

theorem loop_inv_run (env : Env α n) (settings : Settings) (D N c : Nat) (f : ℚ)
    (all : List Nat) (s : State α n)
    (hbind : ∀ i id, env.cudaSetDevice_chunk c i id = 0)
    (hcorr : ∀ i, (env.interferometer c i f).1 = 0)
    (picks : List Nat) (hD : ∀ t ∈ picks, t < D) (hall : ∀ t ∈ picks, t ∈ all)
    (L : LoopState α n) (inv : LoopInv env D N c f all s L) :
    LoopInv env D N c f all s (picks.foldl (chunk_step env settings D N c f) L) := by
  induction picks generalizing L with
  | nil => exact inv
  | cons t rest ih =>
    rw [List.foldl_cons]
    apply ih
    · intro u hu
      exact hD u (List.mem_cons_of_mem _ hu)
    · intro u hu
      exact hall u (List.mem_cons_of_mem _ hu)
    · exact loop_inv_step env settings D N c f all s hbind hcorr L t
        (hD t (List.mem_cons_self _ _)) (hall t (List.mem_cons_self _ _)) inv

theorem at_barrier_iff (N : Nat) (picks : List Nat) (L : LoopState α n) :
    at_barrier N picks L = true ↔ L.next = N ∧ ∀ t ∈ picks, L.task t = none := by
  simp [at_barrier, List.all_eq_true, Option.isNone_iff_eq_none]

theorem parallel_chunks_ok (env : Env α n) (settings : Settings) (D N c : Nat) (f : ℚ)
    (s : State α n)
    (hbind : ∀ i id, env.cudaSetDevice_chunk c i id = 0)
    (hcorr : ∀ i, (env.interferometer c i f).1 = 0)
    (picks : List Nat) (hD : ∀ t ∈ picks, t < D) (h0 : s.error = 0) :
    (∃ x, parallel_chunks env settings D N c f picks s = .error (.blocked, x)) ∨
    (∃ s1, parallel_chunks env settings D N c f picks s = .ok s1 ∧ s1.error = 0 ∧
      s1.vis_global = s.vis_global ∧
      ∑ t ∈ Finset.range D, s1.vis_acc t =
        ∑ t ∈ Finset.range D, s.vis_acc t +
          ∑ i ∈ Finset.range N, (env.interferometer c i f).2) := by
  have inv := loop_inv_run env settings D N c f picks s hbind hcorr picks hD
    (fun t ht => ht) (loop_entry s) (loop_inv_entry env D N c f picks s h0)
  unfold parallel_chunks
  simp only [inv.fault, Bool.false_eq_true, if_false]
  by_cases hb : at_barrier N picks
      (picks.foldl (chunk_step env settings D N c f) (loop_entry s)) = true
  · right
    rw [if_pos hb]
    refine ⟨_, rfl, inv.error, inv.vis_global, ?_⟩
    obtain ⟨hnext, hidle⟩ := (at_barrier_iff N picks _).mp hb
    have hnone : ∀ t, (picks.foldl (chunk_step env settings D N c f) (loop_entry s)).task t
        = none := by
      intro t
      by_contra hne
      exact hne (hidle t (inv.busy t hne))
    have hsum := inv.sum
    simp only [hnone, pending, add_zero, hnext] at hsum
    exact hsum
  · left
    rw [if_neg hb]
    exact ⟨_, rfl⟩

theorem channel_body_ok (env : Env α n) (settings : Settings) (D N c : Nat)
    (s : State α n)
    (hbind : ∀ i id, env.cudaSetDevice_chunk c i id = 0)
    (hcorr : ∀ i, (env.interferometer c i (channel_frequency settings c)).1 = 0)
    (picks : List Nat) (hD : ∀ t ∈ picks, t < D) (h0 : s.error = 0)
    (hacc : ∀ t, t < D → s.vis_acc t = 0) :
    (∃ x, channel_body env settings D N c picks s = .error (.blocked, x)) ∨
    (∃ s1, channel_body env settings D N c picks s = .ok s1 ∧ s1.error = 0 ∧
      s1.vis_global c = s.vis_global c +
        ∑ i ∈ Finset.range N, (env.interferometer c i (channel_frequency settings c)).2 ∧
      (∀ c', c' ≠ c → s1.vis_global c' = s.vis_global c') ∧
      (∀ t, t < D → s1.vis_acc t = 0)) := by
  unfold channel_body
  rcases parallel_chunks_ok env settings D N c (channel_frequency settings c) s hbind hcorr
      picks hD h0 with ⟨x, hx⟩ | ⟨s1, hs1, he, hg, hsum⟩
  · left
    exact ⟨x, by simp [hx]⟩
  · right
    obtain ⟨g1, g2, g3, g4, -, -⟩ := fold_into_global_ok D c s1 he
    refine ⟨fold_into_global D c s1, by simp [hs1, he], g1, ?_, ?_, g4⟩
    · rw [g2, hsum, hg, Finset.sum_eq_zero (fun t ht => hacc t (Finset.mem_range.mp ht)),
        zero_add]
    · intro c' hc
      rw [g3 c' hc, hg]

theorem channel_loop_ok (env : Env α n) (settings : Settings) (D N : Nat)
    (sched : Nat → List Nat)
    (hbind : ∀ c i id, env.cudaSetDevice_chunk c i id = 0)
    (hcorr : ∀ c i f, (env.interferometer c i f).1 = 0)
    (cs : List Nat) (hnd : cs.Nodup) (hD : ∀ c ∈ cs, ∀ t ∈ sched c, t < D)
    (s : State α n) (h0 : s.error = 0) (hacc : ∀ t, t < D → s.vis_acc t = 0) :
    (∃ x, channel_loop env settings D N sched cs s = .error (.blocked, x)) ∨
    (∃ s1, channel_loop env settings D N sched cs s = .ok s1 ∧ s1.error = 0 ∧
      (∀ c ∈ cs, s1.vis_global c = s.vis_global c +
        ∑ i ∈ Finset.range N, (env.interferometer c i (channel_frequency settings c)).2) ∧
      (∀ c, c ∉ cs → s1.vis_global c = s.vis_global c) ∧
      (∀ t, t < D → s1.vis_acc t = 0)) := by
  induction cs generalizing s with
  | nil =>
    right
    exact ⟨s, rfl, h0, by simp, by simp, hacc⟩
  | cons c rest ih =>
    obtain ⟨hc, hrest⟩ := List.nodup_cons.mp hnd
    unfold channel_loop
    rcases channel_body_ok env settings D N c s (hbind c) (fun i => hcorr c i _) (sched c)
        (hD c (List.mem_cons_self _ _)) h0 hacc with ⟨x, hx⟩ | ⟨s1, hs1, he, hg, hframe, hz⟩
    · left
      exact ⟨x, by simp [hx]⟩
    · rcases ih hrest (fun c' hc' => hD c' (List.mem_cons_of_mem _ hc')) s1 he hz with
        ⟨x, hx⟩ | ⟨s2, hs2, he2, hg2, hframe2, hz2⟩
      · left
        exact ⟨x, by simp [hs1, hx]⟩
      · right
        refine ⟨s2, by simp [hs1, hs2], he2, ?_, ?_, hz2⟩
        · intro c' hc'
          rcases List.mem_cons.mp hc' with h | h
          · subst h
            rw [hframe2 c' hc, hg]
          · have hne : c' ≠ c := fun h' => hc (h' ▸ h)
            rw [hg2 c' h, hframe c' hne]
        · intro c' hc'
          have h1 : c' ≠ c := fun h' => hc' (h' ▸ List.mem_cons_self _ _)
          have h2 : c' ∉ rest := fun h' => hc' (List.mem_cons_of_mem _ h')
          rw [hframe2 c' h2, hframe c' h1]

/-! ## The trace only grows -/

theorem TraceExt.refl (Q : Event → Prop) (s : State α n) : TraceExt Q s s :=
  ⟨[], by simp, by simp⟩

theorem TraceExt.of_eq (Q : Event → Prop) (s s' : State α n) (h : s'.trace = s.trace) :
    TraceExt Q s s' :=
  ⟨[], by simp [h], by simp⟩

theorem TraceExt.trans {Q : Event → Prop} {s s' s'' : State α n} (h1 : TraceExt Q s s')
    (h2 : TraceExt Q s' s'') : TraceExt Q s s'' := by
  obtain ⟨l1, e1, q1⟩ := h1
  obtain ⟨l2, e2, q2⟩ := h2
  refine ⟨l1 ++ l2, by rw [e2, e1, List.append_assoc], ?_⟩
  intro e he
  rcases List.mem_append.mp he with h | h
  · exact q1 e h
  · exact q2 e h

theorem TraceExt.step {Q : Event → Prop} (s s' : State α n) (e : Event) (hQ : Q e)
    (h : s'.trace = s.trace ++ [e]) : TraceExt Q s s' :=
  ⟨[e], h, by simpa using hQ⟩

theorem TraceExt.mono {Q Q' : Event → Prop} {s s' : State α n} (hQ : ∀ e, Q e → Q' e)
    (h : TraceExt Q s s') : TraceExt Q' s s' := by
  obtain ⟨l, e, q⟩ := h
  exact ⟨l, e, fun x hx => hQ x (q x hx)⟩

theorem TraceExt.mem {Q : Event → Prop} {s s' : State α n} (h : TraceExt Q s s') (e : Event)
    (he : e ∈ s.trace) : e ∈ s'.trace := by
  obtain ⟨l, hl, -⟩ := h
  rw [hl]
  exact List.mem_append_left _ he

theorem TraceExt.new {Q : Event → Prop} {s s' : State α n} (h : TraceExt Q s s') (e : Event)
    (he : e ∈ s'.trace) : e ∈ s.trace ∨ Q e := by
  obtain ⟨l, hl, q⟩ := h
  rw [hl] at he
  rcases List.mem_append.mp he with h1 | h1
  · exact Or.inl h1
  · exact Or.inr (q e h1)

theorem set_up_lanes_trace (Q : Event → Prop) (hQ : ∀ e, e.is_correlation = false → Q e)
    (env : Env α n) (settings : Settings) (l : List Nat) (s : State α n) :
    TraceExt Q s (final_state (set_up_lanes env settings l s)) := by
  induction l generalizing s with
  | nil => exact TraceExt.refl Q s
  | cons i rest ih =>
    unfold set_up_lanes
    simp only []
    split_ifs with h1 h2
    · simp [TraceExt, final_state, hQ, Event.is_correlation]
    · simp [TraceExt, final_state, hQ, Event.is_correlation]
    · refine TraceExt.trans ?_ (ih _)
      simp [TraceExt, hQ, Event.is_correlation]

theorem chunk_step_trace (env : Env α n) (settings : Settings) (D N c : Nat) (f : ℚ)
    (L : LoopState α n) (t : Nat) :
    TraceExt (fun _ => True) L.st (chunk_step env settings D N c f L t).st := by
  unfold chunk_step
  by_cases hf : L.fault = true
  · rw [if_pos hf]
    exact TraceExt.refl _ _
  · rw [if_neg hf]
    split <;> (try split_ifs) <;> simp [TraceExt]

theorem chunk_steps_trace (env : Env α n) (settings : Settings) (D N c : Nat) (f : ℚ)
    (picks : List Nat) (L : LoopState α n) :
    TraceExt (fun _ => True) L.st (picks.foldl (chunk_step env settings D N c f) L).st := by
  induction picks generalizing L with
  | nil => exact TraceExt.refl _ _
  | cons t rest ih =>
    rw [List.foldl_cons]
    exact TraceExt.trans (chunk_step_trace env settings D N c f L t) (ih _)

theorem parallel_chunks_trace (env : Env α n) (settings : Settings) (D N c : Nat) (f : ℚ)
    (picks : List Nat) (s : State α n) :
    TraceExt (fun _ => True) s (final_state (parallel_chunks env settings D N c f picks s)) := by
  have h := chunk_steps_trace env settings D N c f picks (loop_entry s)
  unfold parallel_chunks
  simp only []
  split_ifs <;> exact h

theorem fold_lane_trace (Q : Event → Prop) (hQ : ∀ e, e.is_correlation = false → Q e)
    (c : Nat) (s : State α n) (i : Nat) : TraceExt Q s (fold_lane c s i) := by
  simp [TraceExt, fold_lane, hQ, Event.is_correlation]

theorem fold_lanes_trace (Q : Event → Prop) (hQ : ∀ e, e.is_correlation = false → Q e)
    (c : Nat) (l : List Nat) (s : State α n) : TraceExt Q s (l.foldl (fold_lane c) s) := by
  induction l generalizing s with
  | nil => exact TraceExt.refl _ _
  | cons i rest ih =>
    rw [List.foldl_cons]
    exact TraceExt.trans (fold_lane_trace Q hQ c s i) (ih _)

theorem fold_into_global_trace (Q : Event → Prop) (hQ : ∀ e, e.is_correlation = false → Q e)
    (D c : Nat) (s : State α n) : TraceExt Q s (fold_into_global D c s) := by
  unfold fold_into_global
  refine TraceExt.trans ?_ (fold_lanes_trace Q hQ c _ _)
  simp [TraceExt, hQ, Event.is_correlation]

theorem channel_body_trace (env : Env α n) (settings : Settings) (D N c : Nat)
    (picks : List Nat) (s : State α n) :
    TraceExt (fun _ => True) s (final_state (channel_body env settings D N c picks s)) := by
  have h := parallel_chunks_trace env settings D N c (channel_frequency settings c) picks s
  unfold channel_body
  simp only []
  split
  · rename_i x hx
    rw [hx] at h
    exact h
  · rename_i s1 hs1
    rw [hs1] at h
    split_ifs
    · exact h
    · exact TraceExt.trans h (fold_into_global_trace _ (fun _ _ => trivial) D c s1)

theorem channel_loop_trace (env : Env α n) (settings : Settings) (D N : Nat)
    (sched : Nat → List Nat) (cs : List Nat) (s : State α n) :
    TraceExt (fun _ => True) s (final_state (channel_loop env settings D N sched cs s)) := by
  induction cs generalizing s with
  | nil => exact TraceExt.refl _ _
  | cons c rest ih =>
    have h := channel_body_trace env settings D N c (sched c) s
    unfold channel_loop
    split
    · rename_i x hx
      rw [hx] at h
      exact h
    · rename_i s1 hs1
      rw [hs1] at h
      exact TraceExt.trans h (ih s1)

theorem noise_stage_trace (Q : Event → Prop) (hQ : ∀ e, e.is_correlation = false → Q e)
    (env : Env α n) (settings : Settings) (s : State α n) :
    TraceExt Q s (final_state (noise_stage env settings s)) := by
  unfold noise_stage
  simp only []
  split_ifs <;> simp [TraceExt, final_state, hQ, Event.is_correlation]

theorem uvw_stage_trace (Q : Event → Prop) (hQ : ∀ e, e.is_correlation = false → Q e)
    (env : Env α n) (s : State α n) : TraceExt Q s (final_state (uvw_stage env s)) := by
  unfold uvw_stage
  simp only []
  split_ifs <;> simp [TraceExt, final_state, hQ, Event.is_correlation]

theorem write_stage_trace (Q : Event → Prop) (hQ : ∀ e, e.is_correlation = false → Q e)
    (env : Env α n) (settings : Settings) (s : State α n) :
    TraceExt Q s (final_state (write_stage env settings s)) := by
  unfold write_stage
  simp only []
  split_ifs <;> simp [TraceExt, final_state, hQ, Event.is_correlation]

theorem image_stage_trace (Q : Event → Prop) (hQ : ∀ e, e.is_correlation = false → Q e)
    (env : Env α n) (settings : Settings) (s : State α n) :
    TraceExt Q s (final_state (image_stage env settings s)) := by
  unfold image_stage
  simp only []
  split_ifs <;> simp [TraceExt, final_state, hQ, Event.is_correlation]

theorem finish_trace (Q : Event → Prop) (hQ : ∀ e, e.is_correlation = false → Q e)
    (codes : Codes) (settings : Settings) (D N : Nat) (s : State α n) :
    TraceExt Q s (finish codes settings D N s).2 := by
  unfold finish
  simp only []
  have h1 : ∀ (l : List Nat) (x : State α n), TraceExt Q x (l.foldl
      (fun (x : State α n) i =>
        (x.log (.cudaSetDevice (settings.cuda_device_ids i))).log .cudaDeviceReset) x) := by
    intro l
    induction l with
    | nil => intro x; exact TraceExt.refl _ _
    | cons i rest ih =>
      intro x
      rw [List.foldl_cons]
      refine TraceExt.trans ?_ (ih _)
      simp [TraceExt, hQ, Event.is_correlation]
  have h2 : ∀ (l : List Nat) (x : State α n), TraceExt Q x (l.foldl
      (fun (x : State α n) i => x.log (.sky_model_free i)) x) := by
    intro l
    induction l with
    | nil => intro x; exact TraceExt.refl _ _
    | cons i rest ih =>
      intro x
      rw [List.foldl_cons]
      refine TraceExt.trans ?_ (ih _)
      simp [TraceExt, hQ, Event.is_correlation]
  exact TraceExt.trans (h1 _ _) (h2 _ _)

theorem post_processing_trace (Q : Event → Prop) (hQ : ∀ e, e.is_correlation = false → Q e)
    (codes : Codes) (env : Env α n) (settings : Settings) (D N : Nat) (s : State α n) :
    TraceExt Q s (post_processing codes env settings D N s).2 := by
  have h1 := noise_stage_trace Q hQ env settings s
  unfold post_processing
  split_ifs
  · exact TraceExt.refl _ _
  · split
    · rename_i x hx
      rw [hx] at h1
      exact h1
    · rename_i s1 hs1
      rw [hs1] at h1
      have h2 := uvw_stage_trace Q hQ env s1
      split
      · rename_i x hx
        rw [hx] at h2
        exact TraceExt.trans h1 h2
      · rename_i s2 hs2
        rw [hs2] at h2
        have h3 := write_stage_trace Q hQ env settings s2
        split
        · rename_i x hx
          rw [hx] at h3
          exact TraceExt.trans h1 (TraceExt.trans h2 h3)
        · rename_i s3 hs3
          rw [hs3] at h3
          have h4 := image_stage_trace Q hQ env settings s3
          split
          · rename_i x hx
            rw [hx] at h4
            exact TraceExt.trans h1 (TraceExt.trans h2 (TraceExt.trans h3 h4))
          · rename_i s4 hs4
            rw [hs4] at h4
            exact TraceExt.trans h1 (TraceExt.trans h2 (TraceExt.trans h3
              (TraceExt.trans h4 (finish_trace Q hQ codes settings D N s4))))

theorem run_simulation_trace (codes : Codes) (env : Env α n) (settings : Settings)
    (D N : Int) (sched : Nat → List Nat) (s : State α n) :
    TraceExt (fun _ => True) s (run_simulation codes env settings D N sched s).2 := by
  unfold run_simulation
  split_ifs
  · exact TraceExt.refl _ _
  · have h1 := set_up_lanes_trace (fun _ => True) (fun _ _ => trivial) env settings
      (List.range D.toNat) s
    split
    · rename_i x hx
      rw [hx] at h1
      exact h1
    · rename_i s5 hs5
      rw [hs5] at h1
      have h2 := channel_loop_trace env settings D.toNat N.toNat sched
        (List.range settings.num_channels.toNat) s5
      split
      · rename_i x hx
        rw [hx] at h2
        exact TraceExt.trans h1 h2
      · rename_i s6 hs6
        rw [hs6] at h2
        exact TraceExt.trans h1 (TraceExt.trans h2
          (post_processing_trace _ (fun _ _ => trivial) codes env settings _ _ s6))

/-! ## The stages when every call succeeds -/

theorem set_up_lanes_ok (env : Env α n) (settings : Settings) (hs : env.AllSucceed)
    (l : List Nat) (s : State α n) (h0 : s.error = 0) :
    ∃ s', set_up_lanes env settings l s = .ok s' ∧ s'.error = 0 ∧
      s'.vis_global = s.vis_global ∧
      (∀ i ∈ l, s'.vis_acc i = (env.mem_init_acc i).2) ∧
      (∀ i, i ∉ l → s'.vis_acc i = s.vis_acc i) := by
  induction l generalizing s with
  | nil => exact ⟨s, rfl, h0, rfl, by simp, by simp⟩
  | cons i rest ih =>
    unfold set_up_lanes
    simp only [oskar_mem_init, h0, State.log_error, ne_eq, not_true_eq_false, if_false,
      hs.mem_init_acc i, hs.mem_init_temp i, hs.cudaSetDevice_init]
    obtain ⟨s', e1, e2, e3, e4, e5⟩ := ih
      (State.log { (State.log { (State.log { (s.log (.mem_init_acc i 0)) with
          vis_acc := Function.update s.vis_acc i (env.mem_init_acc i).2, error := 0 }
          (.mem_init_temp i 0)) with
          vis_temp := Function.update s.vis_temp i (env.mem_init_temp i).2, error := 0 }
          (.cudaSetDevice (settings.cuda_device_ids i))) with error := 0 }
        .cudaDeviceSynchronize) rfl
    refine ⟨s', e1, e2, e3, ?_, ?_⟩
    · intro j hj
      by_cases hjr : j ∈ rest
      · exact e4 j hjr
      · rcases List.mem_cons.mp hj with h | h
        · subst h
          rw [e5 j hjr]
          simp
        · exact absurd h hjr
    · intro j hj
      have h1 : j ≠ i := fun h => hj (h ▸ List.mem_cons_self _ _)
      have h2 : j ∉ rest := fun h => hj (List.mem_cons_of_mem _ h)
      rw [e5 j h2]
      simp [Function.update_noteq h1]

theorem finish_ok (codes : Codes) (settings : Settings) (D N : Nat) (s : State α n) :
    (finish codes settings D N s).1 = .returned codes.OSKAR_SUCCESS ∧
    (finish codes settings D N s).2.vis_global = s.vis_global := by
  have h1 : ∀ (l : List Nat) (x : State α n), (l.foldl
      (fun (x : State α n) i =>
        (x.log (.cudaSetDevice (settings.cuda_device_ids i))).log .cudaDeviceReset)
      x).vis_global = x.vis_global := by
    intro l
    induction l with
    | nil => intro x; rfl
    | cons i rest ih => intro x; rw [List.foldl_cons, ih]; rfl
  have h2 : ∀ (l : List Nat) (x : State α n), (l.foldl
      (fun (x : State α n) i => x.log (.sky_model_free i)) x).vis_global = x.vis_global := by
    intro l
    induction l with
    | nil => intro x; rfl
    | cons i rest ih => intro x; rw [List.foldl_cons, ih]; rfl
  refine ⟨rfl, ?_⟩
  simp only [finish]
  rw [h2, h1]

theorem post_processing_ok (codes : Codes) (env : Env α n) (settings : Settings)
    (D N : Nat) (s : State α n) (hs : env.AllSucceed) (hn : settings.noise_enable = false)
    (h0 : s.error = 0) :
    (post_processing codes env settings D N s).1 = .returned codes.OSKAR_SUCCESS ∧
    (post_processing codes env settings D N s).2.vis_global = s.vis_global := by
  have hnoise : noise_stage env settings s = .ok s := by simp [noise_stage, hn]
  have huvw : ∃ s2, uvw_stage env s = .ok s2 ∧ s2.error = 0 ∧
      s2.vis_global = s.vis_global := by
    unfold uvw_stage
    simp [h0, hs.evaluate_uvw_baseline]
  obtain ⟨s2, e2, z2, g2⟩ := huvw
  have hwrite : ∃ s3, write_stage env settings s2 = .ok s3 ∧ s3.error = 0 ∧
      s3.vis_global = s2.vis_global := by
    unfold write_stage
    cases settings.oskar_vis_filename <;> cases settings.ms_filename <;>
      simp [z2, hs.visibilities_write, hs.visibilities_write_ms]
  obtain ⟨s3, e3, z3, g3⟩ := hwrite
  have himage : ∃ s4, image_stage env settings s3 = .ok s4 ∧
      s4.vis_global = s3.vis_global := by
    unfold image_stage
    cases settings.image_interferometer_output <;> cases settings.oskar_image <;>
      cases settings.fits_image <;>
      simp [z3, hs.make_image, hs.image_write, hs.fits_image_write]
  obtain ⟨s4, e4, g4⟩ := himage
  have hfin := finish_ok codes settings D N s4
  unfold post_processing
  simp only [h0, ne_eq, not_true_eq_false, if_false, hnoise, e2, e3, e4]
  exact ⟨hfin.1, by rw [hfin.2, g4, g3, g2]⟩

theorem run_simulation_ok (codes : Codes) (env : Env α n) (settings : Settings)
    (D N : Int) (sched : Nat → List Nat) (s : State α n)
    (hs : env.AllSucceed) (hz : env.ZeroInitialised) (hn : settings.noise_enable = false)
    (hD0 : 0 ≤ D) (h0 : s.error = 0)
    (hlanes : ∀ c : Nat, (c : Int) < settings.num_channels → ∀ t ∈ sched c, (t : Int) < D) :
    (run_simulation codes env settings D N sched s).1 = .blocked ∨
    ((run_simulation codes env settings D N sched s).1 = .returned codes.OSKAR_SUCCESS ∧
      (∀ c : Nat, (c : Int) < settings.num_channels →
        (run_simulation codes env settings D N sched s).2.vis_global c =
          s.vis_global c + ∑ i ∈ Finset.range N.toNat,
            (env.interferometer c i (channel_frequency settings c)).2) ∧
      (∀ c : Nat, ¬ (c : Int) < settings.num_channels →
        (run_simulation codes env settings D N sched s).2.vis_global c = s.vis_global c)) := by
  unfold run_simulation
  rw [if_neg (not_lt.mpr hD0)]
  obtain ⟨s5, e5, z5, g5, a5, -⟩ := set_up_lanes_ok env settings hs (List.range D.toNat) s h0
  have hacc : ∀ t, t < D.toNat → s5.vis_acc t = 0 := by
    intro t ht
    rw [a5 t (List.mem_range.mpr ht), hz.vis_acc]
  have hmem : ∀ c : Nat, c ∈ List.range settings.num_channels.toNat ↔
      (c : Int) < settings.num_channels := by
    intro c
    rw [List.mem_range]
    omega
  have hD : ∀ c ∈ List.range settings.num_channels.toNat, ∀ t ∈ sched c, t < D.toNat := by
    intro c hc t ht
    have := hlanes c ((hmem c).mp hc) t ht
    omega
  rcases channel_loop_ok env settings D.toNat N.toNat sched hs.cudaSetDevice_chunk
      hs.interferometer (List.range settings.num_channels.toNat) (List.nodup_range _) hD s5 z5
      hacc with ⟨x, hx⟩ | ⟨s6, e6, z6, g6, f6, -⟩
  · left
    simp [e5, hx]
  · right
    obtain ⟨p1, p2⟩ := post_processing_ok codes env settings D.toNat N.toNat s6 hs hn z6
    simp only [e5, e6]
    refine ⟨p1, ?_, ?_⟩
    · intro c hc
      rw [p2, g6 c ((hmem c).mpr hc), g5]
    · intro c hc
      rw [p2, f6 c (fun h => hc ((hmem c).mp h)), g5]

theorem prelude_ok (codes : Codes) (env : Env α n) (sched : Nat → List Nat)
    (hs : env.AllSucceed) (hout : output_file_specified env.settings_load.2 = true)
    (hdev : env.settings_load.2.num_cuda_devices ≤ env.cudaGetDeviceCount.2) :
    oskar_sim_interferometer codes env sched =
      run_simulation codes env env.settings_load.2 env.settings_load.2.num_cuda_devices
        env.set_up_sky.2 sched (state_after_set_up env) := by
  unfold oskar_sim_interferometer
  simp only [after_settings_load, hs.settings_load, hout, hs.cudaGetDeviceCount,
    not_lt.mpr hdev, hs.set_up_telescope, hs.set_up_sky, hs.set_up_visibilities,
    oskar_set_up_visibilities, State.log_error, ne_eq, not_true_eq_false, if_false]
  rfl

/-! ## One thread running the chunks one after the other -/

theorem chunk_step_vis_global (env : Env α n) (settings : Settings) (D N c : Nat) (f : ℚ)
    (L : LoopState α n) (t : Nat) :
    (chunk_step env settings D N c f L t).st.vis_global = L.st.vis_global := by
  unfold chunk_step
  by_cases hf : L.fault = true
  · rw [if_pos hf]
  · rw [if_neg hf]
    split <;> (try split_ifs) <;> rfl

theorem chunk_steps_vis_global (env : Env α n) (settings : Settings) (D N c : Nat) (f : ℚ)
    (picks : List Nat) (L : LoopState α n) :
    (picks.foldl (chunk_step env settings D N c f) L).st.vis_global = L.st.vis_global := by
  induction picks generalizing L with
  | nil => rfl
  | cons t rest ih => rw [List.foldl_cons, ih, chunk_step_vis_global]

theorem single_lane_iteration (env : Env α n) (settings : Settings) (D N c : Nat) (f : ℚ)
    (hD : 0 < D) (hbind : ∀ i id, env.cudaSetDevice_chunk c i id = 0)
    (L : LoopState α n) (hf : L.fault = false) (ht : L.task 0 = none)
    (h0 : L.st.error = 0) (hk : L.next < N) :
    ([0, 0, 0, 0, 0].foldl (chunk_step env settings D N c f) L).fault = false ∧
    ([0, 0, 0, 0, 0].foldl (chunk_step env settings D N c f) L).task 0 = none ∧
    ([0, 0, 0, 0, 0].foldl (chunk_step env settings D N c f) L).st.error =
      (env.interferometer c L.next f).1 ∧
    ([0, 0, 0, 0, 0].foldl (chunk_step env settings D N c f) L).next = L.next + 1 := by
  simp [List.foldl, chunk_step, hf, ht, h0, hk, hbind, hD, oskar_interferometer]

theorem single_lane_run (env : Env α n) (settings : Settings) (D N c : Nat) (f : ℚ)
    (hD : 0 < D) (hbind : ∀ i id, env.cudaSetDevice_chunk c i id = 0) (m : Nat)
    (L : LoopState α n) (hf : L.fault = false) (ht : L.task 0 = none)
    (h0 : L.st.error = 0) (hk : L.next + m ≤ N)
    (hcorr : ∀ i, L.next ≤ i → i < L.next + m → (env.interferometer c i f).1 = 0) :
    ((List.replicate (5 * m) 0).foldl (chunk_step env settings D N c f) L).fault = false ∧
    ((List.replicate (5 * m) 0).foldl (chunk_step env settings D N c f) L).task 0 = none ∧
    ((List.replicate (5 * m) 0).foldl (chunk_step env settings D N c f) L).st.error = 0 ∧
    ((List.replicate (5 * m) 0).foldl (chunk_step env settings D N c f) L).next =
      L.next + m := by
  induction m generalizing L with
  | zero => simpa using ⟨hf, ht, h0⟩
  | succ m ih =>
    have hrep : List.replicate (5 * (m + 1)) 0 = [0, 0, 0, 0, 0] ++ List.replicate (5 * m) 0 := by
      rw [show 5 * (m + 1) = 5 + 5 * m by ring, List.replicate_add]
      rfl
    rw [hrep, List.foldl_append]
    obtain ⟨g1, g2, g3, g4⟩ := single_lane_iteration env settings D N c f hD hbind L hf ht h0
      (by omega)
    rw [hcorr L.next le_rfl (by omega)] at g3
    obtain ⟨i1, i2, i3, i4⟩ := ih _ g1 g2 g3 (by omega)
      (fun i h1 h2 => hcorr i (by omega) (by omega))
    exact ⟨i1, i2, i3, by rw [i4, g4]; omega⟩

theorem single_lane_at_barrier (env : Env α n) (settings : Settings) (D N c : Nat) (f : ℚ)
    (hD : 0 < D) (hbind : ∀ i id, env.cudaSetDevice_chunk c i id = 0)
    (hcorr : ∀ i, (env.interferometer c i f).1 = 0) (s : State α n) (h0 : s.error = 0) :
    at_barrier N (single_lane_schedule N)
      ((single_lane_schedule N).foldl (chunk_step env settings D N c f) (loop_entry s)) = true := by
  obtain ⟨-, h1, -, h2⟩ := single_lane_run env settings D N c f hD hbind N (loop_entry s) rfl rfl
    h0 (by simp [loop_entry]) (fun i _ _ => hcorr i)
  rw [at_barrier_iff]
  refine ⟨by simpa [loop_entry] using h2, ?_⟩
  intro t ht
  rw [single_lane_schedule, List.mem_replicate] at ht
  rw [ht.2]
  exact h1

theorem single_lane_channel_body (env : Env α n) (settings : Settings) (D N c : Nat)
    (s : State α n) (hD : 0 < D)
    (hbind : ∀ i id, env.cudaSetDevice_chunk c i id = 0)
    (hcorr : ∀ i, (env.interferometer c i (channel_frequency settings c)).1 = 0)
    (h0 : s.error = 0) (hacc : ∀ t, t < D → s.vis_acc t = 0) :
    ∃ r, channel_body env settings D N c (single_lane_schedule N) s = .ok r ∧ r.error = 0 ∧
      r.vis_global c = s.vis_global c +
        ∑ i ∈ Finset.range N, (env.interferometer c i (channel_frequency settings c)).2 ∧
      (∀ c', c' ≠ c → r.vis_global c' = s.vis_global c') ∧
      (∀ t, t < D → r.vis_acc t = 0) := by
  have hl : ∀ t ∈ single_lane_schedule N, t < D := by
    intro t ht
    rw [single_lane_schedule, List.mem_replicate] at ht
    omega
  rcases channel_body_ok env settings D N c s hbind hcorr (single_lane_schedule N) hl h0
      hacc with ⟨x, hx⟩ | ⟨r, hr⟩
  · exfalso
    have hb := single_lane_at_barrier env settings D N c (channel_frequency settings c) hD hbind
      hcorr s h0
    unfold channel_body parallel_chunks at hx
    simp only [hb, if_true] at hx
    split_ifs at hx <;> simp at hx
    split_ifs at hx
    simp at hx
  · exact ⟨r, hr⟩

theorem single_lane_channel_loop (env : Env α n) (settings : Settings) (D N : Nat)
    (hD : 0 < D) (hbind : ∀ c i id, env.cudaSetDevice_chunk c i id = 0)
    (hcorr : ∀ c i f, (env.interferometer c i f).1 = 0)
    (cs : List Nat) (s : State α n) (h0 : s.error = 0) (hacc : ∀ t, t < D → s.vis_acc t = 0) :
    ∃ r, channel_loop env settings D N (fun _ => single_lane_schedule N) cs s = .ok r ∧
      r.error = 0 := by
  induction cs generalizing s with
  | nil => exact ⟨s, rfl, h0⟩
  | cons c rest ih =>
    obtain ⟨r, hr, e0, -, -, hz⟩ := single_lane_channel_body env settings D N c s hD (hbind c)
      (fun i => hcorr c i _) h0 hacc
    obtain ⟨r', hr', e0'⟩ := ih r e0 hz
    exact ⟨r', by unfold channel_loop; simp only [hr, hr'], e0'⟩

theorem single_lane_simulation (codes : Codes) (env : Env α n) (settings : Settings)
    (D N : Int) (s : State α n) (hs : env.AllSucceed)
    (hn : settings.noise_enable = false) (hD : 0 < D) (h0 : s.error = 0)
    (hz : env.ZeroInitialised) :
    (run_simulation codes env settings D N (fun _ => single_lane_schedule N.toNat) s).1 =
      .returned codes.OSKAR_SUCCESS := by
  unfold run_simulation
  rw [if_neg (by omega)]
  obtain ⟨s5, e5, z5, -, a5, -⟩ := set_up_lanes_ok env settings hs (List.range D.toNat) s h0
  have hacc : ∀ t, t < D.toNat → s5.vis_acc t = 0 := by
    intro t ht
    rw [a5 t (List.mem_range.mpr ht), hz.vis_acc]
  obtain ⟨s6, e6, z6⟩ := single_lane_channel_loop env settings D.toNat N.toNat (by omega)
    hs.cudaSetDevice_chunk hs.interferometer (List.range settings.num_channels.toNat) s5 z5 hacc
  simp only [e5, e6]
  exact (post_processing_ok codes env settings D.toNat N.toNat s6 hs hn z6).1

/-! ## One thread, one failing chunk: the failure is kept -/

theorem single_lane_skip (env : Env α n) (settings : Settings) (D N c : Nat) (f : ℚ)
    (L : LoopState α n) (hf : L.fault = false) (ht : L.task 0 = none)
    (he : L.st.error ≠ 0) (hk : L.next < N) :
    ([0, 0].foldl (chunk_step env settings D N c f) L).fault = false ∧
    ([0, 0].foldl (chunk_step env settings D N c f) L).task 0 = none ∧
    ([0, 0].foldl (chunk_step env settings D N c f) L).st.error = L.st.error ∧
    ([0, 0].foldl (chunk_step env settings D N c f) L).next = L.next + 1 := by
  simp [List.foldl, chunk_step, hf, ht, he, hk]

theorem single_lane_skip_run (env : Env α n) (settings : Settings) (D N c : Nat) (f : ℚ)
    (m : Nat) (L : LoopState α n) (hf : L.fault = false) (ht : L.task 0 = none)
    (he : L.st.error ≠ 0) (hk : L.next + m ≤ N) :
    ((List.replicate (2 * m) 0).foldl (chunk_step env settings D N c f) L).fault = false ∧
    ((List.replicate (2 * m) 0).foldl (chunk_step env settings D N c f) L).task 0 = none ∧
    ((List.replicate (2 * m) 0).foldl (chunk_step env settings D N c f) L).st.error =
      L.st.error ∧
    ((List.replicate (2 * m) 0).foldl (chunk_step env settings D N c f) L).next =
      L.next + m := by
  induction m generalizing L with
  | zero => simpa using ⟨hf, ht⟩
  | succ m ih =>
    have hrep : List.replicate (2 * (m + 1)) 0 = [0, 0] ++ List.replicate (2 * m) 0 := by
      rw [show 2 * (m + 1) = 2 + 2 * m by ring, List.replicate_add]
      rfl
    rw [hrep, List.foldl_append]
    obtain ⟨g1, g2, g3, g4⟩ := single_lane_skip env settings D N c f L hf ht he (by omega)
    obtain ⟨i1, i2, i3, i4⟩ := ih _ g1 g2 (by rw [g3]; exact he) (by omega)
    exact ⟨i1, i2, by rw [i3, g3], by rw [i4, g4]; omega⟩

theorem single_lane_idle (env : Env α n) (settings : Settings) (D N c : Nat) (f : ℚ)
    (m : Nat) (L : LoopState α n) (hf : L.fault = false) (ht : L.task 0 = none)
    (hk : L.next = N) :
    (List.replicate m 0).foldl (chunk_step env settings D N c f) L = L := by
  induction m with
  | zero => rfl
  | succ m ih =>
    rw [List.replicate_succ, List.foldl_cons]
    have h : chunk_step env settings D N c f L 0 = L := by
      simp [chunk_step, hf, ht, hk]
    rw [h, ih]

theorem single_lane_fail_fast (env : Env α n) (settings : Settings) (D N c : Nat)
    (s : State α n) (hD : 0 < D)
    (hbind : ∀ i id, env.cudaSetDevice_chunk c i id = 0)
    (j : Nat) (hj : j < N)
    (hok : ∀ i, i < j → (env.interferometer c i (channel_frequency settings c)).1 = 0)
    (hne : (env.interferometer c j (channel_frequency settings c)).1 ≠ 0)
    (h0 : s.error = 0) :
    ∃ s', channel_body env settings D N c (single_lane_schedule N) s =
        .error (.returned (env.interferometer c j (channel_frequency settings c)).1, s') ∧
      s'.vis_global = s.vis_global := by
  obtain ⟨r, hr⟩ : ∃ r, N = j + 1 + r := ⟨N - (j + 1), by omega⟩
  have hsplit : single_lane_schedule N =
      List.replicate (5 * j) 0 ++ ([0, 0, 0, 0, 0] ++
        (List.replicate (2 * r) 0 ++ List.replicate (3 * r) 0)) := by
    rw [single_lane_schedule, hr, show 5 * (j + 1 + r) = 5 * j + (5 + (2 * r + 3 * r)) by ring,
      List.replicate_add, List.replicate_add, List.replicate_add]
    rfl
  obtain ⟨a1, a2, a3, a4⟩ := single_lane_run env settings D N c (channel_frequency settings c)
    hD hbind j (loop_entry s) rfl rfl h0 (by simp [loop_entry]; omega)
    (fun i _ h => hok i (by simpa [loop_entry] using h))
  have a4' : ((List.replicate (5 * j) 0).foldl
      (chunk_step env settings D N c (channel_frequency settings c)) (loop_entry s)).next = j := by
    simpa [loop_entry] using a4
  obtain ⟨b1, b2, b3, b4⟩ := single_lane_iteration env settings D N c
    (channel_frequency settings c) hD hbind _ a1 a2 a3 (by rw [a4']; omega)
  rw [a4'] at b3 b4
  obtain ⟨c1, c2, c3, c4⟩ := single_lane_skip_run env settings D N c
    (channel_frequency settings c) r _ b1 b2 (by rw [b3]; exact hne) (by rw [b4]; omega)
  rw [b3] at c3
  rw [b4] at c4
  have hidle := single_lane_idle env settings D N c (channel_frequency settings c) (3 * r) _ c1 c2
    (by rw [c4]; omega)
  have hfinal : (single_lane_schedule N).foldl
      (chunk_step env settings D N c (channel_frequency settings c)) (loop_entry s) =
      (List.replicate (2 * r) 0).foldl
        (chunk_step env settings D N c (channel_frequency settings c))
        ([0, 0, 0, 0, 0].foldl (chunk_step env settings D N c (channel_frequency settings c))
          ((List.replicate (5 * j) 0).foldl
            (chunk_step env settings D N c (channel_frequency settings c)) (loop_entry s))) := by
    rw [hsplit, List.foldl_append, List.foldl_append, List.foldl_append, hidle]
  have hbar : at_barrier N (single_lane_schedule N) ((single_lane_schedule N).foldl
      (chunk_step env settings D N c (channel_frequency settings c)) (loop_entry s)) = true := by
    rw [at_barrier_iff, hfinal]
    refine ⟨by rw [c4]; omega, ?_⟩
    intro t ht
    rw [single_lane_schedule, List.mem_replicate] at ht
    rw [ht.2]
    exact c2
  have hglobal := chunk_steps_vis_global env settings D N c (channel_frequency settings c)
    (single_lane_schedule N) (loop_entry s)
  refine ⟨((single_lane_schedule N).foldl
      (chunk_step env settings D N c (channel_frequency settings c)) (loop_entry s)).st, ?_,
    hglobal⟩
  unfold channel_body parallel_chunks
  simp only [hbar, if_true]
  rw [hfinal] at *
  simp only [c1, c3, Bool.false_eq_true, if_false, ne_eq, hne, not_false_eq_true, if_true]

/-! ## A sky without chunks -/

theorem chunk_steps_no_chunks (env : Env α n) (settings : Settings) (D c : Nat) (f : ℚ)
    (picks : List Nat) (s : State α n) :
    picks.foldl (chunk_step env settings D 0 c f) (loop_entry s) = loop_entry s := by
  induction picks with
  | nil => rfl
  | cons t rest ih =>
    rw [List.foldl_cons]
    have h : chunk_step env settings D 0 c f (loop_entry s) t = loop_entry s := by
      simp [chunk_step, loop_entry]
    rw [h, ih]

theorem parallel_chunks_no_chunks (env : Env α n) (settings : Settings) (D c : Nat) (f : ℚ)
    (picks : List Nat) (s : State α n) :
    parallel_chunks env settings D 0 c f picks s = .ok s := by
  unfold parallel_chunks
  rw [chunk_steps_no_chunks]
  simp [loop_entry, at_barrier]

theorem channel_loop_no_chunks (env : Env α n) (settings : Settings) (D : Nat)
    (sched : Nat → List Nat) (cs : List Nat) (s : State α n) (h0 : s.error = 0)
    (hacc : ∀ t, t < D → s.vis_acc t = 0) :
    ∃ s', channel_loop env settings D 0 sched cs s = .ok s' ∧ s'.error = 0 ∧
      s'.vis_global = s.vis_global ∧ (∀ t, t < D → s'.vis_acc t = 0) ∧
      TraceExt (fun e => e.is_correlation = false) s s' := by
  induction cs generalizing s with
  | nil => exact ⟨s, rfl, h0, rfl, hacc, TraceExt.refl _ _⟩
  | cons c rest ih =>
    obtain ⟨g1, g2, g3, g4, -, -⟩ := fold_into_global_ok D c s h0
    have hg : (fold_into_global D c s).vis_global = s.vis_global := by
      funext c'
      by_cases hc : c' = c
      · subst hc
        rw [g2, Finset.sum_eq_zero (fun t ht => hacc t (Finset.mem_range.mp ht)), add_zero]
      · exact g3 c' hc
    obtain ⟨s', e1, e2, e3, e4, e5⟩ := ih (fold_into_global D c s) g1 g4
    refine ⟨s', ?_, e2, by rw [e3, hg], e4,
      TraceExt.trans (fold_into_global_trace _ (fun _ h => h) D c s) e5⟩
    unfold channel_loop channel_body
    simp [parallel_chunks_no_chunks, h0, e1]

/-! ## What one action of a thread leaves alone -/

theorem chunk_step_frame (env : Env α n) (settings : Settings) (D N c : Nat) (f : ℚ)
    (L : LoopState α n) (t u : Nat) (hu : u ≠ t) :
    (chunk_step env settings D N c f L t).st.vis_temp u = L.st.vis_temp u ∧
    (chunk_step env settings D N c f L t).st.vis_acc u = L.st.vis_acc u ∧
    (chunk_step env settings D N c f L t).task u = L.task u := by
  unfold chunk_step
  by_cases hf : L.fault = true
  · rw [if_pos hf]
    exact ⟨rfl, rfl, rfl⟩
  · rw [if_neg hf]
    split <;> (try split_ifs) <;> simp [Function.update_noteq hu]

theorem lane_chunks_append (t : Nat) (l1 l2 : List Event) :
    lane_chunks t (l1 ++ l2) = lane_chunks t l1 ++ lane_chunks t l2 := by
  induction l1 with
  | nil => rfl
  | cons e rest ih =>
    cases e <;> simp [lane_chunks, ih]
    split_ifs <;> simp

theorem lane_sum_step (env : Env α n) (settings : Settings) (D N c : Nat) (f : ℚ)
    (all : List Nat) (s : State α n) (t : Nat)
    (L : LoopState α n) (u : Nat) (huD : u < D)
    (inv : LoopInv env D N c f all s L)
    (hcorr : ∀ i, (env.interferometer c i f).1 = 0)
    (h : ∃ l, L.st.trace = s.trace ++ l ∧
      L.st.vis_acc t + produced (fun i => (env.interferometer c i f).2) (L.task t) =
        s.vis_acc t + ((lane_chunks t l).map (fun i => (env.interferometer c i f).2)).sum) :
    ∃ l, (chunk_step env settings D N c f L u).st.trace = s.trace ++ l ∧
      (chunk_step env settings D N c f L u).st.vis_acc t +
        produced (fun i => (env.interferometer c i f).2)
          ((chunk_step env settings D N c f L u).task t) =
        s.vis_acc t + ((lane_chunks t l).map (fun i => (env.interferometer c i f).2)).sum := by
  obtain ⟨l, hl, hsum⟩ := h
  rcases htask : L.task u with _ | ⟨i, pc⟩
  · rw [chunk_step_idle env settings D N c f L u inv.fault htask]
    by_cases hn : L.next < N
    · rw [if_pos hn]
      refine ⟨l, hl, ?_⟩
      by_cases hut : t = u
      · subst hut
        simpa [produced, htask] using hsum
      · simpa [Function.update_noteq hut] using hsum
    · rw [if_neg hn]
      exact ⟨l, hl, hsum⟩
  · cases pc with
    | check =>
      rw [chunk_step_check env settings D N c f L u i inv.fault htask]
      simp only [inv.error, ne_eq, not_true_eq_false, if_false]
      refine ⟨l, hl, ?_⟩
      by_cases hut : t = u
      · subst hut
        simpa [produced, htask] using hsum
      · simpa [Function.update_noteq hut] using hsum
    | bind =>
      rw [chunk_step_bind env settings D N c f L u i inv.fault htask huD]
      refine ⟨l ++ [.cudaSetDevice (settings.cuda_device_ids u)], by simp [hl], ?_⟩
      rw [lane_chunks_append]
      by_cases hut : t = u
      · subst hut
        simpa [produced, htask, lane_chunks] using hsum
      · simpa [Function.update_noteq hut, lane_chunks] using hsum
    | corr =>
      rw [chunk_step_corr env settings D N c f L u i inv.fault htask huD]
      have hr : oskar_interferometer (env.interferometer c i f) (L.st.vis_temp u) L.st.error =
          ((env.interferometer c i f).2, 0) := by
        simp [oskar_interferometer, inv.error, hcorr i]
      rw [hr]
      refine ⟨l ++ [.interferometer u i f L.st.error], by simp [hl], ?_⟩
      rw [lane_chunks_append]
      by_cases hut : t = u
      · subst hut
        simp only [produced, htask, add_zero] at hsum
        simp [produced, lane_chunks, hsum, add_assoc]
      · simpa [Function.update_noteq hut, lane_chunks, Ne.symm hut] using hsum
    | add =>
      rw [chunk_step_add env settings D N c f L u i inv.fault htask huD]
      rw [inv.error, oskar_mem_add_ok, inv.temp u i htask]
      refine ⟨l ++ [.mem_add_acc u 0], by simp [hl], ?_⟩
      rw [lane_chunks_append]
      by_cases hut : t = u
      · subst hut
        simp only [produced, htask] at hsum
        simpa [produced, lane_chunks] using hsum
      · simpa [Function.update_noteq hut, lane_chunks] using hsum

theorem lane_sum_run (env : Env α n) (settings : Settings) (D N c : Nat) (f : ℚ)
    (all : List Nat) (s : State α n) (t : Nat)
    (hbind : ∀ i id, env.cudaSetDevice_chunk c i id = 0)
    (hcorr : ∀ i, (env.interferometer c i f).1 = 0)
    (picks : List Nat) (hD : ∀ u ∈ picks, u < D) (hall : ∀ u ∈ picks, u ∈ all)
    (L : LoopState α n) (inv : LoopInv env D N c f all s L)
    (h : ∃ l, L.st.trace = s.trace ++ l ∧
      L.st.vis_acc t + produced (fun i => (env.interferometer c i f).2) (L.task t) =
        s.vis_acc t + ((lane_chunks t l).map (fun i => (env.interferometer c i f).2)).sum) :
    ∃ l, (picks.foldl (chunk_step env settings D N c f) L).st.trace = s.trace ++ l ∧
      (picks.foldl (chunk_step env settings D N c f) L).st.vis_acc t +
        produced (fun i => (env.interferometer c i f).2)
          ((picks.foldl (chunk_step env settings D N c f) L).task t) =
        s.vis_acc t + ((lane_chunks t l).map (fun i => (env.interferometer c i f).2)).sum := by
  induction picks generalizing L with
  | nil => exact h
  | cons u rest ih =>
    rw [List.foldl_cons]
    apply ih
    · intro v hv
      exact hD v (List.mem_cons_of_mem _ hv)
    · intro v hv
      exact hall v (List.mem_cons_of_mem _ hv)
    · exact loop_inv_step env settings D N c f all s hbind hcorr L u
        (hD u (List.mem_cons_self _ _)) (hall u (List.mem_cons_self _ _)) inv
    · exact lane_sum_step env settings D N c f all s t L u (hD u (List.mem_cons_self _ _)) inv
        hcorr h

/-! ## Where a failing stage leaves the driver -/

theorem driver_from_line_130 (codes : Codes) (env : Env α n) (sched : Nat → List Nat)
    (hload : env.settings_load.1 = 0)
    (hout : output_file_specified env.settings_load.2 = true)
    (hcount : env.cudaGetDeviceCount.1 = 0)
    (hdev : env.settings_load.2.num_cuda_devices ≤ env.cudaGetDeviceCount.2)
    (htel : env.set_up_telescope = 0) :
    oskar_sim_interferometer codes env sched =
      run_simulation codes env env.settings_load.2 env.settings_load.2.num_cuda_devices
        env.set_up_sky.2 sched (state_at_line_130 env) := by
  unfold oskar_sim_interferometer
  simp only [after_settings_load, hload, hout, hcount, not_lt.mpr hdev, htel,
    State.log_error, ne_eq, not_true_eq_false, if_false]
  rfl

theorem range_split (D i : Nat) (h : i < D) :
    ∃ rest, List.range D = List.range i ++ i :: rest := by
  induction D with
  | zero => omega
  | succ D ih =>
    by_cases hi : i = D
    · subst hi
      exact ⟨[], List.range_succ _⟩
    · obtain ⟨rest, hr⟩ := ih (by omega)
      exact ⟨rest ++ [D], by rw [List.range_succ, hr]; simp⟩

theorem set_up_lanes_append (env : Env α n) (settings : Settings) (l1 l2 : List Nat)
    (s : State α n) :
    set_up_lanes env settings (l1 ++ l2) s =
      match set_up_lanes env settings l1 s with
      | .error x => .error x
      | .ok s1 => set_up_lanes env settings l2 s1 := by
  induction l1 generalizing s with
  | nil => rfl
  | cons i rest ih =>
    simp only [List.cons_append, set_up_lanes]
    split_ifs
    · rfl
    · rfl
    · exact ih _

theorem set_up_lanes_ok_of (env : Env α n) (settings : Settings) (l : List Nat)
    (s : State α n) (h0 : s.error = 0)
    (hacc : ∀ i ∈ l, (env.mem_init_acc i).1 = 0)
    (htemp : ∀ i ∈ l, (env.mem_init_temp i).1 = 0)
    (hbind : ∀ i ∈ l, env.cudaSetDevice_init i (settings.cuda_device_ids i) = 0) :
    ∃ s', set_up_lanes env settings l s = .ok s' ∧ s'.error = 0 ∧
      TraceExt (fun _ => True) s s' := by
  induction l generalizing s with
  | nil => exact ⟨s, rfl, h0, TraceExt.refl _ _⟩
  | cons i rest ih =>
    unfold set_up_lanes
    simp only [oskar_mem_init, h0, State.log_error, ne_eq, not_true_eq_false, if_false,
      hacc i (List.mem_cons_self _ _), htemp i (List.mem_cons_self _ _),
      hbind i (List.mem_cons_self _ _)]
    obtain ⟨s', e1, e2, e3⟩ := ih
      (State.log { (State.log { (State.log { (s.log (.mem_init_acc i 0)) with
          vis_acc := Function.update s.vis_acc i (env.mem_init_acc i).2, error := 0 }
          (.mem_init_temp i 0)) with
          vis_temp := Function.update s.vis_temp i (env.mem_init_temp i).2, error := 0 }
          (.cudaSetDevice (settings.cuda_device_ids i))) with error := 0 }
        .cudaDeviceSynchronize) rfl
      (fun j hj => hacc j (List.mem_cons_of_mem _ hj))
      (fun j hj => htemp j (List.mem_cons_of_mem _ hj))
      (fun j hj => hbind j (List.mem_cons_of_mem _ hj))
    refine ⟨s', e1, e2, TraceExt.trans ?_ e3⟩
    simp [TraceExt]

theorem set_up_lanes_entered_set (env : Env α n) (settings : Settings) (i : Nat)
    (rest : List Nat) (s : State α n) (h : s.error ≠ 0) :
    ∃ s', set_up_lanes env settings (i :: rest) s = .error (.returned s.error, s') ∧
      s'.trace = s.trace ++ [.mem_init_acc i s.error, .mem_init_temp i s.error] := by
  unfold set_up_lanes
  simp [oskar_mem_init, h]

theorem set_up_lanes_acc_fails (env : Env α n) (settings : Settings) (i : Nat)
    (rest : List Nat) (s : State α n) (h0 : s.error = 0)
    (h : (env.mem_init_acc i).1 ≠ 0) :
    ∃ s', set_up_lanes env settings (i :: rest) s =
        .error (.returned (env.mem_init_acc i).1, s') ∧
      s'.trace = s.trace ++ [.mem_init_acc i 0, .mem_init_temp i (env.mem_init_acc i).1] := by
  unfold set_up_lanes
  simp [oskar_mem_init, h0, h]

theorem set_up_lanes_temp_fails (env : Env α n) (settings : Settings) (i : Nat)
    (rest : List Nat) (s : State α n) (h0 : s.error = 0)
    (hacc : (env.mem_init_acc i).1 = 0) (h : (env.mem_init_temp i).1 ≠ 0) :
    ∃ s', set_up_lanes env settings (i :: rest) s =
        .error (.returned (env.mem_init_temp i).1, s') ∧
      s'.trace = s.trace ++ [.mem_init_acc i 0, .mem_init_temp i 0] := by
  unfold set_up_lanes
  simp [oskar_mem_init, h0, hacc, h]

theorem set_up_lanes_bind_fails (env : Env α n) (settings : Settings) (i : Nat)
    (rest : List Nat) (s : State α n) (h0 : s.error = 0)
    (hacc : (env.mem_init_acc i).1 = 0) (htemp : (env.mem_init_temp i).1 = 0)
    (h : env.cudaSetDevice_init i (settings.cuda_device_ids i) ≠ 0) :
    ∃ s', set_up_lanes env settings (i :: rest) s =
        .error (.returned (env.cudaSetDevice_init i (settings.cuda_device_ids i)), s') ∧
      s'.trace = s.trace ++ [.mem_init_acc i 0, .mem_init_temp i 0,
        .cudaSetDevice (settings.cuda_device_ids i)] := by
  unfold set_up_lanes
  simp [oskar_mem_init, h0, hacc, htemp, h]

theorem set_up_lanes_first_failure (env : Env α n) (settings : Settings) (D i : Nat)
    (s : State α n) (h0 : s.error = 0) (hi : i < D)
    (hacc : ∀ j, j < i → (env.mem_init_acc j).1 = 0)
    (htemp : ∀ j, j < i → (env.mem_init_temp j).1 = 0)
    (hbind : ∀ j, j < i → env.cudaSetDevice_init j (settings.cuda_device_ids j) = 0) :
    ∃ s1 rest, s1.error = 0 ∧ TraceExt (fun _ => True) s s1 ∧
      set_up_lanes env settings (List.range D) s = set_up_lanes env settings (i :: rest) s1 := by
  obtain ⟨rest, hr⟩ := range_split D i hi
  obtain ⟨s1, e1, z1, t1⟩ := set_up_lanes_ok_of env settings (List.range i) s h0
    (fun j hj => hacc j (List.mem_range.mp hj)) (fun j hj => htemp j (List.mem_range.mp hj))
    (fun j hj => hbind j (List.mem_range.mp hj))
  refine ⟨s1, rest, z1, t1, ?_⟩
  rw [hr, set_up_lanes_append, e1]

/-! ## One thread: the chunk loop up to the first failing chunk -/

theorem single_lane_iteration_full (env : Env α n) (settings : Settings) (D N c : Nat) (f : ℚ)
    (hD : 0 < D) (L : LoopState α n) (hf : L.fault = false) (ht : L.task 0 = none)
    (h0 : L.st.error = 0) (hk : L.next < N) :
    ([0, 0, 0, 0, 0].foldl (chunk_step env settings D N c f) L).fault = false ∧
    ([0, 0, 0, 0, 0].foldl (chunk_step env settings D N c f) L).task 0 = none ∧
    ([0, 0, 0, 0, 0].foldl (chunk_step env settings D N c f) L).st.error =
      (oskar_interferometer (env.interferometer c L.next f) (L.st.vis_temp 0)
        (env.cudaSetDevice_chunk c L.next (settings.cuda_device_ids 0))).2 ∧
    ([0, 0, 0, 0, 0].foldl (chunk_step env settings D N c f) L).next = L.next + 1 ∧
    ([0, 0, 0, 0, 0].foldl (chunk_step env settings D N c f) L).st.trace =
      L.st.trace ++ [.cudaSetDevice (settings.cuda_device_ids 0),
        .interferometer 0 L.next f (env.cudaSetDevice_chunk c L.next (settings.cuda_device_ids 0)),
        .mem_add_acc 0 (oskar_interferometer (env.interferometer c L.next f) (L.st.vis_temp 0)
          (env.cudaSetDevice_chunk c L.next (settings.cuda_device_ids 0))).2] := by
  simp [List.foldl, chunk_step, hf, ht, h0, hk, hD, State.log]

theorem single_lane_run_of (env : Env α n) (settings : Settings) (D N c : Nat) (f : ℚ)
    (hD : 0 < D) (m : Nat)
    (L : LoopState α n) (hf : L.fault = false) (ht : L.task 0 = none)
    (h0 : L.st.error = 0) (hk : L.next + m ≤ N)
    (hbind : ∀ i, L.next ≤ i → i < L.next + m →
      env.cudaSetDevice_chunk c i (settings.cuda_device_ids 0) = 0)
    (hcorr : ∀ i, L.next ≤ i → i < L.next + m → (env.interferometer c i f).1 = 0) :
    ((List.replicate (5 * m) 0).foldl (chunk_step env settings D N c f) L).fault = false ∧
    ((List.replicate (5 * m) 0).foldl (chunk_step env settings D N c f) L).task 0 = none ∧
    ((List.replicate (5 * m) 0).foldl (chunk_step env settings D N c f) L).st.error = 0 ∧
    ((List.replicate (5 * m) 0).foldl (chunk_step env settings D N c f) L).next =
      L.next + m := by
  induction m generalizing L with
  | zero => simpa using ⟨hf, ht, h0⟩
  | succ m ih =>
    have hrep : List.replicate (5 * (m + 1)) 0 = [0, 0, 0, 0, 0] ++ List.replicate (5 * m) 0 := by
      rw [show 5 * (m + 1) = 5 + 5 * m by ring, List.replicate_add]
      rfl
    rw [hrep, List.foldl_append]
    obtain ⟨g1, g2, g3, g4, -⟩ := single_lane_iteration_full env settings D N c f hD L hf ht h0
      (by omega)
    rw [hbind L.next le_rfl (by omega)] at g3
    simp only [oskar_interferometer, ne_eq, not_true_eq_false, if_false,
      hcorr L.next le_rfl (by omega)] at g3
    obtain ⟨i1, i2, i3, i4⟩ := ih _ g1 g2 g3 (by omega)
      (fun i h1 h2 => hbind i (by omega) (by omega))
      (fun i h1 h2 => hcorr i (by omega) (by omega))
    exact ⟨i1, i2, i3, by rw [i4, g4]; omega⟩

theorem single_lane_skip_state (env : Env α n) (settings : Settings) (D N c : Nat) (f : ℚ)
    (m : Nat) (L : LoopState α n) (hf : L.fault = false) (ht : L.task 0 = none)
    (he : L.st.error ≠ 0) (hk : L.next + m ≤ N) :
    ((List.replicate (2 * m) 0).foldl (chunk_step env settings D N c f) L).st = L.st := by
  induction m generalizing L with
  | zero => rfl
  | succ m ih =>
    have hrep : List.replicate (2 * (m + 1)) 0 = [0, 0] ++ List.replicate (2 * m) 0 := by
      rw [show 2 * (m + 1) = 2 + 2 * m by ring, List.replicate_add]
      rfl
    rw [hrep, List.foldl_append]
    obtain ⟨g1, g2, g3, g4⟩ := single_lane_skip env settings D N c f L hf ht he (by omega)
    have hst : ([0, 0].foldl (chunk_step env settings D N c f) L).st = L.st := by
      simp [List.foldl, chunk_step, hf, ht, he, show L.next < N by omega]
    rw [ih _ g1 g2 (by rw [g3]; exact he) (by omega), hst]

theorem single_lane_chunks_ok (env : Env α n) (settings : Settings) (D N c : Nat) (f : ℚ)
    (hD : 0 < D) (s : State α n) (h0 : s.error = 0)
    (hbind : ∀ i, i < N → env.cudaSetDevice_chunk c i (settings.cuda_device_ids 0) = 0)
    (hcorr : ∀ i, i < N → (env.interferometer c i f).1 = 0) :
    ∃ s1, parallel_chunks env settings D N c f (single_lane_schedule N) s = .ok s1 ∧
      s1.error = 0 := by
  obtain ⟨a1, a2, a3, a4⟩ := single_lane_run_of env settings D N c f hD N (loop_entry s) rfl rfl
    h0 (by simp [loop_entry]) (fun i _ h => hbind i (by simpa [loop_entry] using h))
    (fun i _ h => hcorr i (by simpa [loop_entry] using h))
  have hbar : at_barrier N (single_lane_schedule N) ((single_lane_schedule N).foldl
      (chunk_step env settings D N c f) (loop_entry s)) = true := by
    rw [at_barrier_iff]
    refine ⟨by simpa [loop_entry, single_lane_schedule] using a4, ?_⟩
    intro t ht
    rw [single_lane_schedule, List.mem_replicate] at ht
    rw [ht.2]
    exact a2
  refine ⟨_, ?_, a3⟩
  unfold parallel_chunks
  simp only [hbar, if_true]
  rw [single_lane_schedule] at *
  simp only [a1, Bool.false_eq_true, if_false]

theorem single_lane_chunks_halt (env : Env α n) (settings : Settings) (D N c : Nat) (f : ℚ)
    (hD : 0 < D) (s : State α n) (h0 : s.error = 0) (j : Nat) (hj : j < N)
    (hbind : ∀ i, i < j → env.cudaSetDevice_chunk c i (settings.cuda_device_ids 0) = 0)
    (hcorr : ∀ i, i < j → (env.interferometer c i f).1 = 0) (e : Int) (he : e ≠ 0)
    (hfail : ∀ v, (oskar_interferometer (env.interferometer c j f) v
      (env.cudaSetDevice_chunk c j (settings.cuda_device_ids 0))).2 = e) :
    ∃ s1 W, parallel_chunks env settings D N c f (single_lane_schedule N) s = .ok s1 ∧
      s1.error = e ∧
      s1.trace = W ++ [.cudaSetDevice (settings.cuda_device_ids 0),
        .interferometer 0 j f (env.cudaSetDevice_chunk c j (settings.cuda_device_ids 0)),
        .mem_add_acc 0 e] := by
  obtain ⟨r, hr⟩ : ∃ r, N = j + 1 + r := ⟨N - (j + 1), by omega⟩
  have hsplit : single_lane_schedule N =
      List.replicate (5 * j) 0 ++ ([0, 0, 0, 0, 0] ++
        (List.replicate (2 * r) 0 ++ List.replicate (3 * r) 0)) := by
    rw [single_lane_schedule, hr, show 5 * (j + 1 + r) = 5 * j + (5 + (2 * r + 3 * r)) by ring,
      List.replicate_add, List.replicate_add, List.replicate_add]
    rfl
  obtain ⟨a1, a2, a3, a4⟩ := single_lane_run_of env settings D N c f
    hD j (loop_entry s) rfl rfl h0 (by simp [loop_entry]; omega)
    (fun i _ h => hbind i (by simpa [loop_entry] using h))
    (fun i _ h => hcorr i (by simpa [loop_entry] using h))
  have a4' : ((List.replicate (5 * j) 0).foldl
      (chunk_step env settings D N c f) (loop_entry s)).next = j := by
    simpa [loop_entry] using a4
  obtain ⟨b1, b2, b3, b4, b5⟩ := single_lane_iteration_full env settings D N c f hD _ a1 a2 a3
    (by rw [a4']; omega)
  rw [a4'] at b3 b4 b5
  rw [hfail] at b3 b5
  obtain ⟨c1, c2, c3, c4⟩ := single_lane_skip_run env settings D N c f r _ b1 b2
    (by rw [b3]; exact he) (by rw [b4]; omega)
  have c5 := single_lane_skip_state env settings D N c f r _ b1 b2
    (by rw [b3]; exact he) (by rw [b4]; omega)
  rw [b4] at c4
  have hidle := single_lane_idle env settings D N c f (3 * r) _ c1 c2 (by rw [c4]; omega)
  have hfinal : (single_lane_schedule N).foldl (chunk_step env settings D N c f) (loop_entry s) =
      (List.replicate (2 * r) 0).foldl (chunk_step env settings D N c f)
        ([0, 0, 0, 0, 0].foldl (chunk_step env settings D N c f)
          ((List.replicate (5 * j) 0).foldl (chunk_step env settings D N c f) (loop_entry s))) := by
    rw [hsplit, List.foldl_append, List.foldl_append, List.foldl_append, hidle]
  have hbar : at_barrier N (single_lane_schedule N) ((single_lane_schedule N).foldl
      (chunk_step env settings D N c f) (loop_entry s)) = true := by
    rw [at_barrier_iff, hfinal]
    refine ⟨by rw [c4]; omega, ?_⟩
    intro t ht
    rw [single_lane_schedule, List.mem_replicate] at ht
    rw [ht.2]
    exact c2
  refine ⟨((single_lane_schedule N).foldl (chunk_step env settings D N c f) (loop_entry s)).st,
    ((List.replicate (5 * j) 0).foldl (chunk_step env settings D N c f) (loop_entry s)).st.trace,
    ?_, ?_, ?_⟩
  · unfold parallel_chunks
    simp only [hbar, if_true]
    rw [hfinal] at *
    simp only [c1, Bool.false_eq_true, if_false]
  · rw [hfinal, c5, b3]
  · rw [hfinal, c5, b5]

/-! ## One thread: the loop over channels up to the first failing chunk -/

theorem Halted.of_last (e : Int) (ev : Event) (x : Exit × State α n)
    (h1 : x.1 = .returned e) (h2 : x.2.trace.getLast? = some ev) : Halted e ev x := by
  obtain ⟨W, hW⟩ := List.getLast?_eq_some_iff.mp h2
  exact ⟨h1, W, [], hW, by simp⟩

theorem single_lane_channel_ok (env : Env α n) (settings : Settings) (D N c : Nat)
    (hD : 0 < D) (s : State α n) (h0 : s.error = 0)
    (hbind : ∀ i, i < N → env.cudaSetDevice_chunk c i (settings.cuda_device_ids 0) = 0)
    (hcorr : ∀ i, i < N → (env.interferometer c i (channel_frequency settings c)).1 = 0) :
    ∃ r, channel_body env settings D N c (single_lane_schedule N) s = .ok r ∧ r.error = 0 := by
  obtain ⟨s1, e1, z1⟩ := single_lane_chunks_ok env settings D N c (channel_frequency settings c)
    hD s h0 hbind hcorr
  refine ⟨fold_into_global D c s1, ?_, (fold_into_global_ok D c s1 z1).1⟩
  unfold channel_body
  simp [e1, z1]

theorem single_lane_channels_ok (env : Env α n) (settings : Settings) (D N : Nat)
    (hD : 0 < D) (cs : List Nat) (s : State α n) (h0 : s.error = 0)
    (hbind : ∀ c ∈ cs, ∀ i, i < N → env.cudaSetDevice_chunk c i (settings.cuda_device_ids 0) = 0)
    (hcorr : ∀ c ∈ cs, ∀ i, i < N →
      (env.interferometer c i (channel_frequency settings c)).1 = 0) :
    ∃ r, channel_loop env settings D N (fun _ => single_lane_schedule N) cs s = .ok r ∧
      r.error = 0 := by
  induction cs generalizing s with
  | nil => exact ⟨s, rfl, h0⟩
  | cons c rest ih =>
    obtain ⟨r, hr, e0⟩ := single_lane_channel_ok env settings D N c hD s h0
      (hbind c (List.mem_cons_self _ _)) (hcorr c (List.mem_cons_self _ _))
    obtain ⟨r', hr', e0'⟩ := ih r e0 (fun c' h => hbind c' (List.mem_cons_of_mem _ h))
      (fun c' h => hcorr c' (List.mem_cons_of_mem _ h))
    exact ⟨r', by unfold channel_loop; simp only [hr, hr'], e0'⟩

theorem channel_loop_append (env : Env α n) (settings : Settings) (D N : Nat)
    (sched : Nat → List Nat) (l1 l2 : List Nat) (s : State α n) :
    channel_loop env settings D N sched (l1 ++ l2) s =
      match channel_loop env settings D N sched l1 s with
      | .error x => .error x
      | .ok s1 => channel_loop env settings D N sched l2 s1 := by
  induction l1 generalizing s with
  | nil => rfl
  | cons c rest ih =>
    simp only [List.cons_append, channel_loop]
    split
    · rfl
    · exact ih _

theorem single_lane_channels_halt (env : Env α n) (settings : Settings) (D N C : Nat)
    (hD : 0 < D) (s : State α n) (h0 : s.error = 0) (c : Nat) (hc : c < C)
    (hbind : ∀ c', c' < c → ∀ i, i < N →
      env.cudaSetDevice_chunk c' i (settings.cuda_device_ids 0) = 0)
    (hcorr : ∀ c', c' < c → ∀ i, i < N →
      (env.interferometer c' i (channel_frequency settings c')).1 = 0)
    (j : Nat) (hj : j < N)
    (hbindc : ∀ i, i < j → env.cudaSetDevice_chunk c i (settings.cuda_device_ids 0) = 0)
    (hcorrc : ∀ i, i < j → (env.interferometer c i (channel_frequency settings c)).1 = 0)
    (e : Int) (he : e ≠ 0)
    (hfail : ∀ v, (oskar_interferometer (env.interferometer c j (channel_frequency settings c)) v
      (env.cudaSetDevice_chunk c j (settings.cuda_device_ids 0))).2 = e) :
    ∃ s1 W, channel_loop env settings D N (fun _ => single_lane_schedule N) (List.range C) s =
        .error (.returned e, s1) ∧
      s1.trace = W ++ [.cudaSetDevice (settings.cuda_device_ids 0),
        .interferometer 0 j (channel_frequency settings c)
          (env.cudaSetDevice_chunk c j (settings.cuda_device_ids 0)),
        .mem_add_acc 0 e] := by
  obtain ⟨rest, hr⟩ := range_split C c hc
  obtain ⟨r, e1, z1⟩ := single_lane_channels_ok env settings D N hD (List.range c) s h0
    (fun c' h => hbind c' (List.mem_range.mp h)) (fun c' h => hcorr c' (List.mem_range.mp h))
  obtain ⟨s1, W, e2, z2, t2⟩ := single_lane_chunks_halt env settings D N c
    (channel_frequency settings c) hD r z1 j hj hbindc hcorrc e he hfail
  refine ⟨s1, W, ?_, t2⟩
  rw [hr, channel_loop_append, e1]
  simp only [channel_loop, channel_body, e2, z2, ne_eq, he, not_false_eq_true, if_true]

/-! ## The driver as a run up to line 202 followed by what comes after -/

theorem driver_after_line_202 (codes : Codes) (env : Env α n) (sched : Nat → List Nat) :
    oskar_sim_interferometer codes env sched =
      match run_to_line_202 codes env sched with
      | .error x => x
      | .ok s6 => post_processing codes env env.settings_load.2
          env.settings_load.2.num_cuda_devices.toNat env.set_up_sky.2.toNat s6 := by
  unfold oskar_sim_interferometer run_to_line_202 run_simulation
  simp only []
  split_ifs <;> try rfl
  split <;> rfl

theorem run_simulation_lanes_error (codes : Codes) (env : Env α n) (settings : Settings)
    (D N : Int) (sched : Nat → List Nat) (s : State α n) (hD : 0 ≤ D) (x : Exit × State α n)
    (h : set_up_lanes env settings (List.range D.toNat) s = .error x) :
    run_simulation codes env settings D N sched s = x := by
  unfold run_simulation
  rw [if_neg (by omega), h]

theorem run_simulation_chunk_halt (codes : Codes) (env : Env α n) (settings : Settings)
    (D N : Int) (s : State α n) (hD : 0 < D) (h0 : s.error = 0)
    (hacc : ∀ i, i < D.toNat → (env.mem_init_acc i).1 = 0)
    (htemp : ∀ i, i < D.toNat → (env.mem_init_temp i).1 = 0)
    (hlane : ∀ i, i < D.toNat → env.cudaSetDevice_init i (settings.cuda_device_ids i) = 0)
    (c : Nat) (hc : c < settings.num_channels.toNat)
    (hbind : ∀ c', c' < c → ∀ i, i < N.toNat →
      env.cudaSetDevice_chunk c' i (settings.cuda_device_ids 0) = 0)
    (hcorr : ∀ c', c' < c → ∀ i, i < N.toNat →
      (env.interferometer c' i (channel_frequency settings c')).1 = 0)
    (j : Nat) (hj : j < N.toNat)
    (hbindc : ∀ i, i < j → env.cudaSetDevice_chunk c i (settings.cuda_device_ids 0) = 0)
    (hcorrc : ∀ i, i < j → (env.interferometer c i (channel_frequency settings c)).1 = 0)
    (e : Int) (he : e ≠ 0)
    (hfail : ∀ v, (oskar_interferometer (env.interferometer c j (channel_frequency settings c)) v
      (env.cudaSetDevice_chunk c j (settings.cuda_device_ids 0))).2 = e) :
    ∃ s1 W, run_simulation codes env settings D N (fun _ => single_lane_schedule N.toNat) s =
        (.returned e, s1) ∧
      s1.trace = W ++ [.cudaSetDevice (settings.cuda_device_ids 0),
        .interferometer 0 j (channel_frequency settings c)
          (env.cudaSetDevice_chunk c j (settings.cuda_device_ids 0)),
        .mem_add_acc 0 e] := by
  obtain ⟨s5, e5, z5, -⟩ := set_up_lanes_ok_of env settings (List.range D.toNat) s h0
    (fun i h => hacc i (List.mem_range.mp h)) (fun i h => htemp i (List.mem_range.mp h))
    (fun i h => hlane i (List.mem_range.mp h))
  obtain ⟨s1, W, e6, t6⟩ := single_lane_channels_halt env settings D.toNat N.toNat
    settings.num_channels.toNat (by omega) s5 z5 c hc hbind hcorr j hj hbindc hcorrc e he hfail
  refine ⟨s1, W, ?_, t6⟩
  unfold run_simulation
  rw [if_neg (by omega), e5]
  simp only [e6]

theorem run_simulation_post (codes : Codes) (env : Env α n) (settings : Settings)
    (D N : Int) (s : State α n) (hD : 0 < D) (h0 : s.error = 0)
    (hacc : ∀ i, i < D.toNat → (env.mem_init_acc i).1 = 0)
    (htemp : ∀ i, i < D.toNat → (env.mem_init_temp i).1 = 0)
    (hlane : ∀ i, i < D.toNat → env.cudaSetDevice_init i (settings.cuda_device_ids i) = 0)
    (hbind : ∀ c, c < settings.num_channels.toNat → ∀ i, i < N.toNat →
      env.cudaSetDevice_chunk c i (settings.cuda_device_ids 0) = 0)
    (hcorr : ∀ c, c < settings.num_channels.toNat → ∀ i, i < N.toNat →
      (env.interferometer c i (channel_frequency settings c)).1 = 0) :
    ∃ s6, s6.error = 0 ∧
      run_simulation codes env settings D N (fun _ => single_lane_schedule N.toNat) s =
        post_processing codes env settings D.toNat N.toNat s6 := by
  obtain ⟨s5, e5, z5, -⟩ := set_up_lanes_ok_of env settings (List.range D.toNat) s h0
    (fun i h => hacc i (List.mem_range.mp h)) (fun i h => htemp i (List.mem_range.mp h))
    (fun i h => hlane i (List.mem_range.mp h))
  obtain ⟨s6, e6, z6⟩ := single_lane_channels_ok env settings D.toNat N.toNat (by omega)
    (List.range settings.num_channels.toNat) s5 z5
    (fun c h => hbind c (List.mem_range.mp h)) (fun c h => hcorr c (List.mem_range.mp h))
  refine ⟨s6, z6, ?_⟩
  unfold run_simulation
  rw [if_neg (by omega), e5]
  simp only [e6]

/-! ## What follows the loop over channels, up to the first failing stage -/

theorem post_noise_fails (codes : Codes) (env : Env α n) (settings : Settings) (D N : Nat)
    (s : State α n) (h0 : s.error = 0) (hn : settings.noise_enable = true) (e : Int)
    (he : e ≠ 0) (hfail : (env.add_system_noise settings.noise_seed s.vis_global).1 = e) :
    (post_processing codes env settings D N s).1 = .returned e ∧
      (post_processing codes env settings D N s).2.trace =
        s.trace ++ [.add_system_noise settings.noise_seed] := by
  simp [post_processing, noise_stage, h0, hn, hfail, he]

theorem post_uvw_fails (codes : Codes) (env : Env α n) (settings : Settings) (D N : Nat)
    (s : State α n) (h0 : s.error = 0)
    (hnoise : settings.noise_enable = true →
      ∀ v, (env.add_system_noise settings.noise_seed v).1 = 0)
    (e : Int) (he : e ≠ 0) (hfail : env.evaluate_uvw_baseline = e) :
    (post_processing codes env settings D N s).1 = .returned e ∧
      (post_processing codes env settings D N s).2.trace.getLast? =
        some (.evaluate_uvw_baseline 0) := by
  cases hn : settings.noise_enable <;>
    simp_all [post_processing, noise_stage, uvw_stage]

theorem post_write_fails (codes : Codes) (env : Env α n) (settings : Settings) (D N : Nat)
    (s : State α n) (h0 : s.error = 0)
    (hnoise : settings.noise_enable = true →
      ∀ v, (env.add_system_noise settings.noise_seed v).1 = 0)
    (huvw : env.evaluate_uvw_baseline = 0)
    (hfile : settings.oskar_vis_filename.isSome = true)
    (e : Int) (he : e ≠ 0) (hfail : env.visibilities_write = e) :
    (post_processing codes env settings D N s).1 = .returned e ∧
      (post_processing codes env settings D N s).2.trace.getLast? =
        some (.visibilities_write 0) := by
  cases hn : settings.noise_enable <;>
    simp_all [post_processing, noise_stage, uvw_stage, write_stage]

theorem post_write_ms_fails (codes : Codes) (env : Env α n) (settings : Settings) (D N : Nat)
    (s : State α n) (h0 : s.error = 0)
    (hnoise : settings.noise_enable = true →
      ∀ v, (env.add_system_noise settings.noise_seed v).1 = 0)
    (huvw : env.evaluate_uvw_baseline = 0)
    (hvis : settings.oskar_vis_filename.isSome = true → env.visibilities_write = 0)
    (hfile : settings.ms_filename.isSome = true)
    (e : Int) (he : e ≠ 0) (hfail : env.visibilities_write_ms = e) :
    (post_processing codes env settings D N s).1 = .returned e ∧
      (post_processing codes env settings D N s).2.trace.getLast? =
        some .visibilities_write_ms := by
  cases hn : settings.noise_enable <;> cases hv : settings.oskar_vis_filename.isSome <;>
    simp_all [post_processing, noise_stage, uvw_stage, write_stage]

theorem post_make_image_fails (codes : Codes) (env : Env α n) (settings : Settings) (D N : Nat)
    (s : State α n) (h0 : s.error = 0)
    (hnoise : settings.noise_enable = true →
      ∀ v, (env.add_system_noise settings.noise_seed v).1 = 0)
    (huvw : env.evaluate_uvw_baseline = 0)
    (hvis : settings.oskar_vis_filename.isSome = true → env.visibilities_write = 0)
    (hms : settings.ms_filename.isSome = true → env.visibilities_write_ms = 0)
    (himage : (settings.image_interferometer_output &&
      (settings.oskar_image.isSome || settings.fits_image.isSome)) = true)
    (e : Int) (he : e ≠ 0) (hfail : env.make_image = e) :
    (post_processing codes env settings D N s).1 = .returned e ∧
      (post_processing codes env settings D N s).2.trace.getLast? = some .make_image := by
  cases hn : settings.noise_enable <;> cases hv : settings.oskar_vis_filename.isSome <;>
    cases hm : settings.ms_filename.isSome <;>
    simp_all [post_processing, noise_stage, uvw_stage, write_stage, image_stage]

theorem post_image_write_fails (codes : Codes) (env : Env α n) (settings : Settings)
    (D N : Nat) (s : State α n) (h0 : s.error = 0)
    (hnoise : settings.noise_enable = true →
      ∀ v, (env.add_system_noise settings.noise_seed v).1 = 0)
    (huvw : env.evaluate_uvw_baseline = 0)
    (hvis : settings.oskar_vis_filename.isSome = true → env.visibilities_write = 0)
    (hms : settings.ms_filename.isSome = true → env.visibilities_write_ms = 0)
    (hflag : settings.image_interferometer_output = true)
    (hfile : settings.oskar_image.isSome = true)
    (hmake : env.make_image = 0)
    (e : Int) (he : e ≠ 0) (hfail : env.image_write = e) :
    (post_processing codes env settings D N s).1 = .returned e ∧
      (post_processing codes env settings D N s).2.trace.getLast? = some (.image_write 0) := by
  cases hn : settings.noise_enable <;> cases hv : settings.oskar_vis_filename.isSome <;>
    cases hm : settings.ms_filename.isSome <;>
    simp_all [post_processing, noise_stage, uvw_stage, write_stage, image_stage]

theorem post_fits_write_fails (codes : Codes) (env : Env α n) (settings : Settings)
    (D N : Nat) (s : State α n) (h0 : s.error = 0)
    (hnoise : settings.noise_enable = true →
      ∀ v, (env.add_system_noise settings.noise_seed v).1 = 0)
    (huvw : env.evaluate_uvw_baseline = 0)
    (hvis : settings.oskar_vis_filename.isSome = true → env.visibilities_write = 0)
    (hms : settings.ms_filename.isSome = true → env.visibilities_write_ms = 0)
    (hflag : settings.image_interferometer_output = true)
    (hfile : settings.fits_image.isSome = true)
    (hmake : env.make_image = 0)
    (himg : settings.oskar_image.isSome = true → env.image_write = 0)
    (e : Int) (he : e ≠ 0) (hfail : env.fits_image_write = e) :
    (post_processing codes env settings D N s).1 = .returned e ∧
      (post_processing codes env settings D N s).2.trace.getLast? = some .fits_image_write := by
  cases hn : settings.noise_enable <;> cases hv : settings.oskar_vis_filename.isSome <;>
    cases hm : settings.ms_filename.isSome <;> cases hi : settings.oskar_image.isSome <;>
    simp_all [post_processing, noise_stage, uvw_stage, write_stage, image_stage]

/-! ## What a first failing stage says about the stages before it -/

theorem Stage.reached_launch (env : Env α n) (st : Stage) (h : st.reached env)
    (hp : 2 ≤ st.position.1) :
    output_file_specified env.settings_load.2 = true ∧
      env.settings_load.2.num_cuda_devices ≤ env.cudaGetDeviceCount.2 := by
  cases st <;> simp_all [Stage.reached, Stage.position]

theorem FirstFailure.launch_ok {env : Env α n} {st : Stage} {e : Int}
    (h : FirstFailure env st e) (hp : 3 ≤ st.position.1) :
    env.settings_load.1 = 0 ∧ output_file_specified env.settings_load.2 = true ∧
      env.cudaGetDeviceCount.1 = 0 ∧
      env.settings_load.2.num_cuda_devices ≤ env.cudaGetDeviceCount.2 ∧
      env.set_up_telescope = 0 := by
  obtain ⟨hr, -, -, hprev⟩ := h
  obtain ⟨hout, hdev⟩ := Stage.reached_launch env st hr (by omega)
  refine ⟨hprev .settings_load trivial ?_, hout, hprev .cudaGetDeviceCount hout ?_, hdev,
    hprev .set_up_telescope ⟨hout, hdev⟩ ?_⟩
  · exact Or.inl (by show 0 < st.position.1; omega)
  · exact Or.inl (by show 1 < st.position.1; omega)
  · exact Or.inl (by show 2 < st.position.1; omega)

theorem FirstFailure.line_130_clear {env : Env α n} {st : Stage} {e : Int}
    (h : FirstFailure env st e) (hp : 5 ≤ st.position.1) :
    (state_at_line_130 env).error = 0 := by
  obtain ⟨hr, -, -, hprev⟩ := h
  obtain ⟨hout, hdev⟩ := Stage.reached_launch env st hr (by omega)
  have hsky : env.set_up_sky.1 = 0 := hprev .set_up_sky ⟨hout, hdev⟩
    (Or.inl (by show 3 < st.position.1; omega))
  have hvis : env.set_up_visibilities.1 = 0 := hprev .set_up_visibilities ⟨hout, hdev⟩
    (Or.inl (by show 4 < st.position.1; omega))
  simp [state_at_line_130, oskar_set_up_visibilities, hsky, hvis]

theorem FirstFailure.lanes_ok {env : Env α n} {st : Stage} {e : Int}
    (h : FirstFailure env st e) (hp : 6 ≤ st.position.1) (i : Nat)
    (hi : i < env.settings_load.2.num_cuda_devices.toNat) :
    (env.mem_init_acc i).1 = 0 ∧ (env.mem_init_temp i).1 = 0 ∧
      env.cudaSetDevice_init i (env.settings_load.2.cuda_device_ids i) = 0 := by
  obtain ⟨hr, -, -, hprev⟩ := h
  obtain ⟨hout, hdev⟩ := Stage.reached_launch env st hr (by omega)
  refine ⟨hprev (.mem_init_acc i) ⟨hout, hdev, hi⟩ ?_, hprev (.mem_init_temp i) ⟨hout, hdev, hi⟩ ?_,
    hprev (.bind_lane i) ⟨hout, hdev, hi⟩ ?_⟩ <;>
  exact Or.inl (by show 5 < st.position.1; omega)

theorem FirstFailure.chunks_ok {env : Env α n} {st : Stage} {e : Int}
    (h : FirstFailure env st e) (hp : 7 ≤ st.position.1) (c : Nat)
    (hc : c < env.settings_load.2.num_channels.toNat) (i : Nat)
    (hi : i < env.set_up_sky.2.toNat) :
    env.cudaSetDevice_chunk c i (env.settings_load.2.cuda_device_ids 0) = 0 ∧
      (env.interferometer c i (channel_frequency env.settings_load.2 c)).1 = 0 := by
  obtain ⟨hr, -, -, hprev⟩ := h
  obtain ⟨hout, hdev⟩ := Stage.reached_launch env st hr (by omega)
  refine ⟨hprev (.bind_chunk c i) ⟨hout, hdev, hc, hi⟩ ?_,
    hprev (.interferometer c i) ⟨hout, hdev, hc, hi⟩ ?_⟩ <;>
  exact Or.inl (by show 6 < st.position.1; omega)

theorem FirstFailure.noise_ok {env : Env α n} {st : Stage} {e : Int}
    (h : FirstFailure env st e) (hp : 8 ≤ st.position.1)
    (hn : env.settings_load.2.noise_enable = true) :
    ∀ v, (env.add_system_noise env.settings_load.2.noise_seed v).1 = 0 := by
  obtain ⟨hr, -, -, hprev⟩ := h
  obtain ⟨hout, hdev⟩ := Stage.reached_launch env st hr (by omega)
  exact hprev .add_system_noise ⟨hout, hdev, hn⟩ (Or.inl (by show 7 < st.position.1; omega))

theorem FirstFailure.uvw_ok {env : Env α n} {st : Stage} {e : Int}
    (h : FirstFailure env st e) (hp : 9 ≤ st.position.1) : env.evaluate_uvw_baseline = 0 := by
  obtain ⟨hr, -, -, hprev⟩ := h
  obtain ⟨hout, hdev⟩ := Stage.reached_launch env st hr (by omega)
  exact hprev .evaluate_uvw_baseline ⟨hout, hdev⟩ (Or.inl (by show 8 < st.position.1; omega))

theorem FirstFailure.write_ok {env : Env α n} {st : Stage} {e : Int}
    (h : FirstFailure env st e) (hp : 10 ≤ st.position.1)
    (hf : env.settings_load.2.oskar_vis_filename.isSome = true) :
    env.visibilities_write = 0 := by
  obtain ⟨hr, -, -, hprev⟩ := h
  obtain ⟨hout, hdev⟩ := Stage.reached_launch env st hr (by omega)
  exact hprev .visibilities_write ⟨hout, hdev, hf⟩ (Or.inl (by show 9 < st.position.1; omega))

theorem FirstFailure.write_ms_ok {env : Env α n} {st : Stage} {e : Int}
    (h : FirstFailure env st e) (hp : 11 ≤ st.position.1)
    (hf : env.settings_load.2.ms_filename.isSome = true) :
    env.visibilities_write_ms = 0 := by
  obtain ⟨hr, -, -, hprev⟩ := h
  obtain ⟨hout, hdev⟩ := Stage.reached_launch env st hr (by omega)
  exact hprev .visibilities_write_ms ⟨hout, hdev, hf⟩ (Or.inl (by show 10 < st.position.1; omega))

theorem FirstFailure.make_image_ok {env : Env α n} {st : Stage} {e : Int}
    (h : FirstFailure env st e) (hp : 12 ≤ st.position.1)
    (hf : (env.settings_load.2.image_interferometer_output &&
      (env.settings_load.2.oskar_image.isSome || env.settings_load.2.fits_image.isSome)) = true) :
    env.make_image = 0 := by
  obtain ⟨hr, -, -, hprev⟩ := h
  obtain ⟨hout, hdev⟩ := Stage.reached_launch env st hr (by omega)
  exact hprev .make_image ⟨hout, hdev, hf⟩ (Or.inl (by show 11 < st.position.1; omega))

theorem FirstFailure.image_write_ok {env : Env α n} {st : Stage} {e : Int}
    (h : FirstFailure env st e) (hp : 13 ≤ st.position.1)
    (hflag : env.settings_load.2.image_interferometer_output = true)
    (hf : env.settings_load.2.oskar_image.isSome = true) :
    env.image_write = 0 := by
  obtain ⟨hr, -, -, hprev⟩ := h
  obtain ⟨hout, hdev⟩ := Stage.reached_launch env st hr (by omega)
  exact hprev .image_write ⟨hout, hdev, hflag, hf⟩ (Or.inl (by show 12 < st.position.1; omega))

theorem FirstFailure.reaches_post {env : Env α n} {st : Stage} {e : Int} (codes : Codes)
    (h : FirstFailure env st e) (hp : 7 ≤ st.position.1)
    (hD : 0 < env.settings_load.2.num_cuda_devices) :
    ∃ s6, s6.error = 0 ∧
      oskar_sim_interferometer codes env (fun _ => single_lane_schedule env.set_up_sky.2.toNat) =
        post_processing codes env env.settings_load.2
          env.settings_load.2.num_cuda_devices.toNat env.set_up_sky.2.toNat s6 := by
  obtain ⟨hload, hout, hcount, hdev, htel⟩ := h.launch_ok (by omega)
  rw [driver_from_line_130 codes env _ hload hout hcount hdev htel]
  exact run_simulation_post codes env env.settings_load.2 _ _ _ hD (h.line_130_clear (by omega))
    (fun i hi => (h.lanes_ok (by omega) i hi).1) (fun i hi => (h.lanes_ok (by omega) i hi).2.1)
    (fun i hi => (h.lanes_ok (by omega) i hi).2.2)
    (fun c hc i hi => (h.chunks_ok hp c hc i hi).1) (fun c hc i hi => (h.chunks_ok hp c hc i hi).2)

theorem FirstFailure.lanes_before {env : Env α n} {st : Stage} {e : Int}
    (h : FirstFailure env st e) (hst : st.position.1 = 5) (i : Nat) (hi : st.position.2.1 = i)
    (hD : i < env.settings_load.2.num_cuda_devices.toNat) (j : Nat) (hj : j < i) :
    (env.mem_init_acc j).1 = 0 ∧ (env.mem_init_temp j).1 = 0 ∧
      env.cudaSetDevice_init j (env.settings_load.2.cuda_device_ids j) = 0 := by
  obtain ⟨hr, -, -, hprev⟩ := h
  obtain ⟨hout, hdev⟩ := Stage.reached_launch env st hr (by omega)
  refine ⟨hprev (.mem_init_acc j) ⟨hout, hdev, by omega⟩ ?_,
    hprev (.mem_init_temp j) ⟨hout, hdev, by omega⟩ ?_,
    hprev (.bind_lane j) ⟨hout, hdev, by omega⟩ ?_⟩ <;>
  exact Or.inr ⟨by show 5 = st.position.1; omega, Or.inl (by show j < st.position.2.1; omega)⟩

theorem FirstFailure.channels_before {env : Env α n} {st : Stage} {e : Int}
    (h : FirstFailure env st e) (hst : st.position.1 = 6) (c : Nat) (hc : st.position.2.1 = c)
    (hC : c < env.settings_load.2.num_channels.toNat) (c' : Nat) (hc' : c' < c) (i : Nat)
    (hi : i < env.set_up_sky.2.toNat) :
    env.cudaSetDevice_chunk c' i (env.settings_load.2.cuda_device_ids 0) = 0 ∧
      (env.interferometer c' i (channel_frequency env.settings_load.2 c')).1 = 0 := by
  obtain ⟨hr, -, -, hprev⟩ := h
  obtain ⟨hout, hdev⟩ := Stage.reached_launch env st hr (by omega)
  refine ⟨hprev (.bind_chunk c' i) ⟨hout, hdev, by omega, hi⟩ ?_,
    hprev (.interferometer c' i) ⟨hout, hdev, by omega, hi⟩ ?_⟩ <;>
  exact Or.inr ⟨by show 6 = st.position.1; omega, Or.inl (by show c' < st.position.2.1; omega)⟩

theorem FirstFailure.chunks_before {env : Env α n} {st : Stage} {e : Int}
    (h : FirstFailure env st e) (hst : st.position.1 = 6) (c : Nat) (hc : st.position.2.1 = c)
    (hC : c < env.settings_load.2.num_channels.toNat) (j : Nat) (hj : 2 * j ≤ st.position.2.2)
    (hN : j < env.set_up_sky.2.toNat) (i : Nat) (hi : i < j) :
    env.cudaSetDevice_chunk c i (env.settings_load.2.cuda_device_ids 0) = 0 ∧
      (env.interferometer c i (channel_frequency env.settings_load.2 c)).1 = 0 := by
  obtain ⟨hr, -, -, hprev⟩ := h
  obtain ⟨hout, hdev⟩ := Stage.reached_launch env st hr (by omega)
  refine ⟨hprev (.bind_chunk c i) ⟨hout, hdev, hC, by omega⟩ ?_,
    hprev (.interferometer c i) ⟨hout, hdev, hC, by omega⟩ ?_⟩
  · exact Or.inr ⟨by show 6 = st.position.1; omega, Or.inr ⟨by show c = st.position.2.1; omega,
      by show 2 * i < st.position.2.2; omega⟩⟩
  · exact Or.inr ⟨by show 6 = st.position.1; omega, Or.inr ⟨by show c = st.position.2.1; omega,
      by show 2 * i + 1 < st.position.2.2; omega⟩⟩

/-! ## The run with one thread halts at the first failing stage -/

theorem halt_settings_load (codes : Codes) (env : Env α n) (e : Int)
    (h : FirstFailure env .settings_load e) :
    Halted e .settings_load (sequential_run codes env) := by
  obtain ⟨-, hrep, he, -⟩ := h
  have hrep' : env.settings_load.1 = e := hrep
  refine Halted.of_last _ _ _ ?_ ?_ <;>
    simp [sequential_run, oskar_sim_interferometer, after_settings_load, hrep', he]

theorem halt_cudaGetDeviceCount (codes : Codes) (env : Env α n) (e : Int)
    (h : FirstFailure env .cudaGetDeviceCount e) :
    Halted e .cudaGetDeviceCount (sequential_run codes env) := by
  obtain ⟨hr, hrep, he, hprev⟩ := h
  have hrep' : env.cudaGetDeviceCount.1 = e := hrep
  have hout : output_file_specified env.settings_load.2 = true := hr
  have hload : env.settings_load.1 = 0 := hprev .settings_load trivial (Or.inl (by decide))
  refine Halted.of_last _ _ _ ?_ ?_ <;>
    simp [sequential_run, oskar_sim_interferometer, after_settings_load, hrep', he, hout, hload]

theorem halt_set_up_telescope (codes : Codes) (env : Env α n) (e : Int)
    (h : FirstFailure env .set_up_telescope e) :
    Halted codes.OSKAR_ERR_SETUP_FAIL_TELESCOPE .set_up_telescope (sequential_run codes env) := by
  obtain ⟨hr, hrep, he, hprev⟩ := h
  have hrep' : env.set_up_telescope = e := hrep
  obtain ⟨hout, hdev⟩ : output_file_specified env.settings_load.2 = true ∧
      env.settings_load.2.num_cuda_devices ≤ env.cudaGetDeviceCount.2 := hr
  have hload : env.settings_load.1 = 0 := hprev .settings_load trivial (Or.inl (by decide))
  have hcount : env.cudaGetDeviceCount.1 = 0 :=
    hprev .cudaGetDeviceCount hout (Or.inl (by decide))
  refine Halted.of_last _ _ _ ?_ ?_ <;>
    simp [sequential_run, oskar_sim_interferometer, after_settings_load, hrep', he, hout, hload,
      hcount, not_lt.mpr hdev]

theorem halt_set_up_sky (codes : Codes) (env : Env α n) (e : Int)
    (hD : 0 < env.settings_load.2.num_cuda_devices) (h : FirstFailure env .set_up_sky e) :
    (sequential_run codes env).1 = .returned e ∧
      (sequential_run codes env).2.trace =
        [.settings_load, .cudaGetDeviceCount, .set_up_telescope, .set_up_sky,
          .set_up_visibilities e, .mem_init_acc 0 e, .mem_init_temp 0 e] := by
  obtain ⟨hload, hout, hcount, hdev, htel⟩ := h.launch_ok (by decide)
  obtain ⟨-, hrep, he, -⟩ := h
  have hrep' : env.set_up_sky.1 = e := hrep
  have hs : (state_at_line_130 env).error = e := by
    simp [state_at_line_130, oskar_set_up_visibilities, hrep', he]
  obtain ⟨rest, hr⟩ := range_split env.settings_load.2.num_cuda_devices.toNat 0 (by omega)
  rw [List.range_zero, List.nil_append] at hr
  obtain ⟨s', e1, t1⟩ := set_up_lanes_entered_set env env.settings_load.2 0 rest
    (state_at_line_130 env) (by rw [hs]; exact he)
  unfold sequential_run
  rw [driver_from_line_130 codes env _ hload hout hcount hdev htel,
    run_simulation_lanes_error codes env _ _ _ _ _ (by omega) _ (by rw [hr]; exact e1)]
  refine ⟨by rw [hs], ?_⟩
  rw [t1, hs]
  simp [state_at_line_130, hrep']

theorem halt_set_up_visibilities (codes : Codes) (env : Env α n) (e : Int)
    (hD : 0 < env.settings_load.2.num_cuda_devices)
    (h : FirstFailure env .set_up_visibilities e) :
    (sequential_run codes env).1 = .returned e ∧
      (sequential_run codes env).2.trace =
        [.settings_load, .cudaGetDeviceCount, .set_up_telescope, .set_up_sky,
          .set_up_visibilities 0, .mem_init_acc 0 e, .mem_init_temp 0 e] := by
  obtain ⟨hload, hout, hcount, hdev, htel⟩ := h.launch_ok (by decide)
  obtain ⟨-, hrep, he, hprev⟩ := h
  have hrep' : env.set_up_visibilities.1 = e := hrep
  have hsky : env.set_up_sky.1 = 0 := hprev .set_up_sky ⟨hout, hdev⟩ (Or.inl (by decide))
  have hs : (state_at_line_130 env).error = e := by
    simp [state_at_line_130, oskar_set_up_visibilities, hrep', hsky]
  obtain ⟨rest, hr⟩ := range_split env.settings_load.2.num_cuda_devices.toNat 0 (by omega)
  rw [List.range_zero, List.nil_append] at hr
  obtain ⟨s', e1, t1⟩ := set_up_lanes_entered_set env env.settings_load.2 0 rest
    (state_at_line_130 env) (by rw [hs]; exact he)
  unfold sequential_run
  rw [driver_from_line_130 codes env _ hload hout hcount hdev htel,
    run_simulation_lanes_error codes env _ _ _ _ _ (by omega) _ (by rw [hr]; exact e1)]
  refine ⟨by rw [hs], ?_⟩
  rw [t1, hs]
  simp [state_at_line_130, hsky]

theorem halt_mem_init_acc (codes : Codes) (env : Env α n) (e : Int) (i : Nat)
    (h : FirstFailure env (.mem_init_acc i) e) :
    Halted e (.mem_init_acc i 0) (sequential_run codes env) := by
  obtain ⟨hload, hout, hcount, hdev, htel⟩ := h.launch_ok (by simp [Stage.position])
  have h0 := h.line_130_clear (by simp [Stage.position])
  have hi : i < env.settings_load.2.num_cuda_devices.toNat := h.1.2.2
  have hb := h.lanes_before rfl i rfl hi
  obtain ⟨-, hrep, he, -⟩ := h
  have hrep' : (env.mem_init_acc i).1 = e := hrep
  obtain ⟨s1, rest, z1, -, e1⟩ := set_up_lanes_first_failure env env.settings_load.2 _ i
    (state_at_line_130 env) h0 hi (fun j hj => (hb j hj).1) (fun j hj => (hb j hj).2.1)
    (fun j hj => (hb j hj).2.2)
  obtain ⟨s', e2, t2⟩ := set_up_lanes_acc_fails env env.settings_load.2 i rest s1 z1
    (by rw [hrep']; exact he)
  unfold sequential_run
  rw [driver_from_line_130 codes env _ hload hout hcount hdev htel,
    run_simulation_lanes_error codes env _ _ _ _ _ (by omega) _ (by rw [e1]; exact e2)]
  refine ⟨by rw [hrep'], s1.trace, [.mem_init_temp i e], by rw [t2, hrep'], ?_⟩
  simp [Event.starts_work, he]

theorem halt_mem_init_temp (codes : Codes) (env : Env α n) (e : Int) (i : Nat)
    (h : FirstFailure env (.mem_init_temp i) e) :
    Halted e (.mem_init_temp i 0) (sequential_run codes env) := by
  obtain ⟨hload, hout, hcount, hdev, htel⟩ := h.launch_ok (by simp [Stage.position])
  have h0 := h.line_130_clear (by simp [Stage.position])
  have hi : i < env.settings_load.2.num_cuda_devices.toNat := h.1.2.2
  have hb := h.lanes_before rfl i rfl hi
  obtain ⟨-, hrep, he, hprev⟩ := h
  have hrep' : (env.mem_init_temp i).1 = e := hrep
  have hacc : (env.mem_init_acc i).1 = 0 := hprev (.mem_init_acc i) ⟨hout, hdev, hi⟩
    (Or.inr ⟨rfl, Or.inr ⟨rfl, by simp [Stage.position]⟩⟩)
  obtain ⟨s1, rest, z1, -, e1⟩ := set_up_lanes_first_failure env env.settings_load.2 _ i
    (state_at_line_130 env) h0 hi (fun j hj => (hb j hj).1) (fun j hj => (hb j hj).2.1)
    (fun j hj => (hb j hj).2.2)
  obtain ⟨s', e2, t2⟩ := set_up_lanes_temp_fails env env.settings_load.2 i rest s1 z1 hacc
    (by rw [hrep']; exact he)
  unfold sequential_run
  rw [driver_from_line_130 codes env _ hload hout hcount hdev htel,
    run_simulation_lanes_error codes env _ _ _ _ _ (by omega) _ (by rw [e1]; exact e2)]
  exact Halted.of_last _ _ _ (by rw [hrep']) (by rw [t2]; simp)

theorem halt_bind_lane (codes : Codes) (env : Env α n) (e : Int) (i : Nat)
    (h : FirstFailure env (.bind_lane i) e) :
    Halted e (.cudaSetDevice (env.settings_load.2.cuda_device_ids i))
      (sequential_run codes env) := by
  obtain ⟨hload, hout, hcount, hdev, htel⟩ := h.launch_ok (by simp [Stage.position])
  have h0 := h.line_130_clear (by simp [Stage.position])
  have hi : i < env.settings_load.2.num_cuda_devices.toNat := h.1.2.2
  have hb := h.lanes_before rfl i rfl hi
  obtain ⟨-, hrep, he, hprev⟩ := h
  have hrep' : env.cudaSetDevice_init i (env.settings_load.2.cuda_device_ids i) = e := hrep
  have hacc : (env.mem_init_acc i).1 = 0 := hprev (.mem_init_acc i) ⟨hout, hdev, hi⟩
    (Or.inr ⟨rfl, Or.inr ⟨rfl, by simp [Stage.position]⟩⟩)
  have htemp : (env.mem_init_temp i).1 = 0 := hprev (.mem_init_temp i) ⟨hout, hdev, hi⟩
    (Or.inr ⟨rfl, Or.inr ⟨rfl, by simp [Stage.position]⟩⟩)
  obtain ⟨s1, rest, z1, -, e1⟩ := set_up_lanes_first_failure env env.settings_load.2 _ i
    (state_at_line_130 env) h0 hi (fun j hj => (hb j hj).1) (fun j hj => (hb j hj).2.1)
    (fun j hj => (hb j hj).2.2)
  obtain ⟨s', e2, t2⟩ := set_up_lanes_bind_fails env env.settings_load.2 i rest s1 z1 hacc htemp
    (by rw [hrep']; exact he)
  unfold sequential_run
  rw [driver_from_line_130 codes env _ hload hout hcount hdev htel,
    run_simulation_lanes_error codes env _ _ _ _ _ (by omega) _ (by rw [e1]; exact e2)]
  exact Halted.of_last _ _ _ (by rw [hrep']) (by rw [t2]; simp)

theorem halt_bind_chunk (codes : Codes) (env : Env α n) (e : Int) (c j : Nat)
    (hD : 0 < env.settings_load.2.num_cuda_devices) (h : FirstFailure env (.bind_chunk c j) e) :
    Halted e (.cudaSetDevice (env.settings_load.2.cuda_device_ids 0))
      (sequential_run codes env) := by
  obtain ⟨hload, hout, hcount, hdev, htel⟩ := h.launch_ok (by simp [Stage.position])
  have h0 := h.line_130_clear (by simp [Stage.position])
  have hl := h.lanes_ok (by simp [Stage.position])
  have hc : c < env.settings_load.2.num_channels.toNat := h.1.2.2.1
  have hj : j < env.set_up_sky.2.toNat := h.1.2.2.2
  have hcb := h.channels_before rfl c rfl hc
  have hjb := h.chunks_before rfl c rfl hc j (le_refl _) hj
  obtain ⟨-, hrep, he, -⟩ := h
  have hrep' : env.cudaSetDevice_chunk c j (env.settings_load.2.cuda_device_ids 0) = e := hrep
  obtain ⟨s1, W, e1, t1⟩ := run_simulation_chunk_halt codes env env.settings_load.2
    env.settings_load.2.num_cuda_devices env.set_up_sky.2 (state_at_line_130 env) hD h0
    (fun i hi => (hl i hi).1) (fun i hi => (hl i hi).2.1) (fun i hi => (hl i hi).2.2) c hc
    (fun c' hc' i hi => (hcb c' hc' i hi).1) (fun c' hc' i hi => (hcb c' hc' i hi).2) j hj
    (fun i hi => (hjb i hi).1) (fun i hi => (hjb i hi).2) e he
    (by intro v; simp [oskar_interferometer, hrep', he])
  unfold sequential_run
  rw [driver_from_line_130 codes env _ hload hout hcount hdev htel, e1]
  refine ⟨rfl, W, [.interferometer 0 j (channel_frequency env.settings_load.2 c) e,
    .mem_add_acc 0 e], by rw [t1, hrep'], ?_⟩
  simp [Event.starts_work, he]

theorem halt_interferometer (codes : Codes) (env : Env α n) (e : Int) (c j : Nat)
    (hD : 0 < env.settings_load.2.num_cuda_devices)
    (h : FirstFailure env (.interferometer c j) e) :
    Halted e (.interferometer 0 j (channel_frequency env.settings_load.2 c) 0)
      (sequential_run codes env) := by
  obtain ⟨hload, hout, hcount, hdev, htel⟩ := h.launch_ok (by simp [Stage.position])
  have h0 := h.line_130_clear (by simp [Stage.position])
  have hl := h.lanes_ok (by simp [Stage.position])
  have hc : c < env.settings_load.2.num_channels.toNat := h.1.2.2.1
  have hj : j < env.set_up_sky.2.toNat := h.1.2.2.2
  have hcb := h.channels_before rfl c rfl hc
  have hjb := h.chunks_before rfl c rfl hc j (by simp [Stage.position]) hj
  obtain ⟨-, hrep, he, hprev⟩ := h
  have hrep' : (env.interferometer c j (channel_frequency env.settings_load.2 c)).1 = e := hrep
  have hbind : env.cudaSetDevice_chunk c j (env.settings_load.2.cuda_device_ids 0) = 0 :=
    hprev (.bind_chunk c j) ⟨hout, hdev, hc, hj⟩
      (Or.inr ⟨rfl, Or.inr ⟨rfl, by simp [Stage.position]⟩⟩)
  obtain ⟨s1, W, e1, t1⟩ := run_simulation_chunk_halt codes env env.settings_load.2
    env.settings_load.2.num_cuda_devices env.set_up_sky.2 (state_at_line_130 env) hD h0
    (fun i hi => (hl i hi).1) (fun i hi => (hl i hi).2.1) (fun i hi => (hl i hi).2.2) c hc
    (fun c' hc' i hi => (hcb c' hc' i hi).1) (fun c' hc' i hi => (hcb c' hc' i hi).2) j hj
    (fun i hi => (hjb i hi).1) (fun i hi => (hjb i hi).2) e he
    (by intro v; simp [oskar_interferometer, hrep', hbind])
  unfold sequential_run
  rw [driver_from_line_130 codes env _ hload hout hcount hdev htel, e1]
  refine ⟨rfl, W ++ [.cudaSetDevice (env.settings_load.2.cuda_device_ids 0)],
    [.mem_add_acc 0 e], by rw [t1, hbind]; simp, ?_⟩
  simp [Event.starts_work, he]

theorem halt_add_system_noise (codes : Codes) (env : Env α n) (e : Int)
    (hD : 0 < env.settings_load.2.num_cuda_devices) (h : FirstFailure env .add_system_noise e) :
    Halted e (.add_system_noise env.settings_load.2.noise_seed) (sequential_run codes env) := by
  obtain ⟨s6, z6, hd⟩ := h.reaches_post codes (by decide) hD
  obtain ⟨hr, hrep, he, -⟩ := h
  have hrep' : ∀ v, (env.add_system_noise env.settings_load.2.noise_seed v).1 = e := hrep
  obtain ⟨a, b⟩ := post_noise_fails codes env env.settings_load.2
    env.settings_load.2.num_cuda_devices.toNat env.set_up_sky.2.toNat s6 z6 hr.2.2 e he
    (hrep' _)
  unfold sequential_run
  rw [hd]
  exact Halted.of_last _ _ _ a (by rw [b]; simp)

theorem halt_evaluate_uvw_baseline (codes : Codes) (env : Env α n) (e : Int)
    (hD : 0 < env.settings_load.2.num_cuda_devices)
    (h : FirstFailure env .evaluate_uvw_baseline e) :
    Halted e (.evaluate_uvw_baseline 0) (sequential_run codes env) := by
  obtain ⟨s6, z6, hd⟩ := h.reaches_post codes (by decide) hD
  obtain ⟨a, b⟩ := post_uvw_fails codes env env.settings_load.2
    env.settings_load.2.num_cuda_devices.toNat env.set_up_sky.2.toNat s6 z6
    (h.noise_ok (by decide)) e h.2.2.1 h.2.1
  unfold sequential_run
  rw [hd]
  exact Halted.of_last _ _ _ a b

theorem halt_visibilities_write (codes : Codes) (env : Env α n) (e : Int)
    (hD : 0 < env.settings_load.2.num_cuda_devices)
    (h : FirstFailure env .visibilities_write e) :
    Halted e (.visibilities_write 0) (sequential_run codes env) := by
  obtain ⟨s6, z6, hd⟩ := h.reaches_post codes (by decide) hD
  obtain ⟨a, b⟩ := post_write_fails codes env env.settings_load.2
    env.settings_load.2.num_cuda_devices.toNat env.set_up_sky.2.toNat s6 z6
    (h.noise_ok (by decide)) (h.uvw_ok (by decide)) h.1.2.2 e h.2.2.1 h.2.1
  unfold sequential_run
  rw [hd]
  exact Halted.of_last _ _ _ a b

theorem halt_visibilities_write_ms (codes : Codes) (env : Env α n) (e : Int)
    (hD : 0 < env.settings_load.2.num_cuda_devices)
    (h : FirstFailure env .visibilities_write_ms e) :
    Halted e .visibilities_write_ms (sequential_run codes env) := by
  obtain ⟨s6, z6, hd⟩ := h.reaches_post codes (by decide) hD
  obtain ⟨a, b⟩ := post_write_ms_fails codes env env.settings_load.2
    env.settings_load.2.num_cuda_devices.toNat env.set_up_sky.2.toNat s6 z6
    (h.noise_ok (by decide)) (h.uvw_ok (by decide)) (h.write_ok (by decide)) h.1.2.2 e
    h.2.2.1 h.2.1
  unfold sequential_run
  rw [hd]
  exact Halted.of_last _ _ _ a b

theorem halt_make_image (codes : Codes) (env : Env α n) (e : Int)
    (hD : 0 < env.settings_load.2.num_cuda_devices) (h : FirstFailure env .make_image e) :
    Halted e .make_image (sequential_run codes env) := by
  obtain ⟨s6, z6, hd⟩ := h.reaches_post codes (by decide) hD
  obtain ⟨a, b⟩ := post_make_image_fails codes env env.settings_load.2
    env.settings_load.2.num_cuda_devices.toNat env.set_up_sky.2.toNat s6 z6
    (h.noise_ok (by decide)) (h.uvw_ok (by decide)) (h.write_ok (by decide))
    (h.write_ms_ok (by decide)) h.1.2.2 e h.2.2.1 h.2.1
  unfold sequential_run
  rw [hd]
  exact Halted.of_last _ _ _ a b

theorem halt_image_write (codes : Codes) (env : Env α n) (e : Int)
    (hD : 0 < env.settings_load.2.num_cuda_devices) (h : FirstFailure env .image_write e) :
    Halted e (.image_write 0) (sequential_run codes env) := by
  obtain ⟨s6, z6, hd⟩ := h.reaches_post codes (by decide) hD
  have hflag : env.settings_load.2.image_interferometer_output = true := h.1.2.2.1
  have hfile : env.settings_load.2.oskar_image.isSome = true := h.1.2.2.2
  obtain ⟨a, b⟩ := post_image_write_fails codes env env.settings_load.2
    env.settings_load.2.num_cuda_devices.toNat env.set_up_sky.2.toNat s6 z6
    (h.noise_ok (by decide)) (h.uvw_ok (by decide)) (h.write_ok (by decide))
    (h.write_ms_ok (by decide)) hflag hfile
    (h.make_image_ok (by decide) (by simp [hflag, hfile])) e h.2.2.1 h.2.1
  unfold sequential_run
  rw [hd]
  exact Halted.of_last _ _ _ a b

theorem halt_fits_image_write (codes : Codes) (env : Env α n) (e : Int)
    (hD : 0 < env.settings_load.2.num_cuda_devices) (h : FirstFailure env .fits_image_write e) :
    Halted e .fits_image_write (sequential_run codes env) := by
  obtain ⟨s6, z6, hd⟩ := h.reaches_post codes (by decide) hD
  have hflag : env.settings_load.2.image_interferometer_output = true := h.1.2.2.1
  have hfile : env.settings_load.2.fits_image.isSome = true := h.1.2.2.2
  obtain ⟨a, b⟩ := post_fits_write_fails codes env env.settings_load.2
    env.settings_load.2.num_cuda_devices.toNat env.set_up_sky.2.toNat s6 z6
    (h.noise_ok (by decide)) (h.uvw_ok (by decide)) (h.write_ok (by decide))
    (h.write_ms_ok (by decide)) hflag hfile
    (h.make_image_ok (by decide) (by simp [hflag, hfile]))
    (h.image_write_ok (by decide) hflag) e h.2.2.1 h.2.1
  unfold sequential_run
  rw [hd]
  exact Halted.of_last _ _ _ a b

/-! ## The calls made while the lane buffers are set up -/

theorem set_up_lanes_phase (env : Env α n) (settings : Settings) (l : List Nat)
    (s : State α n) :
    TraceExt (fun e => e.phase = 1 ∨ e.phase = 2) s (final_state (set_up_lanes env settings l s)) := by
  induction l generalizing s with
  | nil => exact TraceExt.refl _ s
  | cons i rest ih =>
    unfold set_up_lanes
    simp only []
    split_ifs with h1 h2
    · simp [TraceExt, final_state, Event.phase]
    · simp [TraceExt, final_state, Event.phase]
    · refine TraceExt.trans ?_ (ih _)
      simp [TraceExt, Event.phase]

theorem alloc_failure_lanes (env : Env α n) (e : Int) (i : Nat)
    (h : FirstFailure env (.mem_init_acc i) e ∨ FirstFailure env (.mem_init_temp i) e) :
    ∃ s', set_up_lanes env env.settings_load.2
        (List.range env.settings_load.2.num_cuda_devices.toNat) (state_at_line_130 env) =
      .error (.returned e, s') := by
  rcases h with h | h
  · have h0 := h.line_130_clear (by simp [Stage.position])
    have hi : i < env.settings_load.2.num_cuda_devices.toNat := h.1.2.2
    have hb := h.lanes_before rfl i rfl hi
    obtain ⟨-, hrep, he, -⟩ := h
    have hrep' : (env.mem_init_acc i).1 = e := hrep
    obtain ⟨s1, rest, z1, -, e1⟩ := set_up_lanes_first_failure env env.settings_load.2 _ i
      (state_at_line_130 env) h0 hi (fun j hj => (hb j hj).1) (fun j hj => (hb j hj).2.1)
      (fun j hj => (hb j hj).2.2)
    obtain ⟨s', e2, -⟩ := set_up_lanes_acc_fails env env.settings_load.2 i rest s1 z1
      (by rw [hrep']; exact he)
    exact ⟨s', by rw [e1, e2, hrep']⟩
  · have h0 := h.line_130_clear (by simp [Stage.position])
    have hi : i < env.settings_load.2.num_cuda_devices.toNat := h.1.2.2
    have hb := h.lanes_before rfl i rfl hi
    obtain ⟨hr, hrep, he, hprev⟩ := h
    obtain ⟨hout, hdev⟩ := Stage.reached_launch env _ hr (by simp [Stage.position])
    have hrep' : (env.mem_init_temp i).1 = e := hrep
    have hacc : (env.mem_init_acc i).1 = 0 := hprev (.mem_init_acc i) ⟨hout, hdev, hi⟩
      (Or.inr ⟨rfl, Or.inr ⟨rfl, by simp [Stage.position]⟩⟩)
    obtain ⟨s1, rest, z1, -, e1⟩ := set_up_lanes_first_failure env env.settings_load.2 _ i
      (state_at_line_130 env) h0 hi (fun j hj => (hb j hj).1) (fun j hj => (hb j hj).2.1)
      (fun j hj => (hb j hj).2.2)
    obtain ⟨s', e2, -⟩ := set_up_lanes_temp_fails env env.settings_load.2 i rest s1 z1 hacc
      (by rw [hrep']; exact he)
    exact ⟨s', by rw [e1, e2, hrep']⟩

/-! ## The calls made before and after the noise stage -/

theorem chunk_step_phase (env : Env α n) (settings : Settings) (D N c : Nat) (f : ℚ)
    (L : LoopState α n) (t : Nat) :
    TraceExt (fun e => e.phase ≤ 4) L.st (chunk_step env settings D N c f L t).st := by
  unfold chunk_step
  by_cases hf : L.fault = true
  · rw [if_pos hf]
    exact TraceExt.refl _ _
  · rw [if_neg hf]
    split <;> (try split_ifs) <;> simp [TraceExt, Event.phase]

theorem chunk_steps_phase (env : Env α n) (settings : Settings) (D N c : Nat) (f : ℚ)
    (picks : List Nat) (L : LoopState α n) :
    TraceExt (fun e => e.phase ≤ 4) L.st (picks.foldl (chunk_step env settings D N c f) L).st := by
  induction picks generalizing L with
  | nil => exact TraceExt.refl _ _
  | cons t rest ih =>
    rw [List.foldl_cons]
    exact TraceExt.trans (chunk_step_phase env settings D N c f L t) (ih _)

theorem parallel_chunks_phase (env : Env α n) (settings : Settings) (D N c : Nat) (f : ℚ)
    (picks : List Nat) (s : State α n) :
    TraceExt (fun e => e.phase ≤ 4) s
      (final_state (parallel_chunks env settings D N c f picks s)) := by
  have h := chunk_steps_phase env settings D N c f picks (loop_entry s)
  unfold parallel_chunks
  simp only []
  split_ifs <;> exact h

theorem fold_lanes_phase (c : Nat) (l : List Nat) (s : State α n) :
    TraceExt (fun e => e.phase ≤ 4) s (l.foldl (fold_lane c) s) := by
  induction l generalizing s with
  | nil => exact TraceExt.refl _ _
  | cons i rest ih =>
    rw [List.foldl_cons]
    refine TraceExt.trans ?_ (ih _)
    simp [TraceExt, fold_lane, Event.phase]

theorem fold_into_global_phase (D c : Nat) (s : State α n) :
    TraceExt (fun e => e.phase ≤ 4) s (fold_into_global D c s) := by
  unfold fold_into_global
  refine TraceExt.trans ?_ (fold_lanes_phase c _ _)
  simp [TraceExt, Event.phase]

theorem channel_body_phase (env : Env α n) (settings : Settings) (D N c : Nat)
    (picks : List Nat) (s : State α n) :
    TraceExt (fun e => e.phase ≤ 4) s (final_state (channel_body env settings D N c picks s)) := by
  have h := parallel_chunks_phase env settings D N c (channel_frequency settings c) picks s
  unfold channel_body
  simp only []
  split
  · rename_i x hx
    rw [hx] at h
    exact h
  · rename_i s1 hs1
    rw [hs1] at h
    split_ifs
    · exact h
    · exact TraceExt.trans h (fold_into_global_phase D c s1)

theorem channel_loop_phase (env : Env α n) (settings : Settings) (D N : Nat)
    (sched : Nat → List Nat) (cs : List Nat) (s : State α n) :
    TraceExt (fun e => e.phase ≤ 4) s
      (final_state (channel_loop env settings D N sched cs s)) := by
  induction cs generalizing s with
  | nil => exact TraceExt.refl _ _
  | cons c rest ih =>
    have h := channel_body_phase env settings D N c (sched c) s
    unfold channel_loop
    split
    · rename_i x hx
      rw [hx] at h
      exact h
    · rename_i s1 hs1
      rw [hs1] at h
      exact TraceExt.trans h (ih s1)

theorem run_to_line_202_phase (codes : Codes) (env : Env α n) (sched : Nat → List Nat) :
    ∀ ev ∈ (state_at_line_202 codes env sched).trace, ev.phase ≤ 4 := by
  have hl : ∀ (l : List Nat) (s : State α n), TraceExt (fun e => e.phase ≤ 4) s
      (final_state (set_up_lanes env env.settings_load.2 l s)) := fun l s =>
    TraceExt.mono (fun e he => by omega) (set_up_lanes_phase env env.settings_load.2 l s)
  have key : ∀ (s4 : State α n), (∀ ev ∈ s4.trace, ev.phase ≤ 4) →
      ∀ ev ∈ (final_state (match set_up_lanes env env.settings_load.2
          (List.range env.settings_load.2.num_cuda_devices.toNat) s4 with
        | .error x => .error x
        | .ok s5 => channel_loop env env.settings_load.2
            env.settings_load.2.num_cuda_devices.toNat env.set_up_sky.2.toNat sched
            (List.range env.settings_load.2.num_channels.toNat) s5)).trace, ev.phase ≤ 4 := by
    intro s4 h4 ev hev
    have h1 := hl (List.range env.settings_load.2.num_cuda_devices.toNat) s4
    split at hev
    · rename_i x hx
      rw [hx] at h1
      rcases h1.new ev hev with h | h
      · exact h4 ev h
      · exact h
    · rename_i s5 hs5
      rw [hs5] at h1
      have h2 := channel_loop_phase env env.settings_load.2
        env.settings_load.2.num_cuda_devices.toNat env.set_up_sky.2.toNat sched
        (List.range env.settings_load.2.num_channels.toNat) s5
      rcases (TraceExt.trans h1 h2).new ev hev with h | h
      · exact h4 ev h
      · exact h
  unfold state_at_line_202 run_to_line_202
  simp only []
  split_ifs
  all_goals first
    | exact key _ (by simp [after_settings_load, Event.phase])
    | simp [final_state, after_settings_load, Event.phase]

theorem uvw_stage_phase (env : Env α n) (s : State α n) :
    TraceExt (fun e => e.phase = 2 ∨ 6 ≤ e.phase) s (final_state (uvw_stage env s)) := by
  unfold uvw_stage
  simp only []
  split_ifs <;> simp [TraceExt, final_state, Event.phase]

theorem write_stage_phase (env : Env α n) (settings : Settings) (s : State α n) :
    TraceExt (fun e => e.phase = 2 ∨ 6 ≤ e.phase) s (final_state (write_stage env settings s)) := by
  unfold write_stage
  simp only []
  split_ifs <;> simp [TraceExt, final_state, Event.phase]

theorem image_stage_phase (env : Env α n) (settings : Settings) (s : State α n) :
    TraceExt (fun e => e.phase = 2 ∨ 6 ≤ e.phase) s (final_state (image_stage env settings s)) := by
  unfold image_stage
  simp only []
  split_ifs <;> simp [TraceExt, final_state, Event.phase]

theorem finish_phase (codes : Codes) (settings : Settings) (D N : Nat) (s : State α n) :
    TraceExt (fun e => e.phase = 2 ∨ 6 ≤ e.phase) s (finish codes settings D N s).2 := by
  unfold finish
  simp only []
  have h1 : ∀ (l : List Nat) (x : State α n), TraceExt (fun e => e.phase = 2 ∨ 6 ≤ e.phase) x
      (l.foldl (fun (x : State α n) i =>
        (x.log (.cudaSetDevice (settings.cuda_device_ids i))).log .cudaDeviceReset) x) := by
    intro l
    induction l with
    | nil => intro x; exact TraceExt.refl _ _
    | cons i rest ih =>
      intro x
      rw [List.foldl_cons]
      refine TraceExt.trans ?_ (ih _)
      simp [TraceExt, Event.phase]
  have h2 : ∀ (l : List Nat) (x : State α n), TraceExt (fun e => e.phase = 2 ∨ 6 ≤ e.phase) x
      (l.foldl (fun (x : State α n) i => x.log (.sky_model_free i)) x) := by
    intro l
    induction l with
    | nil => intro x; exact TraceExt.refl _ _
    | cons i rest ih =>
      intro x
      rw [List.foldl_cons]
      refine TraceExt.trans ?_ (ih _)
      simp [TraceExt, Event.phase]
  exact TraceExt.trans (h1 _ _) (h2 _ _)

theorem after_noise_phase (codes : Codes) (env : Env α n) (settings : Settings) (D N : Nat)
    (s : State α n) :
    TraceExt (fun e => e.phase = 2 ∨ 6 ≤ e.phase) s (after_noise codes env settings D N s).2 := by
  have h2 := uvw_stage_phase env s
  unfold after_noise
  split
  · rename_i x hx
    rw [hx] at h2
    exact h2
  · rename_i s2 hs2
    rw [hs2] at h2
    have h3 := write_stage_phase env settings s2
    split
    · rename_i x hx
      rw [hx] at h3
      exact TraceExt.trans h2 h3
    · rename_i s3 hs3
      rw [hs3] at h3
      have h4 := image_stage_phase env settings s3
      split
      · rename_i x hx
        rw [hx] at h4
        exact TraceExt.trans h2 (TraceExt.trans h3 h4)
      · rename_i s4 hs4
        rw [hs4] at h4
        exact TraceExt.trans h2 (TraceExt.trans h3
          (TraceExt.trans h4 (finish_phase codes settings D N s4)))

theorem post_processing_after_noise (codes : Codes) (env : Env α n) (settings : Settings)
    (D N : Nat) (s : State α n) (h0 : s.error = 0) :
    post_processing codes env settings D N s =
      match noise_stage env settings s with
      | .error x => x
      | .ok s1 => after_noise codes env settings D N s1 := by
  unfold post_processing after_noise
  rw [if_neg (by simp [h0])]

theorem folded_without_error_state (codes : Codes) (env : Env α n) (sched : Nat → List Nat)
    (h : folded_without_error codes env sched = true) :
    run_to_line_202 codes env sched = .ok (state_at_line_202 codes env sched) ∧
      (state_at_line_202 codes env sched).error = 0 := by
  unfold folded_without_error at h
  unfold state_at_line_202
  split at h
  · rename_i s6 hs6
    rw [hs6]
    exact ⟨rfl, by simpa using h⟩
  · simp at h

theorem post_processing_noise_shape (codes : Codes) (env : Env α n) (settings : Settings)
    (D N : Nat) (s : State α n) (h0 : s.error = 0) :
    ∃ after, (post_processing codes env settings D N s).2.trace =
        s.trace ++ (if settings.noise_enable = true
          then [Event.add_system_noise settings.noise_seed] else []) ++ after ∧
      ∀ ev ∈ after, ev.phase = 2 ∨ 6 ≤ ev.phase := by
  rw [post_processing_after_noise codes env settings D N s h0]
  cases hn : settings.noise_enable
  · obtain ⟨l, hl, hq⟩ := after_noise_phase codes env settings D N s
    refine ⟨l, ?_, hq⟩
    simp [noise_stage, hn, hl]
  · by_cases hst : (env.add_system_noise settings.noise_seed s.vis_global).1 = 0
    · obtain ⟨l, hl, hq⟩ := after_noise_phase codes env settings D N
        { (s.log (.add_system_noise settings.noise_seed)) with
          vis_global := (env.add_system_noise settings.noise_seed s.vis_global).2
          error := (env.add_system_noise settings.noise_seed s.vis_global).1 }
      refine ⟨l, ?_, hq⟩
      simp only [noise_stage, hn, hst, if_true, ne_eq, not_true_eq_false, if_false]
      simpa [hst, State.log] using hl
    · refine ⟨[], ?_, by simp⟩
      simp [noise_stage, hn, hst]

/-! ## Only chunks that have been handed out are correlated -/

theorem chunk_step_below (env : Env α n) (settings : Settings) (D N c : Nat) (f : ℚ)
    (s0 : State α n) (L : LoopState α n) (t : Nat) (h : ChunksBelow s0 L) :
    ChunksBelow s0 (chunk_step env settings D N c f L t) := by
  obtain ⟨htasks, l, hl, hev⟩ := h
  by_cases hf : L.fault = true
  · simp only [chunk_step, hf, if_true]
    exact ⟨htasks, l, hl, hev⟩
  · have hf' : L.fault = false := by simpa using hf
    rcases htask : L.task t with _ | ⟨i, pc⟩
    · rw [chunk_step_idle env settings D N c f L t hf' htask]
      by_cases hn : L.next < N
      · rw [if_pos hn]
        refine ⟨?_, l, hl, fun t' i f' st hm => Nat.lt_succ_of_lt (hev t' i f' st hm)⟩
        intro u i pc hu
        by_cases hut : u = t
        · subst hut
          simp only [Function.update_same, Option.some.injEq, Prod.mk.injEq] at hu
          show i < L.next + 1
          omega
        · simp only [Function.update_noteq hut] at hu
          exact Nat.lt_succ_of_lt (htasks u i pc hu)
      · rw [if_neg hn]
        exact ⟨htasks, l, hl, hev⟩
    · have hi := htasks t i pc htask
      cases pc with
      | check =>
        rw [chunk_step_check env settings D N c f L t i hf' htask]
        split_ifs
        · refine ⟨?_, l, hl, hev⟩
          intro u i' pc hu
          by_cases hut : u = t
          · subst hut
            simp at hu
          · simp only [Function.update_noteq hut] at hu
            exact htasks u i' pc hu
        · refine ⟨?_, l, hl, hev⟩
          intro u i' pc hu
          by_cases hut : u = t
          · subst hut
            simp only [Function.update_same, Option.some.injEq, Prod.mk.injEq] at hu
            show i' < L.next
            omega
          · simp only [Function.update_noteq hut] at hu
            exact htasks u i' pc hu
      | bind =>
        by_cases htD : t < D
        · rw [chunk_step_bind env settings D N c f L t i hf' htask htD]
          refine ⟨?_, l ++ [.cudaSetDevice (settings.cuda_device_ids t)], by simp [hl], ?_⟩
          · intro u i' pc hu
            by_cases hut : u = t
            · subst hut
              simp only [Function.update_same, Option.some.injEq, Prod.mk.injEq] at hu
              show i' < L.next
              omega
            · simp only [Function.update_noteq hut] at hu
              exact htasks u i' pc hu
          · intro t' i' f' st hm
            simp only [List.mem_append, List.mem_singleton, reduceCtorEq, or_false] at hm
            exact hev t' i' f' st hm
        · simp only [chunk_step, hf, htask, htD, if_false]
          exact ⟨htasks, l, hl, hev⟩
      | corr =>
        by_cases htD : t < D
        · rw [chunk_step_corr env settings D N c f L t i hf' htask htD]
          refine ⟨?_, l ++ [.interferometer t i f L.st.error], by simp [hl], ?_⟩
          · intro u i' pc hu
            by_cases hut : u = t
            · subst hut
              simp only [Function.update_same, Option.some.injEq, Prod.mk.injEq] at hu
              show i' < L.next
              omega
            · simp only [Function.update_noteq hut] at hu
              exact htasks u i' pc hu
          · intro t' i' f' st hm
            simp only [List.mem_append, List.mem_singleton, Event.interferometer.injEq] at hm
            rcases hm with hm | hm
            · exact hev t' i' f' st hm
            · show i' < L.next
              omega
        · simp only [chunk_step, hf, htask, htD, if_false]
          exact ⟨htasks, l, hl, hev⟩
      | add =>
        by_cases htD : t < D
        · rw [chunk_step_add env settings D N c f L t i hf' htask htD]
          refine ⟨?_, l ++ [.mem_add_acc t L.st.error], by simp [hl], ?_⟩
          · intro u i' pc hu
            by_cases hut : u = t
            · subst hut
              simp at hu
            · simp only [Function.update_noteq hut] at hu
              exact htasks u i' pc hu
          · intro t' i' f' st hm
            simp only [List.mem_append, List.mem_singleton, reduceCtorEq, or_false] at hm
            exact hev t' i' f' st hm
        · simp only [chunk_step, hf, htask, htD, if_false]
          exact ⟨htasks, l, hl, hev⟩

theorem chunk_steps_below (env : Env α n) (settings : Settings) (D N c : Nat) (f : ℚ)
    (s0 : State α n) (picks : List Nat) (L : LoopState α n) (h : ChunksBelow s0 L) :
    ChunksBelow s0 (picks.foldl (chunk_step env settings D N c f) L) := by
  induction picks generalizing L with
  | nil => exact h
  | cons t rest ih =>
    rw [List.foldl_cons]
    exact ih _ (chunk_step_below env settings D N c f s0 L t h)

theorem single_lane_cancel (env : Env α n) (settings : Settings) (D N c : Nat) (f : ℚ)
    (hD : 0 < D) (s : State α n) (h0 : s.error = 0) (j : Nat) (hj : j < N)
    (hbind : ∀ i, i < j → env.cudaSetDevice_chunk c i (settings.cuda_device_ids 0) = 0)
    (hcorr : ∀ i, i < j → (env.interferometer c i f).1 = 0) (e : Int) (he : e ≠ 0)
    (hfail : ∀ v, (oskar_interferometer (env.interferometer c j f) v
      (env.cudaSetDevice_chunk c j (settings.cuda_device_ids 0))).2 = e) :
    ∃ s1 l, parallel_chunks env settings D N c f (single_lane_schedule N) s = .ok s1 ∧
      s1.error = e ∧ s1.trace = s.trace ++ l ∧
      ∀ t i f' st, Event.interferometer t i f' st ∈ l → i ≤ j := by
  obtain ⟨r, hr⟩ : ∃ r, N = j + 1 + r := ⟨N - (j + 1), by omega⟩
  have hsplit : single_lane_schedule N =
      List.replicate (5 * j) 0 ++ ([0, 0, 0, 0, 0] ++
        (List.replicate (2 * r) 0 ++ List.replicate (3 * r) 0)) := by
    rw [single_lane_schedule, hr, show 5 * (j + 1 + r) = 5 * j + (5 + (2 * r + 3 * r)) by ring,
      List.replicate_add, List.replicate_add, List.replicate_add]
    rfl
  obtain ⟨a1, a2, a3, a4⟩ := single_lane_run_of env settings D N c f
    hD j (loop_entry s) rfl rfl h0 (by simp [loop_entry]; omega)
    (fun i _ h => hbind i (by simpa [loop_entry] using h))
    (fun i _ h => hcorr i (by simpa [loop_entry] using h))
  have a4' : ((List.replicate (5 * j) 0).foldl
      (chunk_step env settings D N c f) (loop_entry s)).next = j := by
    simpa [loop_entry] using a4
  obtain ⟨b1, b2, b3, b4, -⟩ := single_lane_iteration_full env settings D N c f hD _ a1 a2 a3
    (by rw [a4']; omega)
  rw [a4'] at b3 b4
  rw [hfail] at b3
  obtain ⟨c1, c2, c3, c4⟩ := single_lane_skip_run env settings D N c f r _ b1 b2
    (by rw [b3]; exact he) (by rw [b4]; omega)
  have c5 := single_lane_skip_state env settings D N c f r _ b1 b2
    (by rw [b3]; exact he) (by rw [b4]; omega)
  rw [b4] at c4
  have hidle := single_lane_idle env settings D N c f (3 * r) _ c1 c2 (by rw [c4]; omega)
  have hfinal : (single_lane_schedule N).foldl (chunk_step env settings D N c f) (loop_entry s) =
      (List.replicate (2 * r) 0).foldl (chunk_step env settings D N c f)
        ([0, 0, 0, 0, 0].foldl (chunk_step env settings D N c f)
          ((List.replicate (5 * j) 0).foldl (chunk_step env settings D N c f) (loop_entry s))) := by
    rw [hsplit, List.foldl_append, List.foldl_append, List.foldl_append, hidle]
  have hbar : at_barrier N (single_lane_schedule N) ((single_lane_schedule N).foldl
      (chunk_step env settings D N c f) (loop_entry s)) = true := by
    rw [at_barrier_iff, hfinal]
    refine ⟨by rw [c4]; omega, ?_⟩
    intro t ht
    rw [single_lane_schedule, List.mem_replicate] at ht
    rw [ht.2]
    exact c2
  have hbelow := chunk_steps_below env settings D N c f s [0, 0, 0, 0, 0] _
    (chunk_steps_below env settings D N c f s (List.replicate (5 * j) 0) (loop_entry s)
      ⟨by simp [loop_entry], [], by simp [loop_entry], by simp⟩)
  obtain ⟨-, l, hl, hev⟩ := hbelow
  rw [b4] at hev
  refine ⟨((single_lane_schedule N).foldl (chunk_step env settings D N c f) (loop_entry s)).st,
    l, ?_, ?_, ?_, ?_⟩
  · unfold parallel_chunks
    simp only [hbar, if_true]
    rw [hfinal] at *
    simp only [c1, Bool.false_eq_true, if_false]
  · rw [hfinal, c5, b3]
  · rw [hfinal, c5, hl]
  · intro t i f' st hm
    exact Nat.lt_succ_iff.mp (hev t i f' st hm)

/-! ## The checks of `bispev` -/

theorem wrap32_of_fits (v : Int) (h : fits_int v) : wrap32 v = v := by
  unfold fits_int at h
  unfold wrap32
  omega

theorem descends_iff {F : Type} [LinearOrder F] (x : Nat → F) (l : List Nat) :
    descends x l = true ↔ ∃ i ∈ l, x i < x (i - 1) := by
  induction l with
  | nil => simp [descends]
  | cons i rest ih =>
    unfold descends
    by_cases h : x i < x (i - 1)
    · simp [h]
    · simp [h, ih]

theorem adjacent_of_not_descends {F : Type} [LinearOrder F] (x : Nat → F) (m : Nat)
    (h : descends x (List.range' 1 (m - 1)) = false) (i : Nat) (h1 : 1 ≤ i) (h2 : i < m) :
    x (i - 1) ≤ x i := by
  by_contra hc
  have hd : descends x (List.range' 1 (m - 1)) = true :=
    (descends_iff x _).mpr ⟨i, List.mem_range'_1.mpr ⟨h1, by omega⟩, not_le.mp hc⟩
  rw [h] at hd
  exact Bool.false_ne_true hd

theorem not_descends_iff {F : Type} [LinearOrder F] (x : Nat → F) (m : Int) :
    descends x (List.range' 1 (m.toNat - 1)) = false ↔ NonDecreasing x m := by
  constructor
  · intro h i j hij hj
    have hjm : j < m.toNat := by omega
    induction j with
    | zero =>
      have : i = 0 := by omega
      rw [this]
    | succ j ih =>
      by_cases hi : i = j + 1
      · rw [hi]
      · have h1 := ih (by omega) (by omega) (by omega)
        have h2 := adjacent_of_not_descends x m.toNat h (j + 1) (by omega) hjm
        exact le_trans h1 (by simpa using h2)
  · intro h
    by_contra hc
    have hd : descends x (List.range' 1 (m.toNat - 1)) = true := by simpa using hc
    obtain ⟨i, hi, hlt⟩ := (descends_iff x _).mp hd
    rw [List.mem_range'_1] at hi
    have := h (i - 1) i (by omega) (by omega)
    exact absurd hlt (not_lt.mpr this)

/-! ## Indices into the lane vectors -/

theorem chunk_step_no_fault (env : Env α n) (settings : Settings) (D N c : Nat) (f : ℚ)
    (L : LoopState α n) (t : Nat) (ht : t < D) (hf : L.fault = false) :
    (chunk_step env settings D N c f L t).fault = false := by
  unfold chunk_step
  rw [hf]
  simp only [Bool.false_eq_true, if_false]
  split <;> (try split_ifs) <;> simp_all

theorem chunk_steps_no_fault (env : Env α n) (settings : Settings) (D N c : Nat) (f : ℚ)
    (picks : List Nat) (hD : ∀ t ∈ picks, t < D) (L : LoopState α n) (hf : L.fault = false) :
    (picks.foldl (chunk_step env settings D N c f) L).fault = false := by
  induction picks generalizing L with
  | nil => exact hf
  | cons t rest ih =>
    rw [List.foldl_cons]
    exact ih (fun u hu => hD u (List.mem_cons_of_mem _ hu)) _
      (chunk_step_no_fault env settings D N c f L t (hD t (List.mem_cons_self _ _)) hf)

/-! ## The loop of the sky loader -/

theorem set_source_indices_append {F : Type} (l1 l2 : List (SkyEvent F)) :
    set_source_indices (l1 ++ l2) = set_source_indices l1 ++ set_source_indices l2 := by
  induction l1 with
  | nil => rfl
  | cons e l ih => cases e <;> simp [set_source_indices, ih]

theorem line_source_eq {F : Type} [Zero F] [Mul F] (deg2rad arcsec2rad : F) (line : SkyLine F) :
    line_source deg2rad arcsec2rad line = converted_source deg2rad arcsec2rad line := by
  have h : ∀ k, k < 11 →
      (oskar_string_to_array line.values 11 (fun _ => (0 : F))).2 k = line.values.getD k 0 := by
    intro k hk
    simp only [oskar_string_to_array]
    split_ifs with h1
    · rfl
    · have : line.values.length ≤ k := by
        rw [Nat.lt_min] at h1
        omega
      rw [List.getD_eq_default _ _ this]
  simp only [line_source, converted_source, h 0 (by decide), h 1 (by decide), h 2 (by decide),
    h 3 (by decide), h 4 (by decide), h 5 (by decide), h 6 (by decide), h 7 (by decide),
    h 8 (by decide), h 9 (by decide), h 10 (by decide)]

theorem load_line_skipped {F : Type} [Zero F] [Mul F] (env : SkyEnv) (deg2rad arcsec2rad : F)
    (st : SkyLoad F) (line : SkyLine F) (h : line.accepted = false) :
    load_line env deg2rad arcsec2rad st line = .ok st := by
  unfold load_line
  by_cases hc : line.comment = true
  · simp [hc]
  · have hl : line.values.length < 3 := by
      simp [SkyLine.accepted, hc] at h
      exact h
    have : min line.values.length 11 < 3 := by
      rw [Nat.min_def]
      split_ifs <;> omega
    simp [hc, oskar_string_to_array, this]

theorem load_line_accepted {F : Type} [Zero F] [Mul F] (env : SkyEnv) (deg2rad arcsec2rad : F)
    (st : SkyLoad F) (line : SkyLine F) (h : line.accepted = true) (h0 : st.status = 0)
    (hres : ∀ k, env.resize k = 0) (hset : ∀ k, env.set_source k = 0) :
    ∃ st1, load_line env deg2rad arcsec2rad st line = .ok st1 ∧ st1.status = 0 ∧
      st1.n = st.n + 1 ∧
      st1.temp.sources = Function.update st.temp.sources st.n
        (some (line_source deg2rad arcsec2rad line)) ∧
      set_source_indices st1.trace = set_source_indices st.trace ++ [st.n] := by
  have hc : line.comment = false := by
    simp [SkyLine.accepted] at h
    exact h.1
  have hl : 3 ≤ line.values.length := by
    simp [SkyLine.accepted] at h
    exact h.2
  have hmin : ¬ min line.values.length 11 < 3 := by
    rw [Nat.min_def]
    split_ifs <;> omega
  unfold load_line
  by_cases hm : st.n % 100 = 0
  · simp [hc, oskar_string_to_array, hmin, hm, oskar_sky_model_resize, h0, hres,
      oskar_sky_model_set_source, hset, set_source_indices_append, set_source_indices]
  · simp [hc, oskar_string_to_array, hmin, hm, h0,
      oskar_sky_model_set_source, hset, set_source_indices_append, set_source_indices]

theorem filterMap_range_update {β : Type} (f : Nat → Option β) (m : Nat) (x : β) :
    (List.range (m + 1)).filterMap (Function.update f m (some x)) =
      (List.range m).filterMap f ++ [x] := by
  rw [List.range_succ, List.filterMap_append]
  congr 1
  · apply List.filterMap_congr
    intro k hk
    rw [Function.update_noteq (by
      have := List.mem_range.mp hk
      omega)]
  · simp

theorem load_lines_ok {F : Type} [Zero F] [Mul F] (env : SkyEnv) (deg2rad arcsec2rad : F)
    (hres : ∀ k, env.resize k = 0) (hset : ∀ k, env.set_source k = 0)
    (lines : List (SkyLine F)) (st : SkyLoad F) (h0 : st.status = 0) :
    ∃ st1, load_lines env deg2rad arcsec2rad lines st = .ok st1 ∧ st1.status = 0 ∧
      st1.n = st.n + (lines.filter SkyLine.accepted).length ∧
      (List.range st1.n).filterMap st1.temp.sources =
        (List.range st.n).filterMap st.temp.sources ++
          (lines.filter SkyLine.accepted).map (line_source deg2rad arcsec2rad) ∧
      set_source_indices st1.trace = set_source_indices st.trace ++
        List.range' st.n (lines.filter SkyLine.accepted).length := by
  induction lines generalizing st with
  | nil => exact ⟨st, rfl, h0, by simp, by simp, by simp⟩
  | cons line rest ih =>
    cases ha : line.accepted
    · obtain ⟨st1, e1, e2, e3, e4, e5⟩ := ih st h0
      refine ⟨st1, ?_, e2, ?_, ?_, ?_⟩
      · simp only [load_lines, load_line_skipped env deg2rad arcsec2rad st line ha, e1]
      · simpa [List.filter, ha] using e3
      · simpa [List.filter, ha] using e4
      · simpa [List.filter, ha] using e5
    · obtain ⟨s1, f1, f2, f3, f4, f5⟩ := load_line_accepted env deg2rad arcsec2rad st line ha h0
        hres hset
      obtain ⟨st1, e1, e2, e3, e4, e5⟩ := ih s1 f2
      refine ⟨st1, ?_, e2, ?_, ?_, ?_⟩
      · simp only [load_lines, f1, e1]
      · simp only [List.filter, ha, List.length_cons]
        rw [e3, f3]
        omega
      · simp only [List.filter, ha, List.map_cons]
        rw [e4, f3, f4, filterMap_range_update]
        simp
      · simp only [List.filter, ha, List.length_cons]
        rw [e5, f5, f3, List.range'_succ]
        simp

theorem sky_model_load_ok {F : Type} [Zero F] [Mul F] (codes : SkyCodes) (env : SkyEnv)
    (deg2rad arcsec2rad : F) (sky : List (Source F)) (type : Int) (lines : List (SkyLine F))
    (htype : type = codes.OSKAR_SINGLE ∨ type = codes.OSKAR_DOUBLE)
    (hopen : env.fopen = true) (hinit : env.init = 0) (hres : ∀ k, env.resize k = 0)
    (hset : ∀ k, env.set_source k = 0) (happ : env.append = 0) :
    (oskar_sky_model_load codes env deg2rad arcsec2rad sky type lines 0).status = 0 ∧
    (oskar_sky_model_load codes env deg2rad arcsec2rad sky type lines 0).sky =
      sky ++ (lines.filter SkyLine.accepted).map (line_source deg2rad arcsec2rad) ∧
    set_source_indices (oskar_sky_model_load codes env deg2rad arcsec2rad sky type lines 0).trace =
      List.range (lines.filter SkyLine.accepted).length := by
  have hvalid : ¬ (type ≠ codes.OSKAR_SINGLE ∧ type ≠ codes.OSKAR_DOUBLE) := by
    rintro ⟨a, b⟩
    rcases htype with h | h
    · exact a h
    · exact b h
  obtain ⟨st1, e1, e2, e3, e4, e5⟩ := load_lines_ok env deg2rad arcsec2rad hres hset lines
    { n := 0, temp := { capacity := 0, sources := fun _ => none }, status := env.init,
      trace := [.fopen, .init 0] } hinit
  have hfin : (finish_load env sky st1).status = 0 ∧
      (finish_load env sky st1).sky =
        sky ++ (lines.filter SkyLine.accepted).map (line_source deg2rad arcsec2rad) ∧
      set_source_indices (finish_load env sky st1).trace =
        List.range (lines.filter SkyLine.accepted).length := by
    refine ⟨?_, ?_, ?_⟩
    · simp [finish_load, oskar_sky_model_append, e2, happ]
    · simp only [finish_load, oskar_sky_model_append, e2, happ, ne_eq, not_true_eq_false,
        if_false]
      rw [e4]
      simp
    · simp only [finish_load, set_source_indices_append, e5]
      simp [set_source_indices, List.range_eq_range']
  unfold oskar_sky_model_load
  simp only [ne_eq, not_true_eq_false, if_false, hvalid, hopen]
  by_cases hd : type = codes.OSKAR_DOUBLE
  · rw [if_pos hd, e1]
    exact hfin
  · have hs : type = codes.OSKAR_SINGLE := by
      rcases htype with h | h
      · exact h
      · exact absurd h hd
    rw [if_neg hd, if_pos hs, e1]
    exact hfin

theorem load_line_capacity {F : Type} [Zero F] [Mul F] (env : SkyEnv) (deg2rad arcsec2rad : F)
    (st : SkyLoad F) (line : SkyLine F) (h : CapacityInv (.ok st)) :
    CapacityInv (load_line env deg2rad arcsec2rad st line) := by
  obtain ⟨hcap, hok, hres⟩ := h
  unfold load_line
  by_cases hc : line.comment = true
  · rw [if_pos hc]
    exact ⟨hcap, hok, hres⟩
  rw [if_neg hc]
  by_cases hl : (oskar_string_to_array line.values 11 (fun _ => (0 : F))).1 < 3
  · rw [if_pos hl]
    exact ⟨hcap, hok, hres⟩
  rw [if_neg hl]
  by_cases hm : st.n % 100 = 0
  · simp only [hm, if_true]
    by_cases hs : (oskar_sky_model_resize env st.temp (st.n + 100) st.status).2 = 0
    · have hcap' : (oskar_sky_model_resize env st.temp (st.n + 100) st.status).1.capacity =
          st.n + 100 := by
        unfold oskar_sky_model_resize at hs ⊢
        split_ifs at hs ⊢ with h1 h2
        · exact absurd hs h1
        · exact absurd hs h2
        · rfl
      simp only [hs, ne_eq, not_true_eq_false, if_false]
      refine ⟨?_, ?_, ?_⟩
      · show (oskar_sky_model_set_source env _ _ _ _).1.capacity = _
        have : ∀ (t : TempSky F) (k : Nat) (x : Source F) (e : Int),
            (oskar_sky_model_set_source env t k x e).1.capacity = t.capacity := by
          intro t k x e
          unfold oskar_sky_model_set_source
          split_ifs <;> rfl
        rw [this, hcap']
        show st.n + 100 = 100 * ((st.n + 1 + 99) / 100)
        omega
      · intro index capacity src status hmem
        simp only [List.mem_append, List.mem_singleton, reduceCtorEq, or_false,
          SkyEvent.set_source.injEq] at hmem
        rcases hmem with hmem | ⟨h1, h2, -, -⟩
        · exact hok index capacity src status hmem
        · rw [h2, h1, hcap']
          omega
      · intro size status hmem
        simp only [List.mem_append, List.mem_singleton, reduceCtorEq, or_false,
          SkyEvent.resize.injEq] at hmem
        rcases hmem with hmem | ⟨-, h2⟩
        · exact hres size status hmem
        · exact h2
    · simp only [hs, ne_eq, not_false_eq_true, if_true]
      exact ⟨hs, st.trace, st.n + 100, by simp, hok, hres⟩
  · simp only [hm, if_false]
    refine ⟨?_, ?_, ?_⟩
    · show (oskar_sky_model_set_source env _ _ _ _).1.capacity = _
      have : ∀ (t : TempSky F) (k : Nat) (x : Source F) (e : Int),
          (oskar_sky_model_set_source env t k x e).1.capacity = t.capacity := by
        intro t k x e
        unfold oskar_sky_model_set_source
        split_ifs <;> rfl
      rw [this, hcap]
      show 100 * ((st.n + 99) / 100) = 100 * ((st.n + 1 + 99) / 100)
      omega
    · intro index capacity src status hmem
      simp only [List.mem_append, List.mem_singleton, SkyEvent.set_source.injEq] at hmem
      rcases hmem with hmem | ⟨h1, h2, -, -⟩
      · exact hok index capacity src status hmem
      · rw [h2, h1, hcap]
        omega
    · intro size status hmem
      simp only [List.mem_append, List.mem_singleton, reduceCtorEq, or_false] at hmem
      exact hres size status hmem

theorem load_lines_capacity {F : Type} [Zero F] [Mul F] (env : SkyEnv) (deg2rad arcsec2rad : F)
    (lines : List (SkyLine F)) (st : SkyLoad F) (h : CapacityInv (.ok st)) :
    CapacityInv (load_lines env deg2rad arcsec2rad lines st) := by
  induction lines generalizing st with
  | nil => exact h
  | cons line rest ih =>
    have h1 := load_line_capacity env deg2rad arcsec2rad st line h
    unfold load_lines
    cases hr : load_line env deg2rad arcsec2rad st line with
    | error x =>
      rw [hr] at h1
      exact h1
    | ok st1 =>
      rw [hr] at h1
      exact ih st1 h1

theorem capacity_of_result {F : Type} (env : SkyEnv) (sky : List (Source F))
    (r : Except (SkyLoad F) (SkyLoad F)) (h : CapacityInv r) :
    CapacityOk (match r with
      | .error x => ({ sky := sky, status := x.status, trace := x.trace } : SkyResult F)
      | .ok st => finish_load env sky st).trace ∧
    ∀ size e, e ≠ 0 → SkyEvent.resize size e ∈ (match r with
      | .error x => ({ sky := sky, status := x.status, trace := x.trace } : SkyResult F)
      | .ok st => finish_load env sky st).trace →
      (match r with
        | .error x => ({ sky := sky, status := x.status, trace := x.trace } : SkyResult F)
        | .ok st => finish_load env sky st).status = e ∧
      (match r with
        | .error x => ({ sky := sky, status := x.status, trace := x.trace } : SkyResult F)
        | .ok st => finish_load env sky st).sky = sky ∧
      ∃ W, (match r with
        | .error x => ({ sky := sky, status := x.status, trace := x.trace } : SkyResult F)
        | .ok st => finish_load env sky st).trace =
          W ++ [.resize size e, .free e, .fclose] := by
  cases r with
  | ok st =>
    obtain ⟨-, hok, hres⟩ := h
    constructor
    · intro index capacity src status hmem
      simp only [finish_load, List.mem_append, List.mem_cons, reduceCtorEq, List.mem_singleton,
        or_self, or_false, List.not_mem_nil] at hmem
      exact hok index capacity src status hmem
    · intro size e he hmem
      simp only [finish_load, List.mem_append, List.mem_cons, reduceCtorEq, List.mem_singleton,
        or_self, or_false, List.not_mem_nil] at hmem
      exact absurd (hres size e hmem) he
  | error x =>
    obtain ⟨hne, W, size0, htr, hok, hres⟩ := h
    constructor
    · intro index capacity src status hmem
      simp only [htr, List.mem_append, List.mem_cons, reduceCtorEq, List.mem_singleton,
        or_self, or_false, List.not_mem_nil] at hmem
      exact hok index capacity src status hmem
    · intro size e he hmem
      simp only [htr, List.mem_append, List.mem_cons, reduceCtorEq, List.mem_singleton,
        or_self, or_false, List.not_mem_nil, SkyEvent.resize.injEq] at hmem
      rcases hmem with hmem | ⟨h1, h2⟩
      · exact absurd (hres size e hmem) he
      · refine ⟨h2.symm, rfl, W, ?_⟩
        simp only [htr, h1, h2]

/-! ## The scans of the phi boundaries -/

theorem read_phi_some (s : Surface) (k : Nat) (x : ℚ) (hk : k < s.n)
    (hx : s.m_phi[k]? = some x) : read_phi s (k : Int) = some x := by
  simp [read_phi, hk, hx]

theorem copy_row_phi_kept (env : RowsEnv) (single : Bool) (shift : ℚ) (s : Surface)
    (i j : Nat) (hj : j < s.m_phi.length) :
    (copy_row env single shift s i).m_phi[j]? = s.m_phi[j]? := by
  simp [copy_row, List.getElem?_append_left hj]

/-- The downward scan started at an index `k` below which (and at which) every
element passes the test reads `m_phi[-1]`. -/
theorem scan_down_reads_below_zero (env : RowsEnv) (single : Bool) (test : ℚ → Bool)
    (shift : ℚ) (hre : ∀ n, ensure_space env n = 0) :
    ∀ (k : Nat) (passes : Nat) (s : Surface) (reads : List (Int × Nat)),
      k + 2 ≤ passes → k < s.n → s.m_phi.length = s.n →
      (∀ j, j ≤ k → ∃ x, s.m_phi[j]? = some x ∧ test x = true) →
      ∃ rs, scan env single test shift (-1) passes (k : Int) s reads
        = .out_of_bounds (rs ++ [(-1, s.n + k + 1)]) := by
  intro k
  induction k with
  | zero =>
    intro passes s reads hp hk hlen hall
    obtain ⟨p, rfl⟩ : ∃ p, passes = p + 2 := ⟨passes - 2, by omega⟩
    obtain ⟨x, hx, ht⟩ := hall 0 (le_refl 0)
    refine ⟨reads ++ [(0, s.n)], ?_⟩
    have h0 : read_phi s ((0 : Nat) : Int) = some x := read_phi_some s 0 x hk hx
    simp only [scan, h0, ht, hre, if_true, ne_eq, not_true_eq_false, if_false]
    simp [read_phi, copy_row]
  | succ k ih =>
    intro passes s reads hp hk hlen hall
    obtain ⟨p, rfl⟩ : ∃ p, passes = p + 1 := ⟨passes - 1, by omega⟩
    obtain ⟨x, hx, ht⟩ := hall (k + 1) (le_refl _)
    have h0 : read_phi s ((k + 1 : Nat) : Int) = some x := read_phi_some s (k + 1) x hk hx
    have hstep : ((k + 1 : Nat) : Int) + -1 = (k : Int) := by push_cast; ring
    simp only [scan, h0, ht, hre, if_true, ne_eq, not_true_eq_false, if_false, hstep]
    obtain ⟨rs, hrs⟩ := ih p (copy_row env single shift s ((k + 1 : Nat) : Int).toNat)
      (reads ++ [(((k + 1 : Nat) : Int), s.n)]) (by omega)
      (by simp [copy_row]; omega) (by simp [copy_row, hlen])
      (fun j hj => by
        rw [copy_row_phi_kept env single shift s _ j (by omega)]
        exact hall j (by omega))
    refine ⟨rs, ?_⟩
    rw [hrs]
    simp [copy_row]
    omega

/-- The upward scan never reads outside `0 .. n-1`. -/
theorem scan_up_in_bounds (env : RowsEnv) (single : Bool) (test : ℚ → Bool) (shift : ℚ) :
    ∀ (passes : Nat) (i : Nat) (s : Surface) (reads : List (Int × Nat)),
      i < s.n → s.m_phi.length = s.n →
      (scan env single test shift 1 passes (i : Int) s reads).is_out_of_bounds = false := by
  intro passes
  induction passes with
  | zero => intro i s reads _ _; rfl
  | succ p ih =>
    intro i s reads hi hlen
    have hget : s.m_phi[i]? = some (s.m_phi.get ⟨i, by omega⟩) := by
      simp [List.getElem?_eq_getElem, hlen, hi]
    rw [scan, read_phi_some s i _ hi hget]
    simp only
    split_ifs
    · rfl
    · have := ih (i + 1) (copy_row env single shift s (i : Int).toNat)
        (reads ++ [((i : Int), s.n)]) (by simp [copy_row]; omega) (by simp [copy_row, hlen])
      simpa using this
    · rfl

/-- The downward scan started at an index `k` at or below which some element
fails the test ends within `k + 1` passes and never reads outside `0 .. n-1`. -/
theorem scan_down_in_bounds (env : RowsEnv) (single : Bool) (test : ℚ → Bool) (shift : ℚ) :
    ∀ (k : Nat) (passes : Nat) (s : Surface) (reads : List (Int × Nat)),
      k + 1 ≤ passes → k < s.n → s.m_phi.length = s.n →
      (∃ j x, j ≤ k ∧ s.m_phi[j]? = some x ∧ test x = false) →
      (∃ e rs, scan env single test shift (-1) passes (k : Int) s reads = .failed e rs) ∨
      (∃ s' rs, scan env single test shift (-1) passes (k : Int) s reads = .done s' rs ∧
        s.n ≤ s'.n ∧ s'.m_phi.length = s'.n) := by
  intro k
  induction k with
  | zero =>
    intro passes s reads hp hk hlen hex
    obtain ⟨p, rfl⟩ : ∃ p, passes = p + 1 := ⟨passes - 1, by omega⟩
    obtain ⟨j, x, hj, hx, ht⟩ := hex
    obtain rfl : j = 0 := by omega
    have h0 : read_phi s 0 = some x := by simpa using read_phi_some s 0 x hk hx
    right
    refine ⟨s, reads ++ [(0, s.n)], ?_, le_refl _, hlen⟩
    simp [scan, h0, ht]
  | succ k ih =>
    intro passes s reads hp hk hlen hex
    obtain ⟨p, rfl⟩ : ∃ p, passes = p + 1 := ⟨passes - 1, by omega⟩
    have hget : s.m_phi[k + 1]? = some (s.m_phi.get ⟨k + 1, by omega⟩) := by
      simp [List.getElem?_eq_getElem, hlen, hk]
    have h0 := read_phi_some s (k + 1) _ hk hget
    have hstep : ((k + 1 : Nat) : Int) + -1 = (k : Int) := by push_cast; ring
    rw [scan, h0]
    simp only
    by_cases ht : test (s.m_phi.get ⟨k + 1, by omega⟩) = true
    · rw [if_pos ht]
      by_cases hr : ensure_space env s.n ≠ 0
      · rw [if_pos hr]; exact Or.inl ⟨_, _, rfl⟩
      · rw [if_neg hr, hstep]
        obtain ⟨j, x, hj, hx, htx⟩ := hex
        have hjk : j ≤ k := by
          rcases Nat.lt_or_ge k j with h | h
          · obtain rfl : j = k + 1 := by omega
            rw [hget] at hx
            have hxe := Option.some.inj hx
            rw [← hxe, ht] at htx
            cases htx
          · exact h
        rcases ih p (copy_row env single shift s ((k + 1 : Nat) : Int).toNat)
          (reads ++ [(((k + 1 : Nat) : Int), s.n)]) (by omega)
          (by simp [copy_row]; omega) (by simp [copy_row, hlen])
          ⟨j, x, hjk, by rw [copy_row_phi_kept env single shift s _ j (by omega)]; exact hx,
            htx⟩ with ⟨e, rs, h⟩ | ⟨s', rs, h, hn, hl⟩
        · exact Or.inl ⟨e, rs, h⟩
        · refine Or.inr ⟨s', rs, h, ?_, hl⟩
          have : (copy_row env single shift s ((k + 1 : Nat) : Int).toNat).n = s.n + 1 := rfl
          omega
    · rw [if_neg ht]
      exact Or.inr ⟨s, _, rfl, le_refl _, hlen⟩

/-! ## The loops of `fpback` -/

theorem fpback_inner_eq {F : Type} [Field F] (a c : Int → F) (i nest : Int) :
    ∀ (t : Nat) (lo m : Int) (store : F),
      fpback_inner a c i nest ((List.range t).map (fun (u : Nat) => lo + (u : Int))) (m, store)
        = (m + t, store - ∑ u in Finset.range t,
            c (m + 1 + (u : Int)) * a (i + (lo + (u : Int) + 1) * nest)) := by
  intro t
  induction t with
  | zero => intro lo m store; simp [fpback_inner]
  | succ t ih =>
    intro lo m store
    have hl : (List.range (t + 1)).map (fun (u : Nat) => lo + (u : Int))
        = lo :: (List.range t).map (fun (u : Nat) => (lo + 1) + (u : Int)) := by
      rw [List.range_succ_eq_map, List.map_cons, List.map_map]
      simp only [Nat.cast_zero, add_zero, List.cons.injEq, true_and]
      apply List.map_congr_left
      intro u _
      simp only [Function.comp, Nat.succ_eq_add_one, Nat.cast_add, Nat.cast_one]
      ring
    rw [hl, fpback_inner, ih, Finset.sum_range_succ']
    refine Prod.ext (by simp only [Nat.cast_add, Nat.cast_one]; ring) ?_
    simp only [Nat.cast_add, Nat.cast_one, Nat.cast_zero, add_zero]
    have : ∀ u : Nat, c (m + 1 + 1 + (u : Int)) * a (i + (lo + 1 + (u : Int) + 1) * nest)
        = c (m + 1 + ((u : Int) + 1)) * a (i + (lo + ((u : Int) + 1) + 1) * nest) := by
      intro u
      congr 2 <;> ring_nf
    simp only [this]
    ring

theorem range_map_succ (lo : Int) (t : Nat) :
    (List.range (t + 1)).map (fun (u : Nat) => lo + (u : Int))
      = lo :: (List.range t).map (fun (u : Nat) => (lo + 1) + (u : Int)) := by
  rw [List.range_succ_eq_map, List.map_cons, List.map_map]
  simp only [Nat.cast_zero, add_zero, List.cons.injEq, true_and]
  apply List.map_congr_left
  intro u _
  simp only [Function.comp, Nat.succ_eq_add_one, Nat.cast_add, Nat.cast_one]
  ring

theorem row_solved_frame {F : Type} [Field F] (a z c c' : Int → F) (k1 n nest r : Int)
    (h : ∀ x, r ≤ x → c' x = c x) (hr : RowSolved a z c k1 n nest r) :
    RowSolved a z c' k1 n nest r := by
  unfold RowSolved at hr ⊢
  rw [← hr]
  apply Finset.sum_congr rfl
  intro l _
  rw [h (r + (l : Int)) (by omega)]

theorem row_solved_of_update {F : Type} [Field F] (a z c : Int → F) (k1 n nest i : Int)
    (T : Nat) (hT : (min k1 (n - i)).toNat = T) (hd : a (i + nest) ≠ 0) :
    RowSolved a z (Function.update c i
      ((z i - ∑ u in Finset.range T,
          c (i + 1 + (u : Int)) * a (i + (1 + (u : Int) + 1) * nest)) / a (i + nest)))
      k1 n nest i := by
  unfold RowSolved
  rw [hT, Finset.sum_range_succ']
  have hterm : ∀ u : Nat,
      a (i + ((((u + 1 : Nat) : Int)) + 1) * nest) *
        Function.update c i
          ((z i - ∑ u in Finset.range T,
              c (i + 1 + (u : Int)) * a (i + (1 + (u : Int) + 1) * nest)) / a (i + nest))
          (i + ((u + 1 : Nat) : Int))
      = c (i + 1 + (u : Int)) * a (i + (1 + (u : Int) + 1) * nest) := by
    intro u
    rw [Function.update_noteq (by omega)]
    have e1 : i + ((((u + 1 : Nat) : Int)) + 1) * nest = i + (1 + (u : Int) + 1) * nest := by
      push_cast; ring
    have e2 : i + ((u + 1 : Nat) : Int) = i + 1 + (u : Int) := by push_cast; ring
    rw [e1, e2, mul_comm]
  simp only [hterm]
  have e3 : i + (((0 : Nat) : Int) + 1) * nest = i + nest := by simp
  have e4 : i + ((0 : Nat) : Int) = i := by simp
  rw [e3, e4, Function.update_same, mul_div_cancel₀ _ hd]
  ring

theorem fpback_outer_inv {F : Type} [Field F] (a z : Int → F) (k1 nest n : Int)
    (hdiag : ∀ r : Int, 1 ≤ r → r ≤ n → a (r + nest) ≠ 0) :
    ∀ (t : Nat) (j0 : Int) (c : Int → F) (i : Int),
      i = n + 1 - j0 → 2 ≤ j0 → j0 + t ≤ n + 1 →
      (∀ r, i < r → r ≤ n → RowSolved a z c k1 n nest r) →
      (∀ r, i - t < r → r ≤ n →
        RowSolved a z (fpback_outer a z k1 nest
          ((List.range t).map (fun (u : Nat) => j0 + (u : Int))) (c, i)).1 k1 n nest r) ∧
      (∀ x, (x ≤ i - t ∨ i < x) →
        (fpback_outer a z k1 nest
          ((List.range t).map (fun (u : Nat) => j0 + (u : Int))) (c, i)).1 x = c x) := by
  intro t
  induction t with
  | zero =>
    intro j0 c i _ _ _ hrows
    refine ⟨fun r hr hn => ?_, fun x _ => ?_⟩
    · simpa [fpback_outer] using hrows r (by simpa using hr) hn
    · simp [fpback_outer]
  | succ t ih =>
    intro j0 c i hi hj hjt hrows
    have hjt' : j0 + (t : Int) + 1 ≤ n + 1 := by push_cast at hjt; omega
    have hi1 : 1 ≤ i := by omega
    have hin : i ≤ n := by omega
    have hT : (min k1 (n - i)).toNat = ((if j0 ≤ k1 then j0 - 1 else k1) + 1 - 1).toNat := by
      congr 1
      split_ifs with h
      · rw [min_eq_right (by omega)]; omega
      · rw [min_eq_left (by omega)]; omega
    rw [range_map_succ, fpback_outer]
    simp only [int_range, fpback_inner_eq]
    set c' := Function.update c i
      ((z i - ∑ u in Finset.range ((if j0 ≤ k1 then j0 - 1 else k1) + 1 - 1).toNat,
          c (i + 1 + (u : Int)) * a (i + (1 + (u : Int) + 1) * nest)) / a (i + nest)) with hc'
    have hnew : RowSolved a z c' k1 n nest i :=
      row_solved_of_update a z c k1 n nest i _ hT (hdiag i hi1 hin)
    have hrows' : ∀ r, i - 1 < r → r ≤ n → RowSolved a z c' k1 n nest r := by
      intro r hr hn
      rcases eq_or_lt_of_le (show i ≤ r by omega) with h | h
      · rw [← h]; exact hnew
      · exact row_solved_frame a z c c' k1 n nest r
          (fun x hx => Function.update_noteq (by omega) _ _) (hrows r h hn)
    obtain ⟨h1, h2⟩ := ih (j0 + 1) c' (i - 1) (by omega) (by omega) (by omega) hrows'
    refine ⟨fun r hr hn => h1 r (by push_cast at hr; omega) hn, fun x hx => ?_⟩
    rw [h2 x (by push_cast at hx; omega)]
    exact Function.update_noteq (by push_cast at hx; omega) _ _

/-- On the adjusted arrays, `fpback` leaves every row of the system solved and
touches `c` only at the indices `1 .. n`. -/
theorem fpback_adjusted {F : Type} [Field F] (a1 z1 : Int → F) (n k : Int) (c1 : Int → F)
    (nest : Int)
    (hn : 1 ≤ n) (hk : 1 ≤ k)
    (hdiag : ∀ r : Int, 1 ≤ r → r ≤ n → a1 (r + nest) ≠ 0) :
    (∀ r, 1 ≤ r → r ≤ n → RowSolved a1 z1 (fpback_body a1 z1 n k c1 nest) (k - 1) n nest r) ∧
    (∀ x, (x ≤ 0 ∨ n < x) → fpback_body a1 z1 n k c1 nest x = c1 x) := by
  simp only [fpback_body]
  generalize hk1 : k - 1 = k1
  have hlast : RowSolved a1 z1 (Function.update c1 n (z1 n / a1 (n + nest))) k1 n nest n := by
    have h := row_solved_of_update a1 z1 c1 k1 n nest n 0
      (by rw [min_eq_right (by omega)]; simp) (hdiag n hn (le_refl n))
    simpa using h
  by_cases h0 : n - 1 = 0
  · rw [if_pos h0]
    refine ⟨fun r hr1 hrn => ?_, fun x hx => Function.update_noteq (by omega) _ _⟩
    obtain rfl : r = n := by omega
    exact hlast
  · rw [if_neg h0]
    obtain ⟨h1, h2⟩ := fpback_outer_inv a1 z1 k1 nest n hdiag (n + 1 - 2).toNat 2
      (Function.update c1 n (z1 n / a1 (n + nest))) (n - 1) (by omega) (le_refl 2)
      (by omega)
      (fun r hr hrn => by
        obtain rfl : r = n := by omega
        exact hlast)
    refine ⟨fun r hr1 hrn => h1 r (by omega) hrn, fun x hx => ?_⟩
    rw [int_range, h2 x (by omega)]
    exact Function.update_noteq (by omega) _ _

/-! ## The calls of one thread in the chunk loop -/

theorem calls_of_thread_append (env : Env α n) (settings : Settings) (D N c : Nat) (f : ℚ)
    (t : Nat) (picks : List Nat) (u : Nat) (L : LoopState α n) :
    calls_of_thread env settings D N c f t (picks ++ [u]) L =
      calls_of_thread env settings D N c f t picks L ++
        step_calls env settings D N c f t (picks.foldl (chunk_step env settings D N c f) L) u := by
  induction picks generalizing L with
  | nil => simp [calls_of_thread]
  | cons v rest ih => simp [calls_of_thread, ih, List.append_assoc]

/-- What one action of thread `t` adds to its own sequence of calls, and where
it leaves the thread. -/
theorem step_calls_cases (env : Env α n) (settings : Settings) (D N c : Nat) (f : ℚ)
    (t : Nat) (L : LoopState α n) :
    (step_calls env settings D N c f t L t = [] ∧
      ∀ i, (chunk_step env settings D N c f L t).task t = some (i, Pc.corr) →
        L.task t = some (i, Pc.corr)) ∨
    (∃ i, L.task t = some (i, Pc.bind) ∧
      step_calls env settings D N c f t L t = [(i, .cudaSetDevice (settings.cuda_device_ids t))] ∧
      (chunk_step env settings D N c f L t).task t = some (i, Pc.corr)) ∨
    (∃ i, L.task t = some (i, Pc.corr) ∧
      step_calls env settings D N c f t L t = [(i, .interferometer t i f L.st.error)] ∧
      (chunk_step env settings D N c f L t).task t = some (i, Pc.add)) ∨
    (∃ i, L.task t = some (i, Pc.add) ∧
      step_calls env settings D N c f t L t = [(i, .mem_add_acc t L.st.error)] ∧
      (chunk_step env settings D N c f L t).task t = none) := by
  have hsame : ∀ L' : LoopState α n, chunk_step env settings D N c f L t = L' →
      L'.st = L.st → L'.task t = L.task t →
      step_calls env settings D N c f t L t = [] ∧
      ∀ i, (chunk_step env settings D N c f L t).task t = some (i, Pc.corr) →
        L.task t = some (i, Pc.corr) := by
    intro L' e hst htask
    refine ⟨?_, fun i hi => by rw [e, htask] at hi; exact hi⟩
    simp only [step_calls, e, hst, if_true, List.drop_length, List.map_nil]
    split <;> rfl
  by_cases hf : L.fault = true
  · left
    exact hsame L (by simp [chunk_step, hf]) rfl rfl
  · have hf' : L.fault = false := by simpa using hf
    rcases ht : L.task t with _ | ⟨i, pc⟩
    · left
      rw [chunk_step_idle env settings D N c f L t hf' ht]
      refine ⟨by simp [step_calls, ht], fun i hi => ?_⟩
      split_ifs at hi with h
      · simp at hi
      · rw [ht] at hi; cases hi
    · cases pc with
      | check =>
        left
        rw [chunk_step_check env settings D N c f L t i hf' ht]
        refine ⟨?_, fun j hj => ?_⟩
        · simp only [step_calls, if_true, ht, chunk_step_check env settings D N c f L t i hf' ht]
          split_ifs <;> simp
        · split_ifs at hj <;> simp at hj
      | bind =>
        by_cases htD : t < D
        · right; left
          refine ⟨i, rfl, ?_, ?_⟩
          · simp [step_calls, ht, chunk_step_bind env settings D N c f L t i hf' ht htD,
              State.log]
          · simp [chunk_step_bind env settings D N c f L t i hf' ht htD]
        · left
          rw [← ht]
          exact hsame { L with fault := true } (by simp [chunk_step, hf', ht, htD]) rfl rfl
      | corr =>
        by_cases htD : t < D
        · right; right; left
          refine ⟨i, rfl, ?_, ?_⟩
          · simp [step_calls, ht, chunk_step_corr env settings D N c f L t i hf' ht htD,
              State.log]
          · simp [chunk_step_corr env settings D N c f L t i hf' ht htD]
        · left
          rw [← ht]
          exact hsame { L with fault := true } (by simp [chunk_step, hf', ht, htD]) rfl rfl
      | add =>
        by_cases htD : t < D
        · right; right; right
          refine ⟨i, rfl, ?_, ?_⟩
          · simp [step_calls, ht, chunk_step_add env settings D N c f L t i hf' ht htD,
              State.log]
          · simp [chunk_step_add env settings D N c f L t i hf' ht htD]
        · left
          rw [← ht]
          exact hsame { L with fault := true } (by simp [chunk_step, hf', ht, htD]) rfl rfl

theorem step_calls_other (env : Env α n) (settings : Settings) (D N c : Nat) (f : ℚ)
    (t : Nat) (L : LoopState α n) (u : Nat) (hu : u ≠ t) :
    step_calls env settings D N c f t L u = [] := by
  simp [step_calls, hu]

/-- The sequence of calls of thread `t` is well formed: a correlation call is
made by `t` for the chunk of its iteration and comes right after the device
call of that iteration; and a thread about to make the correlation call has
just made the device call. -/
theorem calls_of_thread_inv (env : Env α n) (settings : Settings) (D N c : Nat) (f : ℚ)
    (t : Nat) (s : State α n) (picks : List Nat) :
    (∀ (k i t' i' : Nat) (f' : ℚ) (st : Int),
      (calls_of_thread env settings D N c f t picks (loop_entry s))[k]?
        = some (i, .interferometer t' i' f' st) →
      t' = t ∧ i' = i ∧ f' = f ∧ 0 < k ∧
      (calls_of_thread env settings D N c f t picks (loop_entry s))[k - 1]?
        = some (i, .cudaSetDevice (settings.cuda_device_ids t))) ∧
    (∀ i, (picks.foldl (chunk_step env settings D N c f) (loop_entry s)).task t
        = some (i, Pc.corr) →
      0 < (calls_of_thread env settings D N c f t picks (loop_entry s)).length ∧
      (calls_of_thread env settings D N c f t picks (loop_entry s))[
          (calls_of_thread env settings D N c f t picks (loop_entry s)).length - 1]?
        = some (i, .cudaSetDevice (settings.cuda_device_ids t))) := by
  induction picks using List.reverseRecOn with
  | nil =>
    refine ⟨fun k i t' i' f' st h => by simp [calls_of_thread] at h, fun i h => ?_⟩
    simp [loop_entry] at h
  | append_singleton picks u ih =>
    obtain ⟨ih1, ih2⟩ := ih
    rw [calls_of_thread_append, List.foldl_append, List.foldl_cons, List.foldl_nil]
    set L := picks.foldl (chunk_step env settings D N c f) (loop_entry s) with hL
    set log := calls_of_thread env settings D N c f t picks (loop_entry s) with hlog
    by_cases hu : u = t
    · subst hu
      have hold : ∀ (k i t' i' : Nat) (f' : ℚ) (st : Int) (new : List (Nat × Event)),
          k < log.length → (log ++ new)[k]? = some (i, .interferometer t' i' f' st) →
          t' = u ∧ i' = i ∧ f' = f ∧ 0 < k ∧
          (log ++ new)[k - 1]? = some (i, .cudaSetDevice (settings.cuda_device_ids u)) := by
        intro k i t' i' f' st new hk h
        rw [List.getElem?_append_left hk] at h
        obtain ⟨a, b, c', d, e⟩ := ih1 k i t' i' f' st h
        exact ⟨a, b, c', d, by rw [List.getElem?_append_left (by omega)]; exact e⟩
      rcases step_calls_cases env settings D N c f u L with
        ⟨e, hk⟩ | ⟨i, ht, e, ht'⟩ | ⟨i, ht, e, ht'⟩ | ⟨i, ht, e, ht'⟩
      · rw [e, List.append_nil]
        exact ⟨ih1, fun i hi => ih2 i (hk i hi)⟩
      · rw [e]
        refine ⟨fun k j t' i' f' st h => ?_, fun j hj => ?_⟩
        · rcases Nat.lt_or_ge k log.length with hk | hk
          · exact hold k j t' i' f' st _ hk h
          · rw [List.getElem?_append_right hk] at h
            rcases Nat.eq_zero_or_pos (k - log.length) with h0 | h0
            · rw [h0] at h; simp at h
            · rw [List.getElem?_eq_none (by simp; omega)] at h; cases h
        · rw [ht'] at hj
          obtain rfl : i = j := by simpa using hj
          refine ⟨by simp, ?_⟩
          simp
      · rw [e]
        obtain ⟨hpos, hlast⟩ := ih2 i ht
        refine ⟨fun k j t' i' f' st h => ?_, fun j hj => ?_⟩
        · rcases Nat.lt_or_ge k log.length with hk | hk
          · exact hold k j t' i' f' st _ hk h
          · rw [List.getElem?_append_right hk] at h
            rcases Nat.eq_zero_or_pos (k - log.length) with h0 | h0
            · rw [h0] at h
              simp only [List.getElem?_cons_zero, Option.some.injEq, Prod.mk.injEq,
                Event.interferometer.injEq] at h
              obtain ⟨rfl, rfl, rfl, rfl, -⟩ := h
              have hk' : k = log.length := by omega
              subst hk'
              refine ⟨rfl, rfl, rfl, hpos, ?_⟩
              rw [List.getElem?_append_left (by omega)]
              exact hlast
            · rw [List.getElem?_eq_none (by simp; omega)] at h; cases h
        · rw [ht'] at hj; simp at hj
      · rw [e]
        refine ⟨fun k j t' i' f' st h => ?_, fun j hj => ?_⟩
        · rcases Nat.lt_or_ge k log.length with hk | hk
          · exact hold k j t' i' f' st _ hk h
          · rw [List.getElem?_append_right hk] at h
            rcases Nat.eq_zero_or_pos (k - log.length) with h0 | h0
            · rw [h0] at h; simp at h
            · rw [List.getElem?_eq_none (by simp; omega)] at h; cases h
        · rw [ht'] at hj; cases hj
    · rw [step_calls_other env settings D N c f t L u hu, List.append_nil]
      refine ⟨ih1, fun i hi => ih2 i ?_⟩
      rw [← (chunk_step_frame env settings D N c f L u t (Ne.symm hu)).2.2]
      exact hi

/-- A correlation call appended to the trace by an action of thread `u` carries
the thread id `u` and the chunk of the iteration `u` is in. -/
theorem step_correlation (env : Env α n) (settings : Settings) (D N c : Nat) (f : ℚ)
    (L : LoopState α n) (u t i : Nat) (f' : ℚ) (st : Int)
    (h : Event.interferometer t i f' st ∈
      (chunk_step env settings D N c f L u).st.trace.drop L.st.trace.length) :
    u = t ∧ L.task u = some (i, Pc.corr) := by
  by_cases hf : L.fault = true
  · have e : chunk_step env settings D N c f L u = L := by simp [chunk_step, hf]
    simp [e] at h
  · have hf' : L.fault = false := by simpa using hf
    rcases ht : L.task u with _ | ⟨j, pc⟩
    · rw [chunk_step_idle env settings D N c f L u hf' ht] at h
      split_ifs at h <;> simp at h
    · by_cases huD : u < D
      · cases pc with
        | check =>
          rw [chunk_step_check env settings D N c f L u j hf' ht] at h
          split_ifs at h <;> simp at h
        | bind =>
          rw [chunk_step_bind env settings D N c f L u j hf' ht huD] at h
          simp [State.log] at h
        | corr =>
          rw [chunk_step_corr env settings D N c f L u j hf' ht huD] at h
          simp [State.log] at h
          obtain ⟨rfl, rfl, -, -⟩ := h
          exact ⟨rfl, rfl⟩
        | add =>
          rw [chunk_step_add env settings D N c f L u j hf' ht huD] at h
          simp [State.log] at h
      · have e : (chunk_step env settings D N c f L u).st = L.st := by
          cases pc <;> simp [chunk_step, hf', ht, huD]
          split_ifs <;> rfl
        simp [e] at h

theorem correlation_in_calls (env : Env α n) (settings : Settings) (D N c : Nat) (f : ℚ)
    (s : State α n) (picks : List Nat) (t i : Nat) (f' : ℚ) (st : Int)
    (h : Event.interferometer t i f' st ∈
      (picks.foldl (chunk_step env settings D N c f) (loop_entry s)).st.trace.drop
        s.trace.length) :
    (i, Event.interferometer t i f' st) ∈
      calls_of_thread env settings D N c f t picks (loop_entry s) := by
  induction picks using List.reverseRecOn with
  | nil => simp [loop_entry] at h
  | append_singleton picks u ih =>
    rw [calls_of_thread_append]
    rw [List.foldl_append, List.foldl_cons, List.foldl_nil] at h
    obtain ⟨l0, hl0, -⟩ := chunk_steps_trace env settings D N c f picks (loop_entry s)
    obtain ⟨l1, hl1, -⟩ := chunk_step_trace env settings D N c f
      (picks.foldl (chunk_step env settings D N c f) (loop_entry s)) u
    have hs : (loop_entry s).st.trace = s.trace := rfl
    rw [hs] at hl0
    rw [hl1, hl0, List.append_assoc, List.drop_left] at h
    rcases List.mem_append.mp h with h | h
    · exact List.mem_append_left _ (ih (by rw [hl0, List.drop_left]; exact h))
    · have hnew : Event.interferometer t i f' st ∈
          (chunk_step env settings D N c f
            (picks.foldl (chunk_step env settings D N c f) (loop_entry s)) u).st.trace.drop
          (picks.foldl (chunk_step env settings D N c f) (loop_entry s)).st.trace.length := by
        rw [hl1, List.drop_left]; exact h
      obtain ⟨rfl, htask⟩ := step_correlation env settings D N c f _ u t i f' st hnew
      refine List.mem_append_right _ ?_
      simp only [step_calls, if_true, htask]
      exact List.mem_map.mpr ⟨_, hnew, rfl⟩

theorem parallel_chunks_final (env : Env α n) (settings : Settings) (D N c : Nat) (f : ℚ)
    (picks : List Nat) (s : State α n) :
    final_state (parallel_chunks env settings D N c f picks s) =
      (picks.foldl (chunk_step env settings D N c f) (loop_entry s)).st := by
  unfold parallel_chunks
  simp only []
  split_ifs <;> rfl

/-! ## Every chunk is correlated once -/

theorem once_entry (s : State α n) : Once s.trace.length (loop_entry s) where
  le := le_refl _
  held := by intro t i pc h; simp [loop_entry] at h
  unique := by intro t u i pc pc' h; simp [loop_entry] at h
  zero := by intro i _; simp [loop_entry]
  owed := by intro t i pc h; simp [loop_entry] at h
  done := by intro i h; simp [loop_entry] at h

/-- A thread moves on inside its iteration, or leaves it after the
accumulation, and the calls it adds are no correlation step. -/
theorem once_retask (k : Nat) (L L' : LoopState α n) (t i : Nat) (pc : Pc)
    (v : Option (Nat × Pc)) (inv : Once k L) (ht : L.task t = some (i, pc))
    (htask : L'.task = Function.update L.task t v) (hnext : L'.next = L.next)
    (hle : k ≤ L'.st.trace.length)
    (hcount : ∀ j, (L'.st.trace.drop k).countP (Event.correlates j) =
      (L.st.trace.drop k).countP (Event.correlates j))
    (hv : (v = none ∧ pc = Pc.add) ∨ (∃ pc', v = some (i, pc') ∧ pc ≠ Pc.add ∧ pc' ≠ Pc.add)) :
    Once k L' := by
  have hold : ∀ u j q, L'.task u = some (j, q) → u ≠ t → L.task u = some (j, q) := by
    intro u j q h hu
    rw [htask, Function.update_noteq hu] at h
    exact h
  have hnew : ∀ j q, L'.task t = some (j, q) → j = i ∧ q ≠ Pc.add ∧ pc ≠ Pc.add := by
    intro j q h
    rw [htask, Function.update_same] at h
    rcases hv with ⟨rfl, -⟩ | ⟨pc', rfl, h1, h2⟩
    · cases h
    · simp only [Option.some.injEq, Prod.mk.injEq] at h
      obtain ⟨rfl, rfl⟩ := h
      exact ⟨rfl, h2, h1⟩
  refine ⟨hle, ?_, ?_, ?_, ?_, ?_⟩
  · intro u j q h
    rw [hnext]
    by_cases hu : u = t
    · subst hu
      obtain ⟨rfl, -, -⟩ := hnew j q h
      exact inv.held u j pc ht
    · exact inv.held u j q (hold u j q h hu)
  · intro u w j q q' h1 h2
    by_cases hu : u = t
    · by_cases hw : w = t
      · rw [hu, hw]
      · subst hu
        obtain ⟨rfl, -, -⟩ := hnew j q h1
        exact inv.unique u w j pc q' ht (hold w j q' h2 hw)
    · by_cases hw : w = t
      · subst hw
        obtain ⟨rfl, -, -⟩ := hnew j q' h2
        exact inv.unique u w j q pc (hold u j q h1 hu) ht
      · exact inv.unique u w j q q' (hold u j q h1 hu) (hold w j q' h2 hw)
  · intro j hj
    rw [hcount]
    exact inv.zero j (by omega)
  · intro u j q h hq
    rw [hcount]
    by_cases hu : u = t
    · subst hu
      obtain ⟨rfl, -, hpc⟩ := hnew j q h
      exact inv.owed u j pc ht hpc
    · exact inv.owed u j q (hold u j q h hu) hq
  · intro j hj hall
    rw [hcount]
    refine inv.done j (by omega) (fun u q h => ?_)
    by_cases hu : u = t
    · subst hu
      rw [ht] at h
      simp only [Option.some.injEq, Prod.mk.injEq] at h
      obtain ⟨rfl, rfl⟩ := h
      rcases hv with ⟨-, hpc⟩ | ⟨pc', hv', hpc, hpc'⟩
      · exact hpc
      · exact absurd (hall u pc' (by rw [htask, Function.update_same, hv'])) hpc'
    · exact hall u q (by rw [htask, Function.update_noteq hu]; exact h)

/-- An idle thread takes the next iteration. -/
theorem once_take (k : Nat) (L : LoopState α n) (t : Nat) (inv : Once k L)
    (ht : L.task t = none) :
    Once k { L with next := L.next + 1,
                    task := Function.update L.task t (some (L.next, Pc.check)) } := by
  have hold : ∀ u j q, Function.update L.task t (some (L.next, Pc.check)) u = some (j, q) →
      u ≠ t → L.task u = some (j, q) := by
    intro u j q h hu
    rw [Function.update_noteq hu] at h
    exact h
  have hnew : ∀ j q, Function.update L.task t (some (L.next, Pc.check)) t = some (j, q) →
      j = L.next ∧ q = Pc.check := by
    intro j q h
    rw [Function.update_same] at h
    simp only [Option.some.injEq, Prod.mk.injEq] at h
    exact ⟨h.1.symm, h.2.symm⟩
  refine ⟨inv.le, ?_, ?_, ?_, ?_, ?_⟩
  · intro u j q h
    show j < L.next + 1
    by_cases hu : u = t
    · subst hu
      obtain ⟨rfl, -⟩ := hnew j q h
      omega
    · have := inv.held u j q (hold u j q h hu)
      omega
  · intro u w j q q' h1 h2
    by_cases hu : u = t
    · by_cases hw : w = t
      · rw [hu, hw]
      · subst hu
        obtain ⟨rfl, -⟩ := hnew j q h1
        exact absurd (inv.held w _ q' (hold w _ q' h2 hw)) (lt_irrefl _)
    · by_cases hw : w = t
      · subst hw
        obtain ⟨rfl, -⟩ := hnew j q' h2
        exact absurd (inv.held u _ q (hold u _ q h1 hu)) (lt_irrefl _)
      · exact inv.unique u w j q q' (hold u j q h1 hu) (hold w j q' h2 hw)
  · intro j hj
    exact inv.zero j (by have : L.next + 1 ≤ j := hj; omega)
  · intro u j q h hq
    by_cases hu : u = t
    · subst hu
      obtain ⟨rfl, -⟩ := hnew j q h
      exact inv.zero _ (le_refl _)
    · exact inv.owed u j q (hold u j q h hu) hq
  · intro j hj hall
    have hj' : j < L.next + 1 := hj
    rcases Nat.lt_or_ge j L.next with hlt | hge
    · refine inv.done j hlt (fun u q h => ?_)
      have hu : u ≠ t := by
        intro e
        rw [e, ht] at h
        cases h
      exact hall u q (by show Function.update L.task t _ u = _; rw [Function.update_noteq hu]; exact h)
    · obtain rfl : j = L.next := by omega
      have := hall t Pc.check (by show Function.update L.task t _ t = _; rw [Function.update_same])
      cases this

/-- A thread makes the correlation call of its iteration. -/
theorem once_corr (k : Nat) (L L' : LoopState α n) (t i : Nat) (e : Event) (inv : Once k L)
    (ht : L.task t = some (i, Pc.corr))
    (htask : L'.task = Function.update L.task t (some (i, Pc.add))) (hnext : L'.next = L.next)
    (htrace : L'.st.trace = L.st.trace ++ [e])
    (he : ∀ j, Event.correlates j e = decide (i = j)) :
    Once k L' := by
  have hold : ∀ u j q, L'.task u = some (j, q) → u ≠ t → L.task u = some (j, q) := by
    intro u j q h hu
    rw [htask, Function.update_noteq hu] at h
    exact h
  have hnew : ∀ j q, L'.task t = some (j, q) → j = i ∧ q = Pc.add := by
    intro j q h
    rw [htask, Function.update_same] at h
    simp only [Option.some.injEq, Prod.mk.injEq] at h
    exact ⟨h.1.symm, h.2.symm⟩
  have hcount : ∀ j, (L'.st.trace.drop k).countP (Event.correlates j) =
      (L.st.trace.drop k).countP (Event.correlates j) + if i = j then 1 else 0 := by
    intro j
    rw [htrace, List.drop_append_of_le_length inv.le, List.countP_append]
    simp [List.countP_cons, he]
  refine ⟨by rw [htrace]; simp; have := inv.le; omega, ?_, ?_, ?_, ?_, ?_⟩
  · intro u j q h
    rw [hnext]
    by_cases hu : u = t
    · subst hu
      obtain ⟨rfl, -⟩ := hnew j q h
      exact inv.held u j _ ht
    · exact inv.held u j q (hold u j q h hu)
  · intro u w j q q' h1 h2
    by_cases hu : u = t
    · by_cases hw : w = t
      · rw [hu, hw]
      · subst hu
        obtain ⟨rfl, -⟩ := hnew j q h1
        exact inv.unique u w j _ q' ht (hold w j q' h2 hw)
    · by_cases hw : w = t
      · subst hw
        obtain ⟨rfl, -⟩ := hnew j q' h2
        exact inv.unique u w j q _ (hold u j q h1 hu) ht
      · exact inv.unique u w j q q' (hold u j q h1 hu) (hold w j q' h2 hw)
  · intro j hj
    have hij : i ≠ j := by
      have := inv.held t i _ ht
      omega
    rw [hcount, if_neg hij, add_zero]
    exact inv.zero j (by omega)
  · intro u j q h hq
    have hu : u ≠ t := by
      intro e'
      subst e'
      exact hq (hnew j q h).2
    have hij : i ≠ j := by
      intro e'
      subst e'
      exact hu (inv.unique u t i q _ (hold u i q h hu) ht)
    rw [hcount, if_neg hij, add_zero]
    exact inv.owed u j q (hold u j q h hu) hq
  · intro j hj hall
    rw [hcount]
    by_cases hij : i = j
    · subst hij
      rw [if_pos rfl, inv.owed t i _ ht (by decide)]
    · rw [if_neg hij, add_zero]
      refine inv.done j (by omega) (fun u q h => ?_)
      have hu : u ≠ t := by
        intro e'
        rw [e', ht] at h
        simp only [Option.some.injEq, Prod.mk.injEq] at h
        exact hij h.1
      exact hall u q (by rw [htask, Function.update_noteq hu]; exact h)

/-- One action of a thread keeps the bookkeeping when no call fails. -/
theorem once_step (env : Env α n) (settings : Settings) (D N c : Nat) (f : ℚ) (k : Nat)
    (L : LoopState α n) (t : Nat) (htD : t < D) (hf : L.fault = false)
    (he : L.st.error = 0) (inv : Once k L) :
    Once k (chunk_step env settings D N c f L t) := by
  rcases htask : L.task t with _ | ⟨i, pc⟩
  · rw [chunk_step_idle env settings D N c f L t hf htask]
    split_ifs
    · exact once_take k L t inv htask
    · exact inv
  · cases pc with
    | check =>
      rw [chunk_step_check env settings D N c f L t i hf htask]
      simp only [he, ne_eq, not_true_eq_false, if_false]
      exact once_retask k L _ t i Pc.check (some (i, Pc.bind)) inv htask rfl rfl inv.le
        (fun _ => rfl) (Or.inr ⟨Pc.bind, rfl, by decide, by decide⟩)
    | bind =>
      rw [chunk_step_bind env settings D N c f L t i hf htask htD]
      refine once_retask k L _ t i Pc.bind (some (i, Pc.corr)) inv htask rfl rfl ?_ ?_
        (Or.inr ⟨Pc.corr, rfl, by decide, by decide⟩)
      · simp [State.log]; have := inv.le; omega
      · intro j
        simp [State.log, List.drop_append_of_le_length inv.le, List.countP_append,
          Event.correlates]
    | corr =>
      rw [chunk_step_corr env settings D N c f L t i hf htask htD]
      exact once_corr k L _ t i (.interferometer t i f L.st.error) inv htask rfl rfl rfl
        (fun j => rfl)
    | add =>
      rw [chunk_step_add env settings D N c f L t i hf htask htD]
      refine once_retask k L _ t i Pc.add none inv htask rfl rfl ?_ ?_ (Or.inl ⟨rfl, rfl⟩)
      · simp [State.log]; have := inv.le; omega
      · intro j
        simp [State.log, List.drop_append_of_le_length inv.le, List.countP_append,
          Event.correlates]

theorem once_run (env : Env α n) (settings : Settings) (D N c : Nat) (f : ℚ)
    (all : List Nat) (s : State α n) (k : Nat)
    (hbind : ∀ i id, env.cudaSetDevice_chunk c i id = 0)
    (hcorr : ∀ i, (env.interferometer c i f).1 = 0)
    (picks : List Nat) (hD : ∀ t ∈ picks, t < D) (hall : ∀ t ∈ picks, t ∈ all)
    (L : LoopState α n) (inv : LoopInv env D N c f all s L) (once : Once k L) :
    Once k (picks.foldl (chunk_step env settings D N c f) L) := by
  induction picks generalizing L with
  | nil => exact once
  | cons t rest ih =>
    rw [List.foldl_cons]
    have htD : t < D := hD t (List.mem_cons_self _ _)
    exact ih (fun u hu => hD u (List.mem_cons_of_mem _ hu))
      (fun u hu => hall u (List.mem_cons_of_mem _ hu)) _
      (loop_inv_step env settings D N c f all s hbind hcorr L t htD
        (hall t (List.mem_cons_self _ _)) inv)
      (once_step env settings D N c f k L t htD inv.fault inv.error once)

/-- When no call fails, a chunk loop that reaches its barrier has called the
correlation step once for each of the `N` chunks. -/
theorem parallel_chunks_once (env : Env α n) (settings : Settings) (D N c : Nat) (f : ℚ)
    (s s1 : State α n)
    (hbind : ∀ i id, env.cudaSetDevice_chunk c i id = 0)
    (hcorr : ∀ i, (env.interferometer c i f).1 = 0)
    (picks : List Nat) (hD : ∀ t ∈ picks, t < D) (h0 : s.error = 0)
    (hrun : parallel_chunks env settings D N c f picks s = .ok s1) (i : Nat) :
    (s1.trace.drop s.trace.length).countP (Event.correlates i) = if i < N then 1 else 0 := by
  have inv := loop_inv_run env settings D N c f picks s hbind hcorr picks hD
    (fun t ht => ht) (loop_entry s) (loop_inv_entry env D N c f picks s h0)
  have once := once_run env settings D N c f picks s s.trace.length hbind hcorr picks hD
    (fun t ht => ht) (loop_entry s) (loop_inv_entry env D N c f picks s h0) (once_entry s)
  unfold parallel_chunks at hrun
  simp only [inv.fault, Bool.false_eq_true, if_false] at hrun
  by_cases hb : at_barrier N picks
      (picks.foldl (chunk_step env settings D N c f) (loop_entry s)) = true
  · rw [if_pos hb] at hrun
    obtain rfl : (picks.foldl (chunk_step env settings D N c f) (loop_entry s)).st = s1 := by
      simpa using hrun
    obtain ⟨hnext, hidle⟩ := (at_barrier_iff N picks _).mp hb
    have hnone : ∀ t, (picks.foldl (chunk_step env settings D N c f) (loop_entry s)).task t
        = none := by
      intro t
      by_contra hne
      exact hne (hidle t (inv.busy t hne))
    by_cases hi : i < N
    · rw [if_pos hi]
      exact once.done i (by rw [hnext]; exact hi) (fun t pc h => by rw [hnone t] at h; cases h)
    · rw [if_neg hi]
      exact once.zero i (by rw [hnext]; omega)
  · rw [if_neg hb] at hrun
    cases hrun

theorem chunk_step_calls (env : Env α n) (settings : Settings) (D N c : Nat) (f : ℚ)
    (L : LoopState α n) (t : Nat) :
    TraceExt (fun e => e.phase = 2 ∨ e.phase = 3) L.st
      (chunk_step env settings D N c f L t).st := by
  unfold chunk_step
  by_cases hf : L.fault = true
  · rw [if_pos hf]
    exact TraceExt.refl _ _
  · rw [if_neg hf]
    split <;> (try split_ifs) <;> simp [TraceExt, Event.phase]

theorem chunk_steps_calls (env : Env α n) (settings : Settings) (D N c : Nat) (f : ℚ)
    (picks : List Nat) (L : LoopState α n) :
    TraceExt (fun e => e.phase = 2 ∨ e.phase = 3) L.st
      (picks.foldl (chunk_step env settings D N c f) L).st := by
  induction picks generalizing L with
  | nil => exact TraceExt.refl _ _
  | cons t rest ih =>
    rw [List.foldl_cons]
    exact TraceExt.trans (chunk_step_calls env settings D N c f L t) (ih _)

theorem fold_lanes_calls (c : Nat) (s : State α n) (h : s.error = 0) (D : Nat) :
    ((List.range D).foldl (fold_lane c) s).trace = s.trace ++ lane_fold_calls c D ∧
    ((List.range D).foldl (fold_lane c) s).error = 0 := by
  induction D with
  | zero => simp [lane_fold_calls, h]
  | succ D ih =>
    obtain ⟨h1, h2⟩ := ih
    rw [List.range_succ, List.foldl_append, List.foldl_cons, List.foldl_nil]
    refine ⟨?_, (fold_lane_ok c _ D h2).1⟩
    simp [fold_lane, State.log, h1, h2, lane_fold_calls]

theorem fold_into_global_calls (D c : Nat) (s : State α n) (h : s.error = 0) :
    (fold_into_global D c s).trace = s.trace ++ fold_calls D c := by
  have := (fold_lanes_calls c (s.log (.get_channel_amps c s.error)) (by simpa using h) D).1
  simpa [fold_into_global, fold_calls, State.log, h] using this

/-- The processing of one channel that runs to its end: the calls of the chunk
loop, then the calls of the fold of that channel; only the slab of the channel
is written. -/
theorem channel_body_calls (env : Env α n) (settings : Settings) (D N c : Nat)
    (picks : List Nat) (s0 s1 : State α n)
    (hrun : channel_body env settings D N c picks s0 = .ok s1) :
    s1.error = 0 ∧
    (∀ c', c' ≠ c → s1.vis_global c' = s0.vis_global c') ∧
    ∃ seg, s1.trace = s0.trace ++ (seg ++ fold_calls D c) ∧
      (∀ e ∈ seg, e.phase = 2 ∨ e.phase = 3) ∧
      ((∀ i id, env.cudaSetDevice_chunk c i id = 0) →
        (∀ i, (env.interferometer c i (channel_frequency settings c)).1 = 0) →
        (∀ t ∈ picks, t < D) → s0.error = 0 →
        ∀ i, seg.countP (Event.correlates i) = if i < N then 1 else 0) := by
  unfold channel_body at hrun
  simp only [] at hrun
  rcases hp : parallel_chunks env settings D N c (channel_frequency settings c) picks s0
    with x | sm
  · rw [hp] at hrun; cases hrun
  · rw [hp] at hrun
    simp only [] at hrun
    by_cases he : sm.error ≠ 0
    · rw [if_pos he] at hrun; cases hrun
    · rw [if_neg he] at hrun
      have he0 : sm.error = 0 := by simpa using he
      obtain rfl : fold_into_global D c sm = s1 := by simpa using hrun
      have hfin := parallel_chunks_final env settings D N c (channel_frequency settings c)
        picks s0
      rw [hp] at hfin
      have hsm : sm = (picks.foldl (chunk_step env settings D N c
          (channel_frequency settings c)) (loop_entry s0)).st := hfin
      obtain ⟨l, hl, hphase⟩ := chunk_steps_calls env settings D N c
        (channel_frequency settings c) picks (loop_entry s0)
      have hl' : sm.trace = s0.trace ++ l := by rw [hsm]; exact hl
      have hg : sm.vis_global = s0.vis_global := by
        rw [hsm, chunk_steps_vis_global]; rfl
      obtain ⟨g1, -, g3, -, -, -⟩ := fold_into_global_ok D c sm he0
      refine ⟨g1, fun c' hc => by rw [g3 c' hc, hg], l, ?_, hphase, ?_⟩
      · rw [fold_into_global_calls D c sm he0, hl', List.append_assoc]
      · intro hbind hcorr hD h0 i
        have := parallel_chunks_once env settings D N c (channel_frequency settings c) s0 sm
          hbind hcorr picks hD h0 hp i
        rw [hl', List.drop_left] at this
        exact this

theorem channel_calls_congr (D : Nat) (segs segs' : Nat → List Event) (C : Nat)
    (h : ∀ c, c < C → segs' c = segs c) : channel_calls D segs' C = channel_calls D segs C := by
  induction C with
  | zero => rfl
  | succ C ih =>
    simp only [channel_calls]
    rw [ih (fun c hc => h c (by omega)), h C (by omega)]

theorem channel_loop_calls (env : Env α n) (settings : Settings) (D N : Nat)
    (sched : Nat → List Nat) :
    ∀ (C : Nat) (s r : State α n),
      channel_loop env settings D N sched (List.range C) s = .ok r →
      (s.error = 0 → r.error = 0) ∧
      ∃ segs : Nat → List Event, r.trace = s.trace ++ channel_calls D segs C ∧
        (∀ c, c < C → ∀ e ∈ segs c, e.phase = 2 ∨ e.phase = 3) ∧
        ((∀ c i id, env.cudaSetDevice_chunk c i id = 0) →
          (∀ c i f, (env.interferometer c i f).1 = 0) →
          (∀ c, ∀ t ∈ sched c, t < D) → s.error = 0 →
          ∀ c, c < C → ∀ i, (segs c).countP (Event.correlates i) = if i < N then 1 else 0) := by
  intro C
  induction C with
  | zero =>
    intro s r h
    obtain rfl : s = r := by simpa [channel_loop] using h
    exact ⟨id, fun _ => [], by simp [channel_calls], fun c hc => absurd hc (Nat.not_lt_zero c),
      fun _ _ _ _ c hc => absurd hc (Nat.not_lt_zero c)⟩
  | succ C ih =>
    intro s r h
    rw [List.range_succ, channel_loop_append] at h
    rcases hm : channel_loop env settings D N sched (List.range C) s with x | sm
    · rw [hm] at h; cases h
    · rw [hm] at h
      simp only [channel_loop] at h
      rcases hb : channel_body env settings D N C (sched C) sm with x | s1
      · rw [hb] at h; cases h
      · rw [hb] at h
        obtain rfl : s1 = r := by simpa using h
        obtain ⟨herr, segs, htr, hph, hcnt⟩ := ih s sm hm
        obtain ⟨b1, -, seg, btr, bph, bcnt⟩ := channel_body_calls env settings D N C (sched C)
          sm s1 hb
        have hcongr := channel_calls_congr D segs (Function.update segs C seg) C
          (fun c hc => Function.update_noteq (by omega) _ _)
        refine ⟨fun _ => b1, Function.update segs C seg, ?_, ?_, ?_⟩
        · rw [btr, htr, channel_calls, hcongr, Function.update_same, List.append_assoc]
        · intro c hc e he
          by_cases hcC : c = C
          · subst hcC
            rw [Function.update_same] at he
            exact bph e he
          · rw [Function.update_noteq hcC] at he
            exact hph c (by omega) e he
        · intro hbind hcorr hD h0 c hc i
          by_cases hcC : c = C
          · subst hcC
            rw [Function.update_same]
            exact bcnt (hbind c) (fun i => hcorr c i _) (hD c) (herr h0) i
          · rw [Function.update_noteq hcC]
            exact hcnt hbind hcorr hD h0 c (by omega) i

theorem lane_fold_calls_count (c c' D : Nat) :
    (lane_fold_calls c D).count (Event.get_channel_amps c' 0) = 0 := by
  induction D with
  | zero => rfl
  | succ D ih => simp [lane_fold_calls, List.count_append, ih, List.count_cons]

theorem channel_calls_count (D : Nat) (segs : Nat → List Event) (C : Nat)
    (hph : ∀ c, c < C → ∀ e ∈ segs c, e.phase = 2 ∨ e.phase = 3) (c : Nat) :
    (channel_calls D segs C).count (Event.get_channel_amps c 0) = if c < C then 1 else 0 := by
  induction C with
  | zero => rfl
  | succ C ih =>
    have hseg : (segs C).count (Event.get_channel_amps c 0) = 0 := by
      apply List.count_eq_zero_of_not_mem
      intro hmem
      have := hph C (by omega) _ hmem
      simp [Event.phase] at this
    simp only [channel_calls, List.count_append, ih (fun c hc => hph c (by omega)), hseg,
      fold_calls, List.count_cons, lane_fold_calls_count, zero_add]
    by_cases h1 : c < C
    · have h2 : C ≠ c := by omega
      simp [h1, h2, Nat.lt_succ_of_lt h1]
    · by_cases h2 : c = C
      · subst h2
        simp
      · have h3 : ¬ c < C + 1 := by omega
        have h4 : C ≠ c := fun e => h2 e.symm
        simp [h1, h3, h4]

/-! ## The claims -/

theorem example_env_succeeds (m : Nat) (settings : Settings) (available chunks : Int)
    (amp : Nat → Nat → ℤ) :
    (example_env m settings available chunks (fun _ _ => 0) amp).AllSucceed := by
  constructor <;> intros <;> rfl

theorem example_env_zero (m : Nat) (settings : Settings) (available chunks : Int)
    (status : Nat → Nat → Int) (amp : Nat → Nat → ℤ) :
    (example_env m settings available chunks status amp).ZeroInitialised := by
  constructor <;> intros <;> rfl

/-- C1. End-to-end channel sum. Take a run that passes the checks of the
settings and of the device count, in which every called function succeeds,
noise is disabled, and the global structure and the lane accumulators are
created all-zero. For every schedule of the threads over the lanes
`0 .. num_devices-1` that brings every chunk loop to its barrier (whatever the
assignment of chunks to lanes and the order of the actions), the driver returns
`OSKAR_SUCCESS` and the slab of every channel `c < num_channels` is the
element-wise sum, over the chunks `i < num_sky_chunks`, of the output of the
correlation step for chunk `i` at the frequency
`start_frequency_hz + c * frequency_inc_hz`. Such schedules exist: with at
least one device, one lane running the chunks in order returns `OSKAR_SUCCESS`. -/
theorem channel_sum_end_to_end (codes : Codes) (env : Env α n)
    (hs : env.AllSucceed) (hz : env.ZeroInitialised)
    (hnoise : env.settings_load.2.noise_enable = false)
    (hout : output_file_specified env.settings_load.2 = true)
    (hD0 : 0 ≤ env.settings_load.2.num_cuda_devices)
    (hdev : env.settings_load.2.num_cuda_devices ≤ env.cudaGetDeviceCount.2) :
    (0 < env.settings_load.2.num_cuda_devices →
      (oskar_sim_interferometer codes env
        (fun _ => single_lane_schedule env.set_up_sky.2.toNat)).1 =
        .returned codes.OSKAR_SUCCESS) ∧
    ∀ sched : Nat → List Nat,
      (∀ c : Nat, (c : Int) < env.settings_load.2.num_channels →
        ∀ t ∈ sched c, (t : Int) < env.settings_load.2.num_cuda_devices) →
      (oskar_sim_interferometer codes env sched).1 ≠ .blocked →
      (oskar_sim_interferometer codes env sched).1 = .returned codes.OSKAR_SUCCESS ∧
      ∀ c : Nat, (c : Int) < env.settings_load.2.num_channels →
        (oskar_sim_interferometer codes env sched).2.vis_global c =
          ∑ i ∈ Finset.range env.set_up_sky.2.toNat,
            (env.interferometer c i (env.settings_load.2.start_frequency_hz +
              (c : ℚ) * env.settings_load.2.frequency_inc_hz)).2 := by
  constructor
  · intro hD
    rw [prelude_ok codes env _ hs hout hdev]
    exact single_lane_simulation codes env _ _ _ _ hs hnoise hD rfl hz
  · intro sched hlanes hrun
    rw [prelude_ok codes env sched hs hout hdev] at hrun ⊢
    rcases run_simulation_ok codes env env.settings_load.2
        env.settings_load.2.num_cuda_devices env.set_up_sky.2 sched (state_after_set_up env)
        hs hz hnoise hD0 rfl hlanes with hb | ⟨h1, h2, -⟩
    · exact absurd hb hrun
    · refine ⟨h1, ?_⟩
      intro c hc
      rw [h2 c hc]
      simp [state_after_set_up, hz.vis_global, channel_frequency]

/-- The run `example_run` under `example_schedule`: two lanes, two channels, three
chunks. -/
theorem channel_sum_end_to_end_witness :
    (oskar_sim_interferometer example_codes example_run (fun _ => example_schedule)).1 ≠
      .blocked ∧
    (oskar_sim_interferometer example_codes example_run (fun _ => example_schedule)).1 =
      .returned 0 ∧
    ∀ c : Nat, (c : Int) < 2 →
      (oskar_sim_interferometer example_codes example_run
        (fun _ => example_schedule)).2.vis_global c =
        ∑ i ∈ Finset.range 3, fun _ => 10 * (c : ℤ) + (i : ℤ) + 1 :=
  ⟨by decide,
   (channel_sum_end_to_end example_codes example_run
    (example_env_succeeds _ _ _ _ _) (example_env_zero _ _ _ _ _ _) rfl rfl (by decide)
    (by decide)).2 (fun _ => example_schedule)
    (fun _ _ => (by decide : ∀ t ∈ example_schedule, (t : Int) < 2)) (by decide)⟩

/-- C2. Commutativity of dispatch. For one channel `c` whose calls succeed,
started with a clear status and all-zero accumulators: whatever schedule of the
threads over the lanes `0 .. D-1` brings the chunk loop to its barrier (every
assignment of chunks to lanes, every order of their actions), the slab of the
channel after the fold is the slab that the fold leaves when one lane alone
runs the chunks `0 .. N-1` one after the other, and that run does reach its
fold. -/
theorem dispatch_commutes (env : Env α n) (settings : Settings) (D N c : Nat)
    (picks : List Nat) (s s' : State α n)
    (hbind : ∀ i id, env.cudaSetDevice_chunk c i id = 0)
    (hcorr : ∀ i, (env.interferometer c i (channel_frequency settings c)).1 = 0)
    (h0 : s.error = 0) (hacc : ∀ t, s.vis_acc t = 0)
    (hlanes : ∀ t ∈ picks, t < D)
    (hrun : channel_body env settings D N c picks s = .ok s') :
    ∃ r, channel_body env settings 1 N c (single_lane_schedule N) s = .ok r ∧
      s'.vis_global c = r.vis_global c := by
  obtain ⟨r, hr, -, hg, -, -⟩ := single_lane_channel_body env settings 1 N c s Nat.one_pos hbind
    hcorr h0 (fun t _ => hacc t)
  refine ⟨r, hr, ?_⟩
  rcases channel_body_ok env settings D N c s hbind hcorr picks hlanes h0
      (fun t _ => hacc t) with ⟨x, hx⟩ | ⟨s1, hs1, -, hg1, -, -⟩
  · rw [hx] at hrun
    cases hrun
  · rw [hs1] at hrun
    cases hrun
    rw [hg1, hg]

/-- Channel 1 of `example_run`: the interleaved schedule on two lanes against
one lane. -/
theorem dispatch_commutes_witness :
    ∃ r, channel_body example_run (example_settings 2 2) 1 3 1 (single_lane_schedule 3)
        (state_after_set_up example_run) = .ok r ∧
      (final_state (channel_body example_run (example_settings 2 2) 2 3 1 example_schedule
        (state_after_set_up example_run))).vis_global 1 = r.vis_global 1 :=
  dispatch_commutes example_run (example_settings 2 2) 2 3 1 example_schedule
    (state_after_set_up example_run) _ (fun _ _ => rfl) (fun _ => rfl) rfl (fun _ => rfl)
    (by decide) rfl

/-- C3. Fold postcondition. When the status is success at the barrier, the fold
of channel `c` (lines 192-200) leaves the slab of channel `c` equal to its
prior contents plus the element-wise sum of the `num_devices` lane accumulators
as they stood at the barrier. -/
theorem fold_postcondition (num_devices c : Nat) (s : State α n) (h : s.error = 0) :
    (fold_into_global num_devices c s).vis_global c =
      s.vis_global c + ∑ i ∈ Finset.range num_devices, s.vis_acc i := by
  have hlog : (s.log (.get_channel_amps c s.error)).error = 0 := by
    rw [State.log_error]
    exact h
  obtain ⟨-, h2, -⟩ := fold_range_ok c (s.log (.get_channel_amps c s.error)) hlog num_devices
  unfold fold_into_global
  rw [h2]
  rfl

/-- The fold of three accumulators holding 1, 2, 3 into a slab holding 10. -/
theorem fold_postcondition_witness :
    (fold_into_global 3 0 example_barrier_state).vis_global 0 =
      example_barrier_state.vis_global 0 +
        ∑ i ∈ Finset.range 3, example_barrier_state.vis_acc i :=
  fold_postcondition 3 0 example_barrier_state rfl

/-- C4. Accumulator reset. When the body of the channel loop for channel `c`
runs to its end (the status was clear at the barrier and the fold was done),
the status is still clear and every lane accumulator `vis_acc[i]`,
`i < num_devices`, is all-zero in the state that the loop over channels hands
to the chunk dispatch of channel `c + 1`. -/
theorem accumulators_reset (env : Env α n) (settings : Settings) (num_devices N c : Nat)
    (picks : List Nat) (s s' : State α n)
    (hrun : channel_body env settings num_devices N c picks s = .ok s') :
    s'.error = 0 ∧ ∀ i, i < num_devices → s'.vis_acc i = 0 ∧
      (loop_entry s').st.vis_acc i = 0 := by
  unfold channel_body at hrun
  simp only [] at hrun
  split at hrun
  · cases hrun
  · rename_i s1 hs1
    by_cases he : s1.error = 0
    · rw [if_neg (not_not.mpr he)] at hrun
      cases hrun
      obtain ⟨g1, -, -, g4, -, -⟩ := fold_into_global_ok num_devices c s1 he
      exact ⟨g1, fun i hi => ⟨g4 i hi, g4 i hi⟩⟩
    · rw [if_pos he] at hrun
      cases hrun

/-- Channel 0 of `example_run` under `example_schedule`. -/
theorem accumulators_reset_witness :
    ∃ s', channel_body example_run (example_settings 2 2) 2 3 0 example_schedule
        (state_after_set_up example_run) = .ok s' ∧
      s'.error = 0 ∧ ∀ i, i < 2 → s'.vis_acc i = 0 ∧ (loop_entry s').st.vis_acc i = 0 :=
  ⟨_, rfl, accumulators_reset example_run (example_settings 2 2) 2 3 0 example_schedule
    (state_after_set_up example_run) _ rfl⟩

/-- C7. DeviceUnavailable. If the settings load succeeds, an output is
specified, the device-count query succeeds and reports fewer devices than
`settings.sim.num_cuda_devices`, the driver returns `OSKAR_ERR_CUDA_DEVICES`
and the only calls it has made are the settings load and the device-count
query: no telescope or sky set-up, no lane buffer, no device bound, no
correlation step. -/
theorem device_unavailable (codes : Codes) (env : Env α n) (sched : Nat → List Nat)
    (hload : env.settings_load.1 = 0)
    (hout : output_file_specified env.settings_load.2 = true)
    (hcount : env.cudaGetDeviceCount.1 = 0)
    (hfew : env.cudaGetDeviceCount.2 < env.settings_load.2.num_cuda_devices) :
    (oskar_sim_interferometer codes env sched).1 = .returned codes.OSKAR_ERR_CUDA_DEVICES ∧
    (oskar_sim_interferometer codes env sched).2.trace =
      [.settings_load, .cudaGetDeviceCount] := by
  unfold oskar_sim_interferometer
  simp [after_settings_load, hload, hout, hcount, hfew, State.log]

/-- Three devices asked for, two present. -/
theorem device_unavailable_witness :
    (oskar_sim_interferometer example_codes example_few_devices (fun _ => [])).1 =
      .returned (-20) ∧
    (oskar_sim_interferometer example_codes example_few_devices (fun _ => [])).2.trace =
      [.settings_load, .cudaGetDeviceCount] :=
  device_unavailable example_codes example_few_devices (fun _ => []) rfl rfl rfl (by decide)

/-- C8. SettingsInvalid. When the settings load succeeds, the driver returns
`OSKAR_ERR_SETTINGS` without having queried the devices if and only if no
output is specified: no OSKAR visibility file name, no Measurement Set name,
and not (image output enabled together with an OSKAR image name or a FITS image
name). -/
theorem settings_invalid_iff (codes : Codes) (env : Env α n) (sched : Nat → List Nat)
    (hload : env.settings_load.1 = 0) :
    ((oskar_sim_interferometer codes env sched).1 = .returned codes.OSKAR_ERR_SETTINGS ∧
      Event.cudaGetDeviceCount ∉ (oskar_sim_interferometer codes env sched).2.trace) ↔
    (env.settings_load.2.oskar_vis_filename = none ∧
      env.settings_load.2.ms_filename = none ∧
      ¬ (env.settings_load.2.image_interferometer_output = true ∧
        (env.settings_load.2.oskar_image ≠ none ∨ env.settings_load.2.fits_image ≠ none))) := by
  have hspec : output_file_specified env.settings_load.2 = false ↔
      (env.settings_load.2.oskar_vis_filename = none ∧
        env.settings_load.2.ms_filename = none ∧
        ¬ (env.settings_load.2.image_interferometer_output = true ∧
          (env.settings_load.2.oskar_image ≠ none ∨
            env.settings_load.2.fits_image ≠ none))) := by
    unfold output_file_specified
    cases env.settings_load.2.oskar_vis_filename <;> cases env.settings_load.2.ms_filename <;>
      cases env.settings_load.2.image_interferometer_output <;>
      cases env.settings_load.2.oskar_image <;> cases env.settings_load.2.fits_image <;> simp
  rw [← hspec]
  constructor
  · rintro ⟨-, hno⟩
    by_contra hout
    rw [Bool.not_eq_false] at hout
    apply hno
    unfold oskar_sim_interferometer
    simp only [after_settings_load, hload, hout, State.log_error, ne_eq, not_true_eq_false,
      if_false]
    split_ifs
    all_goals first
      | (refine (run_simulation_trace codes env _ _ _ sched _).mem _ ?_; simp)
      | simp
  · intro hout
    unfold oskar_sim_interferometer
    simp [after_settings_load, hload, hout]

/-- Settings that name no output. -/
theorem settings_invalid_iff_witness :
    ((oskar_sim_interferometer example_codes example_no_output (fun _ => [])).1 =
        .returned (-15) ∧
      Event.cudaGetDeviceCount ∉
        (oskar_sim_interferometer example_codes example_no_output (fun _ => [])).2.trace) ↔
    (example_no_output.settings_load.2.oskar_vis_filename = none ∧
      example_no_output.settings_load.2.ms_filename = none ∧
      ¬ (example_no_output.settings_load.2.image_interferometer_output = true ∧
        (example_no_output.settings_load.2.oskar_image ≠ none ∨
          example_no_output.settings_load.2.fits_image ≠ none))) :=
  settings_invalid_iff example_codes example_no_output (fun _ => []) rfl

/-- C9. Zero-source handling. With an empty sky (`num_sky_chunks = 0`), noise
disabled, every called function succeeding, and the global structure and the
lane accumulators created all-zero, in a run that passes the checks of the
settings and of the device count: under every schedule the driver returns
`OSKAR_SUCCESS`, no call of the correlation primitive is made, and the slab of
every channel is all-zero. -/
theorem zero_source_handling (codes : Codes) (env : Env α n) (sched : Nat → List Nat)
    (hs : env.AllSucceed) (hz : env.ZeroInitialised)
    (hnoise : env.settings_load.2.noise_enable = false)
    (hout : output_file_specified env.settings_load.2 = true)
    (hD0 : 0 ≤ env.settings_load.2.num_cuda_devices)
    (hdev : env.settings_load.2.num_cuda_devices ≤ env.cudaGetDeviceCount.2)
    (hsky : env.set_up_sky.2 = 0) :
    (oskar_sim_interferometer codes env sched).1 = .returned codes.OSKAR_SUCCESS ∧
    (∀ e ∈ (oskar_sim_interferometer codes env sched).2.trace, e.is_correlation = false) ∧
    ∀ c, (oskar_sim_interferometer codes env sched).2.vis_global c = 0 := by
  rw [prelude_ok codes env sched hs hout hdev, hsky]
  unfold run_simulation
  rw [if_neg (not_lt.mpr hD0)]
  obtain ⟨s5, e5, z5, g5, a5, -⟩ := set_up_lanes_ok env env.settings_load.2 hs
    (List.range env.settings_load.2.num_cuda_devices.toNat) (state_after_set_up env) rfl
  have t5 := set_up_lanes_trace (fun e => e.is_correlation = false) (fun _ h => h) env
    env.settings_load.2 (List.range env.settings_load.2.num_cuda_devices.toNat)
    (state_after_set_up env)
  rw [e5] at t5
  have hacc : ∀ t, t < env.settings_load.2.num_cuda_devices.toNat → s5.vis_acc t = 0 := by
    intro t ht
    rw [a5 t (List.mem_range.mpr ht), hz.vis_acc]
  obtain ⟨s6, e6, z6, g6, -, t6⟩ := channel_loop_no_chunks env env.settings_load.2
    env.settings_load.2.num_cuda_devices.toNat sched
    (List.range env.settings_load.2.num_channels.toNat) s5 z5 hacc
  obtain ⟨p1, p2⟩ := post_processing_ok codes env env.settings_load.2
    env.settings_load.2.num_cuda_devices.toNat 0 s6 hs hnoise z6
  have t7 := post_processing_trace (fun e => e.is_correlation = false) (fun _ h => h) codes env
    env.settings_load.2 env.settings_load.2.num_cuda_devices.toNat 0 s6
  simp only [Int.toNat_zero, e5, e6]
  refine ⟨p1, ?_, ?_⟩
  · intro e he
    rcases (TraceExt.trans t5 (TraceExt.trans t6 t7)).new e he with h | h
    · simp only [state_after_set_up, final_state, List.mem_cons, List.mem_singleton,
        List.not_mem_nil, or_false] at h
      rcases h with h | h | h | h | h <;> subst h <;> rfl
    · exact h
  · intro c
    rw [p2, g6, g5]
    exact hz.vis_global c

/-- An empty sky on two lanes, two channels. -/
theorem zero_source_handling_witness :
    (oskar_sim_interferometer example_codes example_empty_sky (fun _ => [0, 1, 1, 0])).1 =
      .returned 0 ∧
    (∀ e ∈ (oskar_sim_interferometer example_codes example_empty_sky
      (fun _ => [0, 1, 1, 0])).2.trace, e.is_correlation = false) ∧
    ∀ c, (oskar_sim_interferometer example_codes example_empty_sky
      (fun _ => [0, 1, 1, 0])).2.vis_global c = 0 :=
  zero_source_handling example_codes example_empty_sky (fun _ => [0, 1, 1, 0])
    (example_env_succeeds _ _ _ _ _) (example_env_zero _ _ _ _ _ _) rfl rfl (by decide)
    (by decide) rfl

theorem sum_chunks {σ β : Type} [AddCancelCommMonoid β] (P : List σ → β)
    (hadd : ∀ A B, P (A ++ B) = P A + P B) (chunks : List (List σ)) :
    ∑ i ∈ Finset.range chunks.length, P (chunks.getD i []) = P chunks.flatten := by
  induction chunks with
  | nil =>
    have h := hadd [] []
    simp only [List.append_nil] at h
    simpa using (self_eq_add_right.mp h).symm
  | cons A rest ih =>
    rw [List.length_cons, Finset.sum_range_succ', List.flatten_cons, hadd, ← ih, add_comm]
    simp

theorem with_chunks_succeeds {σ : Type} (env : Env α n) (P : List σ → ℚ → Fin n → α)
    (chunks : List (List σ)) (hs : env.AllSucceed) : (env.with_chunks P chunks).AllSucceed := by
  constructor <;> first | (intros; rfl) | (unfold Env.with_chunks; simp only []; intros)
  all_goals first
    | exact hs.settings_load
    | exact hs.cudaGetDeviceCount
    | exact hs.set_up_telescope
    | exact hs.set_up_visibilities
    | exact hs.mem_init_acc _
    | exact hs.mem_init_temp _
    | exact hs.cudaSetDevice_init _ _
    | exact hs.cudaSetDevice_chunk _ _ _
    | exact hs.add_system_noise _ _
    | exact hs.evaluate_uvw_baseline
    | exact hs.visibilities_write
    | exact hs.visibilities_write_ms
    | exact hs.make_image
    | exact hs.image_write
    | exact hs.fits_image_write

theorem with_chunks_slab {σ : Type} (codes : Codes) (env : Env α n)
    (P : List σ → ℚ → Fin n → α) (chunks : List (List σ)) (sched : Nat → List Nat)
    (hs : env.AllSucceed) (hz : env.ZeroInitialised)
    (hnoise : env.settings_load.2.noise_enable = false)
    (hout : output_file_specified env.settings_load.2 = true)
    (hD0 : 0 ≤ env.settings_load.2.num_cuda_devices)
    (hdev : env.settings_load.2.num_cuda_devices ≤ env.cudaGetDeviceCount.2)
    (hlanes : ∀ c : Nat, (c : Int) < env.settings_load.2.num_channels →
      ∀ t ∈ sched c, (t : Int) < env.settings_load.2.num_cuda_devices)
    (hrun : (oskar_sim_interferometer codes (env.with_chunks P chunks) sched).1 ≠ .blocked)
    (c : Nat) (hc : (c : Int) < env.settings_load.2.num_channels) :
    (oskar_sim_interferometer codes (env.with_chunks P chunks) sched).2.vis_global c =
      ∑ i ∈ Finset.range chunks.length,
        P (chunks.getD i []) (channel_frequency env.settings_load.2 c) := by
  have hs' := with_chunks_succeeds env P chunks hs
  have hz' : (env.with_chunks P chunks).ZeroInitialised := ⟨hz.vis_global, hz.vis_acc⟩
  rw [prelude_ok codes _ sched hs' hout hdev] at hrun ⊢
  rcases run_simulation_ok codes (env.with_chunks P chunks) env.settings_load.2
      env.settings_load.2.num_cuda_devices (chunks.length : Int) sched
      (state_after_set_up (env.with_chunks P chunks)) hs' hz' hnoise hD0 rfl hlanes with
    hb | ⟨-, h2, -⟩
  · exact absurd hb hrun
  · have h3 := h2 c hc
    simp only [Int.toNat_ofNat] at h3
    rw [show (env.with_chunks P chunks).set_up_sky.2 = (chunks.length : Int) from rfl,
      show (env.with_chunks P chunks).settings_load.2 = env.settings_load.2 from rfl, h3]
    simp [state_after_set_up, hz.vis_global, Env.with_chunks]

/-- C10. Chunk-count invariance. Let the correlation primitive `P` be additive
over concatenation of source lists, `P (A ++ B) f = P A f + P B f`. For every
catalogue and every partition of it into contiguous chunks, in runs that pass
the checks, with every call succeeding, noise disabled and all-zero buffers,
and under any schedules that bring the chunk loops to their barriers: the slab
of every channel after the run over the chunks equals the slab after the run
in which the whole catalogue is a single chunk. -/
theorem chunk_count_invariance {σ β : Type} [AddCancelCommMonoid β] {m : Nat} (codes : Codes)
    (env : Env β m) (P : List σ → ℚ → Fin m → β)
    (hadd : ∀ A B f, P (A ++ B) f = P A f + P B f)
    (catalogue : List σ) (chunks : List (List σ)) (hpart : chunks.flatten = catalogue)
    (sched sched1 : Nat → List Nat)
    (hs : env.AllSucceed) (hz : env.ZeroInitialised)
    (hnoise : env.settings_load.2.noise_enable = false)
    (hout : output_file_specified env.settings_load.2 = true)
    (hD0 : 0 ≤ env.settings_load.2.num_cuda_devices)
    (hdev : env.settings_load.2.num_cuda_devices ≤ env.cudaGetDeviceCount.2)
    (hlanes : ∀ c : Nat, (c : Int) < env.settings_load.2.num_channels →
      ∀ t ∈ sched c, (t : Int) < env.settings_load.2.num_cuda_devices)
    (hlanes1 : ∀ c : Nat, (c : Int) < env.settings_load.2.num_channels →
      ∀ t ∈ sched1 c, (t : Int) < env.settings_load.2.num_cuda_devices)
    (hrun : (oskar_sim_interferometer codes (env.with_chunks P chunks) sched).1 ≠ .blocked)
    (hrun1 : (oskar_sim_interferometer codes (env.with_chunks P [catalogue]) sched1).1 ≠
      .blocked) :
    ∀ c : Nat, (c : Int) < env.settings_load.2.num_channels →
      (oskar_sim_interferometer codes (env.with_chunks P chunks) sched).2.vis_global c =
        (oskar_sim_interferometer codes (env.with_chunks P [catalogue]) sched1).2.vis_global
          c := by
  intro c hc
  rw [with_chunks_slab codes env P chunks sched hs hz hnoise hout hD0 hdev hlanes hrun c hc,
    with_chunks_slab codes env P [catalogue] sched1 hs hz hnoise hout hD0 hdev hlanes1 hrun1 c
      hc,
    sum_chunks (fun A => P A (channel_frequency env.settings_load.2 c))
      (fun A B => hadd A B _) chunks,
    sum_chunks (fun A => P A (channel_frequency env.settings_load.2 c))
      (fun A B => hadd A B _) [catalogue], hpart]
  simp

/-- The scenario of the spec: 4 sources as 2 chunks of 2 on 2 lanes against one
chunk of 4, one channel, slabs of 6 baselines by 3 time samples. -/
theorem chunk_count_invariance_witness :
    (oskar_sim_interferometer example_codes
      (example_scenario.with_chunks (example_primitive 18) [[1, 2], [3, 4]])
      (fun _ => [0, 1, 0, 1, 0, 1, 0, 1, 0, 1])).2.vis_global 0 =
    (oskar_sim_interferometer example_codes
      (example_scenario.with_chunks (example_primitive 18) [[1, 2, 3, 4]])
      (fun _ => [1, 1, 1, 1, 1])).2.vis_global 0 :=
  chunk_count_invariance example_codes example_scenario (example_primitive 18)
    (fun A B f => by funext k; simp [example_primitive, List.sum_append, add_mul])
    [1, 2, 3, 4] [[1, 2], [3, 4]] rfl
    (fun _ => [0, 1, 0, 1, 0, 1, 0, 1, 0, 1]) (fun _ => [1, 1, 1, 1, 1])
    (example_env_succeeds _ _ _ _ _) (example_env_zero _ _ _ _ _ _) rfl rfl (by decide)
    (by decide)
    (fun _ _ => (by decide : ∀ t ∈ ([0, 1, 0, 1, 0, 1, 0, 1, 0, 1] : List Nat), (t : Int) < 2))
    (fun _ _ => (by decide : ∀ t ∈ ([1, 1, 1, 1, 1] : List Nat), (t : Int) < 2))
    (by decide) (by decide) 0 (by decide)

/-- C5, the driver at a failing input. Two lanes, two chunks, one channel; the
correlation step of chunk 1 is the only call that reports a non-success status
(-9). Under the interleaving `example_race_schedule` the driver does not
return -9: it returns `OSKAR_SUCCESS`, the fold of channel 0 is executed and
leaves in the slab the output of chunk 0 plus what the failed step left in
its buffer (5 + 7), and the UVW evaluation and the visibility writer are
invoked. -/
theorem fail_fast_lost_under_race :
    (example_failing_chunk.interferometer 0 1 100000000).1 = -9 ∧
    (example_failing_chunk.interferometer 0 0 100000000).1 = 0 ∧
    (oskar_sim_interferometer example_codes example_failing_chunk
      (fun _ => example_race_schedule)).1 = .returned example_codes.OSKAR_SUCCESS ∧
    (oskar_sim_interferometer example_codes example_failing_chunk
      (fun _ => example_race_schedule)).2.vis_global 0 0 = 12 ∧
    Event.mem_add_global 0 1 0 ∈ (oskar_sim_interferometer example_codes example_failing_chunk
      (fun _ => example_race_schedule)).2.trace ∧
    Event.evaluate_uvw_baseline 0 ∈ (oskar_sim_interferometer example_codes
      example_failing_chunk (fun _ => example_race_schedule)).2.trace ∧
    Event.visibilities_write 0 ∈ (oskar_sim_interferometer example_codes
      example_failing_chunk (fun _ => example_race_schedule)).2.trace := by
  refine ⟨by decide, by decide, by decide, by decide, by decide, by decide, by decide⟩

/-- C6, the chunk loop at a failing input. Two lanes, two chunks. After the
first six actions of `example_race_schedule` the correlation step of thread 1
has set the shared status to -9; the next action, thread 0 executing
`error = cudaSetDevice(device_id)` (line 179), resets it to success; at the
barrier the status is success, and the fold of the channel is executed. -/
theorem first_error_latch_lost :
    ((example_race_schedule.take 6).foldl
      (chunk_step example_failing_chunk (example_settings 2 1) 2 2 0 100000000)
      (loop_entry (state_after_set_up example_failing_chunk))).st.error = -9 ∧
    ((example_race_schedule.take 7).foldl
      (chunk_step example_failing_chunk (example_settings 2 1) 2 2 0 100000000)
      (loop_entry (state_after_set_up example_failing_chunk))).st.error = 0 ∧
    at_barrier 2 example_race_schedule (example_race_schedule.foldl
      (chunk_step example_failing_chunk (example_settings 2 1) 2 2 0 100000000)
      (loop_entry (state_after_set_up example_failing_chunk))) = true ∧
    (final_state (parallel_chunks example_failing_chunk (example_settings 2 1) 2 2 0 100000000
      example_race_schedule (state_after_set_up example_failing_chunk))).error = 0 ∧
    Event.get_channel_amps 0 0 ∈ (final_state (channel_body example_failing_chunk
      (example_settings 2 1) 2 2 0 example_race_schedule
      (state_after_set_up example_failing_chunk))).trace := by
  refine ⟨by decide, by decide, by decide, by decide, by decide⟩

/-- C17. Accumulate step. In the chunk loop of a channel whose calls succeed:
when lane `t` runs the correlation step of chunk `i` with a clear status and
then its accumulate step, `vis_temp[t]` holds the output for chunk `i` and
`vis_acc[t]` is, element by element, its previous contents plus `vis_temp[t]`;
hence, under every schedule that reaches the barrier, a lane accumulator that
started all-zero holds the sum of the outputs for the chunks `i1 .. ik` that
the lane has processed (its correlation calls in the trace, in order). -/
theorem accumulate_step (env : Env α n) (settings : Settings) (D N c : Nat) (f : ℚ)
    (hbind : ∀ i id, env.cudaSetDevice_chunk c i id = 0)
    (hcorr : ∀ i, (env.interferometer c i f).1 = 0) :
    (∀ (L : LoopState α n) (t i : Nat), L.fault = false → t < D → L.st.error = 0 →
      L.task t = some (i, Pc.corr) →
      (chunk_step env settings D N c f L t).st.vis_temp t = (env.interferometer c i f).2 ∧
      (chunk_step env settings D N c f (chunk_step env settings D N c f L t) t).st.vis_acc t =
        fun k => L.st.vis_acc t k +
          (chunk_step env settings D N c f L t).st.vis_temp t k) ∧
    (∀ (s s1 : State α n) (picks : List Nat) (t : Nat), s.error = 0 → s.vis_acc t = 0 →
      (∀ u ∈ picks, u < D) → parallel_chunks env settings D N c f picks s = .ok s1 →
      ∃ l, s1.trace = s.trace ++ l ∧
        s1.vis_acc t = ((lane_chunks t l).map (fun i => (env.interferometer c i f).2)).sum) := by
  constructor
  · intro L t i hf htD h0 htask
    have hr : oskar_interferometer (env.interferometer c i f) (L.st.vis_temp t) L.st.error =
        ((env.interferometer c i f).2, 0) := by
      simp [oskar_interferometer, h0, hcorr i]
    have e1 := chunk_step_corr env settings D N c f L t i hf htask htD
    rw [hr] at e1
    constructor
    · rw [e1]
      simp
    · rw [e1]
      simp [chunk_step, hf, htD, oskar_mem_add]
  · intro s s1 picks t h0 hacc hD hrun
    have inv := loop_inv_run env settings D N c f picks s hbind hcorr picks hD
      (fun u hu => hu) (loop_entry s) (loop_inv_entry env D N c f picks s h0)
    obtain ⟨l, hl, hsum⟩ := lane_sum_run env settings D N c f picks s t hbind hcorr picks hD
      (fun u hu => hu) (loop_entry s) (loop_inv_entry env D N c f picks s h0)
      ⟨[], by simp [loop_entry], by simp [loop_entry, produced, lane_chunks]⟩
    unfold parallel_chunks at hrun
    simp only [inv.fault, Bool.false_eq_true, if_false] at hrun
    by_cases hb : at_barrier N picks
        (picks.foldl (chunk_step env settings D N c f) (loop_entry s)) = true
    · rw [if_pos hb] at hrun
      cases hrun
      obtain ⟨-, hidle⟩ := (at_barrier_iff N picks _).mp hb
      have hnone : (picks.foldl (chunk_step env settings D N c f) (loop_entry s)).task t
          = none := by
        by_contra hne
        exact hne (hidle t (inv.busy t hne))
      refine ⟨l, hl, ?_⟩
      rw [hnone, hacc] at hsum
      simpa [produced] using hsum
    · rw [if_neg hb] at hrun
      cases hrun

/-- Channel 0 of `example_run` under `example_schedule`: lane 0 has taken
chunks 0 and 2. -/
theorem accumulate_step_witness :
    ∃ l, (final_state (parallel_chunks example_run (example_settings 2 2) 2 3 0 100000000
        example_schedule (state_after_set_up example_run))).trace =
        (state_after_set_up example_run).trace ++ l ∧
      (final_state (parallel_chunks example_run (example_settings 2 2) 2 3 0 100000000
        example_schedule (state_after_set_up example_run))).vis_acc 0 =
        ((lane_chunks 0 l).map
          (fun i => (example_run.interferometer 0 i 100000000).2)).sum :=
  (accumulate_step example_run (example_settings 2 2) 2 3 0 100000000 (fun _ _ => rfl)
    (fun _ => rfl)).2 (state_after_set_up example_run) _ example_schedule 0 rfl rfl
    (by decide) rfl

/-- C18. Lane buffer isolation. An action of lane `t` in the chunk loop writes
no buffer but `vis_temp[t]` and `vis_acc[t]`: the amplitude and accumulator
buffers of every other lane `u ≠ t` and all slabs of the global structure are
the same after the action as before. -/
theorem lane_buffer_isolation (env : Env α n) (settings : Settings) (D N c : Nat) (f : ℚ)
    (L : LoopState α n) (t u : Nat) (hu : u ≠ t) :
    (chunk_step env settings D N c f L t).st.vis_temp u = L.st.vis_temp u ∧
    (chunk_step env settings D N c f L t).st.vis_acc u = L.st.vis_acc u ∧
    (chunk_step env settings D N c f L t).st.vis_global = L.st.vis_global := by
  refine ⟨?_, ?_, ?_⟩
  · unfold chunk_step
    by_cases hf : L.fault = true
    · rw [if_pos hf]
    · rw [if_neg hf]
      split <;> (try split_ifs) <;> simp [Function.update_noteq hu]
  · unfold chunk_step
    by_cases hf : L.fault = true
    · rw [if_pos hf]
    · rw [if_neg hf]
      split <;> (try split_ifs) <;> simp [Function.update_noteq hu]
  · unfold chunk_step
    by_cases hf : L.fault = true
    · rw [if_pos hf]
    · rw [if_neg hf]
      split <;> (try split_ifs) <;> rfl

/-- Lane 0 runs its correlation step in `example_run`, seen from lane 1. -/
theorem lane_buffer_isolation_witness :
    (chunk_step example_run (example_settings 2 2) 2 3 0 100000000
      ([0, 0, 0].foldl (chunk_step example_run (example_settings 2 2) 2 3 0 100000000)
        (loop_entry (state_after_set_up example_run))) 0).st.vis_temp 1 =
      ([0, 0, 0].foldl (chunk_step example_run (example_settings 2 2) 2 3 0 100000000)
        (loop_entry (state_after_set_up example_run))).st.vis_temp 1 ∧
    (chunk_step example_run (example_settings 2 2) 2 3 0 100000000
      ([0, 0, 0].foldl (chunk_step example_run (example_settings 2 2) 2 3 0 100000000)
        (loop_entry (state_after_set_up example_run))) 0).st.vis_acc 1 =
      ([0, 0, 0].foldl (chunk_step example_run (example_settings 2 2) 2 3 0 100000000)
        (loop_entry (state_after_set_up example_run))).st.vis_acc 1 ∧
    (chunk_step example_run (example_settings 2 2) 2 3 0 100000000
      ([0, 0, 0].foldl (chunk_step example_run (example_settings 2 2) 2 3 0 100000000)
        (loop_entry (state_after_set_up example_run))) 0).st.vis_global =
      ([0, 0, 0].foldl (chunk_step example_run (example_settings 2 2) 2 3 0 100000000)
        (loop_entry (state_after_set_up example_run))).st.vis_global :=
  lane_buffer_isolation example_run (example_settings 2 2) 2 3 0 100000000 _ 0 1 (by decide)

/-- C11, as the claim reads: the code reported by the first failing stage is
not always the one returned. In `example_telescope_fails` the settings load and
the device-count query succeed and the telescope set-up, the first stage to
fail, reports -7; the driver returns `OSKAR_ERR_SETUP_FAIL_TELESCOPE` (-30 in
`example_codes`) instead (lines 117-118). -/
theorem telescope_code_replaced :
    FirstFailure example_telescope_fails .set_up_telescope (-7) ∧
      (sequential_run example_codes example_telescope_fails).1 = .returned (-30) ∧
      (sequential_run example_codes example_telescope_fails).1 ≠ .returned (-7) := by
  refine ⟨⟨?_, rfl, by decide, ?_⟩, by decide, by decide⟩
  · show output_file_specified _ = true ∧ _ ≤ _
    exact ⟨by decide, by decide⟩
  · intro st hr hp
    cases st <;> first | rfl | (exfalso; revert hp; simp [Stage.precedes, Stage.position])

/-- C11 (amended): in a run with at least one device whose chunk loops are
executed by one thread, chunk after chunk, if some stage (settings load,
device-count query, telescope set-up, sky set-up, visibility set-up, lane
buffer allocation, device binding, correlation, noise, UVW, writers, imaging)
reports a non-success status, then `oskar_sim_interferometer` returns the code
reported by the first such stage, except that a failing telescope set-up is
returned as `OSKAR_ERR_SETUP_FAIL_TELESCOPE`. -/
theorem first_error_code_returned (codes : Codes) (env : Env α n) (st : Stage) (e : Int)
    (hD : 0 < env.settings_load.2.num_cuda_devices) (h : FirstFailure env st e) :
    (sequential_run codes env).1 = .returned (returned_code codes st e) := by
  cases st with
  | settings_load => simpa [returned_code] using (halt_settings_load codes env e h).1
  | cudaGetDeviceCount => simpa [returned_code] using (halt_cudaGetDeviceCount codes env e h).1
  | set_up_telescope => simpa [returned_code] using (halt_set_up_telescope codes env e h).1
  | set_up_sky => simpa [returned_code] using (halt_set_up_sky codes env e hD h).1
  | set_up_visibilities =>
    simpa [returned_code] using (halt_set_up_visibilities codes env e hD h).1
  | mem_init_acc i => simpa [returned_code] using (halt_mem_init_acc codes env e i h).1
  | mem_init_temp i => simpa [returned_code] using (halt_mem_init_temp codes env e i h).1
  | bind_lane i => simpa [returned_code] using (halt_bind_lane codes env e i h).1
  | bind_chunk c i => simpa [returned_code] using (halt_bind_chunk codes env e c i hD h).1
  | interferometer c i =>
    simpa [returned_code] using (halt_interferometer codes env e c i hD h).1
  | add_system_noise => simpa [returned_code] using (halt_add_system_noise codes env e hD h).1
  | evaluate_uvw_baseline =>
    simpa [returned_code] using (halt_evaluate_uvw_baseline codes env e hD h).1
  | visibilities_write =>
    simpa [returned_code] using (halt_visibilities_write codes env e hD h).1
  | visibilities_write_ms =>
    simpa [returned_code] using (halt_visibilities_write_ms codes env e hD h).1
  | make_image => simpa [returned_code] using (halt_make_image codes env e hD h).1
  | image_write => simpa [returned_code] using (halt_image_write codes env e hD h).1
  | fits_image_write => simpa [returned_code] using (halt_fits_image_write codes env e hD h).1

/-- In `example_failing_chunk`, run by one thread, the correlation step of
chunk 1 of channel 0 is the first stage to fail; the driver returns its -9. -/
theorem first_error_code_returned_witness :
    FirstFailure example_failing_chunk (.interferometer 0 1) (-9) ∧
      (sequential_run example_codes example_failing_chunk).1 = .returned (-9) := by
  have h : FirstFailure example_failing_chunk (.interferometer 0 1) (-9) := by
    refine ⟨?_, rfl, by decide, ?_⟩
    · show output_file_specified _ = true ∧ _ ≤ _ ∧ _ < _ ∧ _ < _
      exact ⟨by decide, by decide, by decide, by decide⟩
    · intro st hr hp
      cases st with
      | interferometer c i =>
        have hi : c = 0 ∧ i = 0 := by
          revert hp
          simp only [Stage.precedes, Stage.position]
          omega
        rw [hi.1, hi.2]
        rfl
      | _ => first | rfl | (intro v; rfl)
  exact ⟨h, first_error_code_returned example_codes example_failing_chunk _ _ (by decide) h⟩

/-- C16, as the claim reads: a failing sky set-up does not keep the later
calls from being made. In `example_sky_fails` the sky set-up reports -5 and
the driver still calls `oskar_set_up_visibilities` and, for lane 0,
`oskar_mem_init` twice, each with the status -5 already set (line 123 is not
followed by a test of `error`). -/
theorem calls_made_after_sky_failure :
    FirstFailure example_sky_fails .set_up_sky (-5) ∧
      Event.set_up_visibilities (-5) ∈ (sequential_run example_codes example_sky_fails).2.trace ∧
      Event.mem_init_acc 0 (-5) ∈ (sequential_run example_codes example_sky_fails).2.trace ∧
      Event.mem_init_temp 0 (-5) ∈ (sequential_run example_codes example_sky_fails).2.trace := by
  refine ⟨⟨?_, rfl, by decide, ?_⟩, by decide, by decide, by decide⟩
  · show output_file_specified _ = true ∧ _ ≤ _
    exact ⟨by decide, by decide⟩
  · intro st hr hp
    cases st <;> first | rfl | (exfalso; revert hp; simp [Stage.precedes, Stage.position])

/-- C16 (amended): in a run with at least one device whose chunk loops are
executed by one thread, once a stage has reported a non-success status no
later stage starts its work: every call recorded after the call of the first
failing stage received the status by pointer, found it set and returned at
once. In particular, if `oskar_set_up_sky` reports `e`, the only calls made
afterwards are `oskar_set_up_visibilities` and the two `oskar_mem_init` of lane
0, each entered with the status `e`; no device is bound. -/
theorem halt_after_failure (codes : Codes) (env : Env α n) (st : Stage) (e : Int)
    (hD : 0 < env.settings_load.2.num_cuda_devices) (h : FirstFailure env st e) :
    (∃ W K, (sequential_run codes env).2.trace = W ++ st.event env.settings_load.2 :: K ∧
        ∀ k ∈ K, k.starts_work = false) ∧
      (st = .set_up_sky →
        (sequential_run codes env).2.trace =
          [.settings_load, .cudaGetDeviceCount, .set_up_telescope, .set_up_sky,
            .set_up_visibilities e, .mem_init_acc 0 e, .mem_init_temp 0 e] ∧
        ∀ id, Event.cudaSetDevice id ∉ (sequential_run codes env).2.trace) := by
  constructor
  · cases st with
    | settings_load => exact (halt_settings_load codes env e h).2
    | cudaGetDeviceCount => exact (halt_cudaGetDeviceCount codes env e h).2
    | set_up_telescope => exact (halt_set_up_telescope codes env e h).2
    | set_up_sky =>
      refine ⟨[.settings_load, .cudaGetDeviceCount, .set_up_telescope],
        [.set_up_visibilities e, .mem_init_acc 0 e, .mem_init_temp 0 e], ?_, ?_⟩
      · rw [(halt_set_up_sky codes env e hD h).2]
        rfl
      · simp [Event.starts_work, h.2.2.1]
    | set_up_visibilities =>
      refine ⟨[.settings_load, .cudaGetDeviceCount, .set_up_telescope, .set_up_sky],
        [.mem_init_acc 0 e, .mem_init_temp 0 e], ?_, ?_⟩
      · rw [(halt_set_up_visibilities codes env e hD h).2]
        rfl
      · simp [Event.starts_work, h.2.2.1]
    | mem_init_acc i => exact (halt_mem_init_acc codes env e i h).2
    | mem_init_temp i => exact (halt_mem_init_temp codes env e i h).2
    | bind_lane i => exact (halt_bind_lane codes env e i h).2
    | bind_chunk c i => exact (halt_bind_chunk codes env e c i hD h).2
    | interferometer c i => exact (halt_interferometer codes env e c i hD h).2
    | add_system_noise => exact (halt_add_system_noise codes env e hD h).2
    | evaluate_uvw_baseline => exact (halt_evaluate_uvw_baseline codes env e hD h).2
    | visibilities_write => exact (halt_visibilities_write codes env e hD h).2
    | visibilities_write_ms => exact (halt_visibilities_write_ms codes env e hD h).2
    | make_image => exact (halt_make_image codes env e hD h).2
    | image_write => exact (halt_image_write codes env e hD h).2
    | fits_image_write => exact (halt_fits_image_write codes env e hD h).2
  · intro hst
    subst hst
    have ht := (halt_set_up_sky codes env e hD h).2
    refine ⟨ht, ?_⟩
    intro id
    rw [ht]
    simp

/-- In `example_sky_fails` the sky set-up fails first, with -5: the trace ends
with three calls that found the status set, and no device is bound. -/
theorem halt_after_failure_witness :
    FirstFailure example_sky_fails .set_up_sky (-5) ∧
      (sequential_run example_codes example_sky_fails).2.trace =
        [.settings_load, .cudaGetDeviceCount, .set_up_telescope, .set_up_sky,
          .set_up_visibilities (-5), .mem_init_acc 0 (-5), .mem_init_temp 0 (-5)] := by
  have h : FirstFailure example_sky_fails .set_up_sky (-5) := by
    refine ⟨?_, rfl, by decide, ?_⟩
    · show output_file_specified _ = true ∧ _ ≤ _
      exact ⟨by decide, by decide⟩
    · intro st hr hp
      cases st <;> first | rfl | (exfalso; revert hp; simp [Stage.precedes, Stage.position])
  exact ⟨h, ((halt_after_failure example_codes example_sky_fails _ _ (by decide) h).2 rfl).1⟩

/-- C12: the devices are not released on an error return. In
`example_failing_chunk`, run by one thread, both devices (ids 0 and 1) are
bound at line 144, the correlation step of chunk 1 fails and the driver returns
-9 from line 190 without a single `cudaDeviceReset`; in the run `example_run`,
where nothing fails, `cudaDeviceReset` is called once for each of the two
devices (lines 275-280). -/
theorem devices_not_released_on_failure :
    (sequential_run example_codes example_failing_chunk).1 = .returned (-9) ∧
      Event.cudaSetDevice 0 ∈ (sequential_run example_codes example_failing_chunk).2.trace ∧
      Event.cudaSetDevice 1 ∈ (sequential_run example_codes example_failing_chunk).2.trace ∧
      Event.cudaDeviceReset ∉ (sequential_run example_codes example_failing_chunk).2.trace ∧
      (sequential_run example_codes example_run).1 = .returned 0 ∧
      (sequential_run example_codes example_run).2.trace.count Event.cudaDeviceReset = 2 := by
  have hfail : (sequential_run example_codes example_failing_chunk).1 = .returned (-9) := by
    decide
  have hok : (sequential_run example_codes example_run).1 = .returned 0 := by decide
  exact ⟨hfail, by decide, by decide, by decide, hok, by decide⟩

/-- C19: if the initialisation of the accumulator or of the amplitude buffer
of a lane is the first stage to fail, reporting `e`, then under every schedule
`oskar_sim_interferometer` returns `e`, and every call it has made belongs to
the set-up (lines 84-129) or to the loop over lanes (lines 137-147): the
channel loop has not started, so the correlation primitive has not been
invoked, nothing has been folded and no writer or imager has been called. -/
theorem allocation_failure_fatal (codes : Codes) (env : Env α n) (sched : Nat → List Nat)
    (e : Int) (i : Nat)
    (h : FirstFailure env (.mem_init_acc i) e ∨ FirstFailure env (.mem_init_temp i) e) :
    (oskar_sim_interferometer codes env sched).1 = .returned e ∧
      (∀ ev ∈ (oskar_sim_interferometer codes env sched).2.trace, ev.phase ≤ 2) ∧
      (∀ t k f st, Event.interferometer t k f st ∉
        (oskar_sim_interferometer codes env sched).2.trace) ∧
      (∀ st, Event.visibilities_write st ∉ (oskar_sim_interferometer codes env sched).2.trace) ∧
      Event.visibilities_write_ms ∉ (oskar_sim_interferometer codes env sched).2.trace ∧
      (∀ st, Event.image_write st ∉ (oskar_sim_interferometer codes env sched).2.trace) ∧
      Event.fits_image_write ∉ (oskar_sim_interferometer codes env sched).2.trace := by
  obtain ⟨s', hl⟩ := alloc_failure_lanes env e i h
  have hpre : env.settings_load.1 = 0 ∧ output_file_specified env.settings_load.2 = true ∧
      env.cudaGetDeviceCount.1 = 0 ∧
      env.settings_load.2.num_cuda_devices ≤ env.cudaGetDeviceCount.2 ∧
      env.set_up_telescope = 0 := by
    rcases h with h | h
    · exact h.launch_ok (by simp [Stage.position])
    · exact h.launch_ok (by simp [Stage.position])
  obtain ⟨hload, hout, hcount, hdev, htel⟩ := hpre
  have hD : 0 ≤ env.settings_load.2.num_cuda_devices := by
    have hi : i < env.settings_load.2.num_cuda_devices.toNat := by
      rcases h with h | h
      · exact h.1.2.2
      · exact h.1.2.2
    omega
  have hrun : oskar_sim_interferometer codes env sched = (.returned e, s') := by
    rw [driver_from_line_130 codes env sched hload hout hcount hdev htel]
    exact run_simulation_lanes_error codes env _ _ _ sched _ hD _ hl
  have hphase : ∀ ev ∈ s'.trace, ev.phase ≤ 2 := by
    intro ev hev
    have ht := set_up_lanes_phase env env.settings_load.2
      (List.range env.settings_load.2.num_cuda_devices.toNat) (state_at_line_130 env)
    rw [hl] at ht
    rcases ht.new ev hev with h1 | h1
    · have h2 : ∀ x ∈ (state_at_line_130 env).trace, x.phase ≤ 2 := by
        simp [state_at_line_130, Event.phase]
      exact h2 ev h1
    · omega
  rw [hrun]
  refine ⟨rfl, hphase, ?_, ?_, ?_, ?_, ?_⟩
  · intro t k f st hm
    exact absurd (hphase _ hm) (by simp [Event.phase])
  · intro st hm
    exact absurd (hphase _ hm) (by simp [Event.phase])
  · intro hm
    exact absurd (hphase _ hm) (by simp [Event.phase])
  · intro st hm
    exact absurd (hphase _ hm) (by simp [Event.phase])
  · intro hm
    exact absurd (hphase _ hm) (by simp [Event.phase])

/-- In `example_alloc_fails` the amplitude buffer of lane 1 cannot be
initialised (-3): under the two-thread schedule `example_schedule` the driver
returns -3. -/
theorem allocation_failure_fatal_witness :
    FirstFailure example_alloc_fails (.mem_init_temp 1) (-3) ∧
      (oskar_sim_interferometer example_codes example_alloc_fails
        (fun _ => example_schedule)).1 = .returned (-3) := by
  have h : FirstFailure example_alloc_fails (.mem_init_temp 1) (-3) := by
    refine ⟨?_, rfl, by decide, ?_⟩
    · show output_file_specified _ = true ∧ _ ≤ _ ∧ _ < _
      exact ⟨by decide, by decide, by decide⟩
    · intro st hr hp
      cases st with
      | mem_init_temp i =>
        have hi : i = 0 := by
          revert hp
          simp only [Stage.precedes, Stage.position]
          omega
        rw [hi]
        rfl
      | _ => first | rfl | (intro v; rfl)
  exact ⟨h, (allocation_failure_fatal example_codes example_alloc_fails _ _ _ (Or.inr h)).1⟩

/-- C13: in every run that reaches line 202 with the status clear (all
channels folded without error), under every schedule:
`oskar_visibilities_add_system_noise` is called exactly once, with the seed
`settings.interferometer.noise.seed`, if the noise is enabled, and never
otherwise; the call comes after every call made up to the fold of the last
channel and before the UVW evaluation and everything that follows it; and if
it reports a non-success status `e`, the driver returns `e` and the noise call
is the last call made (no UVW evaluation, no writer, no imager). -/
theorem noise_injection (codes : Codes) (env : Env α n) (sched : Nat → List Nat)
    (h : folded_without_error codes env sched = true) :
    (∀ seed, (oskar_sim_interferometer codes env sched).2.trace.count
        (Event.add_system_noise seed) =
      if env.settings_load.2.noise_enable = true ∧ seed = env.settings_load.2.noise_seed
        then 1 else 0) ∧
    (∃ after, (oskar_sim_interferometer codes env sched).2.trace =
        (state_at_line_202 codes env sched).trace ++
          (if env.settings_load.2.noise_enable = true
            then [Event.add_system_noise env.settings_load.2.noise_seed] else []) ++ after ∧
      (∀ ev ∈ (state_at_line_202 codes env sched).trace, ev.phase ≤ 4) ∧
      (∀ ev ∈ after, ev.phase = 2 ∨ 6 ≤ ev.phase)) ∧
    (∀ e, e ≠ 0 → env.settings_load.2.noise_enable = true →
      (env.add_system_noise env.settings_load.2.noise_seed
        (state_at_line_202 codes env sched).vis_global).1 = e →
      (oskar_sim_interferometer codes env sched).1 = .returned e ∧
        (oskar_sim_interferometer codes env sched).2.trace =
          (state_at_line_202 codes env sched).trace ++
            [Event.add_system_noise env.settings_load.2.noise_seed]) := by
  obtain ⟨hrun, h0⟩ := folded_without_error_state codes env sched h
  have hd : oskar_sim_interferometer codes env sched =
      post_processing codes env env.settings_load.2
        env.settings_load.2.num_cuda_devices.toNat env.set_up_sky.2.toNat
        (state_at_line_202 codes env sched) := by
    rw [driver_after_line_202, hrun]
  have hbefore := run_to_line_202_phase codes env sched
  obtain ⟨after, hshape, hafter⟩ := post_processing_noise_shape codes env env.settings_load.2
    env.settings_load.2.num_cuda_devices.toNat env.set_up_sky.2.toNat
    (state_at_line_202 codes env sched) h0
  rw [← hd] at hshape
  refine ⟨?_, ⟨after, hshape, hbefore, hafter⟩, ?_⟩
  · intro seed
    have h1 : (state_at_line_202 codes env sched).trace.count (Event.add_system_noise seed) = 0 :=
      List.count_eq_zero_of_not_mem (fun hm => absurd (hbefore _ hm) (by simp [Event.phase]))
    have h2 : after.count (Event.add_system_noise seed) = 0 :=
      List.count_eq_zero_of_not_mem (fun hm => by
        have := hafter _ hm
        simp [Event.phase] at this)
    rw [hshape, List.count_append, List.count_append, h1, h2]
    by_cases hn : env.settings_load.2.noise_enable = true
    · by_cases hs : seed = env.settings_load.2.noise_seed
      · simp [hn, hs]
      · have hs' : ¬ env.settings_load.2.noise_seed = seed := fun hx => hs hx.symm
        simp [hn, hs, hs', List.count_cons]
    · simp [hn]
  · intro e he hn hfail
    rw [hd]
    exact post_noise_fails codes env env.settings_load.2 _ _ _ h0 hn e he hfail

/-- In `example_noisy`, run by two threads under `example_schedule`, every
channel folds without error and the noise is added once, with the seed 42. -/
theorem noise_injection_witness :
    folded_without_error example_codes example_noisy (fun _ => example_schedule) = true ∧
      (oskar_sim_interferometer example_codes example_noisy
        (fun _ => example_schedule)).2.trace.count (Event.add_system_noise 42) = 1 := by
  have h : folded_without_error example_codes example_noisy (fun _ => example_schedule) = true := by
    decide
  exact ⟨h, (noise_injection example_codes example_noisy _ h).1 42⟩

/-- C20: in the chunk loop of a channel, under every schedule, a thread whose
iteration comes to the test of line 170 while the shared status is non-success
ends the iteration there: the state and the trace are unchanged (no device is
bound, no correlation step is called, nothing is accumulated) and the thread
is idle again. Consequently, when one thread takes the chunks one after the
other and chunk `j` is the first whose device binding or correlation step
fails, the loop ends at the barrier with the status set and the correlation
step has been called for no chunk after `j`. -/
theorem cancellation (env : Env α n) (settings : Settings) (D N c : Nat) (f : ℚ)
    (hD : 0 < D) (s : State α n) (h0 : s.error = 0) (j : Nat) (hj : j < N)
    (hbind : ∀ i, i < j → env.cudaSetDevice_chunk c i (settings.cuda_device_ids 0) = 0)
    (hcorr : ∀ i, i < j → (env.interferometer c i f).1 = 0)
    (hfail : env.cudaSetDevice_chunk c j (settings.cuda_device_ids 0) ≠ 0 ∨
      (env.interferometer c j f).1 ≠ 0) :
    (∀ (L : LoopState α n) (t i : Nat), L.fault = false → L.task t = some (i, Pc.check) →
      L.st.error ≠ 0 →
        (chunk_step env settings D N c f L t).st = L.st ∧
        (chunk_step env settings D N c f L t).task t = none ∧
        (chunk_step env settings D N c f L t).next = L.next) ∧
    ∃ s1 l, parallel_chunks env settings D N c f (single_lane_schedule N) s = .ok s1 ∧
      s1.error ≠ 0 ∧ s1.trace = s.trace ++ l ∧
      ∀ t i f' st, Event.interferometer t i f' st ∈ l → i ≤ j := by
  constructor
  · intro L t i hf ht he
    rw [chunk_step_check env settings D N c f L t i hf ht, if_pos he]
    exact ⟨rfl, by simp, rfl⟩
  · have hv : ∀ v, (oskar_interferometer (env.interferometer c j f) v
        (env.cudaSetDevice_chunk c j (settings.cuda_device_ids 0))).2 =
        (oskar_interferometer (env.interferometer c j f) (fun _ => 0)
          (env.cudaSetDevice_chunk c j (settings.cuda_device_ids 0))).2 := by
      intro v
      simp only [oskar_interferometer]
      split_ifs <;> rfl
    have he : (oskar_interferometer (env.interferometer c j f) (fun _ => 0)
        (env.cudaSetDevice_chunk c j (settings.cuda_device_ids 0))).2 ≠ 0 := by
      simp only [oskar_interferometer]
      split_ifs with hb
      · exact hb
      · rcases hfail with h | h
        · exact absurd h hb
        · exact h
    obtain ⟨s1, l, e1, e2, e3, e4⟩ := single_lane_cancel env settings D N c f hD s h0 j hj hbind
      hcorr _ he hv
    exact ⟨s1, l, e1, by rw [e2]; exact he, e3, e4⟩

/-- In `example_cancel` (three chunks, one thread) the correlation step of
chunk 0 fails: the loop ends with the status set and no correlation step has
been called for chunks 1 and 2. -/
theorem cancellation_witness :
    ∃ s1 l, parallel_chunks example_cancel (example_settings 1 1) 1 3 0 100000000
        (single_lane_schedule 3) (state_at_line_130 example_cancel) = .ok s1 ∧
      s1.error ≠ 0 ∧ s1.trace = (state_at_line_130 example_cancel).trace ++ l ∧
      ∀ t i f' st, Event.interferometer t i f' st ∈ l → i ≤ 0 :=
  (cancellation example_cancel (example_settings 1 1) 1 3 0 100000000 (by decide)
    (state_at_line_130 example_cancel) (by decide) 0 (by decide)
    (fun i hi => absurd hi (Nat.not_lt_zero i)) (fun i hi => absurd hi (Nat.not_lt_zero i))
    (Or.inr (by decide))).2

/-- C14: `oskar_element_model_load` validates before it allocates. For port
index 1 or 2 the surfaces selected are those of the port; if their types
differ the function returns `OSKAR_ERR_TYPE_MISMATCH`, and if the types agree
but one of the two is not in CPU memory it returns `OSKAR_ERR_BAD_LOCATION`,
in both cases without having made any call (no `oskar_mem_init`, no `fopen`);
for any other index it returns `OSKAR_ERR_INVALID_ARGUMENT`, again without a
call. When both checks pass, the first call made is the `oskar_mem_init` of
`m_theta`. -/
theorem element_model_load_validation (codes : LoadCodes) (env : LoadEnv) (data : ElementModel)
    (i : Int) :
    (i = 1 → select_port data i = some (data.port1_phi, data.port1_theta)) ∧
    (i = 2 → select_port data i = some (data.port2_phi, data.port2_theta)) ∧
    (∀ phi theta, select_port data i = some (phi, theta) → phi.type ≠ theta.type →
      oskar_element_model_load codes env data i = (codes.OSKAR_ERR_TYPE_MISMATCH, [])) ∧
    (∀ phi theta, select_port data i = some (phi, theta) → phi.type = theta.type →
      (phi.location ≠ codes.OSKAR_LOCATION_CPU ∨ theta.location ≠ codes.OSKAR_LOCATION_CPU) →
      oskar_element_model_load codes env data i = (codes.OSKAR_ERR_BAD_LOCATION, [])) ∧
    (i ≠ 1 → i ≠ 2 →
      oskar_element_model_load codes env data i = (codes.OSKAR_ERR_INVALID_ARGUMENT, [])) ∧
    (∀ phi theta, select_port data i = some (phi, theta) → phi.type = theta.type →
      phi.location = codes.OSKAR_LOCATION_CPU → theta.location = codes.OSKAR_LOCATION_CPU →
      (oskar_element_model_load codes env data i).2.head? = some (.mem_init 0 phi.type)) := by
  refine ⟨?_, ?_, ?_, ?_, ?_, ?_⟩
  · intro h
    simp [select_port, h]
  · intro h
    simp [select_port, h]
  · intro phi theta hsel hne
    unfold oskar_element_model_load
    rw [hsel]
    simp only [ne_eq, hne, not_false_eq_true, if_true]
  · intro phi theta hsel heq hloc
    unfold oskar_element_model_load
    rw [hsel]
    simp only [ne_eq, heq, not_true_eq_false, if_false, hloc, if_true]
  · intro h1 h2
    unfold oskar_element_model_load
    simp [select_port, h1, h2]
  · intro phi theta hsel heq h1 h2
    unfold oskar_element_model_load
    rw [hsel]
    simp only [ne_eq, heq, not_true_eq_false, if_false, h1, h2, or_self]
    unfold init_temporaries
    by_cases h0 : env.mem_init 0 = 0
    · simp only [h0, ne_eq, not_true_eq_false, if_false, List.nil_append]
      have hpre : ∀ (ks : List Nat) (tr : List LoadEvent) (e : LoadEvent),
          (final_load (init_temporaries env theta.type ks (e :: tr))).head? = some e := by
        intro ks
        induction ks with
        | nil => intro tr e; rfl
        | cons k rest ih =>
          intro tr e
          unfold init_temporaries
          split_ifs
          · rfl
          · exact ih _ e
      have := hpre [1, 2, 3, 4, 5, 6] [] (.mem_init 0 theta.type)
      revert this
      cases init_temporaries env theta.type [1, 2, 3, 4, 5, 6] [.mem_init 0 theta.type] with
      | error x => exact id
      | ok tr =>
        intro htr
        have htr' : tr.head? = some (.mem_init 0 theta.type) := htr
        split_ifs
        · rw [List.head?_append_of_ne_nil _ (by intro hnil; rw [hnil] at htr'; simp at htr')]
          exact htr'
        · rw [List.head?_append_of_ne_nil _ (by intro hnil; rw [hnil] at htr'; simp at htr')]
          exact htr'
    · simp [h0]

/-- On `example_element` the loader returns the type-mismatch code for port 1,
the bad-location code for port 2 and the invalid-argument code for port 3, each
time without a call. -/
theorem element_model_load_validation_witness :
    oskar_element_model_load example_load_codes example_load_env example_element 1 = (-12, []) ∧
    oskar_element_model_load example_load_codes example_load_env example_element 2 = (-13, []) ∧
    oskar_element_model_load example_load_codes example_load_env example_element 3 = (-11, []) :=
  ⟨(element_model_load_validation example_load_codes example_load_env example_element 1).2.2.1
      ⟨4, 0⟩ ⟨8, 0⟩ rfl (by decide),
    (element_model_load_validation example_load_codes example_load_env example_element 2).2.2.2.1
      ⟨8, 0⟩ ⟨8, 1⟩ rfl rfl (Or.inr (by decide)),
    (element_model_load_validation example_load_codes example_load_env example_element
      3).2.2.2.2.1 (by decide) (by decide)⟩

/-- C15: when the workspace sizes `(kx+1)*mx + (ky+1)*my` and `mx + my` (and
the products they are built from) are values of an `int`, `bispev` sets
`*ier = 10` and returns without a call of `fpbisp`, `z` untouched, if and only
if `lwrk < (kx+1)*mx + (ky+1)*my`, or `kwrk < mx + my`, or `mx < 1`, or
`my < 1`, or `x[0..mx)` is not non-decreasing, or `y[0..my)` is not
non-decreasing; in every other case it sets `*ier = 0` and calls `fpbisp` once,
with the real workspace split at `mx*(kx+1)` and the integer workspace split
at `mx`. -/
theorem bispev_input_check {F Z : Type} [LinearOrder F] (fpbisp : FpbispCall → Z → Z)
    (kx ky : Int) (x : Nat → F) (mx : Int) (y : Nat → F) (my : Int) (z : Z) (lwrk kwrk : Int)
    (h1 : fits_int (kx + 1)) (h2 : fits_int ((kx + 1) * mx)) (h3 : fits_int (ky + 1))
    (h4 : fits_int ((ky + 1) * my)) (h5 : fits_int ((kx + 1) * mx + (ky + 1) * my))
    (h6 : fits_int (mx + my)) :
    (((bispev fpbisp kx ky x mx y my z lwrk kwrk).ier = 10 ∧
        (bispev fpbisp kx ky x mx y my z lwrk kwrk).calls = [] ∧
        (bispev fpbisp kx ky x mx y my z lwrk kwrk).z = z) ↔
      (lwrk < (kx + 1) * mx + (ky + 1) * my ∨ kwrk < mx + my ∨ mx < 1 ∨ my < 1 ∨
        ¬ NonDecreasing x mx ∨ ¬ NonDecreasing y my)) ∧
    (¬ (lwrk < (kx + 1) * mx + (ky + 1) * my ∨ kwrk < mx + my ∨ mx < 1 ∨ my < 1 ∨
        ¬ NonDecreasing x mx ∨ ¬ NonDecreasing y my) →
      (bispev fpbisp kx ky x mx y my z lwrk kwrk).ier = 0 ∧
      (bispev fpbisp kx ky x mx y my z lwrk kwrk).calls =
        [{ kx := kx, ky := ky, mx := mx, my := my, wrk_x := 0, wrk_y := mx * (kx + 1),
           iwrk_x := 0, iwrk_y := mx }] ∧
      (bispev fpbisp kx ky x mx y my z lwrk kwrk).z =
        fpbisp { kx := kx, ky := ky, mx := mx, my := my, wrk_x := 0, wrk_y := mx * (kx + 1),
                 iwrk_x := 0, iwrk_y := mx } z) := by
  have hw : wrap32 (wrap32 (wrap32 (kx + 1) * mx) + wrap32 (wrap32 (ky + 1) * my)) =
      (kx + 1) * mx + (ky + 1) * my := by
    rw [wrap32_of_fits _ h1, wrap32_of_fits _ h2, wrap32_of_fits _ h3, wrap32_of_fits _ h4,
      wrap32_of_fits _ h5]
  have hw2 : wrap32 (mx * wrap32 (kx + 1)) = mx * (kx + 1) := by
    rw [wrap32_of_fits _ h1, mul_comm, wrap32_of_fits _ h2, mul_comm]
  have hx := not_descends_iff x mx
  have hy := not_descends_iff y my
  unfold bispev
  simp only [hw, hw2, wrap32_of_fits _ h6]
  by_cases c1 : lwrk < (kx + 1) * mx + (ky + 1) * my
  · simp [c1]
  by_cases c2 : kwrk < mx + my
  · simp [c1, c2]
  by_cases c3 : mx < 1
  · simp [c1, c2, c3]
  by_cases c4 : my < 1
  · simp [c1, c2, c3, c4]
  by_cases c5 : descends x (List.range' 1 (mx.toNat - 1)) = true
  · have n5 : ¬ NonDecreasing x mx := fun hn => by
      rw [hx.mpr hn] at c5
      exact Bool.false_ne_true c5
    simp [c1, c2, c3, c4, c5, n5]
  by_cases c6 : descends y (List.range' 1 (my.toNat - 1)) = true
  · have n6 : ¬ NonDecreasing y my := fun hn => by
      rw [hy.mpr hn] at c6
      exact Bool.false_ne_true c6
    simp [c1, c2, c3, c4, c5, c6, n6]
  have p5 : NonDecreasing x mx := hx.mp (by simpa using c5)
  have p6 : NonDecreasing y my := hy.mp (by simpa using c6)
  simp [c1, c2, c3, c4, c5, c6, p5, p6]

/-- A bicubic evaluation at the points `x = 0, 1, 2` and `y = 0, 1` with
workspaces of 20 reals and 5 integers passes the check and calls `fpbisp` once,
the real workspace split at 12 and the integer workspace at 3. -/
theorem bispev_input_check_witness :
    (bispev (fun _ (z : ℤ) => z + 1) 3 3 (fun i => (i : ℤ)) 3 (fun i => (i : ℤ)) 2 0 20 5).ier = 0 ∧
    (bispev (fun _ (z : ℤ) => z + 1) 3 3 (fun i => (i : ℤ)) 3 (fun i => (i : ℤ)) 2 0 20 5).calls =
      [{ kx := 3, ky := 3, mx := 3, my := 2, wrk_x := 0, wrk_y := 3 * (3 + 1),
         iwrk_x := 0, iwrk_y := 3 }] ∧
    (bispev (fun _ (z : ℤ) => z + 1) 3 3 (fun i => (i : ℤ)) 3 (fun i => (i : ℤ)) 2 0 20 5).z =
      (fun (_ : FpbispCall) (z : ℤ) => z + 1)
        { kx := 3, ky := 3, mx := 3, my := 2, wrk_x := 0, wrk_y := 3 * (3 + 1),
          iwrk_x := 0, iwrk_y := 3 } 0 :=
  (bispev_input_check (fun _ (z : ℤ) => z + 1) 3 3 (fun i => (i : ℤ)) 3 (fun i => (i : ℤ)) 2 0 20 5
    ⟨by decide, by decide⟩ ⟨by decide, by decide⟩ ⟨by decide, by decide⟩ ⟨by decide, by decide⟩
    ⟨by decide, by decide⟩ ⟨by decide, by decide⟩).2 (by
      intro h
      rcases h with h | h | h | h | h | h
      · exact absurd h (by decide)
      · exact absurd h (by decide)
      · exact absurd h (by decide)
      · exact absurd h (by decide)
      · exact h (fun i j hij _ => Int.ofNat_le.mpr hij)
      · exact h (fun i j hij _ => Int.ofNat_le.mpr hij))

/-- C23: with `num_devices = 0` the chunk loop indexes the empty lane vectors.
In `example_no_devices` the device-count check passes (0 <= 0), the two
vectors are created with no element, and thread 0 (the only thread id below
`max(1, num_devices)`) takes chunk 0 of channel 0, passes the test of line 170
and uses `thread_id = 0`, which is not below `num_devices = 0`: the run leaves
the defined behaviour of the source. With thread ids below `num_devices` no
action of the chunk loop uses an index outside the vectors. -/
theorem lane_index_out_of_bounds :
    example_no_devices.settings_load.2.num_cuda_devices ≤
        example_no_devices.cudaGetDeviceCount.2 ∧
      (0 : Int) < max 1 example_no_devices.settings_load.2.num_cuda_devices ∧
      ¬ (0 : Int) < example_no_devices.settings_load.2.num_cuda_devices ∧
      (oskar_sim_interferometer example_codes example_no_devices
        (fun _ => single_lane_schedule 1)).1 = .fault ∧
      (∀ (env : Env ℤ 1) (settings : Settings) (D N c : Nat) (f : ℚ) (picks : List Nat)
        (s : State ℤ 1), (∀ t ∈ picks, t < D) →
          (picks.foldl (chunk_step env settings D N c f) (loop_entry s)).fault = false) := by
  refine ⟨by decide, by decide, by decide, by decide, ?_⟩
  intro env settings D N c f picks s hD
  exact chunk_steps_no_fault env settings D N c f picks hD (loop_entry s) rfl

/-- C29: `oskar_spline_data_copy` returns 0 if and only if the nine calls of
`oskar_mem_copy` (for `knots_x`, `knots_y`, `coeff`, `knots_x_re`,
`knots_y_re`, `coeff_re`, `knots_x_im`, `knots_y_im`, `coeff_im`, in that
order) all report success; in that case all nine copies have been called and
`dst` equals `src` in its six knot counts and nine arrays; and if the `j`-th
copy is the first to fail, with code `e`, the function returns `e`, the copies
called are those up to the `j`-th, and every array after the `j`-th still is
what `dst` held on entry. -/
theorem spline_data_copy_result {A : Type} (copy : Nat → Int × A)
    (dst src : oskar_SplineData A) :
    ((oskar_spline_data_copy copy dst src).1 = 0 ↔ ∀ j, j < 9 → (copy j).1 = 0) ∧
    ((∀ j, j < 9 → (copy j).1 = 0) →
      (oskar_spline_data_copy copy dst src).2.1 = src ∧
      (oskar_spline_data_copy copy dst src).2.2 = List.range 9) ∧
    (∀ j, j < 9 → (∀ i, i < j → (copy i).1 = 0) → (copy j).1 ≠ 0 →
      (oskar_spline_data_copy copy dst src).1 = (copy j).1 ∧
      (oskar_spline_data_copy copy dst src).2.2 = List.range (j + 1) ∧
      ∀ m, j < m → m < 9 → (oskar_spline_data_copy copy dst src).2.1.array m = dst.array m) := by
  have hfail : ∀ j, j < 9 → (∀ i, i < j → (copy i).1 = 0) → (copy j).1 ≠ 0 →
      (oskar_spline_data_copy copy dst src).1 = (copy j).1 ∧
      (oskar_spline_data_copy copy dst src).2.2 = List.range (j + 1) ∧
      ∀ m, j < m → m < 9 →
        (oskar_spline_data_copy copy dst src).2.1.array m = dst.array m := by
    intro j hj hprev hne
    have p0 := hprev 0
    have p1 := hprev 1
    have p2 := hprev 2
    have p3 := hprev 3
    have p4 := hprev 4
    have p5 := hprev 5
    have p6 := hprev 6
    have p7 := hprev 7
    interval_cases j <;> simp at p0 p1 p2 p3 p4 p5 p6 p7 <;>
      refine ⟨?_, ?_, ?_⟩ <;>
      first
        | (intro m h1 h2
           interval_cases m <;>
             simp [oskar_spline_data_copy, oskar_mem_copy, oskar_SplineData.array, *])
        | (simp [oskar_spline_data_copy, oskar_mem_copy, *]; done)
        | (simp [oskar_spline_data_copy, oskar_mem_copy, *]; rfl)
  have hall : (∀ j, j < 9 → (copy j).1 = 0) →
      (oskar_spline_data_copy copy dst src).1 = 0 ∧
      (oskar_spline_data_copy copy dst src).2.1 = src ∧
      (oskar_spline_data_copy copy dst src).2.2 = List.range 9 := by
    intro h
    have h0 := h 0 (by decide)
    have h1 := h 1 (by decide)
    have h2 := h 2 (by decide)
    have h3 := h 3 (by decide)
    have h4 := h 4 (by decide)
    have h5 := h 5 (by decide)
    have h6 := h 6 (by decide)
    have h7 := h 7 (by decide)
    have h8 := h 8 (by decide)
    refine ⟨?_, ?_, ?_⟩
    · simp [oskar_spline_data_copy, oskar_mem_copy, h0, h1, h2, h3, h4, h5, h6, h7, h8]
    · simp [oskar_spline_data_copy, oskar_mem_copy, h0, h1, h2, h3, h4, h5, h6, h7, h8]
    · simp [oskar_spline_data_copy, oskar_mem_copy, h0, h1, h2, h3, h4, h5, h6, h7, h8]
      rfl
  refine ⟨⟨?_, fun h => (hall h).1⟩, fun h => (hall h).2, hfail⟩
  intro hret
  by_contra hnot
  have hex : ∃ j, j < 9 ∧ (copy j).1 ≠ 0 := by
    by_contra hno
    exact hnot (fun j hj => by
      by_contra hc
      exact hno ⟨j, hj, hc⟩)
  obtain ⟨hlt, hne⟩ := Nat.find_spec hex
  have hprev : ∀ i, i < Nat.find hex → (copy i).1 = 0 := by
    intro i hi
    by_contra hc
    exact Nat.find_min hex hi ⟨by omega, hc⟩
  rw [(hfail _ hlt hprev hne).1] at hret
  exact hne hret

/-- Copying the surface with arrays `[1, 2]` over one with arrays `[]` when
the fourth copy (`knots_x_re`) fails with -3: the function returns -3 and the
array `coeff_im` of the destination is still `[]`. -/
theorem spline_data_copy_result_witness :
    (oskar_spline_data_copy (fun j => (if j = 3 then -3 else 0, [7]))
      (example_spline 0 []) (example_spline 5 [1, 2])).1 = -3 ∧
    (oskar_spline_data_copy (fun j => (if j = 3 then -3 else 0, [7]))
      (example_spline 0 []) (example_spline 5 [1, 2])).2.1.array 8 = [] :=
  ⟨((spline_data_copy_result (fun j => (if j = 3 then -3 else 0, [7]))
      (example_spline 0 []) (example_spline 5 [1, 2])).2.2 3 (by decide)
      (fun i hi => by interval_cases i <;> rfl) (by decide)).1,
    ((spline_data_copy_result (fun j => (if j = 3 then -3 else 0, [7]))
      (example_spline 0 []) (example_spline 5 [1, 2])).2.2 3 (by decide)
      (fun i hi => by interval_cases i <;> rfl) (by decide)).2.2 8 (by decide) (by decide)⟩

/-- C30: if `type` is neither `OSKAR_SINGLE` nor `OSKAR_DOUBLE`,
`oskar_station_create` sets `*status = OSKAR_ERR_BAD_DATA_TYPE` and returns a
null pointer without calling `calloc` or `oskar_mem_create`. Otherwise, when
the status is clear on entry and every allocation succeeds, it returns a model
with `precision = type`, `mem_location = location`, `num_elements` as given,
`station_type = OSKAR_STATION_TYPE_AA`, equatorial beam coordinates, the four
flags `normalise_final_beam`, `enable_array_pattern`,
`common_element_orientation`, `common_pol_beams` equal to `OSKAR_TRUE`,
`seed_time_variable_errors = 1`, and, for `num_elements > 0`, every element of
the gains and of the weights of feed 0 equal to 1 and every element mount type
equal to `'F'`; the status is still clear. -/
theorem station_create_result {R : Type} [One R] (codes : StationCodes) (env : StationEnv)
    (type location num_elements status : Int) :
    (type ≠ codes.OSKAR_SINGLE → type ≠ codes.OSKAR_DOUBLE →
      (oskar_station_create codes env type location num_elements status :
          StationResult R).model = none ∧
        (oskar_station_create codes env type location num_elements status :
          StationResult R).status = codes.OSKAR_ERR_BAD_DATA_TYPE ∧
        (oskar_station_create codes env type location num_elements status :
          StationResult R).calloc_called = false ∧
        (oskar_station_create codes env type location num_elements status :
          StationResult R).calls = []) ∧
    ((type = codes.OSKAR_SINGLE ∨ type = codes.OSKAR_DOUBLE) → status = 0 →
      env.calloc = true → (∀ k, env.mem_create k = 0) →
      ∃ m : oskar_Station R,
        (oskar_station_create codes env type location num_elements status).model = some m ∧
        (oskar_station_create codes env type location num_elements status :
          StationResult R).status = 0 ∧
        (oskar_station_create codes env type location num_elements status :
          StationResult R).fault = false ∧
        m.precision = type ∧ m.mem_location = location ∧ m.num_elements = num_elements ∧
        m.station_type = codes.OSKAR_STATION_TYPE_AA ∧
        m.beam_coord_type = codes.OSKAR_SPHERICAL_TYPE_EQUATORIAL ∧
        m.normalise_final_beam = codes.OSKAR_TRUE ∧
        m.enable_array_pattern = codes.OSKAR_TRUE ∧
        m.common_element_orientation = codes.OSKAR_TRUE ∧
        m.common_pol_beams = codes.OSKAR_TRUE ∧
        m.seed_time_variable_errors = 1 ∧
        (m.element_gain 0).num_elements = num_elements ∧
        (m.element_weight 0).num_elements = num_elements ∧
        m.element_mount_types_cpu.num_elements = num_elements ∧
        (0 < num_elements → ∀ i : Nat, (i : Int) < num_elements →
          (m.element_gain 0).data i = .value 1 ∧
          (m.element_weight 0).data i = .value 1 ∧
          m.element_mount_types_cpu.data i = .char 'F')) := by
  constructor
  · intro h1 h2
    simp [oskar_station_create, h1, h2]
  · intro ht hs hc hm
    have hvalid : ¬ (type ≠ codes.OSKAR_SINGLE ∧ type ≠ codes.OSKAR_DOUBLE) := by
      rintro ⟨a, b⟩
      rcases ht with h | h
      · exact a h
      · exact b h
    by_cases hn : 0 < num_elements
    · simp only [oskar_station_create, hvalid, if_false, hc, not_true_eq_false, hn, if_true]
      refine ⟨_, rfl, ?_⟩
      simp [create_feed, create_enu, create_euler, oskar_mem_create, oskar_mem_set_value_real,
        memset, hm, hs, hn]
    · simp only [oskar_station_create, hvalid, if_false, hc, not_true_eq_false, hn]
      refine ⟨_, rfl, ?_⟩
      simp [create_feed, create_enu, create_euler, oskar_mem_create, hm, hs, hn]

/-- A double-precision station of four elements on the CPU: the model is
returned with four elements, and the gain of element 2 of feed 0 is 1; the type
3 is refused with the status -8. -/
theorem station_create_result_witness :
    (∃ m : oskar_Station ℚ,
      (oskar_station_create example_station_codes example_station_env 8 0 4 0).model = some m ∧
      m.num_elements = 4 ∧ (m.element_gain 0).data 2 = .value 1) ∧
    (oskar_station_create example_station_codes example_station_env 3 0 4 0 :
      StationResult ℚ).status = -8 := by
  obtain ⟨m, h1, -, -, -, -, h2, -, -, -, -, -, -, -, -, -, -, h3⟩ :=
    (station_create_result (R := ℚ) example_station_codes example_station_env 8 0 4 0).2
      (Or.inr rfl) rfl rfl (fun _ => rfl)
  exact ⟨⟨m, h1, h2, (h3 (by decide) 2 (by decide)).1⟩,
    ((station_create_result (R := ℚ) example_station_codes example_station_env 3 0 4 0).1
      (by decide) (by decide)).2.1⟩

/-- C26: for a sky model of single or double precision, the status clear on
entry, a file that opens and helper calls that all succeed,
`oskar_sky_model_load` leaves the status clear and has added to `sky` as many
sources as the file has accepted lines (lines that do not begin with `#` and
from which at least three values are parsed); a line that begins with `#` or
yields fewer than three values changes nothing and makes no call; and the
accepted lines are set in the temporary model at the indices 0, 1, 2, ... in
file order and appended to `sky` in that order. -/
theorem sky_source_count {F : Type} [Zero F] [Mul F] (codes : SkyCodes) (env : SkyEnv)
    (deg2rad arcsec2rad : F) (sky : List (Source F)) (type : Int) (lines : List (SkyLine F))
    (htype : type = codes.OSKAR_SINGLE ∨ type = codes.OSKAR_DOUBLE)
    (hopen : env.fopen = true) (hinit : env.init = 0) (hres : ∀ k, env.resize k = 0)
    (hset : ∀ k, env.set_source k = 0) (happ : env.append = 0) :
    (oskar_sky_model_load codes env deg2rad arcsec2rad sky type lines 0).status = 0 ∧
    (oskar_sky_model_load codes env deg2rad arcsec2rad sky type lines 0).sky.length =
      sky.length + (lines.filter SkyLine.accepted).length ∧
    (∀ (st : SkyLoad F) (line : SkyLine F),
      line.comment = true ∨ line.values.length < 3 →
        load_line env deg2rad arcsec2rad st line = .ok st) ∧
    set_source_indices (oskar_sky_model_load codes env deg2rad arcsec2rad sky type lines 0).trace =
      List.range (lines.filter SkyLine.accepted).length ∧
    (oskar_sky_model_load codes env deg2rad arcsec2rad sky type lines 0).sky =
      sky ++ (lines.filter SkyLine.accepted).map (line_source deg2rad arcsec2rad) := by
  obtain ⟨h1, h2, h3⟩ := sky_model_load_ok codes env deg2rad arcsec2rad sky type lines htype
    hopen hinit hres hset happ
  refine ⟨h1, ?_, ?_, h3, h2⟩
  · rw [h2, List.length_append, List.length_map]
  · intro st line hline
    apply load_line_skipped
    rcases hline with h | h
    · simp [SkyLine.accepted, h]
    · simp only [SkyLine.accepted, Bool.and_eq_false_imp, Bool.not_eq_true', decide_eq_false_iff_not]
      intro _
      omega

/-- The file `example_sky_file` (a comment, a source, a short line, a source)
loaded into an empty double-precision model adds two sources. -/
theorem sky_source_count_witness :
    (oskar_sky_model_load example_sky_codes example_sky_env (1 / 60 : ℚ) (1 / 3600) [] 8
      example_sky_file 0).sky.length = 0 + 2 :=
  (sky_source_count example_sky_codes example_sky_env (1 / 60 : ℚ) (1 / 3600) [] 8
    example_sky_file (Or.inr rfl) rfl rfl (fun _ => rfl) (fun _ => rfl) rfl).2.1

/-- C27: under the same conditions, the sources added to `sky` are, in file
order, those of the accepted lines, and the source of a line with values
`p0 .. p10` has RA `p0 * deg2rad`, Dec `p1 * deg2rad`, I, Q, U, V, reference
frequency and spectral index `p2 .. p7` unchanged, FWHM major
`p8 * arcsec2rad`, FWHM minor `p9 * arcsec2rad` and position angle
`p10 * deg2rad`, a value that the line does not have being 0 whatever the lines
before it held; these are also the values that
`oskar_sky_model_set_source` is given (`line_source`). -/
theorem sky_unit_conversion {F : Type} [Zero F] [Mul F] (codes : SkyCodes) (env : SkyEnv)
    (deg2rad arcsec2rad : F) (sky : List (Source F)) (type : Int) (lines : List (SkyLine F))
    (htype : type = codes.OSKAR_SINGLE ∨ type = codes.OSKAR_DOUBLE)
    (hopen : env.fopen = true) (hinit : env.init = 0) (hres : ∀ k, env.resize k = 0)
    (hset : ∀ k, env.set_source k = 0) (happ : env.append = 0) :
    (oskar_sky_model_load codes env deg2rad arcsec2rad sky type lines 0).sky =
      sky ++ (lines.filter SkyLine.accepted).map (fun line =>
        { ra := line.values.getD 0 0 * deg2rad, dec := line.values.getD 1 0 * deg2rad,
          I := line.values.getD 2 0, Q := line.values.getD 3 0, U := line.values.getD 4 0,
          V := line.values.getD 5 0, ref_freq := line.values.getD 6 0,
          spix := line.values.getD 7 0, fwhm_maj := line.values.getD 8 0 * arcsec2rad,
          fwhm_min := line.values.getD 9 0 * arcsec2rad,
          pa := line.values.getD 10 0 * deg2rad }) ∧
    ∀ line : SkyLine F, line_source deg2rad arcsec2rad line =
      { ra := line.values.getD 0 0 * deg2rad, dec := line.values.getD 1 0 * deg2rad,
        I := line.values.getD 2 0, Q := line.values.getD 3 0, U := line.values.getD 4 0,
        V := line.values.getD 5 0, ref_freq := line.values.getD 6 0,
        spix := line.values.getD 7 0, fwhm_maj := line.values.getD 8 0 * arcsec2rad,
        fwhm_min := line.values.getD 9 0 * arcsec2rad, pa := line.values.getD 10 0 * deg2rad } := by
  have hline : ∀ line : SkyLine F, line_source deg2rad arcsec2rad line =
      { ra := line.values.getD 0 0 * deg2rad, dec := line.values.getD 1 0 * deg2rad,
        I := line.values.getD 2 0, Q := line.values.getD 3 0, U := line.values.getD 4 0,
        V := line.values.getD 5 0, ref_freq := line.values.getD 6 0,
        spix := line.values.getD 7 0, fwhm_maj := line.values.getD 8 0 * arcsec2rad,
        fwhm_min := line.values.getD 9 0 * arcsec2rad, pa := line.values.getD 10 0 * deg2rad } := by
    intro line
    rw [line_source_eq]
    rfl
  refine ⟨?_, hline⟩
  rw [(sky_model_load_ok codes env deg2rad arcsec2rad sky type lines htype hopen hinit hres hset
    happ).2.1]
  congr 1
  exact List.map_congr_left (fun line _ => hline line)

/-- Loading `example_sky_file` with `deg2rad = 1/60` and `arcsec2rad = 1/3600`:
the source with three values gets zeros for the other eight, the source with
eleven values has its angles converted. -/
theorem sky_unit_conversion_witness :
    (oskar_sky_model_load example_sky_codes example_sky_env (1 / 60 : ℚ) (1 / 3600) [] 8
      example_sky_file 0).sky =
      [] ++ [{ ra := 10 * (1 / 60), dec := 20 * (1 / 60), I := 3, Q := 0, U := 0, V := 0,
               ref_freq := 0, spix := 0, fwhm_maj := 0 * (1 / 3600),
               fwhm_min := 0 * (1 / 3600), pa := 0 * (1 / 60) },
             { ra := 30 * (1 / 60), dec := 40 * (1 / 60), I := 5, Q := 1, U := 2, V := 3,
               ref_freq := 100, spix := 7, fwhm_maj := 60 * (1 / 3600),
               fwhm_min := 30 * (1 / 3600), pa := 90 * (1 / 60) }] :=
  (sky_unit_conversion example_sky_codes example_sky_env (1 / 60 : ℚ) (1 / 3600) [] 8
    example_sky_file (Or.inr rfl) rfl rfl (fun _ => rfl) (fun _ => rfl) rfl).1

/-- C28: however the calls turn out, at each call
`oskar_sky_model_set_source(&temp_sky, n, ...)` the last resize of the
temporary model asked for room for `100 * (n / 100 + 1)` sources and left the
status clear, and that is more than `n`; and if a resize leaves the status set
to `e`, the next two calls are `oskar_sky_model_free` and `fclose`, they are
the last calls (no further source is set, nothing is appended), the function
returns with the status `e` and `sky` is as it was. -/
theorem sky_capacity_invariant {F : Type} [Zero F] [Mul F] (codes : SkyCodes) (env : SkyEnv)
    (deg2rad arcsec2rad : F) (sky : List (Source F)) (type : Int) (lines : List (SkyLine F))
    (status : Int) :
    (∀ index capacity src st, SkyEvent.set_source index capacity src st ∈
        (oskar_sky_model_load codes env deg2rad arcsec2rad sky type lines status).trace →
      capacity = 100 * (index / 100 + 1) ∧ index < capacity) ∧
    (∀ size e, e ≠ 0 → SkyEvent.resize size e ∈
        (oskar_sky_model_load codes env deg2rad arcsec2rad sky type lines status).trace →
      (oskar_sky_model_load codes env deg2rad arcsec2rad sky type lines status).status = e ∧
      (oskar_sky_model_load codes env deg2rad arcsec2rad sky type lines status).sky = sky ∧
      ∃ W, (oskar_sky_model_load codes env deg2rad arcsec2rad sky type lines status).trace =
        W ++ [.resize size e, .free e, .fclose]) := by
  have hcap : ∀ res : SkyResult F, CapacityOk res.trace →
      ∀ index capacity src st, SkyEvent.set_source index capacity src st ∈ res.trace →
        capacity = 100 * (index / 100 + 1) ∧ index < capacity := by
    intro res h index capacity src st hmem
    have := h index capacity src st hmem
    exact ⟨this, by omega⟩
  have h0 : CapacityInv (.ok
      ({ n := 0
         temp := { capacity := 0, sources := fun _ => none }
         status := env.init
         trace := [.fopen, .init status] } : SkyLoad F)) := by
    refine ⟨by show (0 : Nat) = 100 * ((0 + 99) / 100); decide, ?_, ?_⟩
    · intro index capacity src st hmem
      simp at hmem
    · intro size e hmem
      simp at hmem
  have hloop := capacity_of_result env sky _
    (load_lines_capacity env deg2rad arcsec2rad lines _ h0)
  have hnone := capacity_of_result env sky _ h0
  unfold oskar_sky_model_load
  by_cases hs : status ≠ 0
  · rw [if_pos hs]
    exact ⟨fun _ _ _ _ hm => by simp at hm, fun _ _ _ hm => by simp at hm⟩
  rw [if_neg hs]
  by_cases ht : type ≠ codes.OSKAR_SINGLE ∧ type ≠ codes.OSKAR_DOUBLE
  · rw [if_pos ht]
    exact ⟨fun _ _ _ _ hm => by simp at hm, fun _ _ _ hm => by simp at hm⟩
  rw [if_neg ht]
  by_cases ho : ¬ env.fopen = true
  · rw [if_pos ho]
    exact ⟨fun _ _ _ _ hm => by simp at hm, fun _ _ _ hm => by simp at hm⟩
  rw [if_neg ho]
  simp only []
  split_ifs
  · exact ⟨hcap _ hloop.1, hloop.2⟩
  · exact ⟨hcap _ hloop.1, hloop.2⟩
  · exact ⟨hcap _ hnone.1, hnone.2⟩

/-- With `example_sky_no_room` the first resize (for 100 sources) leaves the
status -5: the loader returns -5 with `sky` unchanged. -/
theorem sky_capacity_invariant_witness :
    (oskar_sky_model_load example_sky_codes example_sky_no_room (1 / 60 : ℚ) (1 / 3600) [] 8
      example_sky_file 0).status = -5 ∧
    (oskar_sky_model_load example_sky_codes example_sky_no_room (1 / 60 : ℚ) (1 / 3600) [] 8
      example_sky_file 0).sky = [] :=
  ⟨((sky_capacity_invariant example_sky_codes example_sky_no_room (1 / 60 : ℚ) (1 / 3600) [] 8
      example_sky_file 0).2 100 (-5) (by decide) (by decide)).1,
    ((sky_capacity_invariant example_sky_codes example_sky_no_room (1 / 60 : ℚ) (1 / 3600) [] 8
      example_sky_file 0).2 100 (-5) (by decide) (by decide)).2.1⟩

/-- C25 (refuted by the code): the downward scan of the phi boundary has no
lower bound on `i`. For the pattern file whose only data row is theta 45, phi
355 degrees, `oskar_element_model_load` reads `m_phi[0]` with `n = 1`, copies
the row, and then reads `m_phi[-1]` with `n = 2`. In general, when the stored
phi of every accepted row exceeds `2 * M_PI - overlap` and the reallocations
succeed, the downward scan copies all `n` rows and reads `m_phi[-1]`; when some
stored phi does not exceed it, the downward scan ends within `n` passes and
neither scan reads `m_phi` outside `0 .. n-1`. -/
theorem boundary_scan_reads_below_zero :
    (∀ passes, 2 ≤ passes →
      load_rows example_row_codes example_rows_env 8 false example_pattern_file passes
        = .out_of_bounds [(0, 1), (-1, 2)]) ∧
    (∀ (env : RowsEnv) (single : Bool) (overlap : ℚ) (s : Surface) (passes : Nat),
      (∀ n, ensure_space env n = 0) → 0 < s.n → s.m_phi.length = s.n →
      (∀ x ∈ s.m_phi, x > 2 * M_PI - overlap) → s.n + 1 ≤ passes →
      ∃ rs, copy_boundaries env single overlap passes s
        = .out_of_bounds (rs ++ [(-1, 2 * s.n)])) ∧
    (∀ (env : RowsEnv) (single : Bool) (overlap : ℚ) (s : Surface) (passes : Nat),
      0 < s.n → s.m_phi.length = s.n →
      (∃ x ∈ s.m_phi, ¬ x > 2 * M_PI - overlap) → s.n ≤ passes →
      (copy_boundaries env single overlap passes s).is_out_of_bounds = false) := by
  refine ⟨?_, ?_, ?_⟩
  · intro passes h
    obtain ⟨p, rfl⟩ : ∃ p, passes = p + 2 := ⟨passes - 2, by omega⟩
    simp [load_rows, read_lines, read_line, example_pattern_file, example_row_codes,
      example_rows_env, ensure_space, realloc_all, copy_boundaries, scan, read_phi, stored,
      copy_row, M_PI, DEG2RAD]
    norm_num
  · intro env single overlap s passes hre hn hlen hall hp
    have hcast : ((s.n : Int) - 1) = ((s.n - 1 : Nat) : Int) := by omega
    obtain ⟨rs, hrs⟩ := scan_down_reads_below_zero env single
      (fun phi => phi > 2 * M_PI - overlap) (-(2 * M_PI)) hre (s.n - 1) passes s []
      (by omega) (by omega) hlen
      (fun j hj => by
        have hjl : j < s.m_phi.length := by omega
        refine ⟨s.m_phi.get ⟨j, hjl⟩, by simp [List.getElem?_eq_getElem, hjl], ?_⟩
        simpa using hall _ (List.get_mem _ _ _))
    refine ⟨rs, ?_⟩
    rw [copy_boundaries, hcast, hrs]
    have : s.n + (s.n - 1) + 1 = 2 * s.n := by omega
    simp [this]
  · intro env single overlap s passes hn hlen hex hp
    have hcast : ((s.n : Int) - 1) = ((s.n - 1 : Nat) : Int) := by omega
    obtain ⟨x, hx, hnot⟩ := hex
    obtain ⟨j, hj, hjx⟩ := List.getElem_of_mem hx
    rcases scan_down_in_bounds env single (fun phi => phi > 2 * M_PI - overlap)
      (-(2 * M_PI)) (s.n - 1) passes s [] (by omega) (by omega) hlen
      ⟨j, x, by omega, by simp [List.getElem?_eq_getElem, hj, hjx], by simpa using hnot⟩
      with ⟨e, rs, h⟩ | ⟨s', rs, h, hn', hl'⟩
    · rw [copy_boundaries, hcast, h]; rfl
    · rw [copy_boundaries, hcast, h]
      exact scan_up_in_bounds env single (fun phi => phi < overlap) (2 * M_PI) passes 0 s' rs
        (by omega) hl'

/-- C24: back-substitution. For `n >= 1`, `k >= 1` and a banded matrix whose
diagonal entries `a(i, 1)` are not zero, the array `c` that `fpback` leaves
satisfies, for every `i` in `1 .. n`, that the sum over `l = 0 .. min(k - 1,
n - i)` of `a(i, l + 1) * c(i + l)` is `z(i)`, where `a(i, j)` is the element
`a[(i - 1) + (j - 1) * nest]`, `c(i)` is `c[i - 1]` and `z(i)` is `z[i - 1]`;
the elements of `c` outside `0 .. n - 1` are as before. The arithmetic is that
of a field, `nest` is any integer, and `a` and `z` are only read. -/
theorem fpback_back_substitution {F : Type} [Field F] (a z c : Int → F) (n k : Nat)
    (nest : Int) (hn : 1 ≤ n) (hk : 1 ≤ k)
    (hdiag : ∀ i : Nat, 1 ≤ i → i ≤ n → band a nest i 1 ≠ 0) :
    (∀ i : Nat, 1 ≤ i → i ≤ n →
      ∑ l in Finset.range (min (k - 1) (n - i) + 1),
        band a nest i ((l : Int) + 1) * fpback a z n k c nest ((i : Int) + (l : Int) - 1)
        = z ((i : Int) - 1)) ∧
    (∀ x : Int, x < 0 ∨ (n : Int) ≤ x → fpback a z n k c nest x = c x) := by
  have hd : ∀ r : Int, 1 ≤ r → r ≤ (n : Int) →
      (fun x => a (x - (1 + nest))) (r + nest) ≠ 0 := by
    intro r hr1 hrn
    have h := hdiag r.toNat (by omega) (by omega)
    have e : ((r.toNat : Nat) : Int) = r := Int.toNat_of_nonneg (by omega)
    simp only [band, e] at h
    have e2 : r + nest - (1 + nest) = r - 1 + (1 - 1) * nest := by ring
    simpa [e2] using h
  obtain ⟨h1, h2⟩ := fpback_adjusted (fun x => a (x - (1 + nest))) (fun x => z (x - 1))
    (n : Int) (k : Int) (fun x => c (x - 1)) nest (by omega) (by omega) hd
  refine ⟨fun i hi1 hin => ?_, fun x hx => ?_⟩
  · have hrow := h1 (i : Int) (by omega) (by omega)
    unfold RowSolved at hrow
    have hT : (min ((k : Int) - 1) ((n : Int) - (i : Int))).toNat = min (k - 1) (n - i) := by
      rcases le_total (k - 1) (n - i) with h | h
      · rw [min_eq_left h, min_eq_left (by omega)]; omega
      · rw [min_eq_right h, min_eq_right (by omega)]; omega
    rw [hT] at hrow
    refine Eq.trans (Finset.sum_congr rfl ?_) hrow
    intro l _
    have e1 : (i : Int) - 1 + ((l : Int) + 1 - 1) * nest
        = (i : Int) + ((l : Int) + 1) * nest - (1 + nest) := by ring
    have e2 : (i : Int) + (l : Int) - 1 + 1 = (i : Int) + (l : Int) := by ring
    simp only [band, fpback, e1, e2]
  · have h := h2 (x + 1) (by omega)
    simp only [fpback, h]
    simp

/-- Witness for C24: the system `2 c1 + c2 = 5`, `4 c2 = 8` (n = 2, k = 2,
nest = 2) is solved by what `fpback` writes. -/
theorem fpback_back_substitution_witness :
    (1 ≤ 2 ∧ 1 ≤ 2 ∧ ∀ i : Nat, 1 ≤ i → i ≤ 2 → band example_band 2 i 1 ≠ 0) ∧
    ((∀ i : Nat, 1 ≤ i → i ≤ 2 →
      ∑ l in Finset.range (min (2 - 1) (2 - i) + 1),
        band example_band 2 i ((l : Int) + 1) *
          fpback example_band example_rhs (2 : Nat) (2 : Nat) (fun _ => 0) 2
            ((i : Int) + (l : Int) - 1)
        = example_rhs ((i : Int) - 1)) ∧
    (∀ x : Int, x < 0 ∨ ((2 : Nat) : Int) ≤ x →
      fpback example_band example_rhs (2 : Nat) (2 : Nat) (fun _ => 0) 2 x
        = (fun _ => (0 : ℚ)) x)) :=
  have hd : ∀ i : Nat, 1 ≤ i → i ≤ 2 → band example_band 2 i 1 ≠ 0 := by
    intro i h1 h2
    interval_cases i <;> simp [band, example_band]
  ⟨⟨by decide, by decide, hd⟩,
    fpback_back_substitution example_band example_rhs (fun _ => 0) 2 2 2 (by decide)
      (by decide) hd⟩

/-- C21: device context re-assertion. In the chunk loop of a channel, under
every schedule and from every state, the calls made by thread `t` in its own
order are such that every call of `oskar_interferometer` carries the thread id
`t` and the chunk of the iteration the thread is in, and the call made by `t`
just before it, in the same iteration, is `cudaSetDevice` on
`settings.sim.cuda_device_ids[t]`; and every correlation call that the loop
appends to the trace with thread id `t` is one of the calls of thread `t`. -/
theorem device_bound_before_correlation (env : Env α n) (settings : Settings)
    (D N c : Nat) (f : ℚ) (picks : List Nat) (s : State α n) :
    (∀ (t k i t' i' : Nat) (f' : ℚ) (st : Int),
      (calls_of_thread env settings D N c f t picks (loop_entry s))[k]?
        = some (i, .interferometer t' i' f' st) →
      t' = t ∧ i' = i ∧ 0 < k ∧
      (calls_of_thread env settings D N c f t picks (loop_entry s))[k - 1]?
        = some (i, .cudaSetDevice (settings.cuda_device_ids t))) ∧
    (∀ (t i : Nat) (f' : ℚ) (st : Int),
      Event.interferometer t i f' st ∈
        (final_state (parallel_chunks env settings D N c f picks s)).trace.drop s.trace.length →
      (i, Event.interferometer t i f' st) ∈
        calls_of_thread env settings D N c f t picks (loop_entry s)) := by
  constructor
  · intro t k i t' i' f' st h
    obtain ⟨h1, h2, -, h3, h4⟩ :=
      (calls_of_thread_inv env settings D N c f t s picks).1 k i t' i' f' st h
    exact ⟨h1, h2, h3, h4⟩
  · intro t i f' st h
    rw [parallel_chunks_final] at h
    exact correlation_in_calls env settings D N c f s picks t i f' st h

/-- Witness for C21: in the example schedule, the second call of thread 1 is
the correlation of chunk 1, and its first call binds device 1. -/
theorem device_bound_before_correlation_witness :
    (calls_of_thread example_run (example_settings 2 2) 2 3 0 100000000 1 example_schedule
        (loop_entry example_barrier_state))[1]?
      = some (1, .interferometer 1 1 100000000 0) ∧
    (1 = 1 ∧ 1 = 1 ∧ 0 < 1 ∧
      (calls_of_thread example_run (example_settings 2 2) 2 3 0 100000000 1 example_schedule
          (loop_entry example_barrier_state))[1 - 1]?
        = some (1, .cudaSetDevice ((example_settings 2 2).cuda_device_ids 1))) :=
  ⟨by decide,
    (device_bound_before_correlation example_run (example_settings 2 2) 2 3 0 100000000
      example_schedule example_barrier_state).1 1 1 1 1 1 100000000 0 (by decide)⟩

/-- C22: one fold per channel, in order. When the loop over the channels
`0 .. C-1` runs to its end, the calls it makes are, channel by channel, the
calls of the chunk loop of the channel (device, correlation and accumulation
calls only) followed by the calls of the fold of that channel, so the fold of
channel `c` comes after the chunk loop of `c` and before that of `c + 1`; when
no call fails, the chunk loop of each channel has called the correlation step
once for each of the `N` chunks; `oskar_visibilities_get_channel_amps` is
called once for every channel below `C` and for no other; and the processing of
channel `c` leaves the slab of every other channel as it was. -/
theorem one_fold_per_channel (env : Env α n) (settings : Settings) (D N : Nat)
    (sched : Nat → List Nat) (C : Nat) (s : State α n)
    (hrun : runs_to_end (channel_loop env settings D N sched (List.range C) s) = true) :
    (∃ segs : Nat → List Event,
      (final_state (channel_loop env settings D N sched (List.range C) s)).trace
        = s.trace ++ channel_calls D segs C ∧
      (∀ c, c < C → ∀ e ∈ segs c, e.phase = 2 ∨ e.phase = 3) ∧
      ((∀ c i id, env.cudaSetDevice_chunk c i id = 0) →
        (∀ c i f, (env.interferometer c i f).1 = 0) →
        (∀ c, ∀ t ∈ sched c, t < D) → s.error = 0 →
        ∀ c, c < C → ∀ i, (segs c).countP (Event.correlates i) = if i < N then 1 else 0)) ∧
    (∀ c, ((final_state (channel_loop env settings D N sched (List.range C) s)).trace.drop
        s.trace.length).count (Event.get_channel_amps c 0) = if c < C then 1 else 0) ∧
    (∀ (c : Nat) (picks : List Nat) (s0 s1 : State α n),
      channel_body env settings D N c picks s0 = .ok s1 →
      ∀ c', c' ≠ c → s1.vis_global c' = s0.vis_global c') := by
  rcases h : channel_loop env settings D N sched (List.range C) s with x | r
  · rw [h] at hrun
    cases hrun
  · obtain ⟨-, segs, htr, hph, hcnt⟩ := channel_loop_calls env settings D N sched C s r h
    have hfin : final_state (Except.ok r : Except (Exit × State α n) (State α n)) = r := rfl
    refine ⟨⟨segs, by rw [hfin]; exact htr, hph, hcnt⟩, fun c => ?_, ?_⟩
    · rw [hfin, htr, List.drop_left]
      exact channel_calls_count D segs C hph c
    · intro c picks s0 s1 hb
      exact (channel_body_calls env settings D N c picks s0 s1 hb).2.1

/-- Witness for C22: the example run of two channels on two lanes reaches the
end of the loop over channels, and the slab of each of the two channels is
obtained once. -/
theorem one_fold_per_channel_witness :
    runs_to_end (channel_loop example_run (example_settings 2 2) 2 3
      (fun _ => example_schedule) (List.range 2) example_barrier_state) = true ∧
    ∀ c, ((final_state (channel_loop example_run (example_settings 2 2) 2 3
        (fun _ => example_schedule) (List.range 2) example_barrier_state)).trace.drop
        example_barrier_state.trace.length).count (Event.get_channel_amps c 0)
      = if c < 2 then 1 else 0 :=
  ⟨by decide,
    (one_fold_per_channel example_run (example_settings 2 2) 2 3 (fun _ => example_schedule) 2
      example_barrier_state (by decide)).2.1⟩

end OSKAR
